import Mathlib

/-!
# The software GPU of `student/gpu.cpp`

A shallow embedding of the device (`class GPU`) and of its draw pipeline,
followed by theorems about it.

Conventions of the embedding.

* `float` values are rationals (`ℚ`); the literal `1.1f` is `11/10`.  The
  functions of the pipeline (`countOutVer`, `edgeFunction`, `countCoordinates`,
  `perspectiveCorrection`) are embedded in exact arithmetic: IEEE infinities
  and NaN have no counterpart there, and a division by zero follows the
  convention `x / 0 = 0` of `ℚ`.
* The rounding of binary32 is `roundF32`.  `convertColor` and the definitions
  of the namespace `F32` (the edge functions and the pixel loop of
  `rasterize`, the divisors and quotients of `countCoordinates`,
  `perspectiveCorrection` and `countOutVer`) round every `float` operation to
  the nearest binary32 number, and a division by zero is `none`.
* Unsigned machine integers are naturals.  The 32-bit products that size and
  index the framebuffer are reduced `% 2^32` as the C++ arithmetic does, the
  64-bit address of a vertex attribute `% 2^64`.  The element counters of the
  handle tables are assumed to stay below `2^32`.
* An operation that can run into undefined behaviour returns an `Option`, and
  `none` is undefined behaviour: an access outside an allocation, the use of a
  null pointer, a result that depends on an indeterminate value, a float to
  integer conversion out of range, a call through a null shader pointer.
* Memory that C++ leaves indeterminate (`malloc`, `new T[n]`, `new T`, a local
  variable declared without a value) holds `none` in a data cell and
  `Ptr.wild` in a pointer cell.
* A heap block owned through a single pointer is stored in the pointer cell
  (`Ptr.block b`).  A block that holds one handle (the elements of the free
  lists) is that handle; `memcmp` and `memcpy` of its 8 bytes are equality and
  assignment of the handle.
* `emptyID` (declared in the absent `fwd.hpp`) is an argument of every
  function that uses it; the theorems hold for every value of it.
* The result of a public method is the new device state, paired with the
  returned value when there is one; `getBufferData` returns the new content of
  its destination.
-/

set_option autoImplicit false

namespace IZG

/-! ## Constants and enumerations of `student/fwd.hpp` -/

/-- Modelled from the spec: `MAX_ATTR`, the number of attribute slots (the
header `fwd.hpp` is absent; `gpu.hpp` annotates the arrays it sizes with
`16x`). -/
def maxAttributes : Nat := 16

/-- Modelled from the spec: `MAX_UNIFORMS`, the number of uniform slots
(`fwd.hpp` is absent; `gpu.hpp` annotates the block with `16x`). -/
def maxUniforms : Nat := 16

/-- The constant `GPU::BSRESIZE` of `gpu.hpp`. -/
def BSRESIZE : Nat := 150

/-- Modelled from the spec: the attribute types `{EMPTY, FLOAT, VEC2, VEC3,
VEC4}` of `fwd.hpp`, whose numeric value is the number of floats. -/
inductive AttributeType where
  | EMPTY
  | FLOAT
  | VEC2
  | VEC3
  | VEC4
deriving DecidableEq, Repr

/-- The numeric value of an attribute type (`(uint64_t) type`). -/
def AttributeType.toNat : AttributeType → Nat
  | .EMPTY => 0
  | .FLOAT => 1
  | .VEC2 => 2
  | .VEC3 => 3
  | .VEC4 => 4

/-- Modelled from the spec: the index types `{U8, U16, U32}` of `fwd.hpp`. -/
inductive IndexType where
  | UINT8
  | UINT16
  | UINT32
deriving DecidableEq, Repr

/-! ## Memory -/

/-- A data cell: `none` is an indeterminate value. -/
abbrev Cell (α : Type) := Option α

/-- A byte (`uint8_t`). -/
abbrev Byte := Nat

/-- A pointer cell: indeterminate, null, or the owner of a heap block. -/
inductive Ptr (α : Type) where
  | wild : Ptr α
  | null : Ptr α
  | block (a : α) : Ptr α
deriving DecidableEq, Repr

/-- The effect of `memcpy(mem + off, src, src.length)`: undefined outside `mem`. -/
def writeCells {α : Type} (mem : List α) (off : Nat) (src : List α) : Option (List α) :=
  if off + src.length ≤ mem.length then
    some (mem.take off ++ src ++ mem.drop (off + src.length))
  else none

/-- The `n` cells read by `memcpy(_, mem + off, n)`: undefined outside `mem`. -/
def readCells {α : Type} (mem : List α) (off n : Nat) : Option (List α) :=
  if off + n ≤ mem.length then some ((mem.drop off).take n) else none

/-! ## `buffersStructure`: the growable pointer table -/

/-- The struct `GPU::buffersStructure`.  `bufferArray` is the allocation
itself, so its length is the number of pointer cells really allocated. -/
structure buffersStructure (α : Type) where
  bufferArray : List (Ptr α)
  bufferSize : Nat
  bufferCapacity : Nat

/-- `GPU::initBS`: `new void *[size]` is not filled. -/
def initBS {α : Type} (size : Nat) : buffersStructure α :=
  { bufferArray := List.replicate size Ptr.wild, bufferSize := 0, bufferCapacity := size }

/-- `GPU::resizeBS`.  When the table is full a larger array is allocated; the
copy loop assigns `B->bufferArray[i] = new_array[i]`, that is from the new
array into the old one, and the old array is then released: the table
continues with the unfilled new array. -/
def resizeBS {α : Type} (B : buffersStructure α) : buffersStructure α :=
  if B.bufferCapacity = B.bufferSize then
    { bufferArray := List.replicate (B.bufferCapacity + BSRESIZE) Ptr.wild,
      bufferSize := B.bufferSize,
      bufferCapacity := B.bufferCapacity + BSRESIZE }
  else B

/-- The loop of `GPU::containBufferBS` over the first `n` cells: `memcmp`
against a cell that holds no block is undefined. -/
def containLoop {α : Type} [DecidableEq α] (value : α) : Nat → List (Ptr α) → Option Bool
  | 0, _ => some false
  | _ + 1, [] => none
  | n + 1, Ptr.block v :: rest => if v = value then some true else containLoop value n rest
  | _ + 1, _ :: _ => none

/-- `GPU::containBufferBS`: is `value` stored in one of the first `bufferSize` blocks. -/
def containBufferBS {α : Type} [DecidableEq α] (B : buffersStructure α) (value : α) :
    Option Bool :=
  if B.bufferSize = 0 then some false else containLoop value B.bufferSize B.bufferArray

/-- `GPU::pushBS`.  `fresh` is the block returned by `malloc(size)`;
`pushed_id` is the value copied into it, when there is one. -/
def pushBS {α : Type} [DecidableEq α] (B : buffersStructure α) (fresh : α)
    (pushed_id : Option α) : Option (buffersStructure α) :=
  let B1 := resizeBS B
  let bfr := match pushed_id with
    | some v => v
    | none => fresh
  if B1.bufferSize < B1.bufferArray.length then
    let B2 : buffersStructure α :=
      { B1 with bufferArray := B1.bufferArray.set B1.bufferSize (Ptr.block bfr),
                bufferSize := B1.bufferSize + 1 }
    match pushed_id with
    | none => some B2
    | some v => (containBufferBS B2 v).map (fun _ => B2)
  else none

/-- `GPU::popBS`: returns the table and the value of `*popped_id`. -/
def popBS {α : Type} (B : buffersStructure α) (popped_id : α) :
    Option (buffersStructure α × α) :=
  let B1 := resizeBS B
  if B1.bufferSize = 0 then some (B1, popped_id)
  else
    match B1.bufferArray[B1.bufferSize - 1]? with
    | some (Ptr.block v) =>
        some ({ B1 with bufferArray := B1.bufferArray.set (B1.bufferSize - 1) Ptr.null,
                        bufferSize := B1.bufferSize - 1 }, v)
    | _ => none

/-- `GPU::addBufferBS`: a fresh block is stored at `index`. -/
def addBufferBS {α : Type} (B : buffersStructure α) (index : Nat) (fresh : α) :
    Option (buffersStructure α) :=
  let B1 := resizeBS B
  if index ≥ B1.bufferSize then some B1
  else if index < B1.bufferArray.length then
    some { B1 with bufferArray := B1.bufferArray.set index (Ptr.block fresh) }
  else none

/-- `GPU::deleteBufferBS`: the block at `index` is freed and the cell nulled. -/
def deleteBufferBS {α : Type} (B : buffersStructure α) (index : Nat) :
    Option (buffersStructure α) :=
  let B1 := resizeBS B
  if index ≥ B1.bufferSize then some B1
  else
    match B1.bufferArray[index]? with
    | some Ptr.null => some B1
    | some (Ptr.block _) => some { B1 with bufferArray := B1.bufferArray.set index Ptr.null }
    | _ => none

/-- `GPU::getDataBS`: returns the new content of the destination `data`. -/
def getDataBS (B : buffersStructure (List (Cell Byte))) (index offset size : Nat)
    (data : List (Cell Byte)) : Option (List (Cell Byte)) :=
  if B.bufferSize = 0 ∨ index ≥ B.bufferSize then some data
  else
    match B.bufferArray[index]? with
    | some (Ptr.block b) => (readCells b offset size).bind (fun bytes => writeCells data 0 bytes)
    | _ => none

/-! ## Vertices and fragments (`student/fwd.hpp`) -/

/-- A `glm::vec2`. -/
abbrev Vec2 := Fin 2 → ℚ

/-- A `glm::vec3`. -/
abbrev Vec3 := Fin 3 → ℚ

/-- A `glm::vec4`. -/
abbrev Vec4 := Fin 4 → ℚ

/-- Modelled from the spec: the union `Attribute` (a float, vec2, vec3 or vec4
sharing one storage) as its four float cells; `v1` is cell 0, `v2` cells 0-1,
`v3` cells 0-2 and `v4` cells 0-3. -/
abbrev Attribute := Fin 4 → Cell ℚ

/-- Modelled from the spec: `InVertex`.  The attribute storage is kept as the
16 raw bytes that the vertex puller copies from the buffers. -/
structure InVertex where
  gl_VertexID : Cell Nat
  attributes : Fin maxAttributes → List (Cell Byte)

/-- Modelled from the spec: `OutVertex`. -/
structure OutVertex where
  gl_Position : Vec4
  attributes : Fin maxAttributes → Attribute

/-- Modelled from the spec: `InFragment`. -/
structure InFragment where
  gl_FragCoord : Vec4
  attributes : Fin maxAttributes → Attribute

/-- Modelled from the spec: `OutFragment`. -/
structure OutFragment where
  gl_FragColor : Vec4

/-- Modelled from the spec: one uniform slot, a union whose largest member is
a `mat4`, as its 16 float cells. -/
abbrev Uniform := List (Cell ℚ)

/-- Modelled from the spec: the block `Uniforms` of `maxUniforms` slots. -/
abbrev Uniforms := Fin maxUniforms → Uniform

/-- Modelled from the spec: a vertex shader `void(OutVertex &, InVertex const &,
Uniforms const &)`, as the function from the old `out` to the new one. -/
abbrev VertexShader := OutVertex → InVertex → Uniforms → OutVertex

/-- Modelled from the spec: a fragment shader `void(OutFragment &, InFragment
const &, Uniforms const &)`. -/
abbrev FragmentShader := OutFragment → InFragment → Uniforms → OutFragment

/-- The struct `GPU::Assembly`: `OutVertex ov[3]`. -/
abbrev Assembly := Fin 3 → OutVertex

/-- The value-initialised `InVertex iv{}`. -/
def InVertex.zero : InVertex :=
  { gl_VertexID := some 0, attributes := fun _ => List.replicate 16 (some 0) }

/-- The value-initialised `OutVertex ov{}`. -/
def OutVertex.zero : OutVertex :=
  { gl_Position := fun _ => 0, attributes := fun _ _ => some 0 }

/-- An `InFragment frag;` declared without a value.  The four components of
`gl_FragCoord` are all assigned before a fragment is stored, so their start
value is never read. -/
def InFragment.uninit : InFragment :=
  { gl_FragCoord := fun _ => 0, attributes := fun _ _ => none }

/-! ## Binary32 rounding -/

/-- The integer nearest to `x`; a tie goes to the even integer. -/
def roundEven (x : ℚ) : ℤ :=
  let n := ⌊x⌋
  let r := x - n
  if r < 1 / 2 then n
  else if 1 / 2 < r then n + 1
  else if n % 2 = 0 then n
  else n + 1

/-- The loop that counts the halvings of `n` down to 1; `fuel` bounds the
number of steps. -/
def halvings : Nat → Nat → Nat
  | 0, _ => 0
  | fuel + 1, n => if n < 2 then 0 else halvings fuel (n / 2) + 1

/-- The binary exponent of `x ≠ 0`: the integer `e` with `2^e ≤ |x| < 2^(e+1)`,
found from the bit lengths of the numerator and the denominator. -/
def binaryExponent (x : ℚ) : ℤ :=
  let d : ℤ := (halvings x.num.natAbs x.num.natAbs : ℤ) - (halvings x.den x.den : ℤ)
  if (2 : ℚ) ^ d ≤ |x| then d else d - 1

/-- The exponent of the unit in the last place of the binary32 numbers around
`x`: 24 significant bits, and the least exponent `-149` of the subnormal
numbers. -/
def ulpExponent (x : ℚ) : ℤ := max (binaryExponent x - 23) (-149)

/-- The rounding of one `float` operation: the binary32 number nearest to the
exact result `x`, a tie going to the even significand (the IEEE 754 default).
Results of magnitude `2^128` and more are infinite in binary32 and outside this
model. -/
def roundF32 (x : ℚ) : ℚ := roundEven (x / 2 ^ ulpExponent x) * 2 ^ ulpExponent x

/-- The rational `x` is a finite binary32 number. -/
def isF32 (x : ℚ) : Prop := roundF32 x = x ∧ |x| < 2 ^ 128

/-! ## Colour conversion -/

/-- `GPU::convertColor`: the product `value * 255` and the sum with `0.5f` are
`float` operations, each rounded to binary32. -/
def convertColor (value : ℚ) : Byte :=
  if value ≥ 1 then 255
  else if value ≤ 0 then 0
  else
    let value := roundF32 (roundF32 (value * 255) + 1 / 2)
    if value ≥ 255 then 255
    else if value ≤ 0 then 0
    else Int.toNat ⌊value⌋

/-! ## Clipping -/

/-- `GPU::countLinCombination` on floats. -/
def countLinCombination (A B t : ℚ) : ℚ := A + t * (B - A)

/-- `GPU::countLinCombination` on a `glm::vec4`. -/
def countLinCombination4 (A B : Vec4) (t : ℚ) : Vec4 :=
  fun i => countLinCombination (A i) (B i) t

/-- The float operation on cells: an indeterminate operand gives an
indeterminate result. -/
def countLinCombinationCell (A B : Cell ℚ) (t : ℚ) : Cell ℚ :=
  match A, B with
  | some a, some b => some (countLinCombination a b t)
  | _, _ => none

/-- `GPU::countLinCombination` on an `Attribute`: the local `Attribute a` is
declared without a value and only the member selected by `type` is assigned. -/
def countLinCombinationAttr (A B : Attribute) (t : ℚ) (type : AttributeType) : Attribute :=
  fun j => if j.val < type.toNat then countLinCombinationCell (A j) (B j) t else none

/-- `GPU::countOutVer` in exact arithmetic: the local `O_OV` is declared without
a value.  The binary32 parameter `t` is `F32.countOutVerParameter`. -/
def countOutVer (A_OV B_OV : OutVertex) (types : Fin maxAttributes → AttributeType) :
    OutVertex :=
  let A := A_OV.gl_Position
  let B := B_OV.gl_Position
  let t : ℚ := (-A 3 - A 2) / (B 3 - A 3 + B 2 - A 2)
  { gl_Position := countLinCombination4 A B t,
    attributes := fun i =>
      if types i = AttributeType.EMPTY then fun _ => none
      else countLinCombinationAttr (A_OV.attributes i) (B_OV.attributes i) t (types i) }

/-- The classification loop of `GPU::clipAssembly`: vertex `i` is kept when
`-gl_Position[3] <= gl_Position[2]`. -/
def isOK (v : OutVertex) : Bool := decide (-v.gl_Position 3 ≤ v.gl_Position 2)

/-- `GPU::clipAssembly`. -/
def clipAssembly (as : Assembly) (types : Fin maxAttributes → AttributeType) :
    List Assembly :=
  let pts : List OutVertex := [as 0, as 1, as 2]
  let OK_points := pts.filter isOK
  let F_points := pts.filter (fun v => !isOK v)
  match OK_points, F_points with
  | [], _ => []
  | [_, _, _], _ => [as]
  | [ok0, ok1], [f0] =>
      let new_point_0 := countOutVer ok0 f0 types
      let new_point_1 := countOutVer ok1 f0 types
      [![ok0, new_point_0, new_point_1], ![ok0, ok1, new_point_1]]
  | [ok0], [f0, f1] =>
      let new_point_0 := countOutVer ok0 f0 types
      let new_point_1 := countOutVer ok0 f1 types
      [![ok0, new_point_0, new_point_1]]
  | _, _ => []

/-! ## Projection -/

/-- `GPU::perspectiveDivision` on one vertex. -/
def perspectiveDivisionVertex (v : OutVertex) : OutVertex :=
  let w := v.gl_Position 3
  { v with gl_Position := fun j => if j.val < 3 then v.gl_Position j / w else v.gl_Position j }

/-- `GPU::perspectiveDivision`. -/
def perspectiveDivision (ass : Assembly) : Assembly :=
  fun i => perspectiveDivisionVertex (ass i)

/-- `GPU::viewPortTransformation` on one vertex. -/
def viewPortTransformationVertex (v : OutVertex) (width height : ℚ) : OutVertex :=
  { v with gl_Position := fun j =>
      if j.val = 0 then ((v.gl_Position 0 + 1) / 2) * (width - 1)
      else if j.val = 1 then ((v.gl_Position 1 + 1) / 2) * (height - 1)
      else v.gl_Position j }

/-- `GPU::viewPortTransformation`. -/
def viewPortTransformation (ass : Assembly) (width height : ℚ) : Assembly :=
  fun i => viewPortTransformationVertex (ass i) width height

/-! ## Rasterization -/

/-- The conversion of a `float` to `uint64_t`: the value is truncated, and the
conversion is undefined when the truncated value is not representable. -/
def toU64 (q : ℚ) : Option Nat :=
  if q ≤ -1 ∨ q ≥ 2 ^ 64 then none else some (Int.toNat ⌊q⌋)

/-- The conversion of a `float` to `uint32_t`. -/
def toU32 (q : ℚ) : Option Nat :=
  if q ≤ -1 ∨ q ≥ 2 ^ 32 then none else some (Int.toNat ⌊q⌋)

/-- `GPU::getConvexCover`: returns `(left_down, right_top)`.  `right_top[i]` is
assigned the maximum of the three coordinates (converted to `uint64_t`) and is
not written again; the local `right_top_float` is read without a value and its
results are not used. -/
def getConvexCover (A B C : Vec4) : Option ((Fin 2 → Nat) × (Fin 2 → Nat)) :=
  let left_down_float : Fin 4 → ℚ := fun i => max (max (min (min (A i) (B i)) (C i)) 0) 0
  let right_top_val : Fin 4 → ℚ := fun i => max (max (A i) (B i)) (C i)
  match toU64 (right_top_val 0), toU64 (right_top_val 1),
        toU64 (⌊left_down_float 0 + 1 / 2⌋ : ℤ), toU64 (⌊left_down_float 1 + 1 / 2⌋ : ℤ) with
  | some r0, some r1, some l0, some l1 => some (![l0, l1], ![r0, r1])
  | _, _, _, _ => none

/-- `GPU::getDeltas`. -/
def getDeltas (A B C : Vec4) : Fin 3 → Vec2 :=
  ![![A 0 - B 0, A 1 - B 1], ![B 0 - C 0, B 1 - C 1], ![C 0 - A 0, C 1 - A 1]]

/-- `GPU::edgeFunction` in exact arithmetic: returns the new `edges` and the new
`deltas` (both are passed by reference).  `F32.edgeFunction` rounds every
operation. -/
def edgeFunction (A B C : Vec4) (deltas : Fin 3 → Vec2) (x y : ℚ) :
    Vec3 × (Fin 3 → Vec2) :=
  let points : Fin 3 → Vec4 := ![A, B, C]
  let edges : Vec3 := fun i => (x - points i 0) * deltas i 1 - (y - points i 1) * deltas i 0
  if edges 0 ≤ 0 ∧ edges 1 ≤ 0 ∧ edges 2 ≤ 0 then
    (fun i => edges i * -1, fun i => ![deltas i 0 * -1, deltas i 1 * -1])
  else (edges, deltas)

/-- `GPU::countCoordinates` in exact arithmetic; `F32.countCoordinates` rounds
every operation. -/
def countCoordinates (A B C : Vec4) (Point : Vec2) : ℚ :=
  let res := ((B 1 - C 1) * (Point 0 - C 0) + (C 0 - B 0) * (Point 1 - C 1)) /
             ((B 1 - C 1) * (A 0 - C 0) + (C 0 - B 0) * (A 1 - C 1))
  if res < 0 then res * -1 else res

/-- `GPU::getBarycentricCoordinates`. -/
def getBarycentricCoordinates (A B C : Vec4) (Point : Vec2) : Vec3 :=
  ![countCoordinates A B C Point, countCoordinates B C A Point, countCoordinates C A B Point]

/-- `GPU::perspectiveCorrection` on floats, in exact arithmetic; the binary32
divisor is `F32.correctionDivisor`. -/
def perspectiveCorrection (Coordinates h : Vec3) (a1 a2 a3 : ℚ) : ℚ :=
  let Attributes : Vec3 := ![a1, a2, a3]
  let jmenovatel : ℚ :=
    0 + Attributes 0 * Coordinates 0 / h 0 + Attributes 1 * Coordinates 1 / h 1
      + Attributes 2 * Coordinates 2 / h 2
  let delitel : ℚ := 0 + Coordinates 0 / h 0 + Coordinates 1 / h 1 + Coordinates 2 / h 2
  jmenovatel / delitel

/-- The float operation on cells: an indeterminate operand gives an
indeterminate result. -/
def perspectiveCorrectionCell (Coordinates h : Vec3) (a1 a2 a3 : Cell ℚ) : Cell ℚ :=
  match a1, a2, a3 with
  | some x, some y, some z => some (perspectiveCorrection Coordinates h x y z)
  | _, _, _ => none

/-- One iteration of the attribute loop of `GPU::rasterize`: the member of
`frag.attributes[i]` selected by `v2s_types[i]` is assigned, component by
component as the vector overloads of `perspectiveCorrection` do. -/
def interpolateAttribute (lambdas homogenous : Vec3) (type : AttributeType)
    (old atA atB atC : Attribute) : Attribute :=
  fun j =>
    if j.val < type.toNat then perspectiveCorrectionCell lambdas homogenous (atA j) (atB j) (atC j)
    else old j

/-- The variables of `GPU::rasterize` that the pixel loop updates. -/
structure RasterState where
  deltas : Fin 3 → Vec2
  frag : InFragment
  fragments : List InFragment

/-- The body of the pixel loop of `GPU::rasterize` at column `w` of row `h`. -/
def rasterizePixel (ass : Assembly) (v2s_types : Fin maxAttributes → AttributeType)
    (h w : Nat) (st : RasterState) : RasterState :=
  let A := (ass 0).gl_Position
  let B := (ass 1).gl_Position
  let C := (ass 2).gl_Position
  let homogenous : Vec3 := ![A 3, B 3, C 3]
  let w5 : ℚ := 1 / 2 + w
  let h5 : ℚ := 1 / 2 + h
  let r := edgeFunction A B C st.deltas w5 h5
  let edges := r.1
  if edges 0 ≥ 0 ∧ edges 1 ≥ 0 ∧ edges 2 ≥ 0 then
    let lambdas := getBarycentricCoordinates A B C ![w5, h5]
    let frag : InFragment :=
      { gl_FragCoord :=
          ![w5, h5, perspectiveCorrection lambdas homogenous (A 2) (B 2) (C 2),
            perspectiveCorrection lambdas homogenous (A 3) (B 3) (C 3)],
        attributes := fun i =>
          interpolateAttribute lambdas homogenous (v2s_types i) (st.frag.attributes i)
            ((ass 0).attributes i) ((ass 1).attributes i) ((ass 2).attributes i) }
    { deltas := r.2, frag := frag, fragments := st.fragments ++ [frag] }
  else { st with deltas := r.2 }

/-- `GPU::rasterize`: rows `left_down[1] .. right_top[1]`, and in each row the
columns `left_down[0] .. right_top[0]`. -/
def rasterize (ass : Assembly) (v2s_types : Fin maxAttributes → AttributeType) :
    Option (List InFragment) :=
  let A := (ass 0).gl_Position
  let B := (ass 1).gl_Position
  let C := (ass 2).gl_Position
  match getConvexCover A B C with
  | none => none
  | some (left_down, right_top) =>
    let r := edgeFunction A B C (getDeltas A B C) (left_down 0) (left_down 1)
    let st0 : RasterState :=
      { deltas := r.2, frag := InFragment.uninit, fragments := [] }
    let rows := List.range' (left_down 1) (right_top 1 + 1 - left_down 1)
    let cols := List.range' (left_down 0) (right_top 0 + 1 - left_down 0)
    let st := rows.foldl (fun st h => cols.foldl (fun st w => rasterizePixel ass v2s_types h w st) st) st0
    some st.fragments

/-! ## The device state -/

/-- The struct `GPU::headStructure`; `new headStructure` leaves `head`,
`stride`, `offset` and `buffer` without a value. -/
structure headStructure where
  vao : Nat
  head : Cell Nat
  type : AttributeType
  stride : Cell Nat
  offset : Cell Nat
  buffer : Cell Nat
  enabled : Bool

/-- The struct `GPU::indexingStructure`; `type` has no default member value. -/
structure indexingStructure where
  buffer : Nat
  type : Cell IndexType
  enabled : Bool

/-- The struct `GPU::vertexPullerSettingStructure`. -/
structure vertexPullerSettingStructure where
  size : Nat
  heads : Fin maxAttributes → headStructure
  indexing : indexingStructure

/-- The struct `GPU::vertexPullersStructure`.  `Pullers` is the allocation
itself; `capacity` is the field of that name. -/
structure vertexPullersStructure where
  size : Nat
  capacity : Nat
  Pullers : List (Ptr vertexPullerSettingStructure)
  active : Nat

/-- The struct `GPU::programSettingStructure`; a shader pointer is `none` when
it is `nullptr`. -/
structure programSettingStructure where
  vs : Option VertexShader
  fs : Option FragmentShader
  v2f : Fin maxAttributes → AttributeType
  uni : Uniforms

/-- The struct `GPU::programsStructure`. -/
structure programsStructure where
  size : Nat
  capacity : Nat
  Programs : List (Ptr programSettingStructure)
  active : Nat

/-- The struct `GPU::frameBufferStructure`.  A plane is `none` when its
pointer is `nullptr`.  The storage of a plane is the array `new void *[size]`
of `initBS(size)`, used as raw memory: `8 * size` bytes for the colour plane,
`2 * size` floats for the depth plane. -/
structure frameBufferStructure where
  colorB : Option (List (Cell Byte))
  depthB : Option (List (Cell ℚ))
  width : Nat
  height : Nat

/-- The data members of `class GPU`. -/
structure GPU where
  Buffer : buffersStructure (List (Cell Byte))
  BDeleted : buffersStructure Nat
  VP : vertexPullersStructure
  DVP : buffersStructure Nat
  P : programsStructure
  DP : buffersStructure Nat
  FB : frameBufferStructure

/-- `GPU::initVP`. -/
def initVP (emptyID : Nat) : vertexPullersStructure :=
  { Pullers := List.replicate BSRESIZE Ptr.wild, size := 0, capacity := BSRESIZE,
    active := emptyID }

/-- `GPU::initP`. -/
def initP (emptyID : Nat) : programsStructure :=
  { size := 0, capacity := BSRESIZE, Programs := List.replicate BSRESIZE Ptr.wild,
    active := emptyID }

/-- The constructor `GPU::GPU`.  `width` and `height` of the new
`frameBufferStructure` have no value; they are read only while both planes
are allocated, which happens after they have been assigned. -/
def GPU.new (emptyID : Nat) : GPU :=
  { Buffer := initBS BSRESIZE, BDeleted := initBS BSRESIZE,
    VP := initVP emptyID, DVP := initBS BSRESIZE,
    P := initP emptyID, DP := initBS BSRESIZE,
    FB := { colorB := none, depthB := none, width := 0, height := 0 } }

/-! ## Buffers -/

/-- `GPU::isBuffer`.  The cell `bufferArray[buffer]` is read before `buffer`
is compared with `bufferSize`: the read is outside the array when `buffer` is
not below its length.  An indeterminate cell decides the result only when
`buffer < bufferSize`. -/
def isBuffer (emptyID : Nat) (g : GPU) (buffer : Nat) : Option Bool :=
  if buffer = emptyID then some false
  else if g.Buffer.bufferSize = 0 then some false
  else
    match g.Buffer.bufferArray[buffer]? with
    | none => none
    | some Ptr.null => some false
    | some Ptr.wild => if buffer ≥ g.Buffer.bufferSize then some false else none
    | some (Ptr.block _) =>
        if buffer ≥ g.Buffer.bufferSize then some false
        else (containBufferBS g.BDeleted buffer).map (fun res => !res)

/-- `GPU::createBuffer`: returns the new state and the identifier.
`malloc(size)` returns a block of `size` indeterminate bytes. -/
def createBuffer (g : GPU) (size : Nat) : Option (GPU × Nat) :=
  if g.BDeleted.bufferSize = 0 then
    (pushBS g.Buffer (List.replicate size none) none).map
      (fun B => ({ g with Buffer := B }, g.Buffer.bufferSize))
  else
    match popBS g.BDeleted 0 with
    | none => none
    | some (BD, id) =>
        (addBufferBS g.Buffer id (List.replicate size none)).map
          (fun B => ({ g with Buffer := B, BDeleted := BD }, id))

/-- `GPU::deleteBuffer`. -/
def deleteBuffer (emptyID : Nat) (g : GPU) (buffer : Nat) : Option GPU :=
  match isBuffer emptyID g buffer with
  | none => none
  | some false => some g
  | some true =>
      match deleteBufferBS g.Buffer buffer with
      | none => none
      | some B =>
          (pushBS g.BDeleted buffer (some buffer)).map
            (fun BD => { g with Buffer := B, BDeleted := BD })

/-- `GPU::setBufferData`: `memcpy(b + offset, data, size)`. -/
def setBufferData (emptyID : Nat) (g : GPU) (buffer offset size : Nat)
    (data : List (Cell Byte)) : Option GPU :=
  match isBuffer emptyID g buffer with
  | none => none
  | some false => some g
  | some true =>
      match g.Buffer.bufferArray[buffer]?, readCells data 0 size with
      | some (Ptr.block b), some bytes =>
          (writeCells b offset bytes).map (fun b1 =>
            { g with Buffer :=
                { g.Buffer with bufferArray := g.Buffer.bufferArray.set buffer (Ptr.block b1) } })
      | _, _ => none

/-- `GPU::getBufferData`: returns the new content of the destination `data`. -/
def getBufferData (emptyID : Nat) (g : GPU) (buffer offset size : Nat)
    (data : List (Cell Byte)) : Option (List (Cell Byte)) :=
  match isBuffer emptyID g buffer with
  | none => none
  | some false => some data
  | some true => getDataBS g.Buffer buffer offset size data

/-! ## Vertex pullers -/

/-- `GPU::resizeVP`.  `capacity - 2` is computed in `u_int`; the field
`capacity` is not updated. -/
def resizeVP (VPS : vertexPullersStructure) : Option vertexPullersStructure :=
  if (VPS.capacity + 2 ^ 32 - 2) % 2 ^ 32 > VPS.size then some VPS
  else
    let new_capa := BSRESIZE + VPS.capacity
    if VPS.size ≤ VPS.Pullers.length ∧ VPS.size ≤ new_capa then
      some { VPS with Pullers := VPS.Pullers.take VPS.size ++
                                   List.replicate (new_capa - VPS.size) Ptr.wild }
    else none

/-- `GPU::isVertexPuller`. -/
def isVertexPuller (emptyID : Nat) (g : GPU) (vao : Nat) : Option Bool :=
  if vao ≥ g.VP.size then some false
  else if vao = emptyID then some false
  else
    match g.VP.Pullers[vao]? with
    | some Ptr.null => some false
    | some (Ptr.block _) => (containBufferBS g.DVP vao).map (fun res => !res)
    | _ => none

/-- The puller table that `new vertexPullerSettingStructure` and the loop of
`GPU::createVertexPuller` build. -/
def newVertexPuller (emptyID : Nat) : vertexPullerSettingStructure :=
  { size := 0,
    indexing := { buffer := 0, type := none, enabled := false },
    heads := fun _ =>
      { vao := emptyID, head := none, type := AttributeType.EMPTY, stride := none,
        offset := none, buffer := none, enabled := false } }

/-- `GPU::createVertexPuller`: returns the new state and the identifier. -/
def createVertexPuller (emptyID : Nat) (g : GPU) : Option (GPU × Nat) :=
  let r : Option (vertexPullersStructure × buffersStructure Nat × Nat) :=
    if g.DVP.bufferSize = 0 then
      (resizeVP g.VP).map (fun VP1 => ({ VP1 with size := VP1.size + 1 }, g.DVP, VP1.size))
    else
      (popBS g.DVP 0).map (fun r => (g.VP, r.1, r.2))
  match r with
  | none => none
  | some (VP1, DVP1, id) =>
      if id < VP1.Pullers.length then
        some ({ g with VP := { VP1 with Pullers :=
                                 VP1.Pullers.set id (Ptr.block (newVertexPuller emptyID)) },
                       DVP := DVP1 }, id)
      else none

/-- `GPU::deleteVertexPuller`. -/
def deleteVertexPuller (emptyID : Nat) (g : GPU) (vao : Nat) : Option GPU :=
  match isVertexPuller emptyID g vao with
  | none => none
  | some false => some g
  | some true =>
      (pushBS g.DVP vao (some vao)).map (fun DVP1 =>
        { g with VP := { g.VP with Pullers := g.VP.Pullers.set vao Ptr.null }, DVP := DVP1 })

/-- The assignment through `this->VP->Pullers[vao]->...` for a live `vao`. -/
def modifyPuller (g : GPU) (vao : Nat)
    (f : vertexPullerSettingStructure → vertexPullerSettingStructure) : Option GPU :=
  match g.VP.Pullers[vao]? with
  | some (Ptr.block p) =>
      some { g with VP := { g.VP with Pullers := g.VP.Pullers.set vao (Ptr.block (f p)) } }
  | _ => none

/-- The assignment through `...->heads[head]->...`: `heads` has
`maxAttributes` cells. -/
def modifyHead (g : GPU) (vao head : Nat) (f : headStructure → headStructure) : Option GPU :=
  if hlt : head < maxAttributes then
    modifyPuller g vao (fun p =>
      { p with heads := Function.update p.heads ⟨head, hlt⟩ (f (p.heads ⟨head, hlt⟩)) })
  else none

/-- `GPU::setVertexPullerHead`. -/
def setVertexPullerHead (emptyID : Nat) (g : GPU) (vao head : Nat) (type : AttributeType)
    (stride offset buffer : Nat) : Option GPU :=
  match isVertexPuller emptyID g vao with
  | none => none
  | some false => some g
  | some true =>
      if head > maxAttributes then some g
      else
        modifyHead g vao head (fun hd =>
          { hd with head := some head, type := type, stride := some stride,
                    offset := some offset, buffer := some buffer, vao := vao })

/-- `GPU::setVertexPullerIndexing`. -/
def setVertexPullerIndexing (emptyID : Nat) (g : GPU) (vao : Nat) (type : IndexType)
    (buffer : Nat) : Option GPU :=
  match isVertexPuller emptyID g vao with
  | none => none
  | some false => some g
  | some true =>
      modifyPuller g vao (fun p =>
        { p with indexing := { enabled := true, type := some type, buffer := buffer } })

/-- `GPU::enableVertexPullerHead`. -/
def enableVertexPullerHead (emptyID : Nat) (g : GPU) (vao head : Nat) : Option GPU :=
  match isVertexPuller emptyID g vao with
  | none => none
  | some false => some g
  | some true =>
      if head > maxAttributes then some g
      else modifyHead g vao head (fun hd => { hd with enabled := true })

/-- `GPU::disableVertexPullerHead`. -/
def disableVertexPullerHead (emptyID : Nat) (g : GPU) (vao head : Nat) : Option GPU :=
  match isVertexPuller emptyID g vao with
  | none => none
  | some false => some g
  | some true =>
      if head > maxAttributes then some g
      else modifyHead g vao head (fun hd => { hd with enabled := false })

/-- `GPU::bindVertexPuller`. -/
def bindVertexPuller (emptyID : Nat) (g : GPU) (vao : Nat) : Option GPU :=
  match isVertexPuller emptyID g vao with
  | none => none
  | some false => some g
  | some true => some { g with VP := { g.VP with active := vao } }

/-- `GPU::unbindVertexPuller`. -/
def unbindVertexPuller (emptyID : Nat) (g : GPU) : GPU :=
  { g with VP := { g.VP with active := emptyID } }

/-! ## Shader programs -/

/-- `GPU::resizeP`.  As in `resizeVP` the field `capacity` is not updated. -/
def resizeP (PS : programsStructure) : Option programsStructure :=
  if (PS.capacity + 2 ^ 32 - 2) % 2 ^ 32 > PS.size then some PS
  else
    let new_capa := BSRESIZE + PS.capacity
    if PS.size ≤ PS.Programs.length ∧ PS.size ≤ new_capa then
      some { PS with Programs := PS.Programs.take PS.size ++
                                   List.replicate (new_capa - PS.size) Ptr.wild }
    else none

/-- `GPU::isProgram`. -/
def isProgram (emptyID : Nat) (g : GPU) (prg : Nat) : Option Bool :=
  if prg ≥ g.P.size then some false
  else if prg = emptyID then some false
  else
    match g.P.Programs[prg]? with
    | some Ptr.null => some false
    | some (Ptr.block _) => (containBufferBS g.DP prg).map (fun res => !res)
    | _ => none

/-- The program record that `GPU::createProgram` builds; `new Uniforms` is not
filled. -/
def newProgram : programSettingStructure :=
  { vs := none, fs := none, v2f := fun _ => AttributeType.EMPTY,
    uni := fun _ => List.replicate 16 none }

/-- `GPU::createProgram`: returns the new state and the identifier. -/
def createProgram (g : GPU) : Option (GPU × Nat) :=
  let r : Option (programsStructure × buffersStructure Nat × Nat) :=
    if g.DP.bufferSize = 0 then
      (resizeP g.P).map (fun P1 => ({ P1 with size := P1.size + 1 }, g.DP, P1.size))
    else
      (popBS g.DP 0).map (fun r => (g.P, r.1, r.2))
  match r with
  | none => none
  | some (P1, DP1, id) =>
      if id < P1.Programs.length then
        some ({ g with P := { P1 with Programs := P1.Programs.set id (Ptr.block newProgram) },
                       DP := DP1 }, id)
      else none

/-- `GPU::deleteProgram`. -/
def deleteProgram (emptyID : Nat) (g : GPU) (prg : Nat) : Option GPU :=
  match isProgram emptyID g prg with
  | none => none
  | some false => some g
  | some true =>
      (pushBS g.DP prg (some prg)).map (fun DP1 =>
        { g with P := { g.P with Programs := g.P.Programs.set prg Ptr.null }, DP := DP1 })

/-- The assignment through `this->P->Programs[prg]->...` for a live `prg`. -/
def modifyProgram (g : GPU) (prg : Nat)
    (f : programSettingStructure → Option programSettingStructure) : Option GPU :=
  match g.P.Programs[prg]? with
  | some (Ptr.block p) =>
      (f p).map (fun p1 =>
        { g with P := { g.P with Programs := g.P.Programs.set prg (Ptr.block p1) } })
  | _ => none

/-- `GPU::attachShaders`. -/
def attachShaders (emptyID : Nat) (g : GPU) (prg : Nat) (vs : Option VertexShader)
    (fs : Option FragmentShader) : Option GPU :=
  match isProgram emptyID g prg with
  | none => none
  | some false => some g
  | some true => modifyProgram g prg (fun p => some { p with vs := vs, fs := fs })

/-- `GPU::setVS2FSType`. -/
def setVS2FSType (emptyID : Nat) (g : GPU) (prg attrib : Nat) (type : AttributeType) :
    Option GPU :=
  match isProgram emptyID g prg with
  | none => none
  | some false => some g
  | some true =>
      if hge : attrib ≥ maxAttributes then some g
      else
        modifyProgram g prg (fun p =>
          some { p with v2f := Function.update p.v2f ⟨attrib, Nat.lt_of_not_ge hge⟩ type })

/-- `GPU::useProgram`. -/
def useProgram (emptyID : Nat) (g : GPU) (prg : Nat) : Option GPU :=
  match isProgram emptyID g prg with
  | none => none
  | some false => some g
  | some true => some { g with P := { g.P with active := prg } }

/-- The common body of `GPU::programUniform1f` .. `GPU::programUniformMatrix4f`:
`memcpy(&uni->uniform[uniformId], &d, sizeof d)` with `d` given as its floats. -/
def programUniform (emptyID : Nat) (g : GPU) (prg uniformId : Nat) (d : List ℚ) :
    Option GPU :=
  match isProgram emptyID g prg with
  | none => none
  | some false => some g
  | some true =>
      if hge : uniformId ≥ maxUniforms then some g
      else
        modifyProgram g prg (fun p =>
          (writeCells (p.uni ⟨uniformId, Nat.lt_of_not_ge hge⟩) 0 (d.map some)).map (fun u =>
            { p with uni := Function.update p.uni ⟨uniformId, Nat.lt_of_not_ge hge⟩ u }))

/-- `GPU::programUniform1f`. -/
def programUniform1f (emptyID : Nat) (g : GPU) (prg uniformId : Nat) (d : ℚ) : Option GPU :=
  programUniform emptyID g prg uniformId [d]

/-- `GPU::programUniform2f`. -/
def programUniform2f (emptyID : Nat) (g : GPU) (prg uniformId : Nat) (d : Vec2) : Option GPU :=
  programUniform emptyID g prg uniformId (List.ofFn d)

/-- `GPU::programUniform3f`. -/
def programUniform3f (emptyID : Nat) (g : GPU) (prg uniformId : Nat) (d : Vec3) : Option GPU :=
  programUniform emptyID g prg uniformId (List.ofFn d)

/-- `GPU::programUniform4f`. -/
def programUniform4f (emptyID : Nat) (g : GPU) (prg uniformId : Nat) (d : Vec4) : Option GPU :=
  programUniform emptyID g prg uniformId (List.ofFn d)

/-- `GPU::programUniformMatrix4f`: a `glm::mat4` is four columns of four floats. -/
def programUniformMatrix4f (emptyID : Nat) (g : GPU) (prg uniformId : Nat)
    (d : Fin 4 → Vec4) : Option GPU :=
  programUniform emptyID g prg uniformId (List.ofFn (fun c => List.ofFn (d c))).flatten

/-! ## Framebuffer -/

/-- The two planes that `GPU::createFramebuffer` and `GPU::resizeFramebuffer`
allocate: `initBS(size)` with `size = 4 * width * height + 3` computed in 32
bits. -/
def newFramebuffer (width height : Nat) : frameBufferStructure :=
  let size := (4 * width * height + 3) % 2 ^ 32
  { width := width, height := height,
    depthB := some (List.replicate (2 * size) none),
    colorB := some (List.replicate (8 * size) none) }

/-- `GPU::deleteFramebuffer`. -/
def deleteFramebuffer (g : GPU) : GPU :=
  { g with FB := { g.FB with colorB := none, depthB := none } }

/-- `GPU::createFramebuffer`: an existing framebuffer is deleted first. -/
def createFramebuffer (g : GPU) (width height : Nat) : GPU :=
  let g1 := if g.FB.depthB.isSome ∨ g.FB.colorB.isSome then deleteFramebuffer g else g
  if g1.FB.depthB.isSome ∨ g1.FB.colorB.isSome then g1
  else { g1 with FB := newFramebuffer width height }

/-- `GPU::resizeFramebuffer`. -/
def resizeFramebuffer (g : GPU) (width height : Nat) : GPU :=
  { g with FB := newFramebuffer width height }

/-- `GPU::getFramebufferColor`: `none` is `nullptr`. -/
def getFramebufferColor (g : GPU) : Option (List (Cell Byte)) := g.FB.colorB

/-- `GPU::getFramebufferDepth`: `none` is `nullptr`. -/
def getFramebufferDepth (g : GPU) : Option (List (Cell ℚ)) := g.FB.depthB

/-- `GPU::getFramebufferWidth`. -/
def getFramebufferWidth (g : GPU) : Nat :=
  if g.FB.colorB.isNone ∨ g.FB.depthB.isNone then 0 else g.FB.width

/-- `GPU::getFramebufferHeight`. -/
def getFramebufferHeight (g : GPU) : Nat :=
  if g.FB.colorB.isNone ∨ g.FB.depthB.isNone then 0 else g.FB.height

/-- The loop of `GPU::clear` for `index = 0 .. n - 1`: four colour bytes at
byte `4 * index` and one depth float at byte `4 * index`, that is at float
`index`. -/
def clearLoop (color_byte : List (Cell Byte)) (dep : ℚ) :
    Nat → List (Cell Byte) × List (Cell ℚ) → Option (List (Cell Byte) × List (Cell ℚ))
  | 0, planes => some planes
  | n + 1, planes =>
      match clearLoop color_byte dep n planes with
      | none => none
      | some (c, d) =>
          match writeCells c (4 * n) color_byte, writeCells d n [some dep] with
          | some c1, some d1 => some (c1, d1)
          | _, _ => none

/-- `GPU::clear`; `maxId = height * width` is a 32-bit product. -/
def clear (g : GPU) (r gg b a : ℚ) : Option GPU :=
  match g.FB.colorB, g.FB.depthB with
  | some c, some d =>
      let color_byte : List (Cell Byte) :=
        [some (convertColor r), some (convertColor gg), some (convertColor b),
         some (convertColor a)]
      let maxId := (g.FB.height * g.FB.width) % 2 ^ 32
      (clearLoop color_byte (11 / 10) maxId (c, d)).map (fun planes =>
        { g with FB := { g.FB with colorB := some planes.1, depthB := some planes.2 } })
  | _, _ => some g

/-- `GPU::putPixel`.  `color_buffer` is a `uint8_t *`, so `position *
ColorPixelS` is a byte offset; `depth_buffer` is a `float *`, so `position *
DepthPixelS` counts floats.  `position` is a 32-bit sum. -/
def putPixel (g : GPU) (x y : Nat) (color : Vec4) (depth : ℚ) : Option GPU :=
  match getFramebufferColor g, getFramebufferDepth g with
  | some c, some d =>
      let position := (getFramebufferWidth g * y + x) % 2 ^ 32
      match readCells d (position * 4) 1 with
      | none => none
      | some _ =>
          let new_color : List (Cell Byte) :=
            [some (convertColor (color 0)), some (convertColor (color 1)),
             some (convertColor (color 2)), some (convertColor (color 3))]
          match writeCells c (position * 4) new_color, writeCells d (position * 4) [some depth] with
          | some c1, some d1 =>
              some { g with FB := { g.FB with colorB := some c1, depthB := some d1 } }
          | _, _ => none
  | _, _ => none

/-! ## Vertex fetch -/

/-- The unsigned integer stored little-endian in the given bytes; indeterminate
when one of the bytes is. -/
def decodeLE : List (Cell Byte) → Cell Nat
  | [] => some 0
  | none :: _ => none
  | some b :: rest => (decodeLE rest).map (fun v => b + 256 * v)

/-- The index computation of `GPU::pullVP` for vertex number `inv_index`.  The
locals `index_8`, `index_16`, `index_32` have no value before `getDataBS`. -/
def pullIndex (B : buffersStructure (List (Cell Byte))) (ix : indexingStructure)
    (inv_index : Nat) : Option (Cell Nat) :=
  if ix.enabled then
    match ix.type with
    | none => none
    | some IndexType.UINT8 =>
        (getDataBS B ix.buffer (1 * inv_index) 1 (List.replicate 1 none)).map decodeLE
    | some IndexType.UINT16 =>
        (getDataBS B ix.buffer (2 * inv_index) 2 (List.replicate 2 none)).map decodeLE
    | some IndexType.UINT32 =>
        (getDataBS B ix.buffer (4 * inv_index) 4 (List.replicate 4 none)).map decodeLE
  else some (some inv_index)

/-- One iteration (attribute `i`) of the loop of `GPU::pullVP`. -/
def pullHead (B : buffersStructure (List (Cell Byte))) (puller : vertexPullerSettingStructure)
    (inv_index : Nat) (inv : InVertex) (i : Fin maxAttributes) : Option InVertex :=
  match pullIndex B puller.indexing inv_index with
  | none => none
  | some index =>
      let inv1 : InVertex := { inv with gl_VertexID := index }
      let head := puller.heads i
      if !head.enabled then some inv1
      else
        let size := head.type.toNat * 4
        if size = 0 then some inv1
        else
          match head.buffer, head.offset, head.stride, index with
          | some buffer, some offset, some stride, some idx =>
              (getDataBS B buffer ((offset + stride * idx) % 2 ^ 64) size (inv1.attributes i)).map
                (fun bytes => { inv1 with attributes := Function.update inv1.attributes i bytes })
          | _, _, _, _ => none

/-- `GPU::pullVP`. -/
def pullVP (B : buffersStructure (List (Cell Byte))) (puller : vertexPullerSettingStructure)
    (inv_index : Nat) (inv : InVertex) : Option InVertex :=
  (List.finRange maxAttributes).foldlM (fun inv i => pullHead B puller inv_index inv i) inv

/-- `GPU::getTypes`. -/
def getTypes (puller : vertexPullerSettingStructure) : Fin maxAttributes → AttributeType :=
  fun i => if (puller.heads i).enabled then (puller.heads i).type else AttributeType.EMPTY

/-! ## Drawing -/

/-- The variables of the vertex loop of `GPU::drawTriangles`. -/
structure VertexState where
  iv : InVertex
  ov : OutVertex
  a : Assembly
  assemblies : List Assembly

/-- The inner loop body of the vertex processor: vertex `i` of triangle `tr_num`. -/
def vertexStep (B : buffersStructure (List (Cell Byte))) (puller : vertexPullerSettingStructure)
    (program : programSettingStructure) (tr_num : Nat) (st : VertexState) (i : Fin 3) :
    Option VertexState :=
  match pullVP B puller (3 * tr_num + i.val) st.iv, program.vs with
  | some iv, some vs =>
      let ov := vs st.ov iv program.uni
      some { st with iv := iv, ov := ov, a := Function.update st.a i ov }
  | _, _ => none

/-- The outer loop body of the vertex processor: triangle `tr_num`. -/
def assembleTriangle (B : buffersStructure (List (Cell Byte)))
    (puller : vertexPullerSettingStructure) (program : programSettingStructure)
    (st : VertexState) (tr_num : Nat) : Option VertexState :=
  ((List.finRange 3).foldlM (fun st i => vertexStep B puller program tr_num st i) st).map
    (fun st1 => { st1 with assemblies := st1.assemblies ++ [st1.a] })

/-- The vertex processor of `GPU::drawTriangles`. -/
def vertexProcessor (B : buffersStructure (List (Cell Byte)))
    (puller : vertexPullerSettingStructure) (program : programSettingStructure)
    (triangle_num : Nat) : Option (List Assembly) :=
  ((List.range triangle_num).foldlM (fun st t => assembleTriangle B puller program st t)
    { iv := InVertex.zero, ov := OutVertex.zero, a := fun _ => OutVertex.zero,
      assemblies := [] }).map (fun st => st.assemblies)

/-- The rasterization loop of `GPU::drawTriangles`: the fragments of all
assemblies, in order. -/
def rasterizeAll (v2f : Fin maxAttributes → AttributeType) :
    List Assembly → Option (List InFragment)
  | [] => some []
  | assembly :: rest =>
      match rasterize assembly v2f, rasterizeAll v2f rest with
      | some new_in_fragments, some more => some (new_in_fragments ++ more)
      | _, _ => none

/-- One iteration of the fragment loop of `GPU::drawTriangles`: the state is
the device and the variable `out_frag`. -/
def fragmentStep (program : programSettingStructure) (st : GPU × OutFragment)
    (in_frag : InFragment) : Option (GPU × OutFragment) :=
  match program.fs, toU32 (in_frag.gl_FragCoord 0), toU32 (in_frag.gl_FragCoord 1) with
  | some fs, some x, some y =>
      let out_frag := fs st.2 in_frag program.uni
      (putPixel st.1 x y out_frag.gl_FragColor (in_frag.gl_FragCoord 2)).map
        (fun g => (g, out_frag))
  | _, _, _ => none

/-- The stages of `GPU::drawTriangles` after its guards. -/
def drawPipeline (g : GPU) (current_puller : vertexPullerSettingStructure)
    (current_program : programSettingStructure) (nofVertices : Nat) : Option GPU :=
  let triangle_num := nofVertices / 3
  let frame_width : ℚ := getFramebufferWidth g
  let frame_height : ℚ := getFramebufferHeight g
  match vertexProcessor g.Buffer current_puller current_program triangle_num with
  | none => none
  | some assemblies =>
      let attribute_types := getTypes current_puller
      let clipped_assemblies := assemblies.flatMap (fun assembly => clipAssembly assembly attribute_types)
      let divided := clipped_assemblies.map perspectiveDivision
      let projected := divided.map (fun ass => viewPortTransformation ass frame_width frame_height)
      match rasterizeAll current_program.v2f projected with
      | none => none
      | some in_fragments =>
          (in_fragments.foldlM (fragmentStep current_program)
            (g, { gl_FragColor := fun _ => 0 })).map (fun st => st.1)

/-- `GPU::drawTriangles`. -/
def drawTriangles (emptyID : Nat) (g : GPU) (nofVertices : Nat) : Option GPU :=
  if nofVertices < 3 then some g
  else if nofVertices % 3 ≠ 0 then some g
  else if g.VP.active = emptyID then some g
  else if g.P.active = emptyID then some g
  else
    match isVertexPuller emptyID g g.VP.active with
    | none => none
    | some false => some g
    | some true =>
        match isProgram emptyID g g.P.active with
        | none => none
        | some false => some g
        | some true =>
            match g.VP.Pullers[g.VP.active]?, g.P.Programs[g.P.active]? with
            | some (Ptr.block current_puller), some (Ptr.block current_program) =>
                drawPipeline g current_puller current_program nofVertices
            | some Ptr.null, some (Ptr.block _) => some g
            | some Ptr.null, some Ptr.null => some g
            | some (Ptr.block _), some Ptr.null => some g
            | _, _ => none

/-! ## The API as a transition system -/

/-- One call of a public method of the device (`gpu.hpp`), with its arguments. -/
inductive Op where
  | createBuffer (size : Nat)
  | deleteBuffer (buffer : Nat)
  | setBufferData (buffer offset size : Nat) (data : List (Cell Byte))
  | getBufferData (buffer offset size : Nat) (data : List (Cell Byte))
  | isBuffer (buffer : Nat)
  | createVertexPuller
  | deleteVertexPuller (vao : Nat)
  | setVertexPullerHead (vao head : Nat) (type : AttributeType) (stride offset buffer : Nat)
  | setVertexPullerIndexing (vao : Nat) (type : IndexType) (buffer : Nat)
  | enableVertexPullerHead (vao head : Nat)
  | disableVertexPullerHead (vao head : Nat)
  | bindVertexPuller (vao : Nat)
  | unbindVertexPuller
  | isVertexPuller (vao : Nat)
  | createProgram
  | deleteProgram (prg : Nat)
  | attachShaders (prg : Nat) (vs : Option VertexShader) (fs : Option FragmentShader)
  | setVS2FSType (prg attrib : Nat) (type : AttributeType)
  | useProgram (prg : Nat)
  | isProgram (prg : Nat)
  | programUniform1f (prg uniformId : Nat) (d : ℚ)
  | programUniform2f (prg uniformId : Nat) (d : Vec2)
  | programUniform3f (prg uniformId : Nat) (d : Vec3)
  | programUniform4f (prg uniformId : Nat) (d : Vec4)
  | programUniformMatrix4f (prg uniformId : Nat) (d : Fin 4 → Vec4)
  | createFramebuffer (width height : Nat)
  | deleteFramebuffer
  | resizeFramebuffer (width height : Nat)
  | getFramebufferColor
  | getFramebufferDepth
  | getFramebufferWidth
  | getFramebufferHeight
  | clear (r g b a : ℚ)
  | drawTriangles (nofVertices : Nat)

/-- The device state after one call; the value a call returns is dropped. -/
def Op.apply (emptyID : Nat) (g : GPU) : Op → Option GPU
  | .createBuffer size => (IZG.createBuffer g size).map (fun r => r.1)
  | .deleteBuffer buffer => IZG.deleteBuffer emptyID g buffer
  | .setBufferData buffer offset size data => IZG.setBufferData emptyID g buffer offset size data
  | .getBufferData buffer offset size data =>
      (IZG.getBufferData emptyID g buffer offset size data).map (fun _ => g)
  | .isBuffer buffer => (IZG.isBuffer emptyID g buffer).map (fun _ => g)
  | .createVertexPuller => (IZG.createVertexPuller emptyID g).map (fun r => r.1)
  | .deleteVertexPuller vao => IZG.deleteVertexPuller emptyID g vao
  | .setVertexPullerHead vao head type stride offset buffer =>
      IZG.setVertexPullerHead emptyID g vao head type stride offset buffer
  | .setVertexPullerIndexing vao type buffer => IZG.setVertexPullerIndexing emptyID g vao type buffer
  | .enableVertexPullerHead vao head => IZG.enableVertexPullerHead emptyID g vao head
  | .disableVertexPullerHead vao head => IZG.disableVertexPullerHead emptyID g vao head
  | .bindVertexPuller vao => IZG.bindVertexPuller emptyID g vao
  | .unbindVertexPuller => some (IZG.unbindVertexPuller emptyID g)
  | .isVertexPuller vao => (IZG.isVertexPuller emptyID g vao).map (fun _ => g)
  | .createProgram => (IZG.createProgram g).map (fun r => r.1)
  | .deleteProgram prg => IZG.deleteProgram emptyID g prg
  | .attachShaders prg vs fs => IZG.attachShaders emptyID g prg vs fs
  | .setVS2FSType prg attrib type => IZG.setVS2FSType emptyID g prg attrib type
  | .useProgram prg => IZG.useProgram emptyID g prg
  | .isProgram prg => (IZG.isProgram emptyID g prg).map (fun _ => g)
  | .programUniform1f prg uniformId d => IZG.programUniform1f emptyID g prg uniformId d
  | .programUniform2f prg uniformId d => IZG.programUniform2f emptyID g prg uniformId d
  | .programUniform3f prg uniformId d => IZG.programUniform3f emptyID g prg uniformId d
  | .programUniform4f prg uniformId d => IZG.programUniform4f emptyID g prg uniformId d
  | .programUniformMatrix4f prg uniformId d =>
      IZG.programUniformMatrix4f emptyID g prg uniformId d
  | .createFramebuffer width height => some (IZG.createFramebuffer g width height)
  | .deleteFramebuffer => some (IZG.deleteFramebuffer g)
  | .resizeFramebuffer width height => some (IZG.resizeFramebuffer g width height)
  | .getFramebufferColor => some g
  | .getFramebufferDepth => some g
  | .getFramebufferWidth => some g
  | .getFramebufferHeight => some g
  | .clear r gg b a => IZG.clear g r gg b a
  | .drawTriangles nofVertices => IZG.drawTriangles emptyID g nofVertices

/-- The device state after a sequence of calls. -/
def run (emptyID : Nat) : List Op → GPU → Option GPU
  | [], g => some g
  | op :: ops, g =>
      match op.apply emptyID g with
      | none => none
      | some g1 => run emptyID ops g1

/-- The three kinds of resource that have a handle table. -/
inductive ResourceKind where
  | buffer
  | vertexPuller
  | program
deriving DecidableEq, Repr

/-- Is the call a `create` of the given kind. -/
def Op.isCreate : ResourceKind → Op → Bool
  | .buffer, .createBuffer _ => true
  | .vertexPuller, .createVertexPuller => true
  | .program, .createProgram => true
  | _, _ => false

/-- The query `is_X` of the given kind. -/
def isX (emptyID : Nat) : ResourceKind → GPU → Nat → Option Bool
  | .buffer => isBuffer emptyID
  | .vertexPuller => isVertexPuller emptyID
  | .program => isProgram emptyID

/-- The call `delete_X` of the given kind. -/
def deleteX (emptyID : Nat) : ResourceKind → GPU → Nat → Option GPU
  | .buffer => deleteBuffer emptyID
  | .vertexPuller => deleteVertexPuller emptyID
  | .program => deleteProgram emptyID

/-! ## Definitions used in the statements and examples -/

/-- The invalid handle `emptyID` used in the examples (`0xffffffff`). -/
def exampleEmptyID : Nat := 4294967295

/-- The device after `createBuffer(24)` on a new device. -/
def exampleBufferState : GPU :=
  ((createBuffer (GPU.new exampleEmptyID) 24).map Prod.fst).getD (GPU.new exampleEmptyID)

/-- The 24 bytes of the six little-endian floats `0, 0, 0, 1, 0, 0`. -/
def sixFloats : List (Cell Byte) :=
  [some 0, some 0, some 0, some 0, some 0, some 0, some 0, some 0,
   some 0, some 0, some 0, some 0, some 0, some 0, some 128, some 63,
   some 0, some 0, some 0, some 0, some 0, some 0, some 0, some 0]

/-- A vertex with the given position and attribute slots without a value. -/
def vertexAt (p : Vec4) : OutVertex := { gl_Position := p, attributes := fun _ _ => none }

/-- The projected triangle `(0.5,0.5), (2.5,0.5), (0.5,2.5)` (`z = 0`, `w = 1`);
it is what `viewPortTransformation` makes, for a 5×5 framebuffer, of the NDC
triangle `(-0.75,-0.75), (0.25,-0.75), (-0.75,0.25)`. -/
def halfPixelTriangle : Assembly :=
  ![vertexAt ![1 / 2, 1 / 2, 0, 1], vertexAt ![5 / 2, 1 / 2, 0, 1], vertexAt ![1 / 2, 5 / 2, 0, 1]]

/-- The pixel centres `(x + 0.5, y + 0.5)` of a list of fragments. -/
def fragmentCentres (fs : List InFragment) : List (ℚ × ℚ) :=
  fs.map (fun f => (f.gl_FragCoord 0, f.gl_FragCoord 1))

/-- The value the interpolation law prescribes at pixel `(x, y)` for vertex
values `vA, vB, vC`: `(Σ λ_i·v_i/w_i) / (Σ λ_i/w_i)`, with the barycentric
coordinates of the pixel centre and the clip-space `w` of the vertices. -/
def interpolationLaw (ass : Assembly) (x y : Nat) (vA vB vC : ℚ) : ℚ :=
  let l := getBarycentricCoordinates (ass 0).gl_Position (ass 1).gl_Position (ass 2).gl_Position
    ![(x : ℚ) + 1 / 2, (y : ℚ) + 1 / 2]
  let wA := (ass 0).gl_Position 3
  let wB := (ass 1).gl_Position 3
  let wC := (ass 2).gl_Position 3
  (l 0 * vA / wA + l 1 * vB / wB + l 2 * vC / wC) / (l 0 / wA + l 1 / wB + l 2 / wC)

/-- A fragment of pixel `(x, y)` whose non-EMPTY varyings follow the
interpolation law. -/
def FragmentInterpolated (ass : Assembly) (types : Fin maxAttributes → AttributeType)
    (x y : Nat) (f : InFragment) : Prop :=
  f.gl_FragCoord 0 = (x : ℚ) + 1 / 2 ∧ f.gl_FragCoord 1 = (y : ℚ) + 1 / 2 ∧
  ∀ (i : Fin maxAttributes) (j : Fin 4), types i ≠ AttributeType.EMPTY →
    j.val < (types i).toNat →
    ∀ vA vB vC : ℚ, (ass 0).attributes i j = some vA → (ass 1).attributes i j = some vB →
      (ass 2).attributes i j = some vC →
      f.attributes i j = some (interpolationLaw ass x y vA vB vC)

/-- A vertex with the given position whose attribute slot 0 holds the float `v`. -/
def vertexWith (p : Vec4) (v : ℚ) : OutVertex :=
  { gl_Position := p, attributes := fun i j => if i.val = 0 ∧ j.val = 0 then some v else none }

/-- A projected triangle whose second vertex has `w = 2`, with the varying
`0, 1, 0` in slot 0. -/
def perspectiveTriangle : Assembly :=
  ![vertexWith ![0, 0, 0, 1] 0, vertexWith ![4, 0, 0, 2] 1, vertexWith ![0, 4, 0, 1] 0]

/-- The varying types: slot 0 is a FLOAT, the other slots are EMPTY. -/
def floatSlot0 : Fin maxAttributes → AttributeType :=
  fun i => if i.val = 0 then AttributeType.FLOAT else AttributeType.EMPTY

/-- Two device states that differ in the framebuffer only. -/
def SameTables (g g1 : GPU) : Prop :=
  g1.Buffer = g.Buffer ∧ g1.BDeleted = g.BDeleted ∧ g1.VP = g.VP ∧ g1.DVP = g.DVP ∧
  g1.P = g.P ∧ g1.DP = g.DP

/-- The part of the device that a call works on. -/
inductive Family where
  | buffers
  | pullers
  | programs
  | other
deriving DecidableEq

/-- The part of the device that a call may change, apart from the framebuffer. -/
def Op.family : Op → Family
  | .createBuffer _ => .buffers
  | .deleteBuffer _ => .buffers
  | .setBufferData _ _ _ _ => .buffers
  | .createVertexPuller => .pullers
  | .deleteVertexPuller _ => .pullers
  | .setVertexPullerHead _ _ _ _ _ _ => .pullers
  | .setVertexPullerIndexing _ _ _ => .pullers
  | .enableVertexPullerHead _ _ => .pullers
  | .disableVertexPullerHead _ _ => .pullers
  | .bindVertexPuller _ => .pullers
  | .unbindVertexPuller => .pullers
  | .createProgram => .programs
  | .deleteProgram _ => .programs
  | .attachShaders _ _ _ => .programs
  | .setVS2FSType _ _ _ => .programs
  | .useProgram _ => .programs
  | .programUniform1f _ _ _ => .programs
  | .programUniform2f _ _ _ => .programs
  | .programUniform3f _ _ _ => .programs
  | .programUniform4f _ _ _ => .programs
  | .programUniformMatrix4f _ _ _ => .programs
  | _ => .other

/-- The cell of handle `h` in the table of the given kind is null. -/
def slotNull : ResourceKind → GPU → Nat → Prop
  | .buffer, g, h => g.Buffer.bufferArray[h]? = some Ptr.null
  | .vertexPuller, g, h => g.VP.Pullers[h]? = some Ptr.null
  | .program, g, h => g.P.Programs[h]? = some Ptr.null

/-- A table into which `pushBS` stores without reallocating. -/
def tableNotFull {α : Type} (B : buffersStructure α) : Prop :=
  B.bufferCapacity ≠ B.bufferSize ∧ B.bufferSize < B.bufferArray.length

/-- The tables that `delete_X` of the given kind touches are not full. -/
def tablesNotFull : ResourceKind → GPU → Prop
  | .buffer, g => g.Buffer.bufferCapacity ≠ g.Buffer.bufferSize ∧ tableNotFull g.BDeleted
  | .vertexPuller, g => tableNotFull g.DVP
  | .program, g => tableNotFull g.DP

/-- A vertex shader that takes the position from a table indexed by
`gl_VertexID`: the NDC triangle `(-1,-1,0,1), (1,-1,0,1), (-1,1,0,1)`. -/
def exampleVS : VertexShader := fun out iv _ =>
  match iv.gl_VertexID with
  | some 0 => { out with gl_Position := ![-1, -1, 0, 1] }
  | some 1 => { out with gl_Position := ![1, -1, 0, 1] }
  | _ => { out with gl_Position := ![-1, 1, 0, 1] }

/-- A fragment shader that emits white. -/
def exampleFS : FragmentShader := fun _ _ _ => { gl_FragColor := ![1, 1, 1, 1] }

/-- The calls that set up a device with one bound puller, one active program
with the two example shaders, and a 4×4 framebuffer cleared to black. -/
def exampleSetup : List Op :=
  [Op.createVertexPuller, Op.bindVertexPuller 0, Op.createProgram,
   Op.attachShaders 0 (some exampleVS) (some exampleFS), Op.useProgram 0,
   Op.createFramebuffer 4 4, Op.clear 0 0 0 1]

/-- The device after `exampleSetup`. -/
def exampleDevice : GPU :=
  (run exampleEmptyID exampleSetup (GPU.new exampleEmptyID)).getD (GPU.new exampleEmptyID)

/-- The colour bytes of pixel `pos` and the depth floats at index `pos` and
`4 * pos` of a device. -/
def pixelView (g : GPU) (pos : Nat) : Option (List (Cell Byte) × Option (Cell ℚ) × Option (Cell ℚ)) :=
  match g.FB.colorB, g.FB.depthB with
  | some col, some dpt => some ((col.drop (4 * pos)).take 4, dpt[pos]?, dpt[4 * pos]?)
  | _, _ => none

/-- Every element of a free list is a block holding a handle. -/
def listIntact (B : buffersStructure Nat) : Prop :=
  ∀ i, i < B.bufferSize → ∃ v, B.bufferArray[i]? = some (Ptr.block v)

/-- The cells of a handle table below its element count are null or blocks. -/
def cellsIntact {α : Type} (size : Nat) (cells : List (Ptr α)) : Prop :=
  ∀ i, i < size → cells[i]? = some Ptr.null ∨ ∃ p, cells[i]? = some (Ptr.block p)

/-- The puller and program tables and their free lists hold no indeterminate
pointer below their element counts. -/
def tablesIntact (g : GPU) : Prop :=
  cellsIntact g.VP.size g.VP.Pullers ∧ listIntact g.DVP ∧
  cellsIntact g.P.size g.P.Programs ∧ listIntact g.DP

/-- The calls that set up a device with a bound puller and a cleared 4×4
framebuffer but no program. -/
def noProgramSetup : List Op :=
  [Op.createVertexPuller, Op.bindVertexPuller 0, Op.createFramebuffer 4 4, Op.clear 0 0 0 1]

/-- The device after `noProgramSetup`. -/
def noProgramDevice : GPU :=
  (run exampleEmptyID noProgramSetup (GPU.new exampleEmptyID)).getD (GPU.new exampleEmptyID)

/-- The three edge functions at `(x, y)` computed with the deltas of
`getDeltas`, before `edgeFunction` normalises the winding. -/
def rawEdges (A B C : Vec4) (x y : ℚ) : Vec3 :=
  fun i => (x - (![A, B, C] : Fin 3 → Vec4) i 0) * getDeltas A B C i 1
    - (y - (![A, B, C] : Fin 3 → Vec4) i 1) * getDeltas A B C i 0

/-- The coverage test of `rasterize` for pixel `(x, y)`, with fresh deltas:
the three winding-normalised edge functions are `≥ 0` at the pixel centre. -/
def covers (ass : Assembly) (x y : Nat) : Bool :=
  let r := edgeFunction (ass 0).gl_Position (ass 1).gl_Position (ass 2).gl_Position
    (getDeltas (ass 0).gl_Position (ass 1).gl_Position (ass 2).gl_Position)
    (1 / 2 + (x : ℚ)) (1 / 2 + (y : ℚ))
  decide (r.1 0 ≥ 0 ∧ r.1 1 ≥ 0 ∧ r.1 2 ≥ 0)

/-- The deltas held by `rasterize` are those of `getDeltas` up to a common sign. -/
def DeltasUpToSign (A B C : Vec4) (d : Fin 3 → Vec2) : Prop :=
  ∃ s : ℚ, (s = 1 ∨ s = -1) ∧ ∀ i k, d i k = s * getDeltas A B C i k

/-- The pixel centre of pixel `(x, y)`. -/
def pixelCentre (x y : Nat) : ℚ × ℚ := (1 / 2 + (x : ℚ), 1 / 2 + (y : ℚ))

/-- The conversion in the words of the specification:
`clamp(floor(f·255 + 0.5), 0, 255)`. -/
def convertColorSpec (f : ℚ) : ℤ := max 0 (min 255 ⌊f * 255 + 1 / 2⌋)

/-- The two vertices other than vertex `i` of a triangle, in their original
order. -/
def otherVertices : Fin 3 → Fin 3 × Fin 3
  | 0 => (1, 2)
  | 1 => (0, 2)
  | 2 => (0, 1)

/-- The call `create_X` of the given kind; `size` is read for buffers only. -/
def createX (emptyID : Nat) : ResourceKind → GPU → Nat → Option (GPU × Nat)
  | .buffer, g, size => createBuffer g size
  | .vertexPuller, g, _ => createVertexPuller emptyID g
  | .program, g, _ => createProgram g

/-- The free list of the registry of a kind. -/
def freeList : ResourceKind → GPU → buffersStructure Nat
  | .buffer, g => g.BDeleted
  | .vertexPuller, g => g.DVP
  | .program, g => g.DP

/-- The slot count of the registry of a kind. -/
def slotCount : ResourceKind → GPU → Nat
  | .buffer, g => g.Buffer.bufferSize
  | .vertexPuller, g => g.VP.size
  | .program, g => g.P.size

/-- The handles stored on a free list, oldest first. -/
def freeHandles (B : buffersStructure Nat) : List Nat :=
  (B.bufferArray.take B.bufferSize).filterMap (fun p =>
    match p with
    | Ptr.block v => some v
    | _ => none)

/-- The free list holds `bufferSize` handles of the registry within the cells it
has allocated. -/
def freeListWF (B : buffersStructure Nat) (count : Nat) : Prop :=
  B.bufferCapacity = B.bufferArray.length ∧ B.bufferSize ≤ B.bufferCapacity ∧
  ∀ i, i < B.bufferSize → ∃ v, v < count ∧ B.bufferArray[i]? = some (Ptr.block v)

/-- The registry of a kind is well formed: its free list is, and the slots
counted by the table are allocated. -/
def registryWF : ResourceKind → GPU → Prop
  | .buffer, g => freeListWF g.BDeleted g.Buffer.bufferSize ∧
      g.Buffer.bufferCapacity = g.Buffer.bufferArray.length ∧
      g.Buffer.bufferSize ≤ g.Buffer.bufferCapacity
  | .vertexPuller, g => freeListWF g.DVP g.VP.size ∧
      g.VP.size ≤ g.VP.Pullers.length ∧ g.VP.capacity = BSRESIZE ∧
      BSRESIZE ≤ g.VP.Pullers.length
  | .program, g => freeListWF g.DP g.P.size ∧
      g.P.size ≤ g.P.Programs.length ∧ g.P.capacity = BSRESIZE ∧
      BSRESIZE ≤ g.P.Programs.length

/-- The registry of a kind can take one more `create_X` without leaving the
memory it has allocated: a non-empty free list is not full, and with an empty
free list the puller and program tables hold fewer than `2 * BSRESIZE` slots. -/
def createRoom : ResourceKind → GPU → Prop
  | .buffer, g => g.BDeleted.bufferSize ≠ 0 → g.BDeleted.bufferCapacity ≠ g.BDeleted.bufferSize
  | .vertexPuller, g =>
      (g.DVP.bufferSize ≠ 0 → g.DVP.bufferCapacity ≠ g.DVP.bufferSize) ∧
      (g.DVP.bufferSize = 0 → g.VP.size < 2 * BSRESIZE)
  | .program, g =>
      (g.DP.bufferSize ≠ 0 → g.DP.bufferCapacity ≠ g.DP.bufferSize) ∧
      (g.DP.bufferSize = 0 → g.P.size < 2 * BSRESIZE)

/-- The handle stored last on a free list. -/
def freeTop (B : buffersStructure Nat) : Option Nat :=
  match B.bufferArray[B.bufferSize - 1]? with
  | some (Ptr.block v) => some v
  | _ => none

/-- Three creates of each kind followed by the deletion of handle 1 and then
of handle 2 of each kind. -/
def recycleSetup : List Op :=
  [Op.createBuffer 4, Op.createBuffer 4, Op.createBuffer 4,
   Op.deleteBuffer 1, Op.deleteBuffer 2,
   Op.createVertexPuller, Op.createVertexPuller, Op.createVertexPuller,
   Op.deleteVertexPuller 1, Op.deleteVertexPuller 2,
   Op.createProgram, Op.createProgram, Op.createProgram,
   Op.deleteProgram 1, Op.deleteProgram 2]

/-- The device after `recycleSetup`. -/
def recycleDevice : GPU :=
  (run exampleEmptyID recycleSetup (GPU.new exampleEmptyID)).getD (GPU.new exampleEmptyID)

/-- The liveness condition in the words of the specification: `h` is not
`EMPTY`, `h` is below the slot count, the slot of `h` is not null, and `h` is
not on the free list. -/
def liveSpec (emptyID : Nat) (kind : ResourceKind) (g : GPU) (h : Nat) : Prop :=
  h ≠ emptyID ∧ h < slotCount kind g ∧ ¬ slotNull kind g h ∧
  h ∉ freeHandles (freeList kind g)

/-- Successive `createBuffer` calls with the given sizes: the final state and
the identifiers returned, in order. -/
def createBuffers : List Nat → GPU → Option (GPU × List Nat)
  | [], g => some (g, [])
  | size :: sizes, g =>
      match createBuffer g size with
      | none => none
      | some (g1, id) => (createBuffers sizes g1).map (fun r => (r.1, id :: r.2))

/-- The buffer table holds `k` blocks, has its first 150 cells, and no buffer
has been deleted. -/
def freshBuffers (k : Nat) (g : GPU) : Prop :=
  g.BDeleted.bufferSize = 0 ∧ g.Buffer.bufferSize = k ∧ g.Buffer.bufferCapacity = BSRESIZE ∧
  g.Buffer.bufferArray.length = BSRESIZE ∧
  ∀ i, i < k → ∃ b, g.Buffer.bufferArray[i]? = some (Ptr.block b)

/-- The stages of `GPU::drawTriangles` between the vertex processor and the
fragment loop: clipping, perspective division, viewport transformation and
rasterization of the assembled triangles. -/
def assemblyFragments (attribute_types v2f : Fin maxAttributes → AttributeType)
    (frame_width frame_height : ℚ) (assemblies : List Assembly) : Option (List InFragment) :=
  rasterizeAll v2f
    (((assemblies.flatMap (fun assembly => clipAssembly assembly attribute_types)).map
      perspectiveDivision).map (fun ass => viewPortTransformation ass frame_width frame_height))

/-- The full-screen triangle `(-1,-1,0,1), (3,-1,0,1), (-1,3,0,1)`. -/
def fullScreenTriangle : Assembly :=
  ![vertexAt ![-1, -1, 0, 1], vertexAt ![3, -1, 0, 1], vertexAt ![-1, 3, 0, 1]]

/-- The finite `float` stored little-endian in four bytes (IEEE 754 binary32);
`none` for an indeterminate byte, an infinity or a NaN. -/
def decodeFloat (bytes : List (Cell Byte)) : Option ℚ :=
  match decodeLE bytes with
  | none => none
  | some n =>
      let sign : Nat := n / 2 ^ 31 % 2
      let exponent : Nat := n / 2 ^ 23 % 256
      let mantissa : Nat := n % 2 ^ 23
      let significand : Nat := 2 ^ 23 + mantissa
      if exponent = 255 then none
      else
        let magnitude : ℚ :=
          if exponent = 0 then (mantissa : ℚ) / 2 ^ 149
          else (significand : ℚ) * 2 ^ exponent / 2 ^ 150
        some (if sign = 1 then -magnitude else magnitude)

/-- A vertex shader that copies attribute 0, read as a `vec4`, into
`gl_Position`; a component that is not a finite float is taken as 0. -/
def copyVS : VertexShader := fun out iv _ =>
  { out with gl_Position := fun j =>
      (decodeFloat (((iv.attributes ⟨0, by decide⟩).drop (4 * j.val)).take 4)).getD 0 }

/-- The 48 bytes of the three `vec4` positions `(-1,-1,0,1)`, `(1,-1,0,1)`,
`(-1,1,0,1)` as little-endian floats. -/
def triangleBytes : List (Cell Byte) :=
  [some 0, some 0, some 128, some 191, some 0, some 0, some 128, some 191,
   some 0, some 0, some 0, some 0, some 0, some 0, some 128, some 63,
   some 0, some 0, some 128, some 63, some 0, some 0, some 128, some 191,
   some 0, some 0, some 0, some 0, some 0, some 0, some 128, some 63,
   some 0, some 0, some 128, some 191, some 0, some 0, some 128, some 63,
   some 0, some 0, some 0, some 0, some 0, some 0, some 128, some 63]

/-- The calls of the scenario before `clear`: a buffer with the three vertex
positions, a puller whose head 0 reads them as `vec4`, a program with `copyVS`
and the white fragment shader, and a 4×4 framebuffer. -/
def triangleSetup : List Op :=
  [Op.createBuffer 48, Op.setBufferData 0 0 48 triangleBytes,
   Op.createVertexPuller, Op.setVertexPullerHead 0 0 AttributeType.VEC4 16 0 0,
   Op.enableVertexPullerHead 0 0, Op.bindVertexPuller 0,
   Op.createProgram, Op.attachShaders 0 (some copyVS) (some exampleFS), Op.useProgram 0,
   Op.createFramebuffer 4 4]

/-- The device after `triangleSetup`. -/
def triangleDevice : GPU :=
  (run exampleEmptyID triangleSetup (GPU.new exampleEmptyID)).getD (GPU.new exampleEmptyID)

/-- The pixel `(x, y)` that a fragment is written to: the conversions of
`gl_FragCoord.x` and `gl_FragCoord.y` to `uint32_t`. -/
def fragmentPixel (f : InFragment) : Option Nat × Option Nat :=
  (toU32 (f.gl_FragCoord 0), toU32 (f.gl_FragCoord 1))

/-- The puller bound in `triangleDevice`. -/
def trianglePuller : vertexPullerSettingStructure :=
  match triangleDevice.VP.Pullers[0]? with
  | some (Ptr.block p) => p
  | _ => newVertexPuller exampleEmptyID

/-- The program active in `triangleDevice`. -/
def triangleProgram : programSettingStructure :=
  match triangleDevice.P.Programs[0]? with
  | some (Ptr.block p) => p
  | _ => newProgram

/-- Is the colour byte `i` one of the four bytes of a listed pixel, in a
framebuffer of the given width. -/
def pixelTouched (width : Nat) (keys : List (Nat × Nat)) (i : Nat) : Bool :=
  keys.any (fun k => decide ((width * k.2 + k.1) % 2 ^ 32 * 4 ≤ i ∧
    i < (width * k.2 + k.1) % 2 ^ 32 * 4 + 4))

/-- The pixels of the 4×4 framebuffer written by the draw of the scenario. -/
def trianglePixels : List (Nat × Nat) := [(0, 0), (1, 0), (2, 0), (0, 1), (1, 1), (0, 2)]

/-- The size in bytes of an index of the given type (`sizeof(index_8)`,
`sizeof(index_16)`, `sizeof(index_32)`). -/
def IndexType.size : IndexType → Nat
  | .UINT8 => 1
  | .UINT16 => 2
  | .UINT32 => 4

/-- The calls that set up a vertex puller with 16-bit indexing: the index
buffer holds the indices 2, 0, 1. -/
def indexedSetup : List Op :=
  [Op.createBuffer 6,
   Op.setBufferData 0 0 6 [some 2, some 0, some 0, some 0, some 1, some 0],
   Op.createVertexPuller, Op.setVertexPullerIndexing 0 IndexType.UINT16 0]

/-- The device after `indexedSetup`. -/
def indexedDevice : GPU :=
  (run exampleEmptyID indexedSetup (GPU.new exampleEmptyID)).getD (GPU.new exampleEmptyID)

/-- The puller of `indexedDevice`. -/
def indexedPuller : vertexPullerSettingStructure :=
  match indexedDevice.VP.Pullers[0]? with
  | some (Ptr.block p) => p
  | _ => newVertexPuller exampleEmptyID

/-- The vertices of a draw as one sequence: the state of the variables `iv` and
`ov` of `drawTriangles` after the vertex numbers `0 .. k - 1` have been pulled
and shaded, starting from the value-initialised `iv{}` and `ov{}`. -/
def vertexStream (B : buffersStructure (List (Cell Byte)))
    (puller : vertexPullerSettingStructure) (program : programSettingStructure) :
    Nat → Option (InVertex × OutVertex)
  | 0 => some (InVertex.zero, OutVertex.zero)
  | k + 1 =>
      match vertexStream B puller program k with
      | none => none
      | some s =>
          match pullVP B puller k s.1, program.vs with
          | some iv, some vs => some (iv, vs s.2 iv program.uni)
          | _, _ => none

/-- The output of the vertex shader for vertex number `k` of the sequence. -/
def streamVertex (B : buffersStructure (List (Cell Byte)))
    (puller : vertexPullerSettingStructure) (program : programSettingStructure) (k : Nat) :
    OutVertex :=
  ((vertexStream B puller program (k + 1)).map (fun s => s.2)).getD OutVertex.zero

/-- A vertex shader that takes the position from a table indexed by
`gl_VertexID`, the triangle `(-1,-1,0,1), (1,-1,0,1), (-1,1,-2,1)`, and writes
the float `1`, `2`, `3` into attribute slot 0. -/
def varyingVS : VertexShader := fun out iv _ =>
  match iv.gl_VertexID with
  | some 0 => { gl_Position := ![-1, -1, 0, 1],
                attributes := fun i j => if i.val = 0 ∧ j.val = 0 then some 1 else out.attributes i j }
  | some 1 => { gl_Position := ![1, -1, 0, 1],
                attributes := fun i j => if i.val = 0 ∧ j.val = 0 then some 2 else out.attributes i j }
  | _ => { gl_Position := ![-1, 1, -2, 1],
           attributes := fun i j => if i.val = 0 ∧ j.val = 0 then some 3 else out.attributes i j }

/-- The calls that set up a device whose program declares the varying slot 0 as
`FLOAT`, with a puller whose heads are all disabled, and an 8×8 framebuffer. -/
def varyingSetup : List Op :=
  [Op.createVertexPuller, Op.bindVertexPuller 0, Op.createProgram,
   Op.attachShaders 0 (some varyingVS) (some exampleFS),
   Op.setVS2FSType 0 0 AttributeType.FLOAT, Op.useProgram 0,
   Op.createFramebuffer 8 8]

/-- The device after `varyingSetup`. -/
def varyingDevice : GPU :=
  (run exampleEmptyID varyingSetup (GPU.new exampleEmptyID)).getD (GPU.new exampleEmptyID)

/-- The puller bound in `varyingDevice`. -/
def varyingPuller : vertexPullerSettingStructure :=
  match varyingDevice.VP.Pullers[0]? with
  | some (Ptr.block p) => p
  | _ => newVertexPuller exampleEmptyID

/-- The program active in `varyingDevice`. -/
def varyingProgram : programSettingStructure :=
  match varyingDevice.P.Programs[0]? with
  | some (Ptr.block p) => p
  | _ => newProgram

/-- The bounding box in the words of the specification, for a framebuffer of
size `width × height`: the lower corner is `max(0, floor(min))`, the upper
corner is `min(width − 1, floor(max))` and `min(height − 1, floor(max))`. -/
def convexCoverSpec (A B C : Vec4) (width height : Nat) : (Fin 2 → ℤ) × (Fin 2 → ℤ) :=
  (![max 0 ⌊min (min (A 0) (B 0)) (C 0)⌋, max 0 ⌊min (min (A 1) (B 1)) (C 1)⌋],
   ![min ((width : ℤ) - 1) ⌊max (max (A 0) (B 0)) (C 0)⌋,
     min ((height : ℤ) - 1) ⌊max (max (A 1) (B 1)) (C 1)⌋])

/-- The triangle `(A, B, C)` with the reversed winding `(A, C, B)`. -/
def reverseWinding (ass : Assembly) : Assembly := ![ass 0, ass 2, ass 1]

/-- The divisor of `GPU::countCoordinates`: twice the signed area of the
triangle `(A, B, C)`. -/
def coordinatesDenominator (A B C : Vec4) : ℚ :=
  (B 1 - C 1) * (A 0 - C 0) + (C 0 - B 0) * (A 1 - C 1)

/-- A fragment of pixel `(x, y)`: `gl_FragCoord` holds the pixel centre and the
interpolated `z` and `w`, and the slots whose varying type is EMPTY hold what
the declaration of the fragment left in them. -/
def FragmentOfPixel (ass : Assembly) (types : Fin maxAttributes → AttributeType)
    (x y : Nat) (f : InFragment) : Prop :=
  f.gl_FragCoord =
    ![(x : ℚ) + 1 / 2, (y : ℚ) + 1 / 2,
      interpolationLaw ass x y ((ass 0).gl_Position 2) ((ass 1).gl_Position 2)
        ((ass 2).gl_Position 2),
      interpolationLaw ass x y ((ass 0).gl_Position 3) ((ass 1).gl_Position 3)
        ((ass 2).gl_Position 3)] ∧
  ∀ i, types i = AttributeType.EMPTY → f.attributes i = InFragment.uninit.attributes i

/-- The state of the pixel loop: the EMPTY slots of the fragment variable were
never written, and every stored fragment is the fragment of a pixel. -/
def RasterInvariant (ass : Assembly) (types : Fin maxAttributes → AttributeType)
    (st : RasterState) : Prop :=
  (∀ i, types i = AttributeType.EMPTY → st.frag.attributes i = InFragment.uninit.attributes i) ∧
  ∀ f ∈ st.fragments, ∃ x y, FragmentOfPixel ass types x y f

/-- A vertex shader that gives the three vertices of a draw the positions of
the triangle `T`. -/
def positionVS (T : Assembly) : VertexShader := fun out iv _ =>
  match iv.gl_VertexID with
  | some 0 => { out with gl_Position := (T 0).gl_Position }
  | some 1 => { out with gl_Position := (T 1).gl_Position }
  | _ => { out with gl_Position := (T 2).gl_Position }

/-- The calls that set up a device with one bound puller, one active program
that draws the triangle `T` in white, and a 4×4 framebuffer cleared to black. -/
def positionSetup (T : Assembly) : List Op :=
  [Op.createVertexPuller, Op.bindVertexPuller 0, Op.createProgram,
   Op.attachShaders 0 (some (positionVS T)) (some exampleFS), Op.useProgram 0,
   Op.createFramebuffer 4 4, Op.clear 0 0 0 1]

/-- The device after `positionSetup T`. -/
def positionDevice (T : Assembly) : GPU :=
  (run exampleEmptyID (positionSetup T) (GPU.new exampleEmptyID)).getD (GPU.new exampleEmptyID)

/-- A clip-space triangle to the right of the viewport (`x ≥ 5/3 > 1`), in front
of the near plane; in a 4×4 framebuffer it is projected to `(4,0)`, `(6,0)`,
`(4,2)`. -/
def rightOfViewport : Assembly :=
  ![vertexAt ![5 / 3, -1, 0, 1], vertexAt ![3, -1, 0, 1], vertexAt ![5 / 3, 1 / 3, 0, 1]]

/-- A clip-space triangle above the viewport (`y ≥ 65/3 > 1`), in front of the
near plane; in a 4×4 framebuffer it is projected to `(0,34)`, `(2,34)`,
`(0,36)`. -/
def aboveViewport : Assembly :=
  ![vertexAt ![-1, 65 / 3, 0, 1], vertexAt ![1 / 3, 65 / 3, 0, 1], vertexAt ![-1, 23, 0, 1]]

/-- The divisor `delitel` of `GPU::perspectiveCorrection`. -/
def correctionDivisor (Coordinates h : Vec3) : ℚ :=
  0 + Coordinates 0 / h 0 + Coordinates 1 / h 1 + Coordinates 2 / h 2

/-- A projected triangle of zero area: the vertices `(0,0)`, `(2,2)`, `(4,4)`
lie on one line (`z = 0`, `w = 1`). -/
def collinearTriangle : Assembly :=
  ![vertexAt ![0, 0, 0, 1], vertexAt ![2, 2, 0, 1], vertexAt ![4, 4, 0, 1]]

/-- A projected triangle of non-zero area whose vertices
`(0.499755859375, 0.5)`, `(0.49951171875, 0.499755859375)`, `(1.5, 1.5)` are
binary32 numbers and lie almost on one line. -/
def sliverTriangle : Assembly :=
  ![vertexAt ![1 / 2 - 1 / 4096, 1 / 2, 0, 1], vertexAt ![1 / 2 - 1 / 2048, 1 / 2 - 1 / 4096, 0, 1],
    vertexAt ![3 / 2, 3 / 2, 0, 1]]

/-- A projected triangle of non-zero area, `(0,0)`, `(1,0)`, `(0,1)`, whose
third vertex has `w = -1`; every vertex passes the near-plane test `z ≥ -w`. -/
def negativeWTriangle : Assembly :=
  ![vertexAt ![0, 0, 1, 1], vertexAt ![1, 0, 1, 1], vertexAt ![0, 1, 1, -1]]

/-- The variable `iv` of `drawTriangles` after the vertex numbers `0 .. k - 1`
have been pulled, starting from the value-initialised `iv{}`; the vertex
shader does not write it. -/
def pulledStream (B : buffersStructure (List (Cell Byte)))
    (puller : vertexPullerSettingStructure) : Nat → Option InVertex
  | 0 => some InVertex.zero
  | k + 1 =>
      match pulledStream B puller k with
      | none => none
      | some iv => pullVP B puller k iv

/-- The calls that set up a device with a bound puller, an active program to
which no shader was attached, and a 4×4 framebuffer. -/
def noShaderSetup : List Op :=
  [Op.createVertexPuller, Op.bindVertexPuller 0, Op.createProgram, Op.useProgram 0,
   Op.createFramebuffer 4 4]

/-- The device after `noShaderSetup`. -/
def noShaderDevice : GPU :=
  (run exampleEmptyID noShaderSetup (GPU.new exampleEmptyID)).getD (GPU.new exampleEmptyID)

/-! ## The pipeline in binary32 -/

/-- `GPU::getDeltas` in binary32: each difference is rounded. -/
def F32.getDeltas (A B C : Vec4) : Fin 3 → Vec2 :=
  ![![roundF32 (A 0 - B 0), roundF32 (A 1 - B 1)], ![roundF32 (B 0 - C 0), roundF32 (B 1 - C 1)],
    ![roundF32 (C 0 - A 0), roundF32 (C 1 - A 1)]]

/-- `GPU::edgeFunction` in binary32: each subtraction and each product of
`(x - points[i][xp]) * deltas[i][yp] - (y - points[i][yp]) * deltas[i][xp]` is
rounded; the products by `-1` are exact. -/
def F32.edgeFunction (A B C : Vec4) (deltas : Fin 3 → Vec2) (x y : ℚ) :
    Vec3 × (Fin 3 → Vec2) :=
  let points : Fin 3 → Vec4 := ![A, B, C]
  let edges : Vec3 := fun i =>
    roundF32 (roundF32 (roundF32 (x - points i 0) * deltas i 1)
      - roundF32 (roundF32 (y - points i 1) * deltas i 0))
  if edges 0 ≤ 0 ∧ edges 1 ≤ 0 ∧ edges 2 ≤ 0 then
    (fun i => edges i * -1, fun i => ![deltas i 0 * -1, deltas i 1 * -1])
  else (edges, deltas)

/-- The variables of the pixel loop of `GPU::rasterize` that decide which
fragments are stored: the deltas, and the pixels `(w, h)` of the fragments
stored so far. -/
structure F32.CoverState where
  deltas : Fin 3 → Vec2
  pixels : List (Nat × Nat)

/-- The coverage test in the body of the pixel loop of `GPU::rasterize`, in
binary32, at column `w` of row `h`: `w5 = 0.5f + w` converts `w` to `float`
and adds. -/
def F32.rasterizePixel (ass : Assembly) (h w : Nat) (st : F32.CoverState) : F32.CoverState :=
  let A := (ass 0).gl_Position
  let B := (ass 1).gl_Position
  let C := (ass 2).gl_Position
  let w5 : ℚ := roundF32 (1 / 2 + roundF32 w)
  let h5 : ℚ := roundF32 (1 / 2 + roundF32 h)
  let r := F32.edgeFunction A B C st.deltas w5 h5
  let edges := r.1
  if edges 0 ≥ 0 ∧ edges 1 ≥ 0 ∧ edges 2 ≥ 0 then
    { deltas := r.2, pixels := st.pixels ++ [(w, h)] }
  else { st with deltas := r.2 }

/-- The pixels `(w, h)` for which `GPU::rasterize` stores a fragment, in the
order of the fragments, with the edge functions computed in binary32. -/
def F32.rasterize (ass : Assembly) : Option (List (Nat × Nat)) :=
  let A := (ass 0).gl_Position
  let B := (ass 1).gl_Position
  let C := (ass 2).gl_Position
  match getConvexCover A B C with
  | none => none
  | some (left_down, right_top) =>
    let r := F32.edgeFunction A B C (F32.getDeltas A B C) (roundF32 (left_down 0))
      (roundF32 (left_down 1))
    let st0 : F32.CoverState := { deltas := r.2, pixels := [] }
    let rows := List.range' (left_down 1) (right_top 1 + 1 - left_down 1)
    let cols := List.range' (left_down 0) (right_top 0 + 1 - left_down 0)
    let st := rows.foldl (fun st h => cols.foldl (fun st w => F32.rasterizePixel ass h w st) st) st0
    some st.pixels

/-- The dividend of `GPU::countCoordinates` in binary32. -/
def F32.coordinatesNumerator (B C : Vec4) (Point : Vec2) : ℚ :=
  roundF32 (roundF32 (roundF32 (B 1 - C 1) * roundF32 (Point 0 - C 0))
    + roundF32 (roundF32 (C 0 - B 0) * roundF32 (Point 1 - C 1)))

/-- The divisor of `GPU::countCoordinates` in binary32. -/
def F32.coordinatesDenominator (A B C : Vec4) : ℚ :=
  roundF32 (roundF32 (roundF32 (B 1 - C 1) * roundF32 (A 0 - C 0))
    + roundF32 (roundF32 (C 0 - B 0) * roundF32 (A 1 - C 1)))

/-- `GPU::countCoordinates` in binary32; `none` when the divisor is 0 and the
quotient is an infinity or not a number. -/
def F32.countCoordinates (A B C : Vec4) (Point : Vec2) : Option ℚ :=
  if F32.coordinatesDenominator A B C = 0 then none
  else
    let res := roundF32 (F32.coordinatesNumerator B C Point / F32.coordinatesDenominator A B C)
    some (if res < 0 then res * -1 else res)

/-- `GPU::getBarycentricCoordinates` in binary32. -/
def F32.getBarycentricCoordinates (A B C : Vec4) (Point : Vec2) : Option Vec3 :=
  match F32.countCoordinates A B C Point, F32.countCoordinates B C A Point,
        F32.countCoordinates C A B Point with
  | some l0, some l1, some l2 => some ![l0, l1, l2]
  | _, _, _ => none

/-- The divisor `delitel` of `GPU::perspectiveCorrection` in binary32, after
the three additions `delitel += Coordinates[i] / h[i]`; `none` when some
`h[i]` is 0. -/
def F32.correctionDivisor (Coordinates h : Vec3) : Option ℚ :=
  if h 0 = 0 ∨ h 1 = 0 ∨ h 2 = 0 then none
  else
    some (roundF32 (roundF32 (roundF32 (0 + roundF32 (Coordinates 0 / h 0))
      + roundF32 (Coordinates 1 / h 1)) + roundF32 (Coordinates 2 / h 2)))

/-- The divisor of `t` in `GPU::countOutVer` in binary32:
`B[wp] - A[wp] + B[zp] - A[zp]` is evaluated from left to right. -/
def F32.countOutVerDivisor (A B : Vec4) : ℚ :=
  roundF32 (roundF32 (roundF32 (B 3 - A 3) + B 2) - A 2)

/-- The dividend `-A[wp] - A[zp]` of `t` in `GPU::countOutVer` in binary32; the
negation is exact. -/
def F32.countOutVerDividend (A : Vec4) : ℚ := roundF32 (-A 3 - A 2)

/-- The parameter `t` of `GPU::countOutVer` in binary32; `none` when the divisor
is 0 and the quotient is an infinity or not a number. -/
def F32.countOutVerParameter (A B : Vec4) : Option ℚ :=
  if F32.countOutVerDivisor A B = 0 then none
  else some (roundF32 (F32.countOutVerDividend A / F32.countOutVerDivisor A B))

/-- The rational `q` is a multiple of `2^-k` of magnitude at most `N·2^-k`. -/
def onGrid (k N : ℕ) (q : ℚ) : Prop := ∃ m : ℤ, |m| ≤ (N : ℤ) ∧ q = (m : ℚ) / 2 ^ k

/-- The `x` and `y` of the three vertices of a projected triangle are
multiples of `1/2` between `-512` and `512`. -/
def onHalfGrid (ass : Assembly) : Prop :=
  ∀ i, onGrid 1 1024 ((ass i).gl_Position 0) ∧ onGrid 1 1024 ((ass i).gl_Position 1)

/-- A projected triangle with the binary32 vertices `(2.6f, 1)`, `(0.4f, 0)`,
`(0, 6)`: `2.6f = 5452595/2^21` and `0.4f = 13421773/2^25`. -/
def roundedTriangle : Assembly :=
  ![vertexAt ![5452595 / 2097152, 1, 0, 1], vertexAt ![13421773 / 33554432, 0, 0, 1],
    vertexAt ![0, 6, 0, 1]]

/-! # Theorems -/

/-! ## Binary32 rounding lemmas -/

/-- The rounding is one of the two neighbouring integers. -/
theorem roundEven_bounds (x : ℚ) : ⌊x⌋ ≤ roundEven x ∧ roundEven x ≤ ⌊x⌋ + 1 := by
  unfold roundEven
  dsimp only
  split_ifs <;> omega

/-- An integer is its own rounding. -/
theorem roundEven_intCast (n : ℤ) : roundEven (n : ℚ) = n := by
  unfold roundEven
  simp

/-- The rounding to an integer is monotone. -/
theorem roundEven_mono {x y : ℚ} (h : x ≤ y) : roundEven x ≤ roundEven y := by
  have hf : ⌊x⌋ ≤ ⌊y⌋ := Int.floor_le_floor h
  rcases hf.lt_or_eq with hlt | heq
  · have h1 := (roundEven_bounds x).2
    have h2 := (roundEven_bounds y).1
    omega
  · unfold roundEven
    dsimp only
    rw [heq]
    split_ifs <;> first | omega | (exfalso; linarith)

/-- The rounding to an integer is odd. -/
theorem roundEven_neg (x : ℚ) : roundEven (-x) = -roundEven x := by
  by_cases hx : (⌊x⌋ : ℚ) = x
  · rw [← hx, ← Int.cast_neg, roundEven_intCast, roundEven_intCast]
  · have h1 : (⌊x⌋ : ℚ) < x := lt_of_le_of_ne (Int.floor_le x) hx
    have h2 : x < ⌊x⌋ + 1 := Int.lt_floor_add_one x
    have hfl : ⌊-x⌋ = -⌊x⌋ - 1 := by
      rw [Int.floor_eq_iff]
      push_cast
      constructor <;> linarith
    unfold roundEven
    dsimp only
    rw [hfl]
    push_cast
    split_ifs <;> first | omega | (exfalso; linarith)

/-- The rounding to an integer moves by at most one half. -/
theorem roundEven_error (x : ℚ) : |(roundEven x : ℚ) - x| ≤ 1 / 2 := by
  have h1 : (⌊x⌋ : ℚ) ≤ x := Int.floor_le x
  have h2 : x < ⌊x⌋ + 1 := Int.lt_floor_add_one x
  rw [abs_le]
  unfold roundEven
  dsimp only
  split_ifs <;> push_cast <;> constructor <;> linarith

/-- The number of halvings of `n ≠ 0` is the exponent of the power of two
below `n`. -/
theorem halvings_spec : ∀ (fuel n : Nat), n ≤ fuel → n ≠ 0 →
    2 ^ halvings fuel n ≤ n ∧ n < 2 ^ (halvings fuel n + 1) := by
  intro fuel
  induction fuel with
  | zero => intro n h1 h2; omega
  | succ fuel ih =>
      intro n h1 h2
      unfold halvings
      split
      · rename_i hlt
        have : n = 1 := by omega
        subst this
        norm_num
      · rename_i hge
        obtain ⟨a, b⟩ := ih (n / 2) (by omega) (by omega)
        constructor
        · rw [pow_succ]
          have := Nat.div_mul_le_self n 2
          calc 2 ^ halvings fuel (n / 2) * 2 ≤ n / 2 * 2 := Nat.mul_le_mul_right 2 a
            _ ≤ n := this
        · rw [pow_succ]
          have h3 : n / 2 + 1 ≤ 2 ^ (halvings fuel (n / 2) + 1) := b
          have h4 : n < (n / 2 + 1) * 2 := by omega
          calc n < (n / 2 + 1) * 2 := h4
            _ ≤ 2 ^ (halvings fuel (n / 2) + 1) * 2 := Nat.mul_le_mul_right 2 h3

/-- The binary exponent brackets the magnitude. -/
theorem binaryExponent_spec (x : ℚ) (hx : x ≠ 0) :
    (2 : ℚ) ^ binaryExponent x ≤ |x| ∧ |x| < 2 ^ (binaryExponent x + 1) := by
  have hnum : x.num.natAbs ≠ 0 := by
    rw [Ne, Int.natAbs_eq_zero, Rat.num_eq_zero]
    exact hx
  have hden : x.den ≠ 0 := x.den_nz
  have habs : |x| = (x.num.natAbs : ℚ) / (x.den : ℚ) := by
    rw [← Rat.num_div_den x, abs_div, Rat.num_div_den, Nat.abs_cast, Nat.cast_natAbs]
    simp
  have hp1 : ((2 : ℚ) ^ (halvings x.num.natAbs x.num.natAbs : ℤ)) ≤ (x.num.natAbs : ℚ) := by
    rw [zpow_natCast]
    exact_mod_cast (halvings_spec _ _ le_rfl hnum).1
  have hp2 : (x.num.natAbs : ℚ) < (2 : ℚ) ^ ((halvings x.num.natAbs x.num.natAbs : ℤ) + 1) := by
    have := (halvings_spec _ _ le_rfl hnum).2
    have e : ((halvings x.num.natAbs x.num.natAbs : ℤ) + 1) = ((halvings x.num.natAbs x.num.natAbs + 1 : ℕ) : ℤ) := by
      push_cast
      rfl
    rw [e, zpow_natCast]
    exact_mod_cast this
  have hq1 : ((2 : ℚ) ^ (halvings x.den x.den : ℤ)) ≤ (x.den : ℚ) := by
    rw [zpow_natCast]
    exact_mod_cast (halvings_spec _ _ le_rfl hden).1
  have hq2 : (x.den : ℚ) < (2 : ℚ) ^ ((halvings x.den x.den : ℤ) + 1) := by
    have := (halvings_spec _ _ le_rfl hden).2
    have e : ((halvings x.den x.den : ℤ) + 1) = ((halvings x.den x.den + 1 : ℕ) : ℤ) := by
      push_cast
      rfl
    rw [e, zpow_natCast]
    exact_mod_cast this
  have hdpos : (0 : ℚ) < (x.den : ℚ) := by exact_mod_cast Nat.pos_of_ne_zero hden
  have hz : ∀ n : ℤ, (0 : ℚ) < 2 ^ n := fun n => zpow_pos (by norm_num) n
  -- the quotient lies strictly between `2^(d-1)` and `2^(d+1)`
  have hlow : (2 : ℚ) ^ ((halvings x.num.natAbs x.num.natAbs : ℤ) - (halvings x.den x.den : ℤ) - 1) ≤ |x| := by
    rw [habs, le_div_iff₀ hdpos]
    have e : (2 : ℚ) ^ ((halvings x.num.natAbs x.num.natAbs : ℤ) - (halvings x.den x.den : ℤ) - 1)
        * 2 ^ ((halvings x.den x.den : ℤ) + 1) = 2 ^ (halvings x.num.natAbs x.num.natAbs : ℤ) := by
      rw [← zpow_add₀ (by norm_num : (2 : ℚ) ≠ 0)]
      congr 1
      ring
    calc (2 : ℚ) ^ ((halvings x.num.natAbs x.num.natAbs : ℤ) - (halvings x.den x.den : ℤ) - 1) * (x.den : ℚ)
        ≤ (2 : ℚ) ^ ((halvings x.num.natAbs x.num.natAbs : ℤ) - (halvings x.den x.den : ℤ) - 1)
            * 2 ^ ((halvings x.den x.den : ℤ) + 1) := mul_le_mul_of_nonneg_left hq2.le (hz _).le
      _ = 2 ^ (halvings x.num.natAbs x.num.natAbs : ℤ) := e
      _ ≤ (x.num.natAbs : ℚ) := hp1
  have hhigh : |x| < (2 : ℚ) ^ ((halvings x.num.natAbs x.num.natAbs : ℤ) - (halvings x.den x.den : ℤ) + 1) := by
    rw [habs, div_lt_iff₀ hdpos]
    have e : (2 : ℚ) ^ ((halvings x.num.natAbs x.num.natAbs : ℤ) - (halvings x.den x.den : ℤ) + 1)
        * 2 ^ (halvings x.den x.den : ℤ) = 2 ^ ((halvings x.num.natAbs x.num.natAbs : ℤ) + 1) := by
      rw [← zpow_add₀ (by norm_num : (2 : ℚ) ≠ 0)]
      congr 1
      ring
    calc (x.num.natAbs : ℚ) < 2 ^ ((halvings x.num.natAbs x.num.natAbs : ℤ) + 1) := hp2
      _ = (2 : ℚ) ^ ((halvings x.num.natAbs x.num.natAbs : ℤ) - (halvings x.den x.den : ℤ) + 1)
            * 2 ^ (halvings x.den x.den : ℤ) := e.symm
      _ ≤ (2 : ℚ) ^ ((halvings x.num.natAbs x.num.natAbs : ℤ) - (halvings x.den x.den : ℤ) + 1) * (x.den : ℚ) :=
          mul_le_mul_of_nonneg_left hq1 (hz _).le
  unfold binaryExponent
  dsimp only
  split
  · rename_i h
    exact ⟨h, hhigh⟩
  · rename_i h
    push_neg at h
    refine ⟨hlow, ?_⟩
    rw [sub_add_cancel]
    exact h

/-- The binary exponent is the integer logarithm of the magnitude. -/
theorem binaryExponent_eq_log (x : ℚ) (hx : x ≠ 0) : binaryExponent x = Int.log 2 |x| := by
  obtain ⟨h1, h2⟩ := binaryExponent_spec x hx
  have hpos : (0 : ℚ) < |x| := abs_pos.2 hx
  have a1 : binaryExponent x ≤ Int.log 2 |x| :=
    (Int.zpow_le_iff_le_log (by norm_num) hpos).1 (by simpa using h1)
  have a2 : Int.log 2 |x| < binaryExponent x + 1 :=
    (Int.lt_zpow_iff_log_lt (by norm_num) hpos).1 (by simpa using h2)
  omega

/-- The last place in terms of the integer logarithm. -/
theorem ulpExponent_eq (x : ℚ) (hx : x ≠ 0) :
    ulpExponent x = max (Int.log 2 |x| - 23) (-149) := by
  unfold ulpExponent
  rw [binaryExponent_eq_log x hx]

/-- The last place does not depend on the sign. -/
theorem ulpExponent_neg (x : ℚ) : ulpExponent (-x) = ulpExponent x := by
  by_cases hx : x = 0
  · subst hx
    rw [neg_zero]
  · rw [ulpExponent_eq x hx, ulpExponent_eq (-x) (neg_ne_zero.2 hx), abs_neg]

/-- The rounding to binary32 is odd. -/
theorem roundF32_neg (x : ℚ) : roundF32 (-x) = -roundF32 x := by
  unfold roundF32
  rw [ulpExponent_neg, neg_div, roundEven_neg]
  push_cast
  ring

/-- Zero is a binary32 number. -/
theorem roundF32_zero : roundF32 0 = 0 := by
  unfold roundF32
  rw [zero_div]
  have : roundEven 0 = 0 := by simpa using roundEven_intCast 0
  rw [this]
  simp

/-- The unit in the last place is positive. -/
theorem ulp_pos (x : ℚ) : (0 : ℚ) < 2 ^ ulpExponent x := zpow_pos (by norm_num) _

/-- The last place grows with the magnitude. -/
theorem ulpExponent_mono {x y : ℚ} (hx : 0 < x) (h : x ≤ y) : ulpExponent x ≤ ulpExponent y := by
  rw [ulpExponent_eq x hx.ne', ulpExponent_eq y (lt_of_lt_of_le hx h).ne']
  rw [abs_of_pos hx, abs_of_pos (lt_of_lt_of_le hx h)]
  have := Int.log_mono_right (b := 2) hx h
  exact max_le_max (by omega) le_rfl

/-- A multiple of the unit in the last place is rounded to itself. -/
theorem roundF32_of_multiple (x : ℚ) (j : ℤ) (h : x = j * 2 ^ ulpExponent x) : roundF32 x = x := by
  unfold roundF32
  have : x / 2 ^ ulpExponent x = (j : ℚ) := by
    rw [div_eq_iff (ulp_pos x).ne']
    exact h
  rw [this, roundEven_intCast]
  exact h.symm

/-- The rounding to binary32 is monotone on the positive numbers. -/
theorem roundF32_mono_pos {x y : ℚ} (hx : 0 < x) (h : x ≤ y) : roundF32 x ≤ roundF32 y := by
  have hy : 0 < y := lt_of_lt_of_le hx h
  have he := ulpExponent_mono hx h
  rcases he.lt_or_eq with hlt | heq
  · -- the binade boundary `b = 2 ^ log y` lies between `x` and `y`
    have hey : ulpExponent y = Int.log 2 |y| - 23 := by
      rw [ulpExponent_eq x hx.ne', ulpExponent_eq y hy.ne'] at hlt
      rw [ulpExponent_eq y hy.ne']
      have h149 : (-149 : ℤ) ≤ max (Int.log 2 |x| - 23) (-149) := le_max_right _ _
      rw [max_eq_left]
      by_contra hcon
      rw [max_eq_right (by omega)] at hlt
      omega
    have hlog : Int.log 2 |x| < Int.log 2 |y| := by
      have h1 : Int.log 2 |x| - 23 ≤ ulpExponent x := by
        rw [ulpExponent_eq x hx.ne']
        exact le_max_left _ _
      omega
    rw [abs_of_pos hx] at hlog
    rw [abs_of_pos hy] at hlog hey
    have hb1 : x < 2 ^ Int.log 2 y := by
      have h1 : x < ((2 : ℕ) : ℚ) ^ (Int.log 2 x + 1) := Int.lt_zpow_succ_log_self (by norm_num) x
      have h2 : ((2 : ℕ) : ℚ) ^ (Int.log 2 x + 1) ≤ ((2 : ℕ) : ℚ) ^ Int.log 2 y :=
        zpow_le_zpow_right₀ (by norm_num) (by omega)
      have h3 := lt_of_lt_of_le h1 h2
      simpa using h3
    have hb2 : (2 : ℚ) ^ Int.log 2 y ≤ y := by
      have h1 : ((2 : ℕ) : ℚ) ^ Int.log 2 y ≤ y := Int.zpow_log_le_self (by norm_num) hy
      simpa using h1
    have hbx : roundF32 x ≤ 2 ^ Int.log 2 y := by
      unfold roundF32
      have hd : (0 : ℤ) ≤ Int.log 2 y - ulpExponent x := by omega
      have hq : (2 : ℚ) ^ Int.log 2 y / 2 ^ ulpExponent x
          = (((2 : ℤ) ^ (Int.log 2 y - ulpExponent x).toNat : ℤ) : ℚ) := by
        rw [← zpow_sub₀ (by norm_num : (2 : ℚ) ≠ 0)]
        push_cast
        rw [← zpow_natCast, Int.toNat_of_nonneg hd]
      have hr : roundEven (x / 2 ^ ulpExponent x)
          ≤ (2 : ℤ) ^ (Int.log 2 y - ulpExponent x).toNat := by
        rw [← roundEven_intCast ((2 : ℤ) ^ (Int.log 2 y - ulpExponent x).toNat), ← hq]
        exact roundEven_mono (div_le_div_of_nonneg_right hb1.le (ulp_pos x).le)
      have hr2 : ((roundEven (x / 2 ^ ulpExponent x) : ℤ) : ℚ)
          ≤ (((2 : ℤ) ^ (Int.log 2 y - ulpExponent x).toNat : ℤ) : ℚ) := by exact_mod_cast hr
      calc (roundEven (x / 2 ^ ulpExponent x) : ℚ) * 2 ^ ulpExponent x
          ≤ (((2 : ℤ) ^ (Int.log 2 y - ulpExponent x).toNat : ℤ) : ℚ) * 2 ^ ulpExponent x :=
            mul_le_mul_of_nonneg_right hr2 (ulp_pos x).le
        _ = 2 ^ Int.log 2 y := by
            rw [← hq, div_mul_cancel₀ _ (ulp_pos x).ne']
    have hby : (2 : ℚ) ^ Int.log 2 y ≤ roundF32 y := by
      unfold roundF32
      have hq : (2 : ℚ) ^ Int.log 2 y / 2 ^ ulpExponent y = (((2 : ℤ) ^ 23 : ℤ) : ℚ) := by
        rw [← zpow_sub₀ (by norm_num : (2 : ℚ) ≠ 0), hey]
        have : Int.log 2 y - (Int.log 2 y - 23) = 23 := by omega
        rw [this]
        norm_num
      have hr : (2 : ℤ) ^ 23 ≤ roundEven (y / 2 ^ ulpExponent y) := by
        rw [← roundEven_intCast ((2 : ℤ) ^ 23), ← hq]
        exact roundEven_mono (div_le_div_of_nonneg_right hb2 (ulp_pos y).le)
      have hr2 : (((2 : ℤ) ^ 23 : ℤ) : ℚ) ≤ ((roundEven (y / 2 ^ ulpExponent y) : ℤ) : ℚ) := by
        exact_mod_cast hr
      calc (2 : ℚ) ^ Int.log 2 y
          = (((2 : ℤ) ^ 23 : ℤ) : ℚ) * 2 ^ ulpExponent y := by
            rw [← hq, div_mul_cancel₀ _ (ulp_pos y).ne']
        _ ≤ (roundEven (y / 2 ^ ulpExponent y) : ℚ) * 2 ^ ulpExponent y :=
            mul_le_mul_of_nonneg_right hr2 (ulp_pos y).le
    exact le_trans hbx hby
  · unfold roundF32
    rw [heq]
    have hr := roundEven_mono (div_le_div_of_nonneg_right h (ulp_pos y).le)
    have hr2 : ((roundEven (x / 2 ^ ulpExponent y) : ℤ) : ℚ)
        ≤ ((roundEven (y / 2 ^ ulpExponent y) : ℤ) : ℚ) := by exact_mod_cast hr
    exact mul_le_mul_of_nonneg_right hr2 (ulp_pos y).le

/-- The rounding to binary32 keeps the sign. -/
theorem roundF32_nonneg {x : ℚ} (hx : 0 ≤ x) : 0 ≤ roundF32 x := by
  unfold roundF32
  have h0 : (0 : ℚ) ≤ x / 2 ^ ulpExponent x := div_nonneg hx (ulp_pos x).le
  have h1 : (0 : ℤ) ≤ roundEven (x / 2 ^ ulpExponent x) := by
    have := roundEven_mono h0
    rwa [show roundEven (0 : ℚ) = 0 from by simpa using roundEven_intCast 0] at this
  have h2 : (0 : ℚ) ≤ (roundEven (x / 2 ^ ulpExponent x) : ℚ) := by exact_mod_cast h1
  exact mul_nonneg h2 (ulp_pos x).le

/-- The rounding to binary32 is monotone. -/
theorem roundF32_mono {x y : ℚ} (h : x ≤ y) : roundF32 x ≤ roundF32 y := by
  rcases lt_trichotomy 0 x with hx | hx | hx
  · exact roundF32_mono_pos hx h
  · rw [← hx, roundF32_zero]
    exact roundF32_nonneg (hx ▸ h)
  · rcases le_or_lt 0 y with hy | hy
    · have h1 : roundF32 x ≤ 0 := by
        have := roundF32_nonneg (show (0 : ℚ) ≤ -x by linarith)
        rw [roundF32_neg] at this
        linarith
      exact le_trans h1 (roundF32_nonneg hy)
    · have := roundF32_mono_pos (show (0 : ℚ) < -y by linarith) (show -y ≤ -x by linarith)
      rw [roundF32_neg, roundF32_neg] at this
      linarith

/-- A number with at most 24 significant bits above the place `2^-149` is a
binary32 number: it is rounded to itself. -/
theorem roundF32_dyadic (m : ℤ) (k : ℕ) (hm : |m| < 2 ^ 24) (hk : k ≤ 149) :
    roundF32 ((m : ℚ) / 2 ^ k) = (m : ℚ) / 2 ^ k := by
  by_cases h0 : m = 0
  · subst h0
    simp [roundF32_zero]
  · have hpos : (0 : ℚ) < |(m : ℚ) / 2 ^ k| := by
      rw [abs_pos]
      exact div_ne_zero (by exact_mod_cast h0) (by positivity)
    have hlt : |(m : ℚ) / 2 ^ k| < ((2 : ℕ) : ℚ) ^ ((24 : ℤ) - k) := by
      rw [abs_div, abs_of_pos (by positivity : (0 : ℚ) < 2 ^ k), div_lt_iff₀ (by positivity)]
      have h1 : |(m : ℚ)| < 2 ^ 24 := by exact_mod_cast hm
      have h2 : ((2 : ℕ) : ℚ) ^ ((24 : ℤ) - k) * 2 ^ k = 2 ^ 24 := by
        rw [zpow_sub₀ (by norm_num), zpow_natCast]
        norm_num
      rw [h2]
      exact h1
    have hlog : Int.log 2 |(m : ℚ) / 2 ^ k| < 24 - k :=
      (Int.lt_zpow_iff_log_lt (by norm_num) hpos).1 hlt
    have he : ulpExponent ((m : ℚ) / 2 ^ k) ≤ -(k : ℤ) := by
      rw [ulpExponent_eq _ (abs_pos.1 hpos)]
      exact max_le (by omega) (by omega)
    apply roundF32_of_multiple _ (m * 2 ^ (-(k : ℤ) - ulpExponent ((m : ℚ) / 2 ^ k)).toNat)
    have hn : (0 : ℤ) ≤ -(k : ℤ) - ulpExponent ((m : ℚ) / 2 ^ k) := by omega
    have hz : (2 : ℚ) ^ (-(k : ℤ) - ulpExponent ((m : ℚ) / 2 ^ k)).toNat
        = (2 : ℚ) ^ (-(k : ℤ) - ulpExponent ((m : ℚ) / 2 ^ k)) := by
      rw [← zpow_natCast (2 : ℚ), Int.toNat_of_nonneg hn]
    have hs : -(k : ℤ) - ulpExponent ((m : ℚ) / 2 ^ k) + ulpExponent ((m : ℚ) / 2 ^ k)
        = -(k : ℤ) := by omega
    push_cast
    rw [hz, mul_assoc, ← zpow_add₀ (by norm_num : (2 : ℚ) ≠ 0), hs, zpow_neg, zpow_natCast,
      div_eq_mul_inv]

/-- The rounding to binary32 of a number below `2^(E+1)` moves it by at most
half a unit in the last place, `2^(E-24)`. -/
theorem roundF32_error (x : ℚ) (E : ℤ) (hE : -126 ≤ E) (hx : |x| < 2 ^ (E + 1)) :
    |roundF32 x - x| ≤ 2 ^ (E - 24) := by
  have h4 : (0 : ℚ) < 2 ^ (E - 24) := zpow_pos (by norm_num) _
  by_cases h0 : x = 0
  · subst h0
    rw [roundF32_zero, sub_zero, abs_zero]
    exact h4.le
  have he : ulpExponent x ≤ E - 23 := by
    rw [ulpExponent_eq x h0]
    refine max_le ?_ (by omega)
    have hpos : (0 : ℚ) < |x| := abs_pos.2 h0
    have h1 : |x| < ((2 : ℕ) : ℚ) ^ (E + 1) := by simpa using hx
    have := (Int.lt_zpow_iff_log_lt (by norm_num) hpos).1 h1
    omega
  have hr := roundEven_error (x / 2 ^ ulpExponent x)
  have hu := ulp_pos x
  have e1 : roundF32 x - x
      = ((roundEven (x / 2 ^ ulpExponent x) : ℚ) - x / 2 ^ ulpExponent x) * 2 ^ ulpExponent x := by
    unfold roundF32
    rw [sub_mul, div_mul_cancel₀ _ hu.ne']
  rw [e1, abs_mul, abs_of_pos hu]
  have h2 : (2 : ℚ) ^ ulpExponent x ≤ 2 ^ (E - 23) := zpow_le_zpow_right₀ (by norm_num) he
  have h3 : (2 : ℚ) ^ (E - 23) = 2 * 2 ^ (E - 24) := by
    rw [show E - 23 = 1 + (E - 24) by omega, zpow_add₀ (by norm_num : (2 : ℚ) ≠ 0)]
    norm_num
  calc |(roundEven (x / 2 ^ ulpExponent x) : ℚ) - x / 2 ^ ulpExponent x| * 2 ^ ulpExponent x
      ≤ 1 / 2 * 2 ^ ulpExponent x := mul_le_mul_of_nonneg_right hr hu.le
    _ ≤ 1 / 2 * (2 * 2 ^ (E - 24)) := by rw [← h3]; linarith
    _ = 2 ^ (E - 24) := by ring

/-- A number on a grid of at most 24 bits is a binary32 number. -/
theorem onGrid_exact {k N : ℕ} {q : ℚ} (h : onGrid k N q) (hN : N < 2 ^ 24) (hk : k ≤ 149) :
    roundF32 q = q := by
  obtain ⟨m, hm, rfl⟩ := h
  exact roundF32_dyadic m k (by
    have : (N : ℤ) < 2 ^ 24 := by exact_mod_cast hN
    omega) hk

/-- A grid contains the coarser grids of smaller bound. -/
theorem onGrid_mono {k N M : ℕ} {q : ℚ} (h : onGrid k N q) (hNM : N ≤ M) : onGrid k M q := by
  obtain ⟨m, hm, rfl⟩ := h
  exact ⟨m, by omega, rfl⟩

/-- The difference of two numbers of one grid. -/
theorem onGrid_sub {k N M : ℕ} {a b : ℚ} (ha : onGrid k N a) (hb : onGrid k M b) :
    onGrid k (N + M) (a - b) := by
  obtain ⟨m, hm, rfl⟩ := ha
  obtain ⟨n, hn, rfl⟩ := hb
  refine ⟨m - n, ?_, by push_cast; ring⟩
  have := abs_sub m n
  push_cast
  omega

/-- The sum of two numbers of one grid. -/
theorem onGrid_add {k N M : ℕ} {a b : ℚ} (ha : onGrid k N a) (hb : onGrid k M b) :
    onGrid k (N + M) (a + b) := by
  obtain ⟨m, hm, rfl⟩ := ha
  obtain ⟨n, hn, rfl⟩ := hb
  refine ⟨m + n, ?_, by push_cast; ring⟩
  have := abs_add m n
  push_cast
  omega

/-- The product of two numbers on grids. -/
theorem onGrid_mul {k j N M : ℕ} {a b : ℚ} (ha : onGrid k N a) (hb : onGrid j M b) :
    onGrid (k + j) (N * M) (a * b) := by
  obtain ⟨m, hm, rfl⟩ := ha
  obtain ⟨n, hn, rfl⟩ := hb
  refine ⟨m * n, ?_, by push_cast; rw [pow_add]; field_simp⟩
  rw [abs_mul]
  push_cast
  exact mul_le_mul hm hn (abs_nonneg _) (by omega)

/-- The negative of a number of a grid. -/
theorem onGrid_neg {k N : ℕ} {a : ℚ} (ha : onGrid k N a) : onGrid k N (-a) := by
  obtain ⟨m, hm, rfl⟩ := ha
  exact ⟨-m, by rw [abs_neg]; exact hm, by push_cast; ring⟩

/-- A natural number is on the grid of the integers. -/
theorem onGrid_natCast (n N : ℕ) (h : n ≤ N) : onGrid 0 N (n : ℚ) :=
  ⟨n, by rw [abs_of_nonneg (by omega)]; exact_mod_cast h, by simp⟩

/-- The centre of the pixel column or row `n`. -/
theorem onGrid_centre (n N : ℕ) (h : n ≤ N) : onGrid 1 (2 * N + 1) (1 / 2 + (n : ℚ)) :=
  ⟨2 * n + 1, by rw [abs_of_nonneg (by omega)]; push_cast; omega, by push_cast; ring⟩

/-! ## Memory lemmas -/

/-- A write keeps the size of the memory. -/
theorem writeCells_length {α : Type} {mem src m1 : List α} {off : Nat}
    (h : writeCells mem off src = some m1) : m1.length = mem.length := by
  unfold writeCells at h
  split at h
  · cases h
    simp
    omega
  · cases h

/-- The cells of a memory after a write. -/
theorem writeCells_getElem? {α : Type} {mem src m1 : List α} {off : Nat}
    (h : writeCells mem off src = some m1) (i : Nat) :
    m1[i]? = if off ≤ i ∧ i < off + src.length then src[i - off]? else mem[i]? := by
  unfold writeCells at h
  split at h
  · cases h
    rename_i hle
    by_cases h1 : i < off
    · rw [List.append_assoc, List.getElem?_append_left (by simp; omega)]
      have : ¬ (off ≤ i ∧ i < off + src.length) := by omega
      simp [List.getElem?_take, h1, this]
    · by_cases h2 : i < off + src.length
      · rw [List.append_assoc, List.getElem?_append_right (by simp; omega)]
        rw [List.getElem?_append_left (by simp; omega)]
        have e : (List.take off mem).length = off := by simp; omega
        simp [h2, Nat.le_of_not_lt h1, e]
      · rw [List.getElem?_append_right (by simp; omega)]
        have : ¬ (off ≤ i ∧ i < off + src.length) := by omega
        have e : (List.take off mem ++ src).length = off + src.length := by simp; omega
        simp only [this, if_false, e, List.getElem?_drop]
        congr 1
        omega
  · cases h

/-- A write inside the memory is defined. -/
theorem writeCells_isSome {α : Type} (mem src : List α) (off : Nat)
    (h : off + src.length ≤ mem.length) : ∃ m1, writeCells mem off src = some m1 := by
  unfold writeCells
  simp [h]

/-! ## C1: `clear` -/

/-- The loop of `clear` over the first `n` pixels is defined when the planes
hold `n` pixels; it writes the colour bytes and the depth of every pixel below
`n` and nothing else. -/
theorem clearLoop_spec (cb : List (Cell Byte)) (dep : ℚ) (hcb : cb.length = 4)
    (col : List (Cell Byte)) (dpt : List (Cell ℚ)) :
    ∀ n, 4 * n ≤ col.length → n ≤ dpt.length →
      ∃ c1 d1, clearLoop cb dep n (col, dpt) = some (c1, d1) ∧
        c1.length = col.length ∧ d1.length = dpt.length ∧
        (∀ i, c1[i]? = if i < 4 * n then cb[i % 4]? else (col[i]?)) ∧
        (∀ i, d1[i]? = if i < n then some (some dep) else (dpt[i]?)) := by
  intro n
  induction n with
  | zero =>
      intro _ _
      exact ⟨col, dpt, rfl, rfl, rfl, by simp, by simp⟩
  | succ n ih =>
      intro hc hd
      obtain ⟨c1, d1, hrun, hlc, hld, hcs, hds⟩ := ih (by omega) (by omega)
      obtain ⟨c2, hc2⟩ := writeCells_isSome c1 cb (4 * n) (by omega)
      obtain ⟨d2, hd2⟩ := writeCells_isSome d1 [some dep] n (by simp; omega)
      refine ⟨c2, d2, ?_, ?_, ?_, ?_, ?_⟩
      · simp [clearLoop, hrun, hc2, hd2]
      · rw [writeCells_length hc2, hlc]
      · rw [writeCells_length hd2, hld]
      · intro i
        rw [writeCells_getElem? hc2 i, hcs i, hcb]
        by_cases h1 : 4 * n ≤ i ∧ i < 4 * n + 4
        · have e : i - 4 * n = i % 4 := by omega
          have h2 : i < 4 * (n + 1) := by omega
          simp [h1, h2, e]
        · by_cases h2 : i < 4 * n
          · have h3 : i < 4 * (n + 1) := by omega
            simp [h1, h2, h3]
          · have h3 : ¬ i < 4 * (n + 1) := by omega
            simp [h1, h2, h3]
      · intro i
        rw [writeCells_getElem? hd2 i, hds i]
        by_cases h1 : n ≤ i ∧ i < n + 1
        · have e : i - n = 0 := by omega
          have h2 : i < n + 1 := by omega
          simp [h1, h2, e]
        · by_cases h2 : i < n
          · have h3 : i < n + 1 := by omega
            simp [h1, h2, h3]
          · have h3 : ¬ i < n + 1 := by omega
            simp [h1, h2, h3]

/-- C1 (amended): in a device state whose framebuffer has width `w` and height
`h` with `w * h < 2^32`, and whose planes hold `w * h` pixels, `clear r g b a`
is defined and afterwards every pixel index `p < w * h` holds the colour bytes
`convertColor r, convertColor g, convertColor b, convertColor a` and the depth
`1.1`. -/
theorem clear_spec (g : GPU) (w h : Nat) (col : List (Cell Byte)) (dpt : List (Cell ℚ))
    (r gg b a : ℚ)
    (hc : g.FB.colorB = some col) (hd : g.FB.depthB = some dpt)
    (hw : g.FB.width = w) (hh : g.FB.height = h)
    (hcl : 4 * (w * h) ≤ col.length) (hdl : w * h ≤ dpt.length) (hno : w * h < 2 ^ 32) :
    ∃ g1 c1 d1, clear g r gg b a = some g1 ∧
      g1.FB.colorB = some c1 ∧ g1.FB.depthB = some d1 ∧
      ∀ p, p < w * h →
        c1[4 * p]? = some (some (convertColor r)) ∧
        c1[4 * p + 1]? = some (some (convertColor gg)) ∧
        c1[4 * p + 2]? = some (some (convertColor b)) ∧
        c1[4 * p + 3]? = some (some (convertColor a)) ∧
        d1[p]? = some (some (11 / 10)) := by
  have hmax : (g.FB.height * g.FB.width) % 2 ^ 32 = w * h := by
    rw [hw, hh, Nat.mul_comm, Nat.mod_eq_of_lt hno]
  obtain ⟨c1, d1, hrun, _, _, hcs, hds⟩ :=
    clearLoop_spec [some (convertColor r), some (convertColor gg), some (convertColor b),
      some (convertColor a)] (11 / 10) rfl col dpt (w * h) hcl hdl
  refine ⟨{ g with FB := { g.FB with colorB := some c1, depthB := some d1 } }, c1, d1,
    ?_, rfl, rfl, ?_⟩
  · simp only [clear, hc, hd, hmax, hrun, Option.map_some']
  · intro p hp
    have e0 : (4 * p) % 4 = 0 := by omega
    have e1 : (4 * p + 1) % 4 = 1 := by omega
    have e2 : (4 * p + 2) % 4 = 2 := by omega
    have e3 : (4 * p + 3) % 4 = 3 := by omega
    have l0 : 4 * p < 4 * (w * h) := by omega
    have l1 : 4 * p + 1 < 4 * (w * h) := by omega
    have l2 : 4 * p + 2 < 4 * (w * h) := by omega
    have l3 : 4 * p + 3 < 4 * (w * h) := by omega
    refine ⟨?_, ?_, ?_, ?_, ?_⟩
    · rw [hcs, if_pos l0, e0]; rfl
    · rw [hcs, if_pos l1, e1]; rfl
    · rw [hcs, if_pos l2, e2]; rfl
    · rw [hcs, if_pos l3, e3]; rfl
    · rw [hds, if_pos hp]

/-- The planes that `createFramebuffer` and `resizeFramebuffer` allocate hold
`w * h` pixels when the 32-bit size `4 * w * h + 3` does not wrap. -/
theorem newFramebuffer_planes (w h : Nat) (hsz : 4 * w * h + 3 < 2 ^ 32) :
    ∃ col dpt, (newFramebuffer w h).colorB = some col ∧ (newFramebuffer w h).depthB = some dpt ∧
      (newFramebuffer w h).width = w ∧ (newFramebuffer w h).height = h ∧
      4 * (w * h) ≤ col.length ∧ w * h ≤ dpt.length ∧ w * h < 2 ^ 32 := by
  have e : 4 * w * h = 4 * (w * h) := Nat.mul_assoc 4 w h
  refine ⟨_, _, rfl, rfl, rfl, rfl, ?_, ?_, ?_⟩
  · rw [List.length_replicate, Nat.mod_eq_of_lt hsz]
    omega
  · rw [List.length_replicate, Nat.mod_eq_of_lt hsz]
    omega
  · omega

/-- Witness of C1: a 4×4 framebuffer, `clear(1,0,0,1)` gives 16 pixels
`(255,0,0,255)` and 16 depths `1.1`. -/
theorem clear_spec_witness :
    ∃ g1 c1 d1, clear (createFramebuffer (GPU.new exampleEmptyID) 4 4) 1 0 0 1 = some g1 ∧
      g1.FB.colorB = some c1 ∧ g1.FB.depthB = some d1 ∧
      ∀ p, p < 4 * 4 →
        c1[4 * p]? = some (some 255) ∧ c1[4 * p + 1]? = some (some 0) ∧
        c1[4 * p + 2]? = some (some 0) ∧ c1[4 * p + 3]? = some (some 255) ∧
        d1[p]? = some (some (11 / 10)) := by
  have h := clear_spec (createFramebuffer (GPU.new exampleEmptyID) 4 4) 4 4
    (List.replicate (8 * 67) none) (List.replicate (2 * 67) none) 1 0 0 1
    rfl rfl rfl rfl (by rw [List.length_replicate]; norm_num)
    (by rw [List.length_replicate]; norm_num) (by norm_num)
  have e1 : convertColor 1 = 255 := by simp [convertColor]
  have e0 : convertColor 0 = 0 := by simp [convertColor]
  rw [e1, e0] at h
  exact h

/-- C1 (counterexample): after `createFramebuffer(65536, 65536)` the 32-bit
product `height * width` is 0, so `clear(1,0,0,1)` writes no pixel: the
framebuffer has width and height 65536 and the red byte of pixel 0 is still
indeterminate. -/
theorem clear_counterexample :
    ∃ g1 c1, clear (createFramebuffer (GPU.new exampleEmptyID) 65536 65536) 1 0 0 1 = some g1 ∧
      getFramebufferWidth g1 = 65536 ∧ getFramebufferHeight g1 = 65536 ∧
      g1.FB.colorB = some c1 ∧ 0 < 65536 * 65536 ∧
      c1[4 * 0]? ≠ some (some (convertColor 1)) := by
  refine ⟨createFramebuffer (GPU.new exampleEmptyID) 65536 65536,
    List.replicate (8 * 3) none, rfl, rfl, rfl, rfl, by norm_num, ?_⟩
  simp

/-! ## C2: buffer upload and download -/

/-- When `isBuffer` answers `true`. -/
theorem isBuffer_eq_true_iff (emptyID : Nat) (g : GPU) (id : Nat) :
    isBuffer emptyID g id = some true ↔
      id ≠ emptyID ∧ g.Buffer.bufferSize ≠ 0 ∧ id < g.Buffer.bufferSize ∧
      (∃ b, g.Buffer.bufferArray[id]? = some (Ptr.block b)) ∧
      containBufferBS g.BDeleted id = some false := by
  unfold isBuffer
  constructor
  · intro h
    split at h
    · cases h
    split at h
    · cases h
    rename_i h1 h2
    split at h
    · cases h
    · cases h
    · split at h <;> cases h
    · rename_i b hb
      split at h
      · cases h
      · rename_i h3
        refine ⟨h1, h2, by omega, ⟨b, hb⟩, ?_⟩
        cases hc : containBufferBS g.BDeleted id with
        | none => simp [hc] at h
        | some r => cases r <;> simp_all
  · rintro ⟨h1, h2, h3, ⟨b, hb⟩, h5⟩
    have h3' : ¬ id ≥ g.Buffer.bufferSize := by omega
    simp [h1, h2, hb, h3', h5]

/-- Reading a whole memory. -/
theorem readCells_all {α : Type} (l : List α) : readCells l 0 l.length = some l := by
  simp [readCells]

/-- Overwriting a whole memory. -/
theorem writeCells_all {α : Type} (dst src : List α) (h : dst.length = src.length) :
    writeCells dst 0 src = some src := by
  simp [writeCells, h]

/-- Reading back what was written. -/
theorem readCells_writeCells {α : Type} {mem src m1 : List α} {off : Nat}
    (h : writeCells mem off src = some m1) : readCells m1 off src.length = some src := by
  have hl := writeCells_length h
  unfold writeCells at h
  split at h
  · rename_i hle
    cases h
    unfold readCells
    rw [if_pos (by rw [hl]; exact hle)]
    congr 1
    have e : (List.take off mem).length = off := by simp; omega
    rw [List.append_assoc, List.drop_append_eq_append_drop, List.drop_of_length_le (by omega)]
    simp [e]
  · cases h

/-- C2: for a live buffer `id` whose block has the declared size `s`, an
offset `o` and a length `n` with `o + n ≤ s`, and `n` source bytes `src`:
`setBufferData id o n src` is defined and a following `getBufferData id o n`
into an `n`-byte destination yields exactly `src`. -/
theorem setBufferData_getBufferData (emptyID : Nat) (g : GPU) (id o n s : Nat)
    (b src dst : List (Cell Byte))
    (hlive : isBuffer emptyID g id = some true)
    (hslot : g.Buffer.bufferArray[id]? = some (Ptr.block b)) (hs : b.length = s)
    (hon : o + n ≤ s) (hsrc : src.length = n) (hdst : dst.length = n) :
    ∃ g1, setBufferData emptyID g id o n src = some g1 ∧
      getBufferData emptyID g1 id o n dst = some src := by
  obtain ⟨h1, h2, h3, _, h5⟩ := (isBuffer_eq_true_iff emptyID g id).1 hlive
  obtain ⟨b1, hb1⟩ := writeCells_isSome b src o (by omega)
  have hlen : id < g.Buffer.bufferArray.length := by
    by_contra hcon
    rw [List.getElem?_eq_none (by omega)] at hslot
    cases hslot
  have hrd : readCells src 0 n = some src := by rw [← hsrc]; exact readCells_all src
  refine ⟨{ g with Buffer := { g.Buffer with bufferArray := g.Buffer.bufferArray.set id (Ptr.block b1) } },
    ?_, ?_⟩
  · simp [setBufferData, hlive, hslot, hrd, hb1]
  · have hslot1 : (g.Buffer.bufferArray.set id (Ptr.block b1))[id]? = some (Ptr.block b1) := by
      simp [hlen]
    have hlive1 : isBuffer emptyID
        { g with Buffer := { g.Buffer with bufferArray := g.Buffer.bufferArray.set id (Ptr.block b1) } }
        id = some true :=
      (isBuffer_eq_true_iff emptyID _ id).2 ⟨h1, h2, h3, ⟨b1, hslot1⟩, h5⟩
    have hread : readCells b1 o n = some src := by rw [← hsrc]; exact readCells_writeCells hb1
    have h3' : ¬ id ≥ g.Buffer.bufferSize := by omega
    simp only [getBufferData, hlive1, getDataBS, h2, h3', hslot1, hread, false_or, if_false,
      Option.bind_some]
    exact writeCells_all dst src (by omega)

set_option maxRecDepth 100000 in
/-- Witness of C2: the 24-byte buffer holding the six floats `0,0,0,1,0,0`. -/
theorem setBufferData_getBufferData_witness :
    createBuffer (GPU.new exampleEmptyID) 24 = some (exampleBufferState, 0) ∧
    ∃ g1, setBufferData exampleEmptyID exampleBufferState 0 0 24 sixFloats = some g1 ∧
      getBufferData exampleEmptyID g1 0 0 24 (List.replicate 24 none) = some sixFloats :=
  ⟨rfl, setBufferData_getBufferData exampleEmptyID exampleBufferState 0 0 24 24
    (List.replicate 24 none) sixFloats (List.replicate 24 none) rfl rfl rfl (by decide) rfl rfl⟩

/-! ## C3: coverage of `rasterize` -/

/-- C3 (failing input): the triangle `halfPixelTriangle` lies inside a 5×5
framebuffer and the three edge functions that `edgeFunction` computes at the
centre `(0.5, 0.5)` of pixel `(0,0)` are all `≥ 0`, yet `rasterize` emits a
fragment for pixel `(1,1)` only: `getConvexCover` starts the box at
`floor(0.5 + 0.5) = 1`. -/
theorem rasterize_misses_covered_pixel :
    (∀ i : Fin 3, 0 ≤ (halfPixelTriangle i).gl_Position 0 ∧
      (halfPixelTriangle i).gl_Position 0 ≤ 4 ∧ 0 ≤ (halfPixelTriangle i).gl_Position 1 ∧
      (halfPixelTriangle i).gl_Position 1 ≤ 4) ∧
    (∀ i, (edgeFunction (halfPixelTriangle 0).gl_Position (halfPixelTriangle 1).gl_Position
      (halfPixelTriangle 2).gl_Position
      (getDeltas (halfPixelTriangle 0).gl_Position (halfPixelTriangle 1).gl_Position
        (halfPixelTriangle 2).gl_Position) (0 + 1 / 2) (0 + 1 / 2)).1 i ≥ 0) ∧
    getConvexCover (halfPixelTriangle 0).gl_Position (halfPixelTriangle 1).gl_Position
      (halfPixelTriangle 2).gl_Position = some (![1, 1], ![2, 2]) ∧
    (rasterize halfPixelTriangle (fun _ => AttributeType.EMPTY)).map fragmentCentres
      = some [(3 / 2, 3 / 2)] := by
  decide!

/-- `edgeFunction` keeps the deltas up to sign, and its normalised edges are all `≥ 0` exactly when the three raw edge functions have one sign. -/
theorem edgeFunction_upToSign (A B C : Vec4) (d : Fin 3 → Vec2) (x y : ℚ)
    (hd : DeltasUpToSign A B C d) :
    DeltasUpToSign A B C (edgeFunction A B C d x y).2 ∧
    (((edgeFunction A B C d x y).1 0 ≥ 0 ∧ (edgeFunction A B C d x y).1 1 ≥ 0 ∧
        (edgeFunction A B C d x y).1 2 ≥ 0) ↔
      ((rawEdges A B C x y 0 ≥ 0 ∧ rawEdges A B C x y 1 ≥ 0 ∧ rawEdges A B C x y 2 ≥ 0) ∨
       (rawEdges A B C x y 0 ≤ 0 ∧ rawEdges A B C x y 1 ≤ 0 ∧ rawEdges A B C x y 2 ≤ 0))) := by
  obtain ⟨s, hs, hd⟩ := hd
  have he : ∀ i : Fin 3, (x - (![A, B, C] : Fin 3 → Vec4) i 0) * d i 1
      - (y - (![A, B, C] : Fin 3 → Vec4) i 1) * d i 0 = s * rawEdges A B C x y i := by
    intro i
    rw [hd i 1, hd i 0]
    simp only [rawEdges]
    ring
  unfold edgeFunction
  dsimp only
  rw [he 0, he 1, he 2]
  split
  · rename_i hneg
    constructor
    · refine ⟨-s, ?_, ?_⟩
      · rcases hs with hs | hs <;> rw [hs] <;> simp
      · intro i k
        fin_cases k <;> simp [hd i] 
    · simp only [he]
      rcases hs with hs | hs <;> subst hs <;> constructor <;> intro h <;>
        first
        | (left; constructor <;> [skip; constructor] <;> linarith [h.1, h.2.1, h.2.2, hneg.1, hneg.2.1, hneg.2.2])
        | (right; constructor <;> [skip; constructor] <;> linarith [h.1, h.2.1, h.2.2, hneg.1, hneg.2.1, hneg.2.2])
        | (constructor <;> [skip; constructor] <;> linarith [hneg.1, hneg.2.1, hneg.2.2])
  · rename_i hneg
    constructor
    · exact ⟨s, hs, hd⟩
    · simp only [he]
      rcases hs with hs | hs <;> subst hs
      · constructor
        · intro h
          exact Or.inl ⟨by linarith [h.1], by linarith [h.2.1], by linarith [h.2.2]⟩
        · rintro (h | h)
          · exact ⟨by linarith [h.1], by linarith [h.2.1], by linarith [h.2.2]⟩
          · exact absurd ⟨by linarith [h.1], by linarith [h.2.1], by linarith [h.2.2]⟩ hneg
      · constructor
        · intro h
          exact Or.inr ⟨by linarith [h.1], by linarith [h.2.1], by linarith [h.2.2]⟩
        · rintro (h | h)
          · exact absurd ⟨by linarith [h.1], by linarith [h.2.1], by linarith [h.2.2]⟩ hneg
          · exact ⟨by linarith [h.1], by linarith [h.2.1], by linarith [h.2.2]⟩

/-- The deltas of `getDeltas` themselves. -/
theorem deltasUpToSign_getDeltas (A B C : Vec4) : DeltasUpToSign A B C (getDeltas A B C) :=
  ⟨1, Or.inl rfl, fun _ _ => (one_mul _).symm⟩

/-- The coverage test does not depend on the sign of the deltas that `rasterize` holds. -/
theorem covers_iff (ass : Assembly) (d : Fin 3 → Vec2) (x y : Nat)
    (hd : DeltasUpToSign (ass 0).gl_Position (ass 1).gl_Position (ass 2).gl_Position d) :
    covers ass x y = true ↔
      ((edgeFunction (ass 0).gl_Position (ass 1).gl_Position (ass 2).gl_Position d
          (1 / 2 + (x : ℚ)) (1 / 2 + (y : ℚ))).1 0 ≥ 0 ∧
       (edgeFunction (ass 0).gl_Position (ass 1).gl_Position (ass 2).gl_Position d
          (1 / 2 + (x : ℚ)) (1 / 2 + (y : ℚ))).1 1 ≥ 0 ∧
       (edgeFunction (ass 0).gl_Position (ass 1).gl_Position (ass 2).gl_Position d
          (1 / 2 + (x : ℚ)) (1 / 2 + (y : ℚ))).1 2 ≥ 0) := by
  unfold covers
  simp only [decide_eq_true_eq]
  rw [(edgeFunction_upToSign _ _ _ _ _ _ (deltasUpToSign_getDeltas _ _ _)).2,
    (edgeFunction_upToSign _ _ _ _ _ _ hd).2]

/-- One pixel of `rasterize` stores a fragment exactly when the pixel is covered. -/
theorem rasterizePixel_centres (ass : Assembly) (types : Fin maxAttributes → AttributeType)
    (h w : Nat) (st : RasterState)
    (hd : DeltasUpToSign (ass 0).gl_Position (ass 1).gl_Position (ass 2).gl_Position st.deltas) :
    DeltasUpToSign (ass 0).gl_Position (ass 1).gl_Position (ass 2).gl_Position
      (rasterizePixel ass types h w st).deltas ∧
    fragmentCentres (rasterizePixel ass types h w st).fragments =
      fragmentCentres st.fragments ++ (if covers ass w h then [pixelCentre w h] else []) := by
  have hup := edgeFunction_upToSign (ass 0).gl_Position (ass 1).gl_Position (ass 2).gl_Position
    st.deltas (1 / 2 + (w : ℚ)) (1 / 2 + (h : ℚ)) hd
  have hc := covers_iff ass st.deltas w h hd
  unfold rasterizePixel
  dsimp only
  split
  · rename_i hcov
    refine ⟨hup.1, ?_⟩
    rw [if_pos (hc.2 hcov)]
    simp [fragmentCentres, pixelCentre]
  · rename_i hcov
    refine ⟨hup.1, ?_⟩
    have : covers ass w h = false := by
      cases hcv : covers ass w h with
      | false => rfl
      | true => exact absurd (hc.1 hcv) hcov
    rw [this]
    simp

/-- The fragments stored in one row. -/
theorem rasterize_cols_centres (ass : Assembly) (types : Fin maxAttributes → AttributeType)
    (h : Nat) (cols : List Nat) :
    ∀ st : RasterState,
      DeltasUpToSign (ass 0).gl_Position (ass 1).gl_Position (ass 2).gl_Position st.deltas →
      DeltasUpToSign (ass 0).gl_Position (ass 1).gl_Position (ass 2).gl_Position
        (cols.foldl (fun st w => rasterizePixel ass types h w st) st).deltas ∧
      fragmentCentres (cols.foldl (fun st w => rasterizePixel ass types h w st) st).fragments =
        fragmentCentres st.fragments ++
          (cols.filter (fun w => covers ass w h)).map (fun w => pixelCentre w h) := by
  induction cols with
  | nil => intro st hd; exact ⟨hd, by simp⟩
  | cons w cols ih =>
      intro st hd
      obtain ⟨h1, h2⟩ := rasterizePixel_centres ass types h w st hd
      obtain ⟨h3, h4⟩ := ih _ h1
      refine ⟨h3, ?_⟩
      rw [List.foldl_cons, h4, h2, List.filter_cons]
      cases covers ass w h <;> simp

/-- The fragments stored in all rows. -/
theorem rasterize_rows_centres (ass : Assembly) (types : Fin maxAttributes → AttributeType)
    (cols rows : List Nat) :
    ∀ st : RasterState,
      DeltasUpToSign (ass 0).gl_Position (ass 1).gl_Position (ass 2).gl_Position st.deltas →
      DeltasUpToSign (ass 0).gl_Position (ass 1).gl_Position (ass 2).gl_Position
        (rows.foldl (fun st h => cols.foldl (fun st w => rasterizePixel ass types h w st) st)
          st).deltas ∧
      fragmentCentres (rows.foldl
          (fun st h => cols.foldl (fun st w => rasterizePixel ass types h w st) st) st).fragments =
        fragmentCentres st.fragments ++
          rows.flatMap (fun h => (cols.filter (fun w => covers ass w h)).map
            (fun w => pixelCentre w h)) := by
  induction rows with
  | nil => intro st hd; exact ⟨hd, by simp⟩
  | cons h rows ih =>
      intro st hd
      obtain ⟨h1, h2⟩ := rasterize_cols_centres ass types h cols st hd
      obtain ⟨h3, h4⟩ := ih _ h1
      refine ⟨h3, ?_⟩
      rw [List.foldl_cons, h4, h2, List.flatMap_cons, List.append_assoc]

/-- The fragments of `rasterize`, in order: the pixels of the box of
`getConvexCover`, row by row, that pass the coverage test. -/
theorem rasterize_centres (ass : Assembly) (types : Fin maxAttributes → AttributeType)
    (frags : List InFragment) (hr : rasterize ass types = some frags) :
    ∃ left_down right_top,
      getConvexCover (ass 0).gl_Position (ass 1).gl_Position (ass 2).gl_Position
        = some (left_down, right_top) ∧
      fragmentCentres frags =
        (List.range' (left_down 1) (right_top 1 + 1 - left_down 1)).flatMap (fun y =>
          ((List.range' (left_down 0) (right_top 0 + 1 - left_down 0)).filter
            (fun x => covers ass x y)).map (fun x => pixelCentre x y)) := by
  unfold rasterize at hr
  dsimp only at hr
  split at hr
  · cases hr
  · rename_i ld rt hcc
    cases hr
    refine ⟨ld, rt, hcc, ?_⟩
    have h0 := (edgeFunction_upToSign (ass 0).gl_Position (ass 1).gl_Position
      (ass 2).gl_Position _ (ld 0) (ld 1) (deltasUpToSign_getDeltas _ _ _)).1
    have hrows := (rasterize_rows_centres ass types
      (List.range' (ld 0) (rt 0 + 1 - ld 0)) (List.range' (ld 1) (rt 1 + 1 - ld 1))
      { deltas := _, frag := InFragment.uninit, fragments := [] } h0).2
    rw [hrows]
    simp [fragmentCentres]

/-! ## C4: perspective-correct interpolation -/

/-- The float `perspectiveCorrection` as one quotient of sums. -/
theorem perspectiveCorrection_eq (l h : Vec3) (a1 a2 a3 : ℚ) :
    perspectiveCorrection l h a1 a2 a3 =
      (l 0 * a1 / h 0 + l 1 * a2 / h 1 + l 2 * a3 / h 2) / (l 0 / h 0 + l 1 / h 1 + l 2 / h 2) := by
  simp [perspectiveCorrection, mul_comm]

/-- One pixel of `rasterize` stores no fragment or one that follows the law. -/
theorem rasterizePixel_fragments (ass : Assembly) (types : Fin maxAttributes → AttributeType)
    (h w : Nat) (st : RasterState) :
    (rasterizePixel ass types h w st).fragments = st.fragments ∨
    ∃ f, (rasterizePixel ass types h w st).fragments = st.fragments ++ [f] ∧
      FragmentInterpolated ass types w h f := by
  unfold rasterizePixel
  dsimp only
  split
  · right
    refine ⟨_, rfl, ?_, ?_, ?_⟩
    · simp [add_comm]
    · simp [add_comm]
    · intro i j _ hj vA vB vC hA hB hC
      simp only [interpolateAttribute, hj, if_true, hA, hB, hC, perspectiveCorrectionCell,
        perspectiveCorrection_eq, interpolationLaw]
      simp [add_comm]
  · left
    rfl

/-- The fragments stored while one row is traversed. -/
theorem rasterize_cols_fragments (ass : Assembly) (types : Fin maxAttributes → AttributeType)
    (h : Nat) (cols : List Nat) :
    ∀ (st : RasterState) (f : InFragment),
      f ∈ (cols.foldl (fun st w => rasterizePixel ass types h w st) st).fragments →
      f ∈ st.fragments ∨ ∃ x y, FragmentInterpolated ass types x y f := by
  induction cols with
  | nil => intro st f hf; exact Or.inl hf
  | cons w cols ih =>
      intro st f hf
      rw [List.foldl_cons] at hf
      rcases ih _ f hf with h1 | h1
      · rcases rasterizePixel_fragments ass types h w st with h2 | ⟨f1, h2, h3⟩
        · rw [h2] at h1; exact Or.inl h1
        · rw [h2, List.mem_append, List.mem_singleton] at h1
          rcases h1 with h1 | h1
          · exact Or.inl h1
          · exact Or.inr ⟨w, h, h1 ▸ h3⟩
      · exact Or.inr h1

/-- The fragments stored while the rows are traversed. -/
theorem rasterize_rows_fragments (ass : Assembly) (types : Fin maxAttributes → AttributeType)
    (cols rows : List Nat) :
    ∀ (st : RasterState) (f : InFragment),
      f ∈ (rows.foldl (fun st h => cols.foldl (fun st w => rasterizePixel ass types h w st) st)
        st).fragments →
      f ∈ st.fragments ∨ ∃ x y, FragmentInterpolated ass types x y f := by
  induction rows with
  | nil => intro st f hf; exact Or.inl hf
  | cons h rows ih =>
      intro st f hf
      rw [List.foldl_cons] at hf
      rcases ih _ f hf with h1 | h1
      · exact rasterize_cols_fragments ass types h cols st f h1
      · exact Or.inr h1

/-- C4: every fragment that `rasterize` emits belongs to a pixel `(x, y)`, and
for every varying slot whose type is not EMPTY each component of the emitted
attribute equals `(Σ λ_i·v_i/w_i) / (Σ λ_i/w_i)` of the three vertex values,
with the pixel's barycentric coordinates and the vertices' clip-space `w`. -/
theorem rasterize_interpolation (ass : Assembly) (types : Fin maxAttributes → AttributeType)
    (frags : List InFragment) (hr : rasterize ass types = some frags)
    (f : InFragment) (hf : f ∈ frags) :
    ∃ x y : Nat, f.gl_FragCoord 0 = (x : ℚ) + 1 / 2 ∧ f.gl_FragCoord 1 = (y : ℚ) + 1 / 2 ∧
      ∀ (i : Fin maxAttributes) (j : Fin 4), types i ≠ AttributeType.EMPTY →
        j.val < (types i).toNat →
        ∀ vA vB vC : ℚ, (ass 0).attributes i j = some vA → (ass 1).attributes i j = some vB →
          (ass 2).attributes i j = some vC →
          f.attributes i j = some (interpolationLaw ass x y vA vB vC) := by
  unfold rasterize at hr
  dsimp only at hr
  split at hr
  · cases hr
  · cases hr
    rcases rasterize_rows_fragments ass types _ _ _ f hf with h1 | h1
    · simp at h1
    · exact h1

/-- Witness of C4: `rasterize` emits 10 fragments for `perspectiveTriangle`, and
the law holds for one of them. -/
theorem rasterize_interpolation_witness :
    ∃ frags, rasterize perspectiveTriangle floatSlot0 = some frags ∧ frags.length = 10 ∧
      ∃ f ∈ frags, ∃ x y : Nat,
        f.gl_FragCoord 0 = (x : ℚ) + 1 / 2 ∧ f.gl_FragCoord 1 = (y : ℚ) + 1 / 2 ∧
        ∀ (i : Fin maxAttributes) (j : Fin 4), floatSlot0 i ≠ AttributeType.EMPTY →
          j.val < (floatSlot0 i).toNat →
          ∀ vA vB vC : ℚ, (perspectiveTriangle 0).attributes i j = some vA →
            (perspectiveTriangle 1).attributes i j = some vB →
            (perspectiveTriangle 2).attributes i j = some vC →
            f.attributes i j = some (interpolationLaw perspectiveTriangle x y vA vB vC) := by
  have hl : (rasterize perspectiveTriangle floatSlot0).map List.length = some 10 := by decide!
  cases hr : rasterize perspectiveTriangle floatSlot0 with
  | none => rw [hr] at hl; cases hl
  | some frags =>
      rw [hr] at hl
      have hl1 : frags.length = 10 := Option.some.inj hl
      obtain ⟨f, hf⟩ := List.exists_mem_of_length_pos (show 0 < frags.length by omega)
      exact ⟨frags, rfl, hl1, f, hf, rasterize_interpolation _ _ _ hr f hf⟩

/-! ## C5, C6: clipping of triangles entirely inside or outside -/

/-- C5: a triangle whose three vertices all satisfy `z ≥ -w` is returned by
`clipAssembly` as the single triangle equal to the input, whatever the
attribute types. -/
theorem clipAssembly_all_inside (as : Assembly) (types : Fin maxAttributes → AttributeType)
    (h : ∀ i, (as i).gl_Position 2 ≥ -(as i).gl_Position 3) :
    clipAssembly as types = [as] := by
  have h0 := h 0
  have h1 := h 1
  have h2 := h 2
  simp [clipAssembly, isOK, h0, h1, h2]

/-- C6: a triangle whose three vertices all satisfy `z < -w` is discarded by
`clipAssembly`. -/
theorem clipAssembly_all_outside (as : Assembly) (types : Fin maxAttributes → AttributeType)
    (h : ∀ i, (as i).gl_Position 2 < -(as i).gl_Position 3) :
    clipAssembly as types = [] := by
  have h0 := not_le.2 (h 0)
  have h1 := not_le.2 (h 1)
  have h2 := not_le.2 (h 2)
  simp [clipAssembly, isOK, h0, h1, h2]

/-- Witness of C5: the triangle `(0,0,0,1), (1,0,0,1), (0,1,0,1)`. -/
theorem clipAssembly_all_inside_witness :
    clipAssembly ![vertexAt ![0, 0, 0, 1], vertexAt ![1, 0, 0, 1], vertexAt ![0, 1, 0, 1]]
        (fun _ => AttributeType.EMPTY)
      = [![vertexAt ![0, 0, 0, 1], vertexAt ![1, 0, 0, 1], vertexAt ![0, 1, 0, 1]]] :=
  clipAssembly_all_inside _ _ (by
    intro i
    fin_cases i <;> simp [vertexAt])

/-- Witness of C6: the triangle `(0,0,-2,1), (1,0,-2,1), (0,1,-3,1)`. -/
theorem clipAssembly_all_outside_witness :
    clipAssembly ![vertexAt ![0, 0, -2, 1], vertexAt ![1, 0, -2, 1], vertexAt ![0, 1, -3, 1]]
        (fun _ => AttributeType.EMPTY) = [] :=
  clipAssembly_all_outside _ _ (by
    intro i
    fin_cases i <;> simp [vertexAt])

/-! ## Frame lemmas: what each call leaves unchanged -/

/-- Nothing changed. -/
theorem SameTables.refl (g : GPU) : SameTables g g := ⟨rfl, rfl, rfl, rfl, rfl, rfl⟩

/-- Framebuffer-only changes compose. -/
theorem SameTables.trans {g g1 g2 : GPU} (h1 : SameTables g g1) (h2 : SameTables g1 g2) :
    SameTables g g2 := by
  unfold SameTables at h1 h2 ⊢
  simp only [h2, h1, and_self]

/-- `putPixel` changes the framebuffer only. -/
theorem putPixel_sameTables {g g1 : GPU} {x y : Nat} {color : Vec4} {depth : ℚ}
    (h : putPixel g x y color depth = some g1) : SameTables g g1 := by
  unfold putPixel at h
  split at h
  · dsimp only at h
    split at h
    · cases h
    · split at h
      · cases h
        exact ⟨rfl, rfl, rfl, rfl, rfl, rfl⟩
      · cases h
  · cases h

/-- One fragment changes the framebuffer only. -/
theorem fragmentStep_sameTables {program : programSettingStructure} {st st1 : GPU × OutFragment}
    {f : InFragment} (h : fragmentStep program st f = some st1) : SameTables st.1 st1.1 := by
  unfold fragmentStep at h
  split at h
  · dsimp only at h
    cases hp : putPixel st.1 _ _ _ _ with
    | none => rw [hp] at h; cases h
    | some g1 =>
        rw [hp] at h
        cases h
        exact putPixel_sameTables hp
  · cases h

/-- The fragment loop changes the framebuffer only. -/
theorem fragmentLoop_sameTables (program : programSettingStructure) (fs : List InFragment) :
    ∀ (st st1 : GPU × OutFragment), fs.foldlM (fragmentStep program) st = some st1 →
      SameTables st.1 st1.1 := by
  induction fs with
  | nil =>
      intro st st1 h
      cases h
      exact SameTables.refl _
  | cons f fs ih =>
      intro st st1 h
      rw [List.foldlM_cons] at h
      cases hs : fragmentStep program st f with
      | none => rw [hs] at h; cases h
      | some st2 =>
          rw [hs] at h
          exact (fragmentStep_sameTables hs).trans (ih st2 st1 h)

/-- The draw pipeline changes the framebuffer only. -/
theorem drawPipeline_sameTables {g g1 : GPU} {puller : vertexPullerSettingStructure}
    {program : programSettingStructure} {n : Nat}
    (h : drawPipeline g puller program n = some g1) : SameTables g g1 := by
  unfold drawPipeline at h
  dsimp only at h
  split at h
  · cases h
  · split at h
    · cases h
    · rename_i frs _
      cases hf : List.foldlM (fragmentStep program) (g, { gl_FragColor := fun _ => 0 }) frs with
      | none => rw [hf] at h; cases h
      | some st1 =>
          rw [hf] at h
          cases h
          exact fragmentLoop_sameTables program _ _ _ hf

/-- `drawTriangles` changes the framebuffer only. -/
theorem drawTriangles_sameTables {emptyID : Nat} {g g1 : GPU} {n : Nat}
    (h : drawTriangles emptyID g n = some g1) : SameTables g g1 := by
  unfold drawTriangles at h
  repeat' split at h
  all_goals first
    | (cases h; exact SameTables.refl _)
    | exact drawPipeline_sameTables h
    | cases h

/-- `clear` changes the framebuffer only. -/
theorem clear_sameTables {g g1 : GPU} {r gg b a : ℚ}
    (h : clear g r gg b a = some g1) : SameTables g g1 := by
  unfold clear at h
  split at h
  · dsimp only at h
    cases hl : clearLoop _ _ _ _ with
    | none => rw [hl] at h; cases h
    | some pl =>
        rw [hl] at h
        cases h
        exact ⟨rfl, rfl, rfl, rfl, rfl, rfl⟩
  · cases h
    exact SameTables.refl _

/-- `resizeBS` does nothing on a table that is not full. -/
theorem resizeBS_of_ne {α : Type} (B : buffersStructure α) (h : B.bufferCapacity ≠ B.bufferSize) :
    resizeBS B = B := by
  simp [resizeBS, h]

/-- `resizeBS` keeps the element count. -/
theorem resizeBS_bufferSize {α : Type} (B : buffersStructure α) :
    (resizeBS B).bufferSize = B.bufferSize := by
  unfold resizeBS
  split <;> rfl

/-- `resizeBS` on a full table leaves indeterminate cells. -/
theorem resizeBS_getElem?_of_eq {α : Type} (B : buffersStructure α)
    (h : B.bufferCapacity = B.bufferSize) (i : Nat) (hi : i < B.bufferSize) :
    (resizeBS B).bufferArray[i]? = some Ptr.wild := by
  simp only [resizeBS, h, if_true]
  rw [List.getElem?_replicate]
  simp
  unfold BSRESIZE
  omega

/-- `deleteBufferBS` below the element count keeps null cells null. -/
theorem deleteBufferBS_null {α : Type} {B B1 : buffersStructure α} {index : Nat}
    (hi : index < B.bufferSize) (h : deleteBufferBS B index = some B1) (k : Nat)
    (hk : B.bufferArray[k]? = some Ptr.null) :
    B1.bufferArray[k]? = some Ptr.null ∧ B1.bufferSize = B.bufferSize := by
  unfold deleteBufferBS at h
  dsimp only at h
  rw [resizeBS_bufferSize] at h
  rw [if_neg (by omega)] at h
  by_cases hc : B.bufferCapacity = B.bufferSize
  · rw [resizeBS_getElem?_of_eq B hc index hi] at h
    cases h
  · rw [resizeBS_of_ne B hc] at h
    split at h
    · cases h; exact ⟨hk, rfl⟩
    · cases h
      refine ⟨?_, rfl⟩
      dsimp only
      rw [List.getElem?_set]
      split
      · have hlt : k < B.bufferArray.length := by
          by_contra hcon
          rw [List.getElem?_eq_none (by omega)] at hk
          cases hk
        simp
        omega
      · exact hk
    · cases h

/-- `deleteBuffer` keeps null cells null. -/
theorem deleteBuffer_null {emptyID : Nat} {g g1 : GPU} {buffer : Nat}
    (h : deleteBuffer emptyID g buffer = some g1) (k : Nat)
    (hk : g.Buffer.bufferArray[k]? = some Ptr.null) :
    g1.Buffer.bufferArray[k]? = some Ptr.null := by
  unfold deleteBuffer at h
  split at h
  · cases h
  · cases h; exact hk
  · rename_i hlive
    obtain ⟨_, _, h3, _, _⟩ := (isBuffer_eq_true_iff emptyID g buffer).1 hlive
    split at h
    · cases h
    · rename_i B hB
      cases hp : pushBS g.BDeleted buffer (some buffer) with
      | none => rw [hp] at h; cases h
      | some BD =>
          rw [hp] at h
          cases h
          exact (deleteBufferBS_null h3 hB k hk).1

/-- `setBufferData` keeps null cells null. -/
theorem setBufferData_null {emptyID : Nat} {g g1 : GPU} {buffer offset size : Nat}
    {data : List (Cell Byte)}
    (h : setBufferData emptyID g buffer offset size data = some g1) (k : Nat)
    (hk : g.Buffer.bufferArray[k]? = some Ptr.null) :
    g1.Buffer.bufferArray[k]? = some Ptr.null := by
  unfold setBufferData at h
  split at h
  · cases h
  · cases h; exact hk
  · split at h
    · rename_i b bytes hb _
      cases hw : writeCells b offset bytes with
      | none => rw [hw] at h; cases h
      | some b1 =>
          rw [hw] at h
          cases h
          dsimp only
          rw [List.getElem?_set]
          split
          · rename_i heq
            subst heq
            rw [hb] at hk
            cases hk
          · exact hk
    · cases h

/-- `createBuffer` changes the buffer tables only. -/
theorem createBuffer_frame {g g1 : GPU} {size id : Nat}
    (h : createBuffer g size = some (g1, id)) :
    g1.VP = g.VP ∧ g1.DVP = g.DVP ∧ g1.P = g.P ∧ g1.DP = g.DP ∧ g1.FB = g.FB := by
  unfold createBuffer at h
  split at h
  · simp only [Option.map_eq_some'] at h
    obtain ⟨B, _, heq⟩ := h
    cases heq
    exact ⟨rfl, rfl, rfl, rfl, rfl⟩
  · split at h
    · cases h
    · simp only [Option.map_eq_some'] at h
      obtain ⟨B, _, heq⟩ := h
      cases heq
      exact ⟨rfl, rfl, rfl, rfl, rfl⟩

/-- `createVertexPuller` changes the puller tables only. -/
theorem createVertexPuller_frame {emptyID : Nat} {g g1 : GPU} {id : Nat}
    (h : createVertexPuller emptyID g = some (g1, id)) :
    g1.Buffer = g.Buffer ∧ g1.BDeleted = g.BDeleted ∧ g1.P = g.P ∧ g1.DP = g.DP ∧
      g1.FB = g.FB := by
  unfold createVertexPuller at h
  dsimp only at h
  split at h
  · cases h
  · split at h
    · cases h
      exact ⟨rfl, rfl, rfl, rfl, rfl⟩
    · cases h

/-- `createProgram` changes the program tables only. -/
theorem createProgram_frame {g g1 : GPU} {id : Nat}
    (h : createProgram g = some (g1, id)) :
    g1.Buffer = g.Buffer ∧ g1.BDeleted = g.BDeleted ∧ g1.VP = g.VP ∧ g1.DVP = g.DVP ∧
      g1.FB = g.FB := by
  unfold createProgram at h
  dsimp only at h
  split at h
  · cases h
  · split at h
    · cases h
      exact ⟨rfl, rfl, rfl, rfl, rfl⟩
    · cases h

/-- A call changes the tables of its own family only. -/
theorem apply_frame (emptyID : Nat) (g g1 : GPU) (op : Op) (h : op.apply emptyID g = some g1) :
    (op.family ≠ Family.buffers → g1.Buffer = g.Buffer ∧ g1.BDeleted = g.BDeleted) ∧
    (op.family ≠ Family.pullers → g1.VP = g.VP ∧ g1.DVP = g.DVP) ∧
    (op.family ≠ Family.programs → g1.P = g.P ∧ g1.DP = g.DP) := by
  cases op <;> simp only [Op.apply, Op.family, ne_eq, not_true_eq_false, false_implies, true_and,
    and_true, reduceCtorEq, not_false_eq_true, true_implies] at h ⊢
  case createBuffer size =>
    simp only [Option.map_eq_some', Prod.exists] at h
    obtain ⟨g2, id, h2, rfl⟩ := h
    obtain ⟨a1, a2, a3, a4, _⟩ := createBuffer_frame h2
    exact ⟨⟨a1, a2⟩, ⟨a3, a4⟩⟩
  case createVertexPuller =>
    simp only [Option.map_eq_some', Prod.exists] at h
    obtain ⟨g2, id, h2, rfl⟩ := h
    obtain ⟨a1, a2, a3, a4, _⟩ := createVertexPuller_frame h2
    exact ⟨⟨a1, a2⟩, ⟨a3, a4⟩⟩
  case createProgram =>
    simp only [Option.map_eq_some', Prod.exists] at h
    obtain ⟨g2, id, h2, rfl⟩ := h
    obtain ⟨a1, a2, a3, a4, _⟩ := createProgram_frame h2
    exact ⟨⟨a1, a2⟩, ⟨a3, a4⟩⟩
  case clear r gg b a =>
    obtain ⟨a1, a2, a3, a4, a5, a6⟩ := clear_sameTables h
    exact ⟨⟨a1, a2⟩, ⟨a3, a4⟩, ⟨a5, a6⟩⟩
  case drawTriangles n =>
    obtain ⟨a1, a2, a3, a4, a5, a6⟩ := drawTriangles_sameTables h
    exact ⟨⟨a1, a2⟩, ⟨a3, a4⟩, ⟨a5, a6⟩⟩
  all_goals try simp only [IZG.createBuffer, IZG.deleteBuffer, IZG.setBufferData,
    IZG.getBufferData, IZG.createVertexPuller, IZG.deleteVertexPuller, IZG.setVertexPullerHead,
    IZG.setVertexPullerIndexing, IZG.enableVertexPullerHead, IZG.disableVertexPullerHead,
    IZG.bindVertexPuller, IZG.unbindVertexPuller, IZG.createProgram, IZG.deleteProgram,
    IZG.attachShaders, IZG.setVS2FSType, IZG.useProgram, IZG.programUniform1f,
    IZG.programUniform2f, IZG.programUniform3f, IZG.programUniform4f,
    IZG.programUniformMatrix4f, programUniform, modifyHead, modifyPuller, modifyProgram,
    IZG.createFramebuffer, IZG.deleteFramebuffer, IZG.resizeFramebuffer] at h
  all_goals repeat' split at h
  all_goals try simp only [Option.map_eq_some', Option.some.injEq, Prod.exists, reduceCtorEq,
    exists_false, false_and, and_false] at h
  all_goals try (obtain ⟨_, _, rfl⟩ := h)
  all_goals try (repeat' constructor)

/-- Nulling a cell keeps null cells null. -/
theorem set_null_keeps {α : Type} (l : List (Ptr α)) (i k : Nat)
    (hk : l[k]? = some Ptr.null) : (l.set i Ptr.null)[k]? = some Ptr.null := by
  rw [List.getElem?_set]
  split
  · have hlt : k < l.length := by
      by_contra hcon
      rw [List.getElem?_eq_none (by omega)] at hk
      cases hk
    simp
    omega
  · exact hk

/-- Replacing the block of a cell that owns one keeps null cells null. -/
theorem set_block_keeps {α : Type} (l : List (Ptr α)) (i k : Nat) (a b : α)
    (hi : l[i]? = some (Ptr.block a)) (hk : l[k]? = some Ptr.null) :
    (l.set i (Ptr.block b))[k]? = some Ptr.null := by
  rw [List.getElem?_set]
  split
  · rename_i heq
    subst heq
    rw [hi] at hk
    cases hk
  · exact hk

/-- No call but `createVertexPuller` revives a null puller cell. -/
theorem apply_keeps_null_puller (emptyID : Nat) (g g1 : GPU) (op : Op)
    (hop : Op.isCreate ResourceKind.vertexPuller op = false)
    (h : op.apply emptyID g = some g1) (k : Nat)
    (hk : g.VP.Pullers[k]? = some Ptr.null) : g1.VP.Pullers[k]? = some Ptr.null := by
  by_cases hf : op.family = Family.pullers
  · cases op <;> simp only [Op.family, reduceCtorEq] at hf
    all_goals simp only [Op.apply] at h
    all_goals try (simp only [Op.isCreate] at hop; cases hop; done)
    all_goals try simp only [IZG.deleteVertexPuller, IZG.setVertexPullerHead,
      IZG.setVertexPullerIndexing, IZG.enableVertexPullerHead, IZG.disableVertexPullerHead,
      IZG.bindVertexPuller, IZG.unbindVertexPuller, modifyHead, modifyPuller] at h
    all_goals repeat' split at h
    all_goals try simp only [Option.map_eq_some', Option.some.injEq, reduceCtorEq] at h
    all_goals try (obtain ⟨_, _, rfl⟩ := h)
    all_goals first
      | exact hk
      | exact set_null_keeps _ _ _ hk
      | exact set_block_keeps _ _ _ _ _ (by assumption) hk
  · rw [((apply_frame emptyID g g1 op h).2.1 hf).1]
    exact hk

/-- No call but `createProgram` revives a null program cell. -/
theorem apply_keeps_null_program (emptyID : Nat) (g g1 : GPU) (op : Op)
    (hop : Op.isCreate ResourceKind.program op = false)
    (h : op.apply emptyID g = some g1) (k : Nat)
    (hk : g.P.Programs[k]? = some Ptr.null) : g1.P.Programs[k]? = some Ptr.null := by
  by_cases hf : op.family = Family.programs
  · cases op <;> simp only [Op.family, reduceCtorEq] at hf
    all_goals simp only [Op.apply] at h
    all_goals try (simp only [Op.isCreate] at hop; cases hop; done)
    all_goals try simp only [IZG.deleteProgram, IZG.attachShaders, IZG.setVS2FSType,
      IZG.useProgram, IZG.programUniform1f, IZG.programUniform2f, IZG.programUniform3f,
      IZG.programUniform4f, IZG.programUniformMatrix4f, programUniform, modifyProgram] at h
    all_goals repeat' split at h
    all_goals try simp only [Option.map_eq_some', Option.some.injEq, reduceCtorEq] at h
    all_goals try (obtain ⟨_, _, rfl⟩ := h)
    all_goals first
      | exact hk
      | exact set_null_keeps _ _ _ hk
      | exact set_block_keeps _ _ _ _ _ (by assumption) hk
  · rw [((apply_frame emptyID g g1 op h).2.2 hf).1]
    exact hk

/-- No call but `createBuffer` revives a null buffer cell. -/
theorem apply_keeps_null_buffer (emptyID : Nat) (g g1 : GPU) (op : Op)
    (hop : Op.isCreate ResourceKind.buffer op = false)
    (h : op.apply emptyID g = some g1) (k : Nat)
    (hk : g.Buffer.bufferArray[k]? = some Ptr.null) :
    g1.Buffer.bufferArray[k]? = some Ptr.null := by
  by_cases hf : op.family = Family.buffers
  · cases op <;> simp only [Op.family, reduceCtorEq] at hf
    all_goals simp only [Op.apply] at h
    all_goals try (simp only [Op.isCreate] at hop; cases hop; done)
    · exact deleteBuffer_null h k hk
    · exact setBufferData_null h k hk
  · rw [((apply_frame emptyID g g1 op h).1 hf).1]
    exact hk

/-! ## C7: a deleted handle is not live -/

/-- A handle whose cell is null is not live. -/
theorem isX_of_slotNull (emptyID : Nat) (kind : ResourceKind) (g : GPU) (h : Nat)
    (hs : slotNull kind g h) : isX emptyID kind g h = some false := by
  cases kind
  · simp only [slotNull] at hs
    simp only [isX, isBuffer, hs]
    split
    · rfl
    · split <;> rfl
  · simp only [slotNull] at hs
    simp only [isX, isVertexPuller, hs]
    split
    · rfl
    · split <;> rfl
  · simp only [slotNull] at hs
    simp only [isX, isProgram, hs]
    split
    · rfl
    · split <;> rfl

/-- No call but `create_X` revives a null cell. -/
theorem apply_keeps_slotNull (emptyID : Nat) (kind : ResourceKind) (g g1 : GPU) (op : Op)
    (hop : Op.isCreate kind op = false) (h : op.apply emptyID g = some g1) (k : Nat)
    (hk : slotNull kind g k) : slotNull kind g1 k := by
  cases kind
  · exact apply_keeps_null_buffer emptyID g g1 op hop h k hk
  · exact apply_keeps_null_puller emptyID g g1 op hop h k hk
  · exact apply_keeps_null_program emptyID g g1 op hop h k hk

/-- No sequence of calls without `create_X` revives a null cell. -/
theorem run_keeps_slotNull (emptyID : Nat) (kind : ResourceKind) (k : Nat) (ops : List Op) :
    ∀ g g1, (∀ op ∈ ops, Op.isCreate kind op = false) → run emptyID ops g = some g1 →
      slotNull kind g k → slotNull kind g1 k := by
  induction ops with
  | nil =>
      intro g g1 _ h hk
      cases h
      exact hk
  | cons op ops ih =>
      intro g g1 hops h hk
      simp only [run] at h
      split at h
      · cases h
      · rename_i g2 h2
        exact ih g2 g1 (fun o ho => hops o (List.mem_cons_of_mem _ ho)) h
          (apply_keeps_slotNull emptyID kind g g2 op (hops op (List.mem_cons_self _ _)) h2 k hk)

/-- When `isVertexPuller` answers `true`. -/
theorem isVertexPuller_eq_true_iff (emptyID : Nat) (g : GPU) (id : Nat) :
    isVertexPuller emptyID g id = some true ↔
      id < g.VP.size ∧ id ≠ emptyID ∧ (∃ p, g.VP.Pullers[id]? = some (Ptr.block p)) ∧
      containBufferBS g.DVP id = some false := by
  unfold isVertexPuller
  constructor
  · intro h
    split at h
    · cases h
    split at h
    · cases h
    rename_i h1 h2
    split at h
    · cases h
    · rename_i p hp
      refine ⟨by omega, h2, ⟨p, hp⟩, ?_⟩
      cases hc : containBufferBS g.DVP id with
      | none => simp [hc] at h
      | some r => cases r <;> simp_all
    · cases h
  · rintro ⟨h1, h2, ⟨p, hp⟩, h4⟩
    have h1' : ¬ id ≥ g.VP.size := by omega
    simp [h1', h2, hp, h4]

/-- When `isProgram` answers `true`. -/
theorem isProgram_eq_true_iff (emptyID : Nat) (g : GPU) (id : Nat) :
    isProgram emptyID g id = some true ↔
      id < g.P.size ∧ id ≠ emptyID ∧ (∃ p, g.P.Programs[id]? = some (Ptr.block p)) ∧
      containBufferBS g.DP id = some false := by
  unfold isProgram
  constructor
  · intro h
    split at h
    · cases h
    split at h
    · cases h
    rename_i h1 h2
    split at h
    · cases h
    · rename_i p hp
      refine ⟨by omega, h2, ⟨p, hp⟩, ?_⟩
      cases hc : containBufferBS g.DP id with
      | none => simp [hc] at h
      | some r => cases r <;> simp_all
    · cases h
  · rintro ⟨h1, h2, ⟨p, hp⟩, h4⟩
    have h1' : ¬ id ≥ g.P.size := by omega
    simp [h1', h2, hp, h4]

/-- The cell that was just assigned. -/
theorem getElem?_set_self_of_some {α : Type} (l : List α) (i : Nat) (a b : α)
    (h : l[i]? = some a) : (l.set i b)[i]? = some b := by
  have hlt : i < l.length := by
    by_contra hcon
    rw [List.getElem?_eq_none (by omega)] at h
    cases h
  simp [hlt]

/-- `delete_X` of a live handle nulls its cell. -/
theorem deleteX_slotNull (emptyID : Nat) (kind : ResourceKind) (g g1 : GPU) (h : Nat)
    (hlive : isX emptyID kind g h = some true) (hdel : deleteX emptyID kind g h = some g1) :
    slotNull kind g1 h := by
  cases kind
  · simp only [isX] at hlive
    simp only [deleteX, deleteBuffer, hlive] at hdel
    obtain ⟨_, _, h3, ⟨b, hb⟩, _⟩ := (isBuffer_eq_true_iff emptyID g h).1 hlive
    split at hdel
    · cases hdel
    · rename_i B hB
      simp only [Option.map_eq_some'] at hdel
      obtain ⟨BD, _, rfl⟩ := hdel
      simp only [slotNull]
      unfold deleteBufferBS at hB
      dsimp only at hB
      rw [resizeBS_bufferSize, if_neg (by omega)] at hB
      by_cases hc : g.Buffer.bufferCapacity = g.Buffer.bufferSize
      · rw [resizeBS_getElem?_of_eq _ hc h h3] at hB
        cases hB
      · rw [resizeBS_of_ne _ hc, hb] at hB
        cases hB
        exact getElem?_set_self_of_some _ _ _ _ hb
  · simp only [isX] at hlive
    simp only [deleteX, deleteVertexPuller, hlive, Option.map_eq_some'] at hdel
    obtain ⟨_, _, ⟨p, hp⟩, _⟩ := (isVertexPuller_eq_true_iff emptyID g h).1 hlive
    obtain ⟨BD, _, rfl⟩ := hdel
    exact getElem?_set_self_of_some _ _ _ _ hp
  · simp only [isX] at hlive
    simp only [deleteX, deleteProgram, hlive, Option.map_eq_some'] at hdel
    obtain ⟨_, _, ⟨p, hp⟩, _⟩ := (isProgram_eq_true_iff emptyID g h).1 hlive
    obtain ⟨BD, _, rfl⟩ := hdel
    exact getElem?_set_self_of_some _ _ _ _ hp

/-- The search finds a value that was just pushed. -/
theorem containLoop_push {α : Type} [DecidableEq α] (v : α) :
    ∀ (n : Nat) (l : List (Ptr α)), containLoop v n l = some false → n < l.length →
      containLoop v (n + 1) (l.set n (Ptr.block v)) = some true := by
  intro n
  induction n with
  | zero =>
      intro l _ hl
      cases l with
      | nil => simp at hl
      | cons a l => simp [containLoop]
  | succ n ih =>
      intro l hc hl
      cases l with
      | nil => simp at hl
      | cons a l =>
          cases a with
          | wild => simp [containLoop] at hc
          | null => simp [containLoop] at hc
          | block w =>
              simp only [containLoop] at hc
              split at hc
              · cases hc
              · rename_i hne
                simp only [List.set_cons_succ, containLoop, hne, if_false]
                exact ih l hc (by simpa using hl)

/-- A failed search has compared every element. -/
theorem containLoop_of_containBufferBS {α : Type} [DecidableEq α] (B : buffersStructure α)
    (v : α) (h : containBufferBS B v = some false) :
    containLoop v B.bufferSize B.bufferArray = some false := by
  unfold containBufferBS at h
  split at h
  · rename_i h0
    rw [h0]
    cases B.bufferArray <;> rfl
  · exact h

/-- `pushBS` of an absent value into a table that is not full is defined. -/
theorem pushBS_defined {α : Type} [DecidableEq α] (B : buffersStructure α) (fresh v : α)
    (hnf : tableNotFull B) (hc : containBufferBS B v = some false) :
    ∃ B1, pushBS B fresh (some v) = some B1 := by
  obtain ⟨h1, h2⟩ := hnf
  have hpush := containLoop_push v B.bufferSize B.bufferArray
    (containLoop_of_containBufferBS B v hc) h2
  refine ⟨{ B with bufferArray := B.bufferArray.set B.bufferSize (Ptr.block v),
                   bufferSize := B.bufferSize + 1 }, ?_⟩
  simp only [pushBS, resizeBS_of_ne B h1, h2, if_true, containBufferBS, Nat.add_one_ne_zero,
    if_false, hpush, Option.map_some']

/-- `delete_X` of a live handle is defined when its tables are not full. -/
theorem deleteX_defined (emptyID : Nat) (kind : ResourceKind) (g : GPU) (h : Nat)
    (hlive : isX emptyID kind g h = some true) (hnf : tablesNotFull kind g) :
    ∃ g1, deleteX emptyID kind g h = some g1 := by
  cases kind
  · simp only [isX] at hlive
    obtain ⟨hcap, hnf⟩ := hnf
    obtain ⟨_, _, h3, ⟨b, hb⟩, h5⟩ := (isBuffer_eq_true_iff emptyID g h).1 hlive
    obtain ⟨BD, hBD⟩ := pushBS_defined g.BDeleted h h hnf h5
    have h3' : ¬ h ≥ g.Buffer.bufferSize := by omega
    simp [deleteX, deleteBuffer, hlive, deleteBufferBS, resizeBS_of_ne _ hcap, h3', hb, hBD]
  · simp only [isX] at hlive
    obtain ⟨_, _, _, h4⟩ := (isVertexPuller_eq_true_iff emptyID g h).1 hlive
    obtain ⟨BD, hBD⟩ := pushBS_defined g.DVP h h hnf h4
    simp [deleteX, deleteVertexPuller, hlive, hBD]
  · simp only [isX] at hlive
    obtain ⟨_, _, _, h4⟩ := (isProgram_eq_true_iff emptyID g h).1 hlive
    obtain ⟨BD, hBD⟩ := pushBS_defined g.DP h h hnf h4
    simp [deleteX, deleteProgram, hlive, hBD]

/-- While the tables have room the deletion works: for each resource kind and
every live handle `h`, `delete_X(h)` is defined when the tables it touches are
not full, and after a defined `delete_X(h)` the query `is_X(h)` is false and
stays false after every sequence of API calls that contains no `create_X` (and
runs without undefined behaviour). -/
theorem delete_then_not_live (emptyID : Nat) (kind : ResourceKind) (g : GPU) (h : Nat)
    (hlive : isX emptyID kind g h = some true) :
    (tablesNotFull kind g → ∃ g1, deleteX emptyID kind g h = some g1) ∧
    ∀ g1, deleteX emptyID kind g h = some g1 →
      isX emptyID kind g1 h = some false ∧
      ∀ (ops : List Op) (g2 : GPU), (∀ op ∈ ops, Op.isCreate kind op = false) →
        run emptyID ops g1 = some g2 → isX emptyID kind g2 h = some false := by
  refine ⟨deleteX_defined emptyID kind g h hlive, ?_⟩
  intro g1 hdel
  have hs := deleteX_slotNull emptyID kind g g1 h hlive hdel
  refine ⟨isX_of_slotNull emptyID kind g1 h hs, ?_⟩
  intro ops g2 hops hrun
  exact isX_of_slotNull emptyID kind g2 h
    (run_keeps_slotNull emptyID kind h ops g1 g2 hops hrun hs)

/-- Example: the live vertex puller 0 of `exampleDevice` is deleted. -/
theorem delete_then_not_live_witness :
    isX exampleEmptyID ResourceKind.vertexPuller exampleDevice 0 = some true ∧
    ∃ g1, deleteX exampleEmptyID ResourceKind.vertexPuller exampleDevice 0 = some g1 ∧
      isX exampleEmptyID ResourceKind.vertexPuller g1 0 = some false ∧
      ∀ (ops : List Op) (g2 : GPU),
        (∀ op ∈ ops, Op.isCreate ResourceKind.vertexPuller op = false) →
        run exampleEmptyID ops g1 = some g2 →
        isX exampleEmptyID ResourceKind.vertexPuller g2 0 = some false := by
  have hlive : isX exampleEmptyID ResourceKind.vertexPuller exampleDevice 0 = some true := by
    decide!
  have hnf : tablesNotFull ResourceKind.vertexPuller exampleDevice := by
    simp only [tablesNotFull, tableNotFull]
    decide!
  obtain ⟨hd, hrest⟩ :=
    delete_then_not_live exampleEmptyID ResourceKind.vertexPuller exampleDevice 0 hlive
  obtain ⟨g1, hg1⟩ := hd hnf
  exact ⟨hlive, g1, hg1, (hrest g1 hg1).1, (hrest g1 hg1).2⟩

set_option maxRecDepth 1000000 in
/-- C7 (failing input): after 150 successive `createBuffer(4)` calls on a new
device the buffer table is full (150 cells, size 150, capacity 150) and buffer
5 is live.  `deleteBuffer(5)` calls `deleteBufferBS`, whose `resizeBS` finds
the table full and installs the new, unfilled array; the cell of buffer 5 then
holds an indeterminate pointer, which is compared with `nullptr` and freed.
The call is undefined: it does not leave a state in which `isBuffer(5)` is
false. -/
theorem delete_at_full_table_undefined :
    (createBuffers (List.replicate 150 4) (GPU.new exampleEmptyID)).map
      (fun r => (r.1.Buffer.bufferArray.length, r.1.Buffer.bufferSize,
        r.1.Buffer.bufferCapacity)) = some (150, 150, 150) ∧
    (createBuffers (List.replicate 150 4) (GPU.new exampleEmptyID)).bind
      (fun r => isBuffer exampleEmptyID r.1 5) = some true ∧
    (createBuffers (List.replicate 150 4) (GPU.new exampleEmptyID)).bind
      (fun r => (resizeBS r.1.Buffer).bufferArray[5]?) = some Ptr.wild ∧
    (createBuffers (List.replicate 150 4) (GPU.new exampleEmptyID)).map
      (fun r => (deleteBuffer exampleEmptyID r.1 5).isNone) = some true := by
  refine ⟨by decide!, by decide!, by decide!, by decide!⟩

/-! ## C8: malformed draws -/

/-- The search is defined on an intact list. -/
theorem containLoop_isSome (v : Nat) :
    ∀ (n : Nat) (l : List (Ptr Nat)), (∀ i, i < n → ∃ w, l[i]? = some (Ptr.block w)) →
      ∃ r, containLoop v n l = some r := by
  intro n
  induction n with
  | zero => intro l _; exact ⟨false, by cases l <;> rfl⟩
  | succ n ih =>
      intro l hl
      obtain ⟨w, hw⟩ := hl 0 (by omega)
      cases l with
      | nil => simp at hw
      | cons a l =>
          simp only [List.getElem?_cons_zero, Option.some.injEq] at hw
          subst hw
          simp only [containLoop]
          split
          · exact ⟨true, rfl⟩
          · apply ih
            intro i hi
            have := hl (i + 1) (by omega)
            simpa using this

/-- `containBufferBS` is defined on an intact free list. -/
theorem containBufferBS_isSome (B : buffersStructure Nat) (v : Nat) (h : listIntact B) :
    ∃ r, containBufferBS B v = some r := by
  unfold containBufferBS
  split
  · exact ⟨false, rfl⟩
  · exact containLoop_isSome v _ _ h

/-- `isVertexPuller` is defined when the tables are intact. -/
theorem isVertexPuller_isSome (emptyID : Nat) (g : GPU) (vao : Nat) (h : tablesIntact g) :
    ∃ r, isVertexPuller emptyID g vao = some r := by
  obtain ⟨h1, h2, _, _⟩ := h
  unfold isVertexPuller
  split
  · exact ⟨false, rfl⟩
  split
  · exact ⟨false, rfl⟩
  rename_i hlt _
  rcases h1 vao (by omega) with hn | ⟨p, hp⟩
  · rw [hn]; exact ⟨false, rfl⟩
  · rw [hp]
    obtain ⟨r, hr⟩ := containBufferBS_isSome g.DVP vao h2
    exact ⟨!r, by simp [hr]⟩

/-- `isProgram` is defined when the tables are intact. -/
theorem isProgram_isSome (emptyID : Nat) (g : GPU) (prg : Nat) (h : tablesIntact g) :
    ∃ r, isProgram emptyID g prg = some r := by
  obtain ⟨_, _, h1, h2⟩ := h
  unfold isProgram
  split
  · exact ⟨false, rfl⟩
  split
  · exact ⟨false, rfl⟩
  rename_i hlt _
  rcases h1 prg (by omega) with hn | ⟨p, hp⟩
  · rw [hn]; exact ⟨false, rfl⟩
  · rw [hp]
    obtain ⟨r, hr⟩ := containBufferBS_isSome g.DP prg h2
    exact ⟨!r, by simp [hr]⟩

/-- C8: in a device state whose puller and program tables are intact (as they
are in every state reached through the API), if `n_vertices < 3`, or
`n_vertices` is not a multiple of 3, or the active puller is `emptyID` or not
live, or the active program is `emptyID` or not live, then
`drawTriangles(n_vertices)` returns the device state unchanged. -/
theorem drawTriangles_malformed (emptyID : Nat) (g : GPU) (n : Nat) (hi : tablesIntact g)
    (h : n < 3 ∨ n % 3 ≠ 0 ∨
      g.VP.active = emptyID ∨ isVertexPuller emptyID g g.VP.active = some false ∨
      g.P.active = emptyID ∨ isProgram emptyID g g.P.active = some false) :
    drawTriangles emptyID g n = some g := by
  unfold drawTriangles
  split
  · rfl
  split
  · rfl
  split
  · rfl
  split
  · rfl
  rename_i h1 h2 h3 h4
  obtain ⟨r, hr⟩ := isVertexPuller_isSome emptyID g g.VP.active hi
  cases r with
  | false => simp [hr]
  | true =>
      rcases h with h | h | h | h | h | h
      · exact absurd h h1
      · exact absurd h h2
      · exact absurd h h3
      · rw [hr] at h; cases h
      · exact absurd h h4
      · simp [hr, h]

/-- Storing null or a block keeps a table intact. -/
theorem cellsIntact_set {α : Type} (n : Nat) (l : List (Ptr α)) (i : Nat) (x : Ptr α)
    (hx : x = Ptr.null ∨ ∃ p, x = Ptr.block p) (h : cellsIntact n l) :
    cellsIntact n (l.set i x) := by
  intro k hk
  have hlk := h k hk
  have hlt : k < l.length := by
    by_contra hcon
    rw [List.getElem?_eq_none (by omega)] at hlk
    rcases hlk with h1 | ⟨_, h1⟩ <;> cases h1
  rw [List.getElem?_set]
  split
  · rename_i heq
    subst heq
    simp only [hlt, if_true]
    rcases hx with hx | ⟨p, hx⟩
    · exact Or.inl (by rw [hx])
    · exact Or.inr ⟨p, by rw [hx]⟩
  · exact hlk

/-- Appending a block keeps a table intact. -/
theorem cellsIntact_succ {α : Type} (n : Nat) (l : List (Ptr α)) (b : α)
    (hn : n < l.length) (h : cellsIntact n l) :
    cellsIntact (n + 1) (l.set n (Ptr.block b)) := by
  intro k hk
  by_cases hkn : k = n
  · subst hkn
    exact Or.inr ⟨b, by simp [hn]⟩
  · exact cellsIntact_set n l n _ (Or.inr ⟨b, rfl⟩) h k (by omega)

/-- A defined `pushBS` keeps a free list intact. -/
theorem pushBS_intact (B B1 : buffersStructure Nat) (fresh v : Nat)
    (h : pushBS B fresh (some v) = some B1) (hi : listIntact B) : listIntact B1 := by
  unfold pushBS at h
  dsimp only at h
  split at h
  · rename_i hlt
    simp only [Option.map_eq_some'] at h
    obtain ⟨r, hr, rfl⟩ := h
    by_cases hc : B.bufferCapacity = B.bufferSize
    · by_cases h0 : B.bufferSize = 0
      · intro i hi1
        simp only [resizeBS_bufferSize, h0] at hi1 ⊢
        have hi0 : i = 0 := by omega
        subst hi0
        refine ⟨v, ?_⟩
        rw [resizeBS_bufferSize, h0] at hlt
        simp [hlt]
      · exfalso
        have hw := resizeBS_getElem?_of_eq B hc 0 (by omega)
        simp only [containBufferBS, Nat.add_one_ne_zero, if_false] at hr
        have hlen : 0 < (resizeBS B).bufferArray.length := by omega
        have hset : ((resizeBS B).bufferArray.set (resizeBS B).bufferSize (Ptr.block v))[0]?
            = some Ptr.wild := by
          rw [List.getElem?_set_ne (by rw [resizeBS_bufferSize]; omega)]
          exact hw
        generalize ((resizeBS B).bufferArray.set (resizeBS B).bufferSize (Ptr.block v)) = l
          at hr hset
        cases l with
        | nil => simp at hset
        | cons a l =>
            simp only [List.getElem?_cons_zero, Option.some.injEq] at hset
            subst hset
            simp [containLoop] at hr
    · rw [resizeBS_of_ne B hc] at hlt ⊢
      intro i hi1
      dsimp only at hi1 ⊢
      by_cases hin : i = B.bufferSize
      · subst hin
        exact ⟨v, by simp [hlt]⟩
      · rw [List.getElem?_set_ne (by omega)]
        exact hi i (by omega)
  · cases h

/-- A defined `popBS` keeps a free list intact. -/
theorem popBS_intact (B B1 : buffersStructure Nat) (d id : Nat)
    (h : popBS B d = some (B1, id)) (hi : listIntact B) : listIntact B1 := by
  unfold popBS at h
  dsimp only at h
  rw [resizeBS_bufferSize] at h
  split at h
  · rename_i h0
    cases h
    intro i hi1
    rw [resizeBS_bufferSize, h0] at hi1
    omega
  · rename_i h0
    by_cases hc : B.bufferCapacity = B.bufferSize
    · rw [resizeBS_getElem?_of_eq B hc _ (by omega)] at h
      cases h
    · rw [resizeBS_of_ne B hc] at h
      split at h
      · cases h
        intro i hi1
        dsimp only at hi1 ⊢
        rw [List.getElem?_set_ne (by omega)]
        exact hi i (by omega)
      · cases h

/-- The reallocation of `resizeVP` keeps a table intact. -/
theorem take_append_intact {α : Type} (n m : Nat) (l : List (Ptr α)) (hn : n ≤ l.length)
    (h : cellsIntact n l) : cellsIntact n (l.take n ++ List.replicate m Ptr.wild) := by
  intro k hk
  rw [List.getElem?_append_left (by simp; omega), List.getElem?_take]
  simp only [hk, if_true]
  exact h k hk

/-- `createVertexPuller` keeps the puller tables intact. -/
theorem createVertexPuller_intact (emptyID : Nat) (g g1 : GPU) (id : Nat)
    (h : createVertexPuller emptyID g = some (g1, id))
    (hc : cellsIntact g.VP.size g.VP.Pullers) (hl : listIntact g.DVP) :
    cellsIntact g1.VP.size g1.VP.Pullers ∧ listIntact g1.DVP := by
  unfold createVertexPuller at h
  dsimp only at h
  split at h
  · cases h
  · rename_i VP1 DVP1 id1 hr
    split at h
    · rename_i hlt
      cases h
      dsimp only
      split at hr
      · simp only [Option.map_eq_some'] at hr
        obtain ⟨VP2, hVP2, heq⟩ := hr
        cases heq
        dsimp only at hlt ⊢
        refine ⟨?_, hl⟩
        unfold resizeVP at hVP2
        split at hVP2
        · cases hVP2
          exact cellsIntact_succ _ _ _ hlt hc
        · dsimp only at hVP2
          split at hVP2
          · rename_i hle
            cases hVP2
            dsimp only at hlt ⊢
            exact cellsIntact_succ _ _ _ hlt (take_append_intact _ _ _ hle.1 hc)
          · cases hVP2
      · simp only [Option.map_eq_some', Prod.exists] at hr
        obtain ⟨B1, id2, hpop, heq⟩ := hr
        cases heq
        exact ⟨cellsIntact_set _ _ _ _ (Or.inr ⟨_, rfl⟩) hc, popBS_intact _ _ _ _ hpop hl⟩
    · cases h

/-- `createProgram` keeps the program tables intact. -/
theorem createProgram_intact (g g1 : GPU) (id : Nat)
    (h : createProgram g = some (g1, id))
    (hc : cellsIntact g.P.size g.P.Programs) (hl : listIntact g.DP) :
    cellsIntact g1.P.size g1.P.Programs ∧ listIntact g1.DP := by
  unfold createProgram at h
  dsimp only at h
  split at h
  · cases h
  · rename_i P1 DP1 id1 hr
    split at h
    · rename_i hlt
      cases h
      dsimp only
      split at hr
      · simp only [Option.map_eq_some'] at hr
        obtain ⟨P2, hP2, heq⟩ := hr
        cases heq
        dsimp only at hlt ⊢
        refine ⟨?_, hl⟩
        unfold resizeP at hP2
        split at hP2
        · cases hP2
          exact cellsIntact_succ _ _ _ hlt hc
        · dsimp only at hP2
          split at hP2
          · rename_i hle
            cases hP2
            dsimp only at hlt ⊢
            exact cellsIntact_succ _ _ _ hlt (take_append_intact _ _ _ hle.1 hc)
          · cases hP2
      · simp only [Option.map_eq_some', Prod.exists] at hr
        obtain ⟨B1, id2, hpop, heq⟩ := hr
        cases heq
        exact ⟨cellsIntact_set _ _ _ _ (Or.inr ⟨_, rfl⟩) hc, popBS_intact _ _ _ _ hpop hl⟩
    · cases h

/-- Every puller call keeps the puller tables intact. -/
theorem pullerOp_intact (emptyID : Nat) (g g1 : GPU) (op : Op)
    (hf : op.family = Family.pullers) (h : op.apply emptyID g = some g1)
    (hc : cellsIntact g.VP.size g.VP.Pullers) (hl : listIntact g.DVP) :
    cellsIntact g1.VP.size g1.VP.Pullers ∧ listIntact g1.DVP := by
  cases op <;> simp only [Op.family, reduceCtorEq] at hf
  all_goals simp only [Op.apply] at h
  · simp only [Option.map_eq_some', Prod.exists] at h
    obtain ⟨g2, id, h2, rfl⟩ := h
    exact createVertexPuller_intact emptyID g g2 id h2 hc hl
  all_goals try simp only [IZG.deleteVertexPuller, IZG.setVertexPullerHead,
    IZG.setVertexPullerIndexing, IZG.enableVertexPullerHead, IZG.disableVertexPullerHead,
    IZG.bindVertexPuller, IZG.unbindVertexPuller, modifyHead, modifyPuller] at h
  all_goals repeat' split at h
  all_goals try simp only [Option.map_eq_some', Option.some.injEq, reduceCtorEq] at h
  all_goals try (obtain ⟨_, _, rfl⟩ := h)
  all_goals first
    | exact ⟨hc, hl⟩
    | exact ⟨cellsIntact_set _ _ _ _ (Or.inr ⟨_, rfl⟩) hc, hl⟩
    | exact ⟨cellsIntact_set _ _ _ _ (Or.inl rfl) hc, pushBS_intact _ _ _ _ (by assumption) hl⟩

/-- Every program call keeps the program tables intact. -/
theorem programOp_intact (emptyID : Nat) (g g1 : GPU) (op : Op)
    (hf : op.family = Family.programs) (h : op.apply emptyID g = some g1)
    (hc : cellsIntact g.P.size g.P.Programs) (hl : listIntact g.DP) :
    cellsIntact g1.P.size g1.P.Programs ∧ listIntact g1.DP := by
  cases op <;> simp only [Op.family, reduceCtorEq] at hf
  all_goals simp only [Op.apply] at h
  · simp only [Option.map_eq_some', Prod.exists] at h
    obtain ⟨g2, id, h2, rfl⟩ := h
    exact createProgram_intact g g2 id h2 hc hl
  all_goals try simp only [IZG.deleteProgram, IZG.attachShaders, IZG.setVS2FSType,
    IZG.useProgram, IZG.programUniform1f, IZG.programUniform2f, IZG.programUniform3f,
    IZG.programUniform4f, IZG.programUniformMatrix4f, programUniform, modifyProgram] at h
  all_goals repeat' split at h
  all_goals try simp only [Option.map_eq_some', Option.some.injEq, reduceCtorEq] at h
  all_goals try (obtain ⟨_, _, rfl⟩ := h)
  all_goals first
    | exact ⟨hc, hl⟩
    | exact ⟨cellsIntact_set _ _ _ _ (Or.inr ⟨_, rfl⟩) hc, hl⟩
    | exact ⟨cellsIntact_set _ _ _ _ (Or.inl rfl) hc, pushBS_intact _ _ _ _ (by assumption) hl⟩

/-- Every call keeps the tables intact. -/
theorem apply_keeps_intact (emptyID : Nat) (g g1 : GPU) (op : Op)
    (h : op.apply emptyID g = some g1) (hi : tablesIntact g) : tablesIntact g1 := by
  obtain ⟨hv, hdv, hp, hdp⟩ := hi
  have hfr := apply_frame emptyID g g1 op h
  by_cases hf1 : op.family = Family.pullers
  · have hf2 : op.family ≠ Family.programs := by rw [hf1]; decide
    obtain ⟨e1, e2⟩ := hfr.2.2 hf2
    obtain ⟨a1, a2⟩ := pullerOp_intact emptyID g g1 op hf1 h hv hdv
    exact ⟨a1, a2, by rw [e1]; exact hp, by rw [e2]; exact hdp⟩
  · obtain ⟨e1, e2⟩ := hfr.2.1 hf1
    by_cases hf2 : op.family = Family.programs
    · obtain ⟨a1, a2⟩ := programOp_intact emptyID g g1 op hf2 h hp hdp
      exact ⟨by rw [e1]; exact hv, by rw [e2]; exact hdv, a1, a2⟩
    · obtain ⟨e3, e4⟩ := hfr.2.2 hf2
      exact ⟨by rw [e1]; exact hv, by rw [e2]; exact hdv, by rw [e3]; exact hp,
        by rw [e4]; exact hdp⟩

/-- The tables of a new device are intact. -/
theorem new_intact (emptyID : Nat) : tablesIntact (GPU.new emptyID) := by
  refine ⟨?_, ?_, ?_, ?_⟩ <;> intro i hi <;> exact absurd hi (Nat.not_lt_zero i)

/-- Every sequence of calls keeps the tables intact. -/
theorem run_keeps_intact (emptyID : Nat) (ops : List Op) :
    ∀ g g1, run emptyID ops g = some g1 → tablesIntact g → tablesIntact g1 := by
  induction ops with
  | nil =>
      intro g g1 h hi
      cases h
      exact hi
  | cons op ops ih =>
      intro g g1 h hi
      simp only [run] at h
      split at h
      · cases h
      · rename_i g2 h2
        exact ih g2 g1 h (apply_keeps_intact emptyID g g2 op h2 hi)

/-- The tables are intact in every state reached through the API. -/
theorem reachable_intact (emptyID : Nat) (ops : List Op) (g : GPU)
    (h : run emptyID ops (GPU.new emptyID) = some g) : tablesIntact g :=
  run_keeps_intact emptyID ops _ g h (new_intact emptyID)

/-- Witness of C8: a draw of 3 vertices on a device with a bound puller and no
active program leaves the device unchanged. -/
theorem drawTriangles_malformed_witness :
    run exampleEmptyID noProgramSetup (GPU.new exampleEmptyID) = some noProgramDevice ∧
    noProgramDevice.P.active = exampleEmptyID ∧
    drawTriangles exampleEmptyID noProgramDevice 3 = some noProgramDevice := by
  have hs : (run exampleEmptyID noProgramSetup (GPU.new exampleEmptyID)).isSome = true := by
    decide!
  have hrun : run exampleEmptyID noProgramSetup (GPU.new exampleEmptyID)
      = some noProgramDevice := by
    unfold noProgramDevice
    cases hr : run exampleEmptyID noProgramSetup (GPU.new exampleEmptyID) with
    | none => rw [hr] at hs; cases hs
    | some g => rfl
  have ha : noProgramDevice.P.active = exampleEmptyID := by decide!
  exact ⟨hrun, ha, drawTriangles_malformed exampleEmptyID noProgramDevice 3
    (reachable_intact exampleEmptyID noProgramSetup noProgramDevice hrun)
    (Or.inr (Or.inr (Or.inr (Or.inr (Or.inl ha)))))⟩

/-! ## C9: write-back of a fragment -/

/-- C9 (failing input): in the 4×4 framebuffer of `exampleDevice` (cleared
to black, depth 1.1) the draw of one white triangle of depth 0 covers pixel
`(1,0)`, whose index is `pos = 0·4 + 1 = 1`.  After the draw the colour of
pixel 1 is white, but the depth plane at float index 1 still holds the cleared
`1.1`: `putPixel` has written the fragment's depth 0 at float index `4·pos = 4`. -/
theorem drawTriangles_depth_index :
    (run exampleEmptyID exampleSetup (GPU.new exampleEmptyID)).isSome = true ∧
    (drawTriangles exampleEmptyID exampleDevice 3).bind (fun g => pixelView g 1)
      = some ([some 255, some 255, some 255, some 255], some (some (11 / 10)), some (some 0)) := by
  decide!

/-! ## C10: calls on a dead handle -/

set_option maxRecDepth 100000 in
/-- C10 (failing input): on a device with one buffer (the table has 150 cells)
`isBuffer(2^60)` reads the cell `bufferArray[2^60]` before it compares the
handle with `bufferSize`; `isBuffer`, `deleteBuffer`, `setBufferData` and
`getBufferData` are undefined for this dead handle, they are not silent no-ops. -/
theorem dead_buffer_handle_undefined :
    createBuffer (GPU.new exampleEmptyID) 24 = some (exampleBufferState, 0) ∧
    exampleBufferState.Buffer.bufferArray.length = 150 ∧
    isBuffer exampleEmptyID exampleBufferState (2 ^ 60) = none ∧
    (deleteBuffer exampleEmptyID exampleBufferState (2 ^ 60)).isNone = true ∧
    (setBufferData exampleEmptyID exampleBufferState (2 ^ 60) 0 0 []).isNone = true ∧
    getBufferData exampleEmptyID exampleBufferState (2 ^ 60) 0 0 [] = none := by
  have h1 : isBuffer exampleEmptyID exampleBufferState (2 ^ 60) = none := by decide!
  refine ⟨rfl, by decide!, h1, ?_, ?_, ?_⟩
  · simp only [deleteBuffer, h1]; rfl
  · simp only [setBufferData, h1]; rfl
  · simp only [getBufferData, h1]

/-- The part of C10 that holds: a call whose liveness query answers `false`
for its handle leaves the device state (and the destination of
`getBufferData`) unchanged. -/
theorem dead_handle_noop (emptyID : Nat) (g : GPU) (h : Nat) :
    (isBuffer emptyID g h = some false →
      deleteBuffer emptyID g h = some g ∧
      (∀ offset size data, setBufferData emptyID g h offset size data = some g) ∧
      (∀ offset size data, getBufferData emptyID g h offset size data = some data)) ∧
    (isVertexPuller emptyID g h = some false →
      deleteVertexPuller emptyID g h = some g ∧
      (∀ head type stride offset buffer,
        setVertexPullerHead emptyID g h head type stride offset buffer = some g) ∧
      (∀ type buffer, setVertexPullerIndexing emptyID g h type buffer = some g) ∧
      (∀ head, enableVertexPullerHead emptyID g h head = some g) ∧
      (∀ head, disableVertexPullerHead emptyID g h head = some g) ∧
      bindVertexPuller emptyID g h = some g) ∧
    (isProgram emptyID g h = some false →
      deleteProgram emptyID g h = some g ∧
      (∀ vs fs, attachShaders emptyID g h vs fs = some g) ∧
      (∀ attrib type, setVS2FSType emptyID g h attrib type = some g) ∧
      useProgram emptyID g h = some g ∧
      (∀ uniformId d, programUniform1f emptyID g h uniformId d = some g) ∧
      (∀ uniformId d, programUniform2f emptyID g h uniformId d = some g) ∧
      (∀ uniformId d, programUniform3f emptyID g h uniformId d = some g) ∧
      (∀ uniformId d, programUniform4f emptyID g h uniformId d = some g) ∧
      (∀ uniformId d, programUniformMatrix4f emptyID g h uniformId d = some g)) := by
  refine ⟨?_, ?_, ?_⟩
  · intro hd
    simp [deleteBuffer, setBufferData, getBufferData, hd]
  · intro hd
    simp [deleteVertexPuller, setVertexPullerHead, setVertexPullerIndexing,
      enableVertexPullerHead, disableVertexPullerHead, bindVertexPuller, hd]
  · intro hd
    simp [deleteProgram, attachShaders, setVS2FSType, useProgram, programUniform1f,
      programUniform2f, programUniform3f, programUniform4f, programUniformMatrix4f,
      programUniform, hd]

/-! ## C11: head index equal to maxAttributes -/

/-- C11 (failing input): on `exampleDevice`, whose vertex puller 0 is live,
the head index `head = maxAttributes = 16` passes the guard `head >
maxAttributes` of `setVertexPullerHead`, `enableVertexPullerHead` and
`disableVertexPullerHead`, which then go through `heads[16]`, one cell past
the array `new headStructure *[maxAttributes]`: the calls are undefined, not
silent no-ops. -/
theorem head_maxAttributes_undefined :
    isVertexPuller exampleEmptyID exampleDevice 0 = some true ∧
    (setVertexPullerHead exampleEmptyID exampleDevice 0 maxAttributes AttributeType.FLOAT 4 0 0).isNone
      = true ∧
    (enableVertexPullerHead exampleEmptyID exampleDevice 0 maxAttributes).isNone = true ∧
    (disableVertexPullerHead exampleEmptyID exampleDevice 0 maxAttributes).isNone = true := by
  have h1 : isVertexPuller exampleEmptyID exampleDevice 0 = some true := by decide!
  refine ⟨h1, ?_, ?_, ?_⟩
  · simp [setVertexPullerHead, h1, modifyHead]
  · simp [enableVertexPullerHead, h1, modifyHead]
  · simp [disableVertexPullerHead, h1, modifyHead]

/-- The part of C11 that holds: for a head index above `maxAttributes` the
three calls leave the device state unchanged, whenever the liveness query of
the puller is defined. -/
theorem head_above_maxAttributes_noop (emptyID : Nat) (g : GPU) (vao head : Nat)
    (hdef : (isVertexPuller emptyID g vao).isSome = true) (hh : head > maxAttributes) :
    (∀ type stride offset buffer,
      setVertexPullerHead emptyID g vao head type stride offset buffer = some g) ∧
    enableVertexPullerHead emptyID g vao head = some g ∧
    disableVertexPullerHead emptyID g vao head = some g := by
  cases hv : isVertexPuller emptyID g vao with
  | none => rw [hv] at hdef; cases hdef
  | some r =>
      cases r <;>
        simp [setVertexPullerHead, enableVertexPullerHead, disableVertexPullerHead, hv, hh]

/-! ## C12: uniform and attribute indices out of range -/

/-- C12: for a live program, `programUniform1f/2f/3f/4f/Matrix4f` with
`uniformId ≥ maxUniforms` and `setVS2FSType` with `attrib ≥ maxAttributes`
return the device state unchanged. -/
theorem program_index_out_of_range (emptyID : Nat) (g : GPU) (prg : Nat)
    (hlive : isProgram emptyID g prg = some true) :
    (∀ uniformId, uniformId ≥ maxUniforms →
      (∀ d, programUniform1f emptyID g prg uniformId d = some g) ∧
      (∀ d, programUniform2f emptyID g prg uniformId d = some g) ∧
      (∀ d, programUniform3f emptyID g prg uniformId d = some g) ∧
      (∀ d, programUniform4f emptyID g prg uniformId d = some g) ∧
      (∀ d, programUniformMatrix4f emptyID g prg uniformId d = some g)) ∧
    (∀ attrib, attrib ≥ maxAttributes →
      ∀ type, setVS2FSType emptyID g prg attrib type = some g) := by
  constructor
  · intro uniformId hu
    simp [programUniform1f, programUniform2f, programUniform3f, programUniform4f,
      programUniformMatrix4f, programUniform, hlive, hu]
  · intro attrib ha type
    simp [setVS2FSType, hlive, ha]

/-- Witness of C12: program 0 of `exampleDevice` is live. -/
theorem program_index_out_of_range_witness :
    isProgram exampleEmptyID exampleDevice 0 = some true ∧
    (∀ uniformId, uniformId ≥ maxUniforms →
      (∀ d, programUniform1f exampleEmptyID exampleDevice 0 uniformId d = some exampleDevice) ∧
      (∀ d, programUniform2f exampleEmptyID exampleDevice 0 uniformId d = some exampleDevice) ∧
      (∀ d, programUniform3f exampleEmptyID exampleDevice 0 uniformId d = some exampleDevice) ∧
      (∀ d, programUniform4f exampleEmptyID exampleDevice 0 uniformId d = some exampleDevice) ∧
      (∀ d, programUniformMatrix4f exampleEmptyID exampleDevice 0 uniformId d
        = some exampleDevice)) ∧
    (∀ attrib, attrib ≥ maxAttributes →
      ∀ type, setVS2FSType exampleEmptyID exampleDevice 0 attrib type = some exampleDevice) := by
  have hlive : isProgram exampleEmptyID exampleDevice 0 = some true := by decide!
  exact ⟨hlive, program_index_out_of_range exampleEmptyID exampleDevice 0 hlive⟩

/-! ## C13: the handle returned by create -/

/-- `popBS` on a well-formed, non-empty free list that is not full returns the
handle stored last. -/
theorem popBS_top (B : buffersStructure Nat) (count d : Nat) (hwf : freeListWF B count)
    (h0 : B.bufferSize ≠ 0) (hc : B.bufferCapacity ≠ B.bufferSize) :
    ∃ v, v < count ∧ B.bufferArray[B.bufferSize - 1]? = some (Ptr.block v) ∧
      popBS B d = some ({ B with bufferArray := B.bufferArray.set (B.bufferSize - 1) Ptr.null,
                                 bufferSize := B.bufferSize - 1 }, v) := by
  obtain ⟨v, hv, hcell⟩ := hwf.2.2 (B.bufferSize - 1) (by omega)
  refine ⟨v, hv, hcell, ?_⟩
  unfold popBS
  simp only [resizeBS_of_ne B hc, h0, if_false, hcell]

/-- In a well-formed registry with room, `create_X` returns: with a non-empty
free list the handle stored last on it, with an empty free list the slot
count. -/
theorem createX_of_WF (emptyID : Nat) (kind : ResourceKind) (g : GPU) (size : Nat)
    (hwf : registryWF kind g) (hroom : createRoom kind g) :
    ∃ g1 id, createX emptyID kind g size = some (g1, id) ∧
      ((freeList kind g).bufferSize ≠ 0 →
        freeTop (freeList kind g) = some id ∧
        (freeList kind g1).bufferSize = (freeList kind g).bufferSize - 1 ∧
        slotCount kind g1 = slotCount kind g) ∧
      ((freeList kind g).bufferSize = 0 →
        id = slotCount kind g ∧ slotCount kind g1 = slotCount kind g + 1 ∧
        (freeList kind g1).bufferSize = 0) := by
  cases kind with
  | buffer =>
      obtain ⟨hF, hcap, hsz⟩ := hwf
      simp only [createX, freeList, slotCount]
      by_cases h0 : g.BDeleted.bufferSize = 0
      · have hlt : (resizeBS g.Buffer).bufferSize < (resizeBS g.Buffer).bufferArray.length := by
          by_cases hc : g.Buffer.bufferCapacity = g.Buffer.bufferSize
          · simp only [resizeBS, hc, if_true, List.length_replicate]
            unfold BSRESIZE
            omega
          · rw [resizeBS_of_ne _ hc]
            omega
        have hcr : createBuffer g size = some ({ g with Buffer :=
            { resizeBS g.Buffer with
              bufferArray := (resizeBS g.Buffer).bufferArray.set (resizeBS g.Buffer).bufferSize
                (Ptr.block (List.replicate size none)),
              bufferSize := (resizeBS g.Buffer).bufferSize + 1 } }, g.Buffer.bufferSize) := by
          simp only [createBuffer, h0, if_true, pushBS, hlt, Option.map_some']
        refine ⟨_, _, hcr, fun h => absurd h0 h, fun _ => ⟨rfl, ?_, h0⟩⟩
        simp only [resizeBS_bufferSize]
      · obtain ⟨v, hv, hcell, hpop⟩ := popBS_top g.BDeleted _ 0 hF h0 (hroom h0)
        have hlt : v < (resizeBS g.Buffer).bufferArray.length := by
          by_cases hc : g.Buffer.bufferCapacity = g.Buffer.bufferSize
          · simp only [resizeBS, hc, if_true, List.length_replicate]
            omega
          · rw [resizeBS_of_ne _ hc]
            omega
        have hge : ¬ v ≥ (resizeBS g.Buffer).bufferSize := by
          rw [resizeBS_bufferSize]
          omega
        have hcr : createBuffer g size = some ({ g with
            Buffer := { resizeBS g.Buffer with
              bufferArray := (resizeBS g.Buffer).bufferArray.set v
                (Ptr.block (List.replicate size none)) },
            BDeleted := { g.BDeleted with
              bufferArray := g.BDeleted.bufferArray.set (g.BDeleted.bufferSize - 1) Ptr.null,
              bufferSize := g.BDeleted.bufferSize - 1 } }, v) := by
          simp only [createBuffer, h0, if_false, hpop, addBufferBS, hge, hlt, if_true,
            Option.map_some']
        refine ⟨_, _, hcr, fun _ => ⟨?_, rfl, ?_⟩, fun h => absurd h h0⟩
        · simp only [freeTop, hcell]
        · simp only [resizeBS_bufferSize]
  | vertexPuller =>
      obtain ⟨hF, hsz, hcap, hlen⟩ := hwf
      obtain ⟨hroom1, hroom2⟩ := hroom
      simp only [createX, freeList, slotCount]
      unfold BSRESIZE at hcap hlen hroom2
      by_cases h0 : g.DVP.bufferSize = 0
      · have hs := hroom2 h0
        by_cases hr : (g.VP.capacity + 2 ^ 32 - 2) % 2 ^ 32 > g.VP.size
        · have hlt : g.VP.size < g.VP.Pullers.length := by
            rw [hcap] at hr
            norm_num at hr
            omega
          have hcr : createVertexPuller emptyID g = some ({ g with VP := { g.VP with
              size := g.VP.size + 1,
              Pullers := g.VP.Pullers.set g.VP.size (Ptr.block (newVertexPuller emptyID)) } },
              g.VP.size) := by
            simp only [createVertexPuller, h0, if_true, resizeVP, hr, Option.map_some', hlt]
          exact ⟨_, _, hcr, fun h => absurd h0 h, fun _ => ⟨rfl, rfl, h0⟩⟩
        · have hcond : g.VP.size ≤ g.VP.Pullers.length ∧ g.VP.size ≤ BSRESIZE + g.VP.capacity := by
            unfold BSRESIZE
            omega
          have hlt : g.VP.size < (g.VP.Pullers.take g.VP.size ++
              List.replicate (BSRESIZE + g.VP.capacity - g.VP.size) Ptr.wild).length := by
            simp only [List.length_append, List.length_take, List.length_replicate]
            unfold BSRESIZE
            omega
          have hcr : createVertexPuller emptyID g = some ({ g with VP := { g.VP with
              size := g.VP.size + 1,
              Pullers := (g.VP.Pullers.take g.VP.size ++
                List.replicate (BSRESIZE + g.VP.capacity - g.VP.size) Ptr.wild).set g.VP.size
                  (Ptr.block (newVertexPuller emptyID)) } }, g.VP.size) := by
            simp only [createVertexPuller, h0, if_true, resizeVP, hr, if_false, hcond, and_self,
              Option.map_some', hlt]
          exact ⟨_, _, hcr, fun h => absurd h0 h, fun _ => ⟨rfl, rfl, h0⟩⟩
      · obtain ⟨v, hv, hcell, hpop⟩ := popBS_top g.DVP _ 0 hF h0 (hroom1 h0)
        have hlt : v < g.VP.Pullers.length := by omega
        have hcr : createVertexPuller emptyID g = some ({ g with
            VP := { g.VP with
              Pullers := g.VP.Pullers.set v (Ptr.block (newVertexPuller emptyID)) },
            DVP := { g.DVP with
              bufferArray := g.DVP.bufferArray.set (g.DVP.bufferSize - 1) Ptr.null,
              bufferSize := g.DVP.bufferSize - 1 } }, v) := by
          simp only [createVertexPuller, h0, if_false, hpop, Option.map_some', hlt, if_true]
        refine ⟨_, _, hcr, fun _ => ⟨?_, rfl, rfl⟩, fun h => absurd h h0⟩
        simp only [freeTop, hcell]
  | program =>
      obtain ⟨hF, hsz, hcap, hlen⟩ := hwf
      obtain ⟨hroom1, hroom2⟩ := hroom
      simp only [createX, freeList, slotCount]
      unfold BSRESIZE at hcap hlen hroom2
      by_cases h0 : g.DP.bufferSize = 0
      · have hs := hroom2 h0
        by_cases hr : (g.P.capacity + 2 ^ 32 - 2) % 2 ^ 32 > g.P.size
        · have hlt : g.P.size < g.P.Programs.length := by
            rw [hcap] at hr
            norm_num at hr
            omega
          have hcr : createProgram g = some ({ g with P := { g.P with
              size := g.P.size + 1,
              Programs := g.P.Programs.set g.P.size (Ptr.block newProgram) } },
              g.P.size) := by
            simp only [createProgram, h0, if_true, resizeP, hr, Option.map_some', hlt]
          exact ⟨_, _, hcr, fun h => absurd h0 h, fun _ => ⟨rfl, rfl, h0⟩⟩
        · have hcond : g.P.size ≤ g.P.Programs.length ∧ g.P.size ≤ BSRESIZE + g.P.capacity := by
            unfold BSRESIZE
            omega
          have hlt : g.P.size < (g.P.Programs.take g.P.size ++
              List.replicate (BSRESIZE + g.P.capacity - g.P.size) Ptr.wild).length := by
            simp only [List.length_append, List.length_take, List.length_replicate]
            unfold BSRESIZE
            omega
          have hcr : createProgram g = some ({ g with P := { g.P with
              size := g.P.size + 1,
              Programs := (g.P.Programs.take g.P.size ++
                List.replicate (BSRESIZE + g.P.capacity - g.P.size) Ptr.wild).set g.P.size
                  (Ptr.block newProgram) } }, g.P.size) := by
            simp only [createProgram, h0, if_true, resizeP, hr, if_false, hcond, and_self,
              Option.map_some', hlt]
          exact ⟨_, _, hcr, fun h => absurd h0 h, fun _ => ⟨rfl, rfl, h0⟩⟩
      · obtain ⟨v, hv, hcell, hpop⟩ := popBS_top g.DP _ 0 hF h0 (hroom1 h0)
        have hlt : v < g.P.Programs.length := by omega
        have hcr : createProgram g = some ({ g with
            P := { g.P with Programs := g.P.Programs.set v (Ptr.block newProgram) },
            DP := { g.DP with
              bufferArray := g.DP.bufferArray.set (g.DP.bufferSize - 1) Ptr.null,
              bufferSize := g.DP.bufferSize - 1 } }, v) := by
          simp only [createProgram, h0, if_false, hpop, Option.map_some', hlt, if_true]
        refine ⟨_, _, hcr, fun _ => ⟨?_, rfl, rfl⟩, fun h => absurd h h0⟩
        simp only [freeTop, hcell]
/-- A free list well formed for a slot count is so for a larger one. -/
theorem freeListWF_mono (B : buffersStructure Nat) (n m : Nat) (hnm : n ≤ m)
    (h : freeListWF B n) : freeListWF B m := by
  refine ⟨h.1, h.2.1, fun i hi => ?_⟩
  obtain ⟨v, hv, hc⟩ := h.2.2 i hi
  exact ⟨v, by omega, hc⟩

/-- `resizeBS` keeps the capacity equal to the number of allocated cells. -/
theorem resizeBS_capacity {α : Type} (B : buffersStructure α)
    (h : B.bufferCapacity = B.bufferArray.length) :
    (resizeBS B).bufferCapacity = (resizeBS B).bufferArray.length := by
  unfold resizeBS
  split
  · simp
  · exact h

/-- After `resizeBS` the element count is below the capacity. -/
theorem resizeBS_lt {α : Type} (B : buffersStructure α)
    (h : B.bufferSize ≤ B.bufferCapacity) :
    (resizeBS B).bufferSize < (resizeBS B).bufferCapacity := by
  unfold resizeBS
  split
  · dsimp only
    unfold BSRESIZE
    omega
  · omega

/-- A defined `pushBS` of a handle below the slot count keeps a free list well
formed. -/
theorem pushBS_WF (B B1 : buffersStructure Nat) (fresh v count : Nat)
    (h : pushBS B fresh (some v) = some B1) (hv : v < count) (hwf : freeListWF B count) :
    freeListWF B1 count := by
  have hint : listIntact B1 := pushBS_intact B B1 fresh v h (fun i hi => by
    obtain ⟨w, _, hw⟩ := hwf.2.2 i hi
    exact ⟨w, hw⟩)
  have hcap := resizeBS_capacity B hwf.1
  have hlt := resizeBS_lt B hwf.2.1
  unfold pushBS at h
  dsimp only at h
  split at h
  · simp only [Option.map_eq_some'] at h
    obtain ⟨r, hr, rfl⟩ := h
    refine ⟨by simpa using hcap, by dsimp only; omega, fun i hi => ?_⟩
    dsimp only at hi ⊢
    by_cases hin : i = (resizeBS B).bufferSize
    · subst hin
      exact ⟨v, hv, by
        rw [List.getElem?_set_self (by omega)]⟩
    · rw [List.getElem?_set_ne (fun hh => hin hh.symm)]
      have hi2 : i < B.bufferSize := by
        rw [resizeBS_bufferSize] at hi hin
        omega
      by_cases hc : B.bufferCapacity = B.bufferSize
      · exfalso
        obtain ⟨w, hw⟩ := hint i (by dsimp only; omega)
        dsimp only at hw
        rw [List.getElem?_set_ne (fun hh => hin hh.symm),
          resizeBS_getElem?_of_eq B hc i hi2] at hw
        cases hw
      · rw [resizeBS_of_ne B hc]
        exact hwf.2.2 i hi2
  · cases h

/-- A defined `popBS` keeps a free list well formed. -/
theorem popBS_WF (B B1 : buffersStructure Nat) (d id count : Nat)
    (h : popBS B d = some (B1, id)) (hwf : freeListWF B count) : freeListWF B1 count := by
  have hcap := resizeBS_capacity B hwf.1
  have hlt := resizeBS_lt B hwf.2.1
  unfold popBS at h
  dsimp only at h
  split at h
  · rename_i h0
    cases h
    exact ⟨hcap, hlt.le, fun i hi => by omega⟩
  · rename_i h0
    rw [resizeBS_bufferSize] at h0
    by_cases hc : B.bufferCapacity = B.bufferSize
    · rw [resizeBS_bufferSize, resizeBS_getElem?_of_eq B hc _ (by omega)] at h
      cases h
    · rw [resizeBS_of_ne B hc] at h hcap hlt
      split at h
      · cases h
        refine ⟨by simpa using hcap, by dsimp only; omega, fun i hi => ?_⟩
        dsimp only at hi ⊢
        rw [List.getElem?_set_ne (by omega)]
        exact hwf.2.2 i (by omega)
      · cases h
/-- `createVertexPuller` keeps the puller registry well formed. -/
theorem createVertexPuller_WF (emptyID : Nat) (g g1 : GPU) (id : Nat)
    (h : createVertexPuller emptyID g = some (g1, id))
    (hwf : registryWF ResourceKind.vertexPuller g) :
    registryWF ResourceKind.vertexPuller g1 := by
  obtain ⟨hF, hsz, hcap, hlen⟩ := hwf
  unfold createVertexPuller at h
  dsimp only at h
  split at h
  · cases h
  · rename_i VP1 DVP1 id1 hr
    split at h
    · rename_i hlt
      cases h
      split at hr
      · simp only [Option.map_eq_some'] at hr
        obtain ⟨VP2, hVP2, heq⟩ := hr
        cases heq
        dsimp only at hlt
        unfold resizeVP at hVP2
        split at hVP2
        · cases hVP2
          exact ⟨freeListWF_mono _ _ _ (Nat.le_succ _) hF, by
            simp only [List.length_set]; omega, hcap, by simp only [List.length_set]; omega⟩
        · dsimp only at hVP2
          split at hVP2
          · cases hVP2
            dsimp only at hlt
            refine ⟨freeListWF_mono _ _ _ (Nat.le_succ _) hF, by
              simp only [List.length_set]; omega, hcap, ?_⟩
            simp only [List.length_set, List.length_append, List.length_take,
              List.length_replicate]
            unfold BSRESIZE at hcap ⊢
            omega
          · cases hVP2
      · simp only [Option.map_eq_some', Prod.exists] at hr
        obtain ⟨B1, id2, hpop, heq⟩ := hr
        cases heq
        exact ⟨popBS_WF _ _ _ _ _ hpop hF, by simp only [List.length_set]; omega, hcap, by
          simp only [List.length_set]; omega⟩
    · cases h

/-- `deleteVertexPuller` keeps the puller registry well formed. -/
theorem deleteVertexPuller_WF (emptyID : Nat) (g g1 : GPU) (vao : Nat)
    (h : deleteVertexPuller emptyID g vao = some g1)
    (hwf : registryWF ResourceKind.vertexPuller g) :
    registryWF ResourceKind.vertexPuller g1 := by
  obtain ⟨hF, hsz, hcap, hlen⟩ := hwf
  unfold deleteVertexPuller at h
  split at h
  · cases h
  · cases h
    exact ⟨hF, hsz, hcap, hlen⟩
  · rename_i hlive
    simp only [Option.map_eq_some'] at h
    obtain ⟨DVP1, hpush, rfl⟩ := h
    have hv := ((isVertexPuller_eq_true_iff emptyID g vao).1 hlive).1
    exact ⟨pushBS_WF _ _ _ _ _ hpush hv hF, by simp only [List.length_set]; omega, hcap, by
      simp only [List.length_set]; omega⟩

/-- Every puller call keeps the puller registry well formed. -/
theorem pullerOp_WF (emptyID : Nat) (g g1 : GPU) (op : Op)
    (hf : op.family = Family.pullers) (h : op.apply emptyID g = some g1)
    (hwf : registryWF ResourceKind.vertexPuller g) :
    registryWF ResourceKind.vertexPuller g1 := by
  cases op <;> simp only [Op.family, reduceCtorEq] at hf
  all_goals simp only [Op.apply] at h
  · simp only [Option.map_eq_some', Prod.exists] at h
    obtain ⟨g2, id, h2, rfl⟩ := h
    exact createVertexPuller_WF emptyID g g2 id h2 hwf
  · exact deleteVertexPuller_WF emptyID g g1 _ h hwf
  all_goals try simp only [IZG.setVertexPullerHead,
    IZG.setVertexPullerIndexing, IZG.enableVertexPullerHead, IZG.disableVertexPullerHead,
    IZG.bindVertexPuller, IZG.unbindVertexPuller, modifyHead, modifyPuller] at h
  all_goals repeat' split at h
  all_goals try simp only [Option.map_eq_some', Option.some.injEq, reduceCtorEq] at h
  all_goals try (obtain ⟨_, _, rfl⟩ := h)
  all_goals first
    | exact hwf
    | (simp only [registryWF, List.length_set] at hwf ⊢; exact hwf)
/-- `createProgram` keeps the program registry well formed. -/
theorem createProgram_WF (g g1 : GPU) (id : Nat)
    (h : createProgram g = some (g1, id))
    (hwf : registryWF ResourceKind.program g) :
    registryWF ResourceKind.program g1 := by
  obtain ⟨hF, hsz, hcap, hlen⟩ := hwf
  unfold createProgram at h
  dsimp only at h
  split at h
  · cases h
  · rename_i P1 DP1 id1 hr
    split at h
    · rename_i hlt
      cases h
      split at hr
      · simp only [Option.map_eq_some'] at hr
        obtain ⟨P2, hP2, heq⟩ := hr
        cases heq
        dsimp only at hlt
        unfold resizeP at hP2
        split at hP2
        · cases hP2
          exact ⟨freeListWF_mono _ _ _ (Nat.le_succ _) hF, by
            simp only [List.length_set]; omega, hcap, by simp only [List.length_set]; omega⟩
        · dsimp only at hP2
          split at hP2
          · cases hP2
            dsimp only at hlt
            refine ⟨freeListWF_mono _ _ _ (Nat.le_succ _) hF, by
              simp only [List.length_set]; omega, hcap, ?_⟩
            simp only [List.length_set, List.length_append, List.length_take,
              List.length_replicate]
            unfold BSRESIZE at hcap ⊢
            omega
          · cases hP2
      · simp only [Option.map_eq_some', Prod.exists] at hr
        obtain ⟨B1, id2, hpop, heq⟩ := hr
        cases heq
        exact ⟨popBS_WF _ _ _ _ _ hpop hF, by simp only [List.length_set]; omega, hcap, by
          simp only [List.length_set]; omega⟩
    · cases h

/-- `deleteProgram` keeps the program registry well formed. -/
theorem deleteProgram_WF (emptyID : Nat) (g g1 : GPU) (prg : Nat)
    (h : deleteProgram emptyID g prg = some g1)
    (hwf : registryWF ResourceKind.program g) :
    registryWF ResourceKind.program g1 := by
  obtain ⟨hF, hsz, hcap, hlen⟩ := hwf
  unfold deleteProgram at h
  split at h
  · cases h
  · cases h
    exact ⟨hF, hsz, hcap, hlen⟩
  · rename_i hlive
    simp only [Option.map_eq_some'] at h
    obtain ⟨DP1, hpush, rfl⟩ := h
    have hv := ((isProgram_eq_true_iff emptyID g prg).1 hlive).1
    exact ⟨pushBS_WF _ _ _ _ _ hpush hv hF, by simp only [List.length_set]; omega, hcap, by
      simp only [List.length_set]; omega⟩

/-- Every program call keeps the program registry well formed. -/
theorem programOp_WF (emptyID : Nat) (g g1 : GPU) (op : Op)
    (hf : op.family = Family.programs) (h : op.apply emptyID g = some g1)
    (hwf : registryWF ResourceKind.program g) :
    registryWF ResourceKind.program g1 := by
  cases op <;> simp only [Op.family, reduceCtorEq] at hf
  all_goals simp only [Op.apply] at h
  · simp only [Option.map_eq_some', Prod.exists] at h
    obtain ⟨g2, id, h2, rfl⟩ := h
    exact createProgram_WF g g2 id h2 hwf
  · exact deleteProgram_WF emptyID g g1 _ h hwf
  all_goals try simp only [IZG.attachShaders, IZG.setVS2FSType,
    IZG.useProgram, IZG.programUniform1f, IZG.programUniform2f, IZG.programUniform3f,
    IZG.programUniform4f, IZG.programUniformMatrix4f, programUniform, modifyProgram] at h
  all_goals repeat' split at h
  all_goals try simp only [Option.map_eq_some', Option.some.injEq, reduceCtorEq] at h
  all_goals try (obtain ⟨_, _, rfl⟩ := h)
  all_goals first
    | exact hwf
    | (simp only [registryWF, List.length_set] at hwf ⊢; exact hwf)
/-- `createBuffer` keeps the buffer registry well formed. -/
theorem createBuffer_WF (g g1 : GPU) (size id : Nat)
    (h : createBuffer g size = some (g1, id)) (hwf : registryWF ResourceKind.buffer g) :
    registryWF ResourceKind.buffer g1 := by
  obtain ⟨hF, hcap, hsz⟩ := hwf
  have hcap1 := resizeBS_capacity g.Buffer hcap
  have hlt1 := resizeBS_lt g.Buffer hsz
  unfold createBuffer at h
  split at h
  · unfold pushBS at h
    dsimp only at h
    split at h
    · cases h
      refine ⟨freeListWF_mono _ _ _ ?_ hF, by simpa using hcap1, by dsimp only; omega⟩
      dsimp only
      rw [resizeBS_bufferSize]
      omega
    · cases h
  · split at h
    · cases h
    · rename_i BD id1 hpop
      simp only [Option.map_eq_some'] at h
      obtain ⟨B, hB, heq⟩ := h
      cases heq
      have hF1 := popBS_WF _ _ _ _ _ hpop hF
      unfold addBufferBS at hB
      dsimp only at hB
      split at hB
      · cases hB
        exact ⟨by rw [resizeBS_bufferSize]; exact hF1, hcap1, hlt1.le⟩
      · split at hB
        · cases hB
          exact ⟨by rw [resizeBS_bufferSize]; exact hF1, by simpa using hcap1, hlt1.le⟩
        · cases hB

/-- `deleteBuffer` keeps the buffer registry well formed. -/
theorem deleteBuffer_WF (emptyID : Nat) (g g1 : GPU) (buffer : Nat)
    (h : deleteBuffer emptyID g buffer = some g1) (hwf : registryWF ResourceKind.buffer g) :
    registryWF ResourceKind.buffer g1 := by
  obtain ⟨hF, hcap, hsz⟩ := hwf
  have hcap1 := resizeBS_capacity g.Buffer hcap
  have hlt1 := resizeBS_lt g.Buffer hsz
  unfold deleteBuffer at h
  split at h
  · cases h
  · cases h
    exact ⟨hF, hcap, hsz⟩
  · rename_i hlive
    have hv := ((isBuffer_eq_true_iff emptyID g buffer).1 hlive).2.2.1
    split at h
    · cases h
    · rename_i B hB
      simp only [Option.map_eq_some'] at h
      obtain ⟨BD, hpush, rfl⟩ := h
      have hF1 := pushBS_WF _ _ _ _ _ hpush hv hF
      unfold deleteBufferBS at hB
      dsimp only at hB
      split at hB
      · cases hB
        exact ⟨by rw [resizeBS_bufferSize]; exact hF1, hcap1, hlt1.le⟩
      · split at hB
        · cases hB
          exact ⟨by rw [resizeBS_bufferSize]; exact hF1, hcap1, hlt1.le⟩
        · cases hB
          exact ⟨by rw [resizeBS_bufferSize]; exact hF1, by simpa using hcap1, hlt1.le⟩
        · cases hB

/-- Every buffer call keeps the buffer registry well formed. -/
theorem bufferOp_WF (emptyID : Nat) (g g1 : GPU) (op : Op)
    (hf : op.family = Family.buffers) (h : op.apply emptyID g = some g1)
    (hwf : registryWF ResourceKind.buffer g) :
    registryWF ResourceKind.buffer g1 := by
  cases op <;> simp only [Op.family, reduceCtorEq] at hf
  all_goals simp only [Op.apply] at h
  · simp only [Option.map_eq_some', Prod.exists] at h
    obtain ⟨g2, id, h2, rfl⟩ := h
    exact createBuffer_WF g g2 _ id h2 hwf
  · exact deleteBuffer_WF emptyID g g1 _ h hwf
  all_goals try simp only [IZG.setBufferData, IZG.getBufferData] at h
  all_goals repeat' split at h
  all_goals try simp only [Option.map_eq_some', Option.some.injEq, reduceCtorEq] at h
  all_goals try (obtain ⟨_, _, rfl⟩ := h)
  all_goals first
    | exact hwf
    | (simp only [registryWF, List.length_set] at hwf ⊢; exact hwf)
/-- Every call keeps the three registries well formed. -/
theorem apply_keeps_WF (emptyID : Nat) (g g1 : GPU) (op : Op)
    (h : op.apply emptyID g = some g1) (hwf : ∀ kind, registryWF kind g) :
    ∀ kind, registryWF kind g1 := by
  have hfr := apply_frame emptyID g g1 op h
  intro kind
  cases kind with
  | buffer =>
      by_cases hf : op.family = Family.buffers
      · exact bufferOp_WF emptyID g g1 op hf h (hwf _)
      · obtain ⟨e1, e2⟩ := hfr.1 hf
        have := hwf ResourceKind.buffer
        simp only [registryWF, e1, e2] at this ⊢
        exact this
  | vertexPuller =>
      by_cases hf : op.family = Family.pullers
      · exact pullerOp_WF emptyID g g1 op hf h (hwf _)
      · obtain ⟨e1, e2⟩ := hfr.2.1 hf
        have := hwf ResourceKind.vertexPuller
        simp only [registryWF, e1, e2] at this ⊢
        exact this
  | program =>
      by_cases hf : op.family = Family.programs
      · exact programOp_WF emptyID g g1 op hf h (hwf _)
      · obtain ⟨e1, e2⟩ := hfr.2.2 hf
        have := hwf ResourceKind.program
        simp only [registryWF, e1, e2] at this ⊢
        exact this

/-- The registries of a new device are well formed. -/
theorem new_WF (emptyID : Nat) : ∀ kind, registryWF kind (GPU.new emptyID) := by
  intro kind
  cases kind <;>
    simp [registryWF, freeListWF, GPU.new, initBS, initVP, initP]

/-- Every sequence of calls keeps the registries well formed. -/
theorem run_keeps_WF (emptyID : Nat) (ops : List Op) :
    ∀ g g1, run emptyID ops g = some g1 → (∀ kind, registryWF kind g) →
      ∀ kind, registryWF kind g1 := by
  induction ops with
  | nil =>
      intro g g1 h hi
      cases h
      exact hi
  | cons op ops ih =>
      intro g g1 h hi
      simp only [run] at h
      split at h
      · cases h
      · rename_i g2 h2
        exact ih g2 g1 h (apply_keeps_WF emptyID g g2 op h2 hi)

/-- The registries are well formed in every state reached through the API. -/
theorem reachable_WF (emptyID : Nat) (ops : List Op) (g : GPU)
    (h : run emptyID ops (GPU.new emptyID) = some g) (kind : ResourceKind) :
    registryWF kind g :=
  run_keeps_WF emptyID ops _ g h (new_WF emptyID) kind

/-- The device after `recycleSetup` is reached through the API. -/
theorem recycleDevice_reached :
    run exampleEmptyID recycleSetup (GPU.new exampleEmptyID) = some recycleDevice := by
  have hs : (run exampleEmptyID recycleSetup (GPU.new exampleEmptyID)).isSome = true := by
    decide!
  unfold recycleDevice
  cases hr : run exampleEmptyID recycleSetup (GPU.new exampleEmptyID) with
  | none => rw [hr] at hs; cases hs
  | some g => rfl

/-- C13 (counterexample): after three creates and the deletion of handle 1 and
then of handle 2, the free list of each registry holds the handles 1 and 2, and
`create_X` returns 2, which is not the smallest handle on the free list. -/
theorem create_not_smallest :
    (freeHandles (freeList ResourceKind.buffer recycleDevice) = [1, 2] ∧
      (createX exampleEmptyID ResourceKind.buffer recycleDevice 4).map (fun r => r.2)
        = some 2) ∧
    (freeHandles (freeList ResourceKind.vertexPuller recycleDevice) = [1, 2] ∧
      (createX exampleEmptyID ResourceKind.vertexPuller recycleDevice 4).map (fun r => r.2)
        = some 2) ∧
    (freeHandles (freeList ResourceKind.program recycleDevice) = [1, 2] ∧
      (createX exampleEmptyID ResourceKind.program recycleDevice 4).map (fun r => r.2)
        = some 2) :=
  ⟨⟨by decide!, by decide!⟩, ⟨by decide!, by decide!⟩, ⟨by decide!, by decide!⟩⟩

/-- C13 (amended): in every state reached through the API whose registry has
room, `create_X` returns; with a non-empty free list it returns the handle
stored last on the free list (the one deleted most recently among those
waiting), which leaves the list, and the slot count is unchanged; with an
empty free list it returns the slot count, which grows by one. -/
theorem create_returns (emptyID : Nat) (ops : List Op) (kind : ResourceKind) (g : GPU)
    (size : Nat) (hreach : run emptyID ops (GPU.new emptyID) = some g)
    (hroom : createRoom kind g) :
    ∃ g1 id, createX emptyID kind g size = some (g1, id) ∧
      ((freeList kind g).bufferSize ≠ 0 →
        freeTop (freeList kind g) = some id ∧
        (freeList kind g1).bufferSize = (freeList kind g).bufferSize - 1 ∧
        slotCount kind g1 = slotCount kind g) ∧
      ((freeList kind g).bufferSize = 0 →
        id = slotCount kind g ∧ slotCount kind g1 = slotCount kind g + 1 ∧
        (freeList kind g1).bufferSize = 0) :=
  createX_of_WF emptyID kind g size (reachable_WF emptyID ops g hreach kind) hroom

/-- Witness of C13: on the device after `recycleSetup`, whose buffer free list
holds 1 and 2, `createBuffer` returns the handle stored last. -/
theorem create_returns_witness :
    run exampleEmptyID recycleSetup (GPU.new exampleEmptyID) = some recycleDevice ∧
    createRoom ResourceKind.buffer recycleDevice ∧
    freeTop (freeList ResourceKind.buffer recycleDevice) = some 2 ∧
    ∃ g1 id, createX exampleEmptyID ResourceKind.buffer recycleDevice 4 = some (g1, id) ∧
      ((freeList ResourceKind.buffer recycleDevice).bufferSize ≠ 0 →
        freeTop (freeList ResourceKind.buffer recycleDevice) = some id ∧
        (freeList ResourceKind.buffer g1).bufferSize =
          (freeList ResourceKind.buffer recycleDevice).bufferSize - 1 ∧
        slotCount ResourceKind.buffer g1 = slotCount ResourceKind.buffer recycleDevice) ∧
      ((freeList ResourceKind.buffer recycleDevice).bufferSize = 0 →
        id = slotCount ResourceKind.buffer recycleDevice ∧
        slotCount ResourceKind.buffer g1 = slotCount ResourceKind.buffer recycleDevice + 1 ∧
        (freeList ResourceKind.buffer g1).bufferSize = 0) :=
  ⟨recycleDevice_reached, by simp only [createRoom]; decide!, by decide!,
    create_returns exampleEmptyID recycleSetup ResourceKind.buffer recycleDevice 4
      recycleDevice_reached (by simp only [createRoom]; decide!)⟩

/-! ## C14: the liveness queries -/

/-- The search loop answers whether the value is among the first `n` handles. -/
theorem containLoop_iff (v : Nat) :
    ∀ (n : Nat) (l : List (Ptr Nat)) (r : Bool), containLoop v n l = some r →
      (r = true ↔ v ∈ freeHandles { bufferArray := l, bufferSize := n, bufferCapacity := 0 }) := by
  intro n
  induction n with
  | zero =>
      intro l r h
      cases l <;> simp only [containLoop, Option.some.injEq] at h <;> subst h <;>
        simp [freeHandles]
  | succ n ih =>
      intro l r h
      cases l with
      | nil => simp [containLoop] at h
      | cons a l =>
          cases a with
          | wild => simp [containLoop] at h
          | null => simp [containLoop] at h
          | block w =>
              simp only [containLoop] at h
              simp only [freeHandles, List.take_succ_cons, List.filterMap_cons]
              split at h
              · rename_i hw
                cases h
                simp [hw]
              · rename_i hw
                have := ih l r h
                simp only [freeHandles] at this
                rw [this]
                simp only [List.mem_cons]
                constructor
                · exact Or.inr
                · rintro (h1 | h1)
                  · exact absurd h1.symm hw
                  · exact h1

/-- `containBufferBS` answers whether the value is on the free list. -/
theorem containBufferBS_iff (B : buffersStructure Nat) (v : Nat) (r : Bool)
    (h : containBufferBS B v = some r) : r = true ↔ v ∈ freeHandles B := by
  unfold containBufferBS at h
  split at h
  · rename_i h0
    cases h
    simp [freeHandles, h0]
  · exact containLoop_iff v _ _ r h

/-- The part of C14 that holds: in every state reached through the API,
`isVertexPuller` and `isProgram` return, and they return `true` exactly for
the handles that satisfy the liveness condition. -/
theorem isX_live_iff (emptyID : Nat) (ops : List Op) (g : GPU) (kind : ResourceKind) (h : Nat)
    (hreach : run emptyID ops (GPU.new emptyID) = some g) (hk : kind ≠ ResourceKind.buffer) :
    ∃ r, isX emptyID kind g h = some r ∧ (r = true ↔ liveSpec emptyID kind g h) := by
  have hint := reachable_intact emptyID ops g hreach
  cases kind with
  | buffer => exact absurd rfl hk
  | vertexPuller =>
      obtain ⟨r, hr⟩ := isVertexPuller_isSome emptyID g h hint
      refine ⟨r, hr, ?_⟩
      simp only [liveSpec, slotCount, slotNull, freeList]
      constructor
      · intro hrt
        subst hrt
        obtain ⟨h1, h2, ⟨p, hp⟩, h4⟩ := (isVertexPuller_eq_true_iff emptyID g h).1 hr
        refine ⟨h2, h1, by rw [hp]; simp, ?_⟩
        intro hmem
        have := (containBufferBS_iff g.DVP h false h4).2 hmem
        cases this
      · rintro ⟨h1, h2, h3, h4⟩
        have hcell : ∃ p, g.VP.Pullers[h]? = some (Ptr.block p) := by
          rcases hint.1 h h2 with hn | hb
          · exact absurd hn h3
          · exact hb
        obtain ⟨r2, hr2⟩ := containBufferBS_isSome g.DVP h hint.2.1
        have hr2f : r2 = false := by
          cases r2 with
          | false => rfl
          | true => exact absurd ((containBufferBS_iff g.DVP h true hr2).1 rfl) h4
        subst hr2f
        have := (isVertexPuller_eq_true_iff emptyID g h).2 ⟨h2, h1, hcell, hr2⟩
        rw [this] at hr
        cases hr
        rfl
  | program =>
      obtain ⟨r, hr⟩ := isProgram_isSome emptyID g h hint
      refine ⟨r, hr, ?_⟩
      simp only [liveSpec, slotCount, slotNull, freeList]
      constructor
      · intro hrt
        subst hrt
        obtain ⟨h1, h2, ⟨p, hp⟩, h4⟩ := (isProgram_eq_true_iff emptyID g h).1 hr
        refine ⟨h2, h1, by rw [hp]; simp, ?_⟩
        intro hmem
        have := (containBufferBS_iff g.DP h false h4).2 hmem
        cases this
      · rintro ⟨h1, h2, h3, h4⟩
        have hcell : ∃ p, g.P.Programs[h]? = some (Ptr.block p) := by
          rcases hint.2.2.1 h h2 with hn | hb
          · exact absurd hn h3
          · exact hb
        obtain ⟨r2, hr2⟩ := containBufferBS_isSome g.DP h hint.2.2.2
        have hr2f : r2 = false := by
          cases r2 with
          | false => rfl
          | true => exact absurd ((containBufferBS_iff g.DP h true hr2).1 rfl) h4
        subst hr2f
        have := (isProgram_eq_true_iff emptyID g h).2 ⟨h2, h1, hcell, hr2⟩
        rw [this] at hr
        cases hr
        rfl

set_option maxRecDepth 100000 in
/-- C14 (failing input): on the device with one buffer, reached by
`createBuffer(24)`, the table has 150 cells and one slot; the handle 150 does
not satisfy the liveness condition (it is not below the slot count), so
`isBuffer(150)` should return `false`, but `isBuffer` reads the cell
`bufferArray[150]` before it compares the handle with the slot count: the
query is undefined. -/
theorem isBuffer_reads_before_range_check :
    run exampleEmptyID [Op.createBuffer 24] (GPU.new exampleEmptyID) = some exampleBufferState ∧
    slotCount ResourceKind.buffer exampleBufferState = 1 ∧
    exampleBufferState.Buffer.bufferArray.length = 150 ∧
    ¬ liveSpec exampleEmptyID ResourceKind.buffer exampleBufferState 150 ∧
    isX exampleEmptyID ResourceKind.buffer exampleBufferState 150 = none := by
  refine ⟨rfl, by decide!, by decide!, ?_, by decide!⟩
  intro hl
  have h2 := hl.2.1
  have h1 : slotCount ResourceKind.buffer exampleBufferState = 1 := by decide!
  omega

/-! ## C15: creating more buffers than the table holds -/

/-- While the table is not full, `createBuffer` returns the slot count and
keeps the blocks stored before. -/
theorem createBuffer_fresh (k size : Nat) (g : GPU) (hk : k < BSRESIZE)
    (h : freshBuffers k g) :
    ∃ g1, createBuffer g size = some (g1, k) ∧ freshBuffers (k + 1) g1 := by
  obtain ⟨h0, hs, hc, hl, hb⟩ := h
  subst hs
  have hne : g.Buffer.bufferCapacity ≠ g.Buffer.bufferSize := by omega
  have hlt : g.Buffer.bufferSize < g.Buffer.bufferArray.length := by omega
  refine ⟨{ g with Buffer := { g.Buffer with
      bufferArray := g.Buffer.bufferArray.set g.Buffer.bufferSize
        (Ptr.block (List.replicate size none)),
      bufferSize := g.Buffer.bufferSize + 1 } }, ?_, ?_⟩
  · simp only [createBuffer, h0, if_true, pushBS, resizeBS_of_ne _ hne, hlt, Option.map_some']
  · refine ⟨h0, rfl, hc, by simp only [List.length_set, hl], fun i hi => ?_⟩
    dsimp only
    by_cases hik : i = g.Buffer.bufferSize
    · subst hik
      exact ⟨_, List.getElem?_set_self hlt⟩
    · rw [List.getElem?_set_ne (fun hh => hik hh.symm)]
      exact hb i (by omega)

/-- Up to the capacity of the table, successive `createBuffer` calls return
consecutive identifiers. -/
theorem createBuffers_fresh (sizes : List Nat) :
    ∀ (k : Nat) (g : GPU), k + sizes.length ≤ BSRESIZE → freshBuffers k g →
      ∃ g1, createBuffers sizes g = some (g1, List.range' k sizes.length) ∧
        freshBuffers (k + sizes.length) g1 := by
  induction sizes with
  | nil =>
      intro k g _ h
      exact ⟨g, rfl, h⟩
  | cons size sizes ih =>
      intro k g hk h
      simp only [List.length_cons] at hk
      obtain ⟨g1, hc, h1⟩ := createBuffer_fresh k size g (by omega) h
      obtain ⟨g2, hcs, h2⟩ := ih (k + 1) g1 (by omega) h1
      refine ⟨g2, ?_, ?_⟩
      · simp only [createBuffers, hc, hcs, Option.map_some', List.length_cons, List.range'_succ]
      · simp only [List.length_cons]
        rw [show k + (sizes.length + 1) = k + 1 + sizes.length by omega]
        exact h2

/-- The part of C15 that holds: for `n ≤ BSRESIZE = 150`, `n` successive
`createBuffer` calls from the initial device state return the identifiers
0, …, n − 1, which are pairwise distinct, and `isBuffer` is `true` of every
one of them that differs from `emptyID`. -/
theorem createBuffers_up_to_capacity (emptyID : Nat) (sizes : List Nat)
    (hn : sizes.length ≤ BSRESIZE) :
    ∃ g, createBuffers sizes (GPU.new emptyID) = some (g, List.range sizes.length) ∧
      (List.range sizes.length).Nodup ∧
      ∀ i, i < sizes.length → i ≠ emptyID → isBuffer emptyID g i = some true := by
  have hnew : freshBuffers 0 (GPU.new emptyID) := by
    refine ⟨rfl, rfl, rfl, by simp [GPU.new, initBS], fun i hi => absurd hi (Nat.not_lt_zero i)⟩
  obtain ⟨g, hg, hf⟩ := createBuffers_fresh sizes 0 (GPU.new emptyID) (by omega) hnew
  rw [Nat.zero_add] at hf
  refine ⟨g, by rw [hg, List.range_eq_range'], List.nodup_range _, fun i hi he => ?_⟩
  obtain ⟨h0, hs, _, _, hb⟩ := hf
  rw [isBuffer_eq_true_iff]
  refine ⟨he, by omega, by omega, hb i hi, ?_⟩
  simp only [containBufferBS, h0, if_true]

set_option maxRecDepth 1000000 in
/-- C15 (failing input): 151 successive `createBuffer(4)` calls on a new device
return the identifiers 0, …, 150.  After the first 150 calls `isBuffer(0)` is
`true`; the 151st call finds the table full, `resizeBS` installs the new,
unfilled array, and `isBuffer(0)` then reads an indeterminate pointer: creating
the 151st buffer invalidates the live buffers created before. -/
theorem createBuffer_151_loses_table :
    (createBuffers (List.replicate 151 4) (GPU.new exampleEmptyID)).map (fun r => r.2)
      = some (List.range 151) ∧
    (createBuffers (List.replicate 150 4) (GPU.new exampleEmptyID)).bind
      (fun r => isBuffer exampleEmptyID r.1 0) = some true ∧
    (createBuffers (List.replicate 151 4) (GPU.new exampleEmptyID)).bind
      (fun r => r.1.Buffer.bufferArray[0]?) = some Ptr.wild ∧
    (createBuffers (List.replicate 151 4) (GPU.new exampleEmptyID)).bind
      (fun r => isBuffer exampleEmptyID r.1 0) = none := by
  refine ⟨by decide!, by decide!, by decide!, by decide!⟩

/-! ## C16: colour conversion -/

/-- `convertColor f` is the clamped integer part of the twice rounded
`f·255 + 0.5`. -/
theorem convertColor_eq_clamp (f : ℚ) :
    (convertColor f : ℤ) = max 0 (min 255 ⌊roundF32 (roundF32 (f * 255) + 1 / 2)⌋) := by
  have r255 : roundF32 255 = 255 := by decide!
  have r511 : roundF32 (511 / 2) = 511 / 2 := by decide!
  have rhalf : roundF32 (1 / 2) = 1 / 2 := by decide!
  unfold convertColor
  by_cases h1 : f ≥ 1
  · have hp : (255 : ℚ) ≤ roundF32 (f * 255) := by
      have := roundF32_mono (show (255 : ℚ) ≤ f * 255 by linarith)
      rwa [r255] at this
    have hv : (511 / 2 : ℚ) ≤ roundF32 (roundF32 (f * 255) + 1 / 2) := by
      rw [← r511]
      exact roundF32_mono (by linarith)
    have hfl : (255 : ℤ) ≤ ⌊roundF32 (roundF32 (f * 255) + 1 / 2)⌋ :=
      Int.le_floor.2 (by push_cast; linarith)
    rw [if_pos h1, min_eq_left hfl]
    rfl
  · by_cases h0 : f ≤ 0
    · have hp : roundF32 (f * 255) ≤ 0 := by
        rw [← roundF32_zero]
        exact roundF32_mono (by linarith)
      have hv : roundF32 (roundF32 (f * 255) + 1 / 2) ≤ 1 / 2 := by
        rw [← rhalf]
        exact roundF32_mono (by linarith)
      have hfl : ⌊roundF32 (roundF32 (f * 255) + 1 / 2)⌋ ≤ (0 : ℤ) := by
        have : ⌊roundF32 (roundF32 (f * 255) + 1 / 2)⌋ < (1 : ℤ) :=
          Int.floor_lt.2 (by push_cast; linarith)
        omega
      rw [if_neg h1, if_pos h0, min_eq_right (by omega), max_eq_left hfl]
      rfl
    · rw [if_neg h1, if_neg h0]
      dsimp only
      by_cases h2 : roundF32 (roundF32 (f * 255) + 1 / 2) ≥ 255
      · have hfl : (255 : ℤ) ≤ ⌊roundF32 (roundF32 (f * 255) + 1 / 2)⌋ :=
          Int.le_floor.2 (by push_cast; linarith)
        rw [if_pos h2, min_eq_left hfl]
        rfl
      · have hfl1 : ⌊roundF32 (roundF32 (f * 255) + 1 / 2)⌋ < (255 : ℤ) := Int.floor_lt.2 (by
          push_neg at h2
          push_cast
          linarith)
        rw [if_neg h2, min_eq_right hfl1.le]
        by_cases h3 : roundF32 (roundF32 (f * 255) + 1 / 2) ≤ 0
        · have hfl : ⌊roundF32 (roundF32 (f * 255) + 1 / 2)⌋ ≤ (0 : ℤ) := by
            have : ⌊roundF32 (roundF32 (f * 255) + 1 / 2)⌋ < (1 : ℤ) :=
              Int.floor_lt.2 (by push_cast; linarith)
            omega
          rw [if_pos h3, max_eq_left hfl]
          rfl
        · have hfl0 : (0 : ℤ) ≤ ⌊roundF32 (roundF32 (f * 255) + 1 / 2)⌋ := Int.le_floor.2 (by
            push_neg at h3
            push_cast
            linarith)
          rw [if_neg h3, Int.toNat_of_nonneg hfl0, max_eq_right hfl0]

/-- The twice rounded `f·255 + 0.5` is within `2^-16` of the exact value, for
`0 < f < 1`. -/
theorem convertColor_rounding (f : ℚ) (h0 : 0 < f) (h1 : f < 1) :
    |roundF32 (roundF32 (f * 255) + 1 / 2) - (f * 255 + 1 / 2)| ≤ 1 / 65536 := by
  have r255 : roundF32 255 = 255 := by decide!
  have hp0 : 0 ≤ roundF32 (f * 255) := roundF32_nonneg (by linarith)
  have hp1 : roundF32 (f * 255) ≤ 255 := by
    have := roundF32_mono (show f * 255 ≤ (255 : ℚ) by linarith)
    rwa [r255] at this
  have e1 := roundF32_error (f * 255) 7 (by norm_num) (by
    rw [abs_of_nonneg (by linarith)]
    norm_num
    linarith)
  have e2 := roundF32_error (roundF32 (f * 255) + 1 / 2) 7 (by norm_num) (by
    rw [abs_of_nonneg (by linarith)]
    norm_num
    linarith)
  have hc : (2 : ℚ) ^ ((7 : ℤ) - 24) = 1 / 131072 := by norm_num [zpow_neg]
  rw [hc] at e1 e2
  rw [abs_le] at e1 e2 ⊢
  constructor <;> linarith [e1.1, e1.2, e2.1, e2.2]

/-- C16 (amended): `convertColor f` is 0 for `f ≤ 0` and 255 for `f ≥ 1`, it is
monotone non-decreasing in `f`, it equals `clamp(floor(f·255 + 0.5), 0, 255)`
whenever the product `f·255` and the sum with `0.5` are exact in binary32, and
it never differs from that value by more than 1. -/
theorem convertColor_clamp :
    (∀ f : ℚ, f ≤ 0 → convertColor f = 0) ∧
    (∀ f : ℚ, f ≥ 1 → convertColor f = 255) ∧
    (∀ f g : ℚ, f ≤ g → convertColor f ≤ convertColor g) ∧
    (∀ f : ℚ, roundF32 (f * 255) = f * 255 → roundF32 (f * 255 + 1 / 2) = f * 255 + 1 / 2 →
      (convertColor f : ℤ) = convertColorSpec f) ∧
    (∀ f : ℚ, |(convertColor f : ℤ) - convertColorSpec f| ≤ 1) := by
  have hlow : ∀ f : ℚ, f ≤ 0 → convertColor f = 0 := by
    intro f hf
    have h1 : ¬ f ≥ 1 := by
      push_neg
      linarith
    simp [convertColor, h1, hf]
  have hhigh : ∀ f : ℚ, f ≥ 1 → convertColor f = 255 := by
    intro f hf
    simp [convertColor, hf]
  refine ⟨hlow, hhigh, ?_, ?_, ?_⟩
  · intro f g hfg
    have hv : roundF32 (roundF32 (f * 255) + 1 / 2) ≤ roundF32 (roundF32 (g * 255) + 1 / 2) :=
      roundF32_mono (by linarith [roundF32_mono (show f * 255 ≤ g * 255 by linarith)])
    have hfl := Int.floor_le_floor hv
    have : (convertColor f : ℤ) ≤ (convertColor g : ℤ) := by
      rw [convertColor_eq_clamp, convertColor_eq_clamp]
      exact max_le_max le_rfl (min_le_min le_rfl hfl)
    exact_mod_cast this
  · intro f e1 e2
    rw [convertColor_eq_clamp, e1, e2]
    rfl
  · intro f
    by_cases h1 : f ≥ 1
    · have hs : convertColorSpec f = 255 := by
        unfold convertColorSpec
        have hfl : (255 : ℤ) ≤ ⌊f * 255 + 1 / 2⌋ := Int.le_floor.2 (by push_cast; linarith)
        rw [min_eq_left hfl]
        rfl
      rw [hhigh f h1, hs]
      norm_num
    · by_cases h0 : f ≤ 0
      · have hs : convertColorSpec f = 0 := by
          unfold convertColorSpec
          have hfl : ⌊f * 255 + 1 / 2⌋ ≤ (0 : ℤ) := by
            have : ⌊f * 255 + 1 / 2⌋ < (1 : ℤ) := Int.floor_lt.2 (by push_cast; linarith)
            omega
          rw [min_eq_right (by omega), max_eq_left hfl]
        rw [hlow f h0, hs]
        norm_num
      · push_neg at h0 h1
        have he := convertColor_rounding f h0 h1
        rw [abs_le] at he
        have hu : ⌊roundF32 (roundF32 (f * 255) + 1 / 2)⌋ ≤ ⌊f * 255 + 1 / 2⌋ + 1 := by
          rw [← Int.floor_add_one]
          exact Int.floor_le_floor (by linarith [he.2])
        have hl : ⌊f * 255 + 1 / 2⌋ ≤ ⌊roundF32 (roundF32 (f * 255) + 1 / 2)⌋ + 1 := by
          rw [← Int.floor_add_one]
          exact Int.floor_le_floor (by linarith [he.1])
        rw [convertColor_eq_clamp]
        unfold convertColorSpec
        rw [abs_le]
        simp only [max_def, min_def]
        split_ifs <;> constructor <;> omega

/-- Witness of C16 (amended): the values at `-1/3`, `0`, `1` and `7/5`, the
order of the values at `1/2` and `7/5`, and the value 128 at `1/2`, where the
product `127.5` and the sum `128` are exact. -/
theorem convertColor_clamp_witness :
    convertColor (-1 / 3) = 0 ∧ convertColor 0 = 0 ∧
    convertColor 1 = 255 ∧ convertColor (7 / 5) = 255 ∧
    convertColor (1 / 2) ≤ convertColor (7 / 5) ∧
    convertColorSpec (1 / 2) = 128 ∧ (convertColor (1 / 2) : ℤ) = convertColorSpec (1 / 2) :=
  ⟨convertColor_clamp.1 (-1 / 3) (by norm_num), convertColor_clamp.1 0 le_rfl,
   convertColor_clamp.2.1 1 le_rfl, convertColor_clamp.2.1 (7 / 5) (by norm_num),
   convertColor_clamp.2.2.1 (1 / 2) (7 / 5) (by norm_num), by decide!,
   convertColor_clamp.2.2.2.1 (1 / 2) (by decide!) (by decide!)⟩

/-- C16 (counterexample): `f = 65793/33554432` is a binary32 number.  The
product `f·255 = 16777215/33554432` is exact, the sum with `0.5` lies half way
between two binary32 numbers and is rounded to `1`, so `convertColor f = 1`,
while `floor(f·255 + 0.5) = 0`. -/
theorem convertColor_tie :
    isF32 (65793 / 33554432) ∧
    roundF32 (65793 / 33554432 * 255) = 16777215 / 33554432 ∧
    roundF32 (16777215 / 33554432 + 1 / 2) = 1 ∧
    convertColor (65793 / 33554432) = 1 ∧
    convertColorSpec (65793 / 33554432) = 0 := by
  unfold isF32
  decide!

/-! ## C17: clipping a triangle with one vertex inside -/

/-- C17: when exactly one vertex `as i` of a triangle satisfies `z ≥ -w`,
`clipAssembly` returns exactly one triangle: its first vertex is `as i` itself
and the other two are `countOutVer` of `as i` with each outside vertex, taken
in their original order. -/
theorem clipAssembly_one_inside (as : Assembly) (types : Fin maxAttributes → AttributeType)
    (i : Fin 3) (hin : (as i).gl_Position 2 ≥ -(as i).gl_Position 3)
    (hout : ∀ j, j ≠ i → (as j).gl_Position 2 < -(as j).gl_Position 3) :
    clipAssembly as types =
      [![as i, countOutVer (as i) (as (otherVertices i).1) types,
          countOutVer (as i) (as (otherVertices i).2) types]] := by
  fin_cases i
  · have h1 := not_le.2 (hout 1 (by decide))
    have h2 := not_le.2 (hout 2 (by decide))
    simp only [Fin.zero_eta] at hin
    simp [clipAssembly, isOK, hin, h1, h2, otherVertices]
  · have h0 := not_le.2 (hout 0 (by decide))
    have h2 := not_le.2 (hout 2 (by decide))
    simp only [Fin.mk_one] at hin
    simp [clipAssembly, isOK, hin, h0, h2, otherVertices]
  · have h0 := not_le.2 (hout 0 (by decide))
    have h1 := not_le.2 (hout 1 (by decide))
    simp only [Fin.reduceFinMk] at hin
    simp [clipAssembly, isOK, hin, h0, h1, otherVertices]

/-- Witness of C17: in the triangle `(0,0,-2,1), (1,0,-2,1), (0,1,0.5,1)` only
the third vertex is inside; the new vertices are `(0,0.4,-1,1)` and
`(0.6,0.4,-1,1)`. -/
theorem clipAssembly_one_inside_witness :
    clipAssembly ![vertexAt ![0, 0, -2, 1], vertexAt ![1, 0, -2, 1], vertexAt ![0, 1, 1 / 2, 1]]
        (fun _ => AttributeType.EMPTY)
      = [![vertexAt ![0, 1, 1 / 2, 1],
          countOutVer (vertexAt ![0, 1, 1 / 2, 1]) (vertexAt ![0, 0, -2, 1])
            (fun _ => AttributeType.EMPTY),
          countOutVer (vertexAt ![0, 1, 1 / 2, 1]) (vertexAt ![1, 0, -2, 1])
            (fun _ => AttributeType.EMPTY)]] ∧
    (countOutVer (vertexAt ![0, 1, 1 / 2, 1]) (vertexAt ![0, 0, -2, 1])
        (fun _ => AttributeType.EMPTY)).gl_Position = ![0, 2 / 5, -1, 1] ∧
    (countOutVer (vertexAt ![0, 1, 1 / 2, 1]) (vertexAt ![1, 0, -2, 1])
        (fun _ => AttributeType.EMPTY)).gl_Position = ![3 / 5, 2 / 5, -1, 1] :=
  ⟨clipAssembly_one_inside _ _ 2 (by simp [vertexAt]; norm_num) (by
      intro j hj
      fin_cases j
      · simp [vertexAt]
      · simp [vertexAt]
      · exact absurd rfl hj),
    by decide!, by decide!⟩

/-! ## C18: the new vertex lies on the near plane -/

/-- C18: for an inside vertex `A` (`A.z ≥ -A.w`) and an outside vertex `B`
(`B.z < -B.w`) the vertex `P = countOutVer A B types` lies on the near plane,
`P.z = -P.w`, and every component of its position is `A + t·(B − A)` with
`t = (-A.w - A.z) / ((B.w - A.w) + (B.z - A.z))`. -/
theorem countOutVer_near_plane (A B : OutVertex) (types : Fin maxAttributes → AttributeType)
    (hA : A.gl_Position 2 ≥ -A.gl_Position 3) (hB : B.gl_Position 2 < -B.gl_Position 3) :
    (countOutVer A B types).gl_Position 2 = -(countOutVer A B types).gl_Position 3 ∧
    ∀ i, (countOutVer A B types).gl_Position i =
      A.gl_Position i +
        (-A.gl_Position 3 - A.gl_Position 2) /
            ((B.gl_Position 3 - A.gl_Position 3) + (B.gl_Position 2 - A.gl_Position 2)) *
          (B.gl_Position i - A.gl_Position i) := by
  have hD : (B.gl_Position 3 - A.gl_Position 3) + (B.gl_Position 2 - A.gl_Position 2) ≠ 0 := by
    have : (B.gl_Position 3 - A.gl_Position 3) + (B.gl_Position 2 - A.gl_Position 2) < 0 := by
      linarith
    exact this.ne
  have hcomp : ∀ i, (countOutVer A B types).gl_Position i =
      A.gl_Position i +
        (-A.gl_Position 3 - A.gl_Position 2) /
            ((B.gl_Position 3 - A.gl_Position 3) + (B.gl_Position 2 - A.gl_Position 2)) *
          (B.gl_Position i - A.gl_Position i) := by
    intro i
    simp only [countOutVer, countLinCombination4, countLinCombination]
    congr 3
    ring
  refine ⟨?_, hcomp⟩
  rw [hcomp 2, hcomp 3]
  field_simp
  ring

/-- Witness of C18: `A = (0,1,0.5,1)` is inside, `B = (0,0,-2,1)` is outside,
and the new vertex is `(0,0.4,-1,1)`. -/
theorem countOutVer_near_plane_witness :
    (countOutVer (vertexAt ![0, 1, 1 / 2, 1]) (vertexAt ![0, 0, -2, 1])
        (fun _ => AttributeType.FLOAT)).gl_Position 2 =
      -(countOutVer (vertexAt ![0, 1, 1 / 2, 1]) (vertexAt ![0, 0, -2, 1])
        (fun _ => AttributeType.FLOAT)).gl_Position 3 :=
  (countOutVer_near_plane (vertexAt ![0, 1, 1 / 2, 1]) (vertexAt ![0, 0, -2, 1])
    (fun _ => AttributeType.FLOAT) (by simp [vertexAt]; norm_num) (by simp [vertexAt])).1

/-! ## C19: the full-screen triangle -/

/-- The fragments that `drawPipeline` hands to its fragment loop are those of
`assemblyFragments`. -/
theorem drawPipeline_fragments (g : GPU) (current_puller : vertexPullerSettingStructure)
    (current_program : programSettingStructure) (nofVertices : Nat) :
    drawPipeline g current_puller current_program nofVertices =
      (vertexProcessor g.Buffer current_puller current_program (nofVertices / 3)).bind
        (fun assemblies =>
          (assemblyFragments (getTypes current_puller) current_program.v2f
            (getFramebufferWidth g) (getFramebufferHeight g) assemblies).bind
            (fun in_fragments =>
              (in_fragments.foldlM (fragmentStep current_program)
                (g, { gl_FragColor := fun _ => 0 })).map (fun st => st.1))) := by
  unfold drawPipeline assemblyFragments
  dsimp only
  cases vertexProcessor g.Buffer current_puller current_program (nofVertices / 3) with
  | none => rfl
  | some assemblies =>
      simp only [Option.some_bind]
      cases rasterizeAll current_program.v2f
        (List.map (fun ass => viewPortTransformation ass (getFramebufferWidth g)
          (getFramebufferHeight g))
          (List.map perspectiveDivision
            (assemblies.flatMap fun assembly => clipAssembly assembly (getTypes current_puller))))
        <;> rfl
/-- The conversion of a natural number that fits 64 bits. -/
theorem toU64_natCast (n : Nat) (hn : n < 2 ^ 64) : toU64 (n : ℚ) = some n := by
  unfold toU64
  have h1 : ¬ ((n : ℚ) ≤ -1 ∨ (n : ℚ) ≥ 2 ^ 64) := by
    push_neg
    constructor
    · have : (0 : ℚ) ≤ n := Nat.cast_nonneg n
      linarith
    · exact_mod_cast hn
  rw [if_neg h1, Int.floor_natCast, Int.toNat_ofNat]

/-- The box of `getConvexCover` for a right triangle with the right angle at the
origin and legs `a` and `b` along the axes. -/
theorem getConvexCover_rightTriangle (a b : Nat) (ha : a < 2 ^ 64) (hb : b < 2 ^ 64) :
    getConvexCover ![0, 0, 0, 1] ![(a : ℚ), 0, 0, 1] ![0, (b : ℚ), 0, 1]
      = some (![0, 0], ![a, b]) := by
  have ha0 : (0 : ℚ) ≤ a := Nat.cast_nonneg a
  have hb0 : (0 : ℚ) ≤ b := Nat.cast_nonneg b
  have hf : ⌊(0 : ℚ) + 1 / 2⌋ = 0 := by
    rw [Int.floor_eq_iff]
    norm_num
  have h0 : toU64 ((0 : ℤ) : ℚ) = some 0 := by
    have := toU64_natCast 0 (by norm_num)
    simpa using this
  unfold getConvexCover
  simp only [Matrix.cons_val_zero, Matrix.cons_val_one, Matrix.head_cons, min_eq_left ha0,
    min_self, max_self, max_eq_right ha0, max_eq_left ha0, max_eq_left hb0, max_eq_right hb0,
    min_eq_left hb0, hf, h0, toU64_natCast a ha, toU64_natCast b hb]
/-- The coverage test for a right triangle with the right angle at the origin
and legs `a` and `b` along the axes: the pixel centre lies on or below the
hypotenuse. -/
theorem covers_rightTriangle (P : Assembly) (a b : Nat) (ha : 0 < a) (hb : 0 < b)
    (h0 : (P 0).gl_Position = ![0, 0, 0, 1]) (h1 : (P 1).gl_Position = ![(a : ℚ), 0, 0, 1])
    (h2 : (P 2).gl_Position = ![0, (b : ℚ), 0, 1]) (x y : Nat) :
    covers P x y = true ↔
      (b : ℚ) * (1 / 2 + (x : ℚ)) + (a : ℚ) * (1 / 2 + (y : ℚ)) ≤ (a : ℚ) * (b : ℚ) := by
  have ha0 : (0 : ℚ) < a := by exact_mod_cast ha
  have hb0 : (0 : ℚ) < b := by exact_mod_cast hb
  have hx0 : (0 : ℚ) ≤ x := Nat.cast_nonneg x
  have hy0 : (0 : ℚ) ≤ y := Nat.cast_nonneg y
  unfold covers
  simp only [decide_eq_true_eq]
  rw [(edgeFunction_upToSign _ _ _ _ _ _ (deltasUpToSign_getDeltas _ _ _)).2, h0, h1, h2]
  have e0 : rawEdges ![0, 0, 0, 1] ![(a : ℚ), 0, 0, 1] ![0, (b : ℚ), 0, 1]
      (1 / 2 + (x : ℚ)) (1 / 2 + (y : ℚ)) 0 = (a : ℚ) * (1 / 2 + (y : ℚ)) := by
    simp [rawEdges, getDeltas]
    ring
  have e1 : rawEdges ![0, 0, 0, 1] ![(a : ℚ), 0, 0, 1] ![0, (b : ℚ), 0, 1]
      (1 / 2 + (x : ℚ)) (1 / 2 + (y : ℚ)) 1 =
        (a : ℚ) * (b : ℚ) - ((b : ℚ) * (1 / 2 + (x : ℚ)) + (a : ℚ) * (1 / 2 + (y : ℚ))) := by
    simp [rawEdges, getDeltas]
    ring
  have e2 : rawEdges ![0, 0, 0, 1] ![(a : ℚ), 0, 0, 1] ![0, (b : ℚ), 0, 1]
      (1 / 2 + (x : ℚ)) (1 / 2 + (y : ℚ)) 2 = (b : ℚ) * (1 / 2 + (x : ℚ)) := by
    simp [rawEdges, getDeltas]
    ring
  rw [e0, e1, e2]
  have p0 : 0 < (a : ℚ) * (1 / 2 + (y : ℚ)) := by positivity
  have p2 : 0 < (b : ℚ) * (1 / 2 + (x : ℚ)) := by positivity
  constructor
  · rintro (⟨_, h, _⟩ | ⟨h, _, _⟩)
    · linarith
    · linarith
  · intro h
    exact Or.inl ⟨p0.le, by linarith, p2.le⟩

/-- The pixel centre determines the pixel. -/
theorem pixelCentre_inj (x y x1 y1 : Nat) (h : pixelCentre x y = pixelCentre x1 y1) :
    x = x1 ∧ y = y1 := by
  simp only [pixelCentre, Prod.mk.injEq, add_right_inj, Nat.cast_inj] at h
  exact h

/-- The fragments of `rasterize` for a right triangle with the right angle at
the origin and legs `a` and `b` along the axes: the pixels whose centre lies on
or below the hypotenuse. -/
theorem rasterize_rightTriangle (P : Assembly) (v2f : Fin maxAttributes → AttributeType)
    (a b : Nat) (ha : 0 < a) (hb : 0 < b) (ha64 : a < 2 ^ 64) (hb64 : b < 2 ^ 64)
    (h0 : (P 0).gl_Position = ![0, 0, 0, 1]) (h1 : (P 1).gl_Position = ![(a : ℚ), 0, 0, 1])
    (h2 : (P 2).gl_Position = ![0, (b : ℚ), 0, 1]) :
    ∃ frags, rasterize P v2f = some frags ∧
      ∀ x y : Nat, pixelCentre x y ∈ fragmentCentres frags ↔
        (b : ℚ) * (1 / 2 + (x : ℚ)) + (a : ℚ) * (1 / 2 + (y : ℚ)) ≤ (a : ℚ) * (b : ℚ) := by
  have hcc := getConvexCover_rightTriangle a b ha64 hb64
  rw [← h0, ← h1, ← h2] at hcc
  cases hr : rasterize P v2f with
  | none =>
      unfold rasterize at hr
      dsimp only at hr
      rw [hcc] at hr
      cases hr
  | some frags =>
      refine ⟨frags, rfl, fun x y => ?_⟩
      obtain ⟨ld, rt, hcc1, hfr⟩ := rasterize_centres P v2f frags hr
      rw [hcc] at hcc1
      cases hcc1
      rw [hfr]
      simp only [List.mem_flatMap, List.mem_map, List.mem_filter, List.mem_range'_1,
        Matrix.cons_val_zero, Matrix.cons_val_one, Matrix.head_cons]
      have ha0 : (0 : ℚ) < a := by exact_mod_cast ha
      have hb0 : (0 : ℚ) < b := by exact_mod_cast hb
      have hx0 : (0 : ℚ) ≤ x := Nat.cast_nonneg x
      have hy0 : (0 : ℚ) ≤ y := Nat.cast_nonneg y
      constructor
      · rintro ⟨y1, _, x1, ⟨_, hc⟩, he⟩
        obtain ⟨rfl, rfl⟩ := pixelCentre_inj _ _ _ _ he
        exact (covers_rightTriangle P a b ha hb h0 h1 h2 _ _).1 hc
      · intro h
        have hxa : (x : ℚ) < a := by
          by_contra hcon
          push_neg at hcon
          nlinarith
        have hyb : (y : ℚ) < b := by
          by_contra hcon
          push_neg at hcon
          nlinarith
        have hxa1 : x < a := by exact_mod_cast hxa
        have hyb1 : y < b := by exact_mod_cast hyb
        exact ⟨y, by omega, x, ⟨by omega, (covers_rightTriangle P a b ha hb h0 h1 h2 x y).2 h⟩,
          rfl⟩
/-- The projected full-screen triangle: in a framebuffer of width `W + 1` and
height `H + 1` the clip-space vertices `(-1,-1,0,1), (3,-1,0,1), (-1,3,0,1)`
go to `(0,0)`, `(2W,0)`, `(0,2H)`. -/
theorem fullScreen_projected (ass : Assembly) (W H : Nat)
    (h0 : (ass 0).gl_Position = ![-1, -1, 0, 1]) (h1 : (ass 1).gl_Position = ![3, -1, 0, 1])
    (h2 : (ass 2).gl_Position = ![-1, 3, 0, 1]) :
    ((viewPortTransformation (perspectiveDivision ass) ((W + 1 : Nat) : ℚ)
        ((H + 1 : Nat) : ℚ)) 0).gl_Position = ![0, 0, 0, 1] ∧
    ((viewPortTransformation (perspectiveDivision ass) ((W + 1 : Nat) : ℚ)
        ((H + 1 : Nat) : ℚ)) 1).gl_Position = ![((2 * W : Nat) : ℚ), 0, 0, 1] ∧
    ((viewPortTransformation (perspectiveDivision ass) ((W + 1 : Nat) : ℚ)
        ((H + 1 : Nat) : ℚ)) 2).gl_Position = ![0, ((2 * H : Nat) : ℚ), 0, 1] := by
  have e3 : ((3 : Fin 4) : Nat) = 3 := rfl
  have e2 : ((2 : Fin 4) : Nat) = 2 := rfl
  refine ⟨?_, ?_, ?_⟩ <;> funext j <;> fin_cases j <;>
    simp [viewPortTransformation, viewPortTransformationVertex, perspectiveDivision,
      perspectiveDivisionVertex, h0, h1, h2, e3, e2] <;>
    first
      | ring1
      | (left; norm_num)

/-- The fragments of a single triangle. -/
theorem rasterizeAll_single (v2f : Fin maxAttributes → AttributeType) (a : Assembly)
    (frags : List InFragment) (h : rasterize a v2f = some frags) :
    rasterizeAll v2f [a] = some frags := by
  have e : rasterizeAll v2f [a] =
      (match rasterize a v2f, rasterizeAll v2f [] with
        | some new_in_fragments, some more => some (new_in_fragments ++ more)
        | _, _ => none) := rfl
  rw [e, h]
  have e2 : rasterizeAll v2f [] = some [] := rfl
  rw [e2]
  simp

/-- C19 (amended): in a framebuffer of width `w ≥ 2` and height `h ≥ 2` the
stages of `drawTriangles` after the vertex processor turn the full-screen
triangle `(-1,-1,0,1), (3,-1,0,1), (-1,3,0,1)` into a list of fragments that
holds a fragment for pixel `(0,0)` and no fragment for pixel `(w-1, h-1)`:
`viewPortTransformation` scales by `width - 1` and `height - 1`, the
hypotenuse passes through the point `(w-1, h-1)`, and the centre
`(w-1/2, h-1/2)` of that pixel lies outside the triangle. -/
theorem fullScreenTriangle_corners (w h : Nat) (hw : 2 ≤ w) (hh : 2 ≤ h)
    (hw32 : w < 2 ^ 32) (hh32 : h < 2 ^ 32) (ass : Assembly)
    (types v2f : Fin maxAttributes → AttributeType)
    (h0 : (ass 0).gl_Position = ![-1, -1, 0, 1]) (h1 : (ass 1).gl_Position = ![3, -1, 0, 1])
    (h2 : (ass 2).gl_Position = ![-1, 3, 0, 1]) :
    ∃ frags, assemblyFragments types v2f (w : ℚ) (h : ℚ) [ass] = some frags ∧
      pixelCentre 0 0 ∈ fragmentCentres frags ∧
      pixelCentre (w - 1) (h - 1) ∉ fragmentCentres frags := by
  obtain ⟨W, rfl⟩ : ∃ W, w = W + 1 := ⟨w - 1, by omega⟩
  obtain ⟨H, rfl⟩ : ∃ H, h = H + 1 := ⟨h - 1, by omega⟩
  have hclip : clipAssembly ass types = [ass] := by
    simp [clipAssembly, isOK, h0, h1, h2]
  obtain ⟨p0, p1, p2⟩ := fullScreen_projected ass W H h0 h1 h2
  obtain ⟨frags, hr, hmem⟩ := rasterize_rightTriangle _ v2f (2 * W) (2 * H) (by omega) (by omega)
    (by omega) (by omega) p0 p1 p2
  have hW : (1 : ℚ) ≤ W := by exact_mod_cast (show 1 ≤ W by omega)
  have hH : (1 : ℚ) ≤ H := by exact_mod_cast (show 1 ≤ H by omega)
  have a1 : (((2 * H : Nat) : ℚ)) * (1 / 2 + ((0 : Nat) : ℚ)) +
      ((2 * W : Nat) : ℚ) * (1 / 2 + ((0 : Nat) : ℚ)) ≤ ((2 * W : Nat) : ℚ) * ((2 * H : Nat) : ℚ) := by
    push_cast
    nlinarith [mul_nonneg (sub_nonneg.2 hW) (sub_nonneg.2 hH)]
  have a2 : ¬ ((((2 * H : Nat) : ℚ)) * (1 / 2 + ((W : Nat) : ℚ)) +
      ((2 * W : Nat) : ℚ) * (1 / 2 + ((H : Nat) : ℚ)) ≤ ((2 * W : Nat) : ℚ) * ((2 * H : Nat) : ℚ)) := by
    push_cast
    nlinarith
  refine ⟨frags, ?_, (hmem 0 0).2 a1, fun hc => a2 ((hmem _ _).1 hc)⟩
  unfold assemblyFragments
  rw [List.flatMap_cons, List.flatMap_nil, List.append_nil, hclip, List.map_cons, List.map_nil,
    List.map_cons, List.map_nil]
  exact rasterizeAll_single _ _ _ hr

/-- Witness of C19: a 4×4 framebuffer. -/
theorem fullScreenTriangle_corners_witness :
    ∃ frags, assemblyFragments (fun _ => AttributeType.EMPTY) (fun _ => AttributeType.EMPTY)
        ((4 : Nat) : ℚ) ((4 : Nat) : ℚ) [fullScreenTriangle] = some frags ∧
      pixelCentre 0 0 ∈ fragmentCentres frags ∧
      pixelCentre (4 - 1) (4 - 1) ∉ fragmentCentres frags :=
  fullScreenTriangle_corners 4 4 (by decide) (by decide) (by decide) (by decide)
    fullScreenTriangle _ _ rfl rfl rfl

/-- C19 (counterexample): in a 2×2 framebuffer the full-screen triangle gives
fragments for the pixels `(0,0)`, `(1,0)` and `(0,1)` only; pixel
`(w-1, h-1) = (1,1)`, whose centre is `(1.5, 1.5)`, gets none. -/
theorem fullScreenTriangle_misses_corner :
    (assemblyFragments (fun _ => AttributeType.EMPTY) (fun _ => AttributeType.EMPTY) 2 2
        [fullScreenTriangle]).map fragmentCentres
      = some [(1 / 2, 1 / 2), (3 / 2, 1 / 2), (1 / 2, 3 / 2)] := by
  decide!

/-! ## C20: the triangle of the 4×4 scenario -/

/-- The device after `triangleSetup` is reached through the API. -/
theorem triangleDevice_reached :
    run exampleEmptyID triangleSetup (GPU.new exampleEmptyID) = some triangleDevice := by
  have hs : (run exampleEmptyID triangleSetup (GPU.new exampleEmptyID)).isSome = true := by
    decide!
  unfold triangleDevice
  cases hr : run exampleEmptyID triangleSetup (GPU.new exampleEmptyID) with
  | none => rw [hr] at hs; cases hs
  | some g => rfl

/-- The pixels of the fragments that the draw of the scenario produces. -/
theorem triangleDevice_fragments :
    ((vertexProcessor triangleDevice.Buffer trianglePuller triangleProgram 1).bind
      (fun assemblies => assemblyFragments (getTypes trianglePuller) triangleProgram.v2f
        4 4 assemblies)).map (List.map fragmentPixel)
      = some [(some 0, some 0), (some 1, some 0), (some 2, some 0),
              (some 0, some 1), (some 1, some 1), (some 0, some 2)] := by
  decide!

/-- `putPixel` inside the planes: the four colour bytes of the pixel are
replaced and every other colour byte is kept. -/
theorem putPixel_colour (g : GPU) (x y : Nat) (color : Vec4) (depth : ℚ)
    (col : List (Cell Byte)) (dpt : List (Cell ℚ))
    (hc : g.FB.colorB = some col) (hd : g.FB.depthB = some dpt)
    (hcl : (g.FB.width * y + x) % 2 ^ 32 * 4 + 4 ≤ col.length)
    (hdl : (g.FB.width * y + x) % 2 ^ 32 * 4 + 1 ≤ dpt.length) :
    ∃ col1 dpt1,
      putPixel g x y color depth
        = some { g with FB := { g.FB with colorB := some col1, depthB := some dpt1 } } ∧
      col1.length = col.length ∧ dpt1.length = dpt.length ∧
      ∀ i, col1[i]? =
        if (g.FB.width * y + x) % 2 ^ 32 * 4 ≤ i ∧ i < (g.FB.width * y + x) % 2 ^ 32 * 4 + 4 then
          ([some (convertColor (color 0)), some (convertColor (color 1)),
            some (convertColor (color 2)), some (convertColor (color 3))] : List (Cell Byte))[
              i - (g.FB.width * y + x) % 2 ^ 32 * 4]?
        else col[i]? := by
  have hw : getFramebufferWidth g = g.FB.width := by
    simp [getFramebufferWidth, hc, hd]
  obtain ⟨col1, hcol1⟩ := writeCells_isSome col
    [some (convertColor (color 0)), some (convertColor (color 1)),
     some (convertColor (color 2)), some (convertColor (color 3))]
    ((g.FB.width * y + x) % 2 ^ 32 * 4) hcl
  obtain ⟨dpt1, hdpt1⟩ := writeCells_isSome dpt [some depth]
    ((g.FB.width * y + x) % 2 ^ 32 * 4) hdl
  have hread : ∃ r, readCells dpt ((g.FB.width * y + x) % 2 ^ 32 * 4) 1 = some r := by
    unfold readCells
    rw [if_pos hdl]
    exact ⟨_, rfl⟩
  obtain ⟨r, hr⟩ := hread
  refine ⟨col1, dpt1, ?_, writeCells_length hcol1, writeCells_length hdpt1, fun i => ?_⟩
  · simp only [putPixel, getFramebufferColor, getFramebufferDepth, hc, hd, hw, hr, hcol1, hdpt1]
  · rw [writeCells_getElem? hcol1 i]
    rfl

/-- The fragment loop with the white fragment shader: when every fragment is
written inside the planes, the bytes of the pixels of the fragments become 255
and every other colour byte is kept. -/
theorem fragmentLoop_white (program : programSettingStructure)
    (hfs : program.fs = some exampleFS) :
    ∀ (frs : List InFragment) (keys : List (Nat × Nat)) (g : GPU) (o : OutFragment)
      (col : List (Cell Byte)) (dpt : List (Cell ℚ)),
      frs.map fragmentPixel = keys.map (fun k => (some k.1, some k.2)) →
      g.FB.colorB = some col → g.FB.depthB = some dpt →
      (∀ k ∈ keys, (g.FB.width * k.2 + k.1) % 2 ^ 32 * 4 + 4 ≤ col.length ∧
        (g.FB.width * k.2 + k.1) % 2 ^ 32 * 4 + 1 ≤ dpt.length) →
      ∃ g1 o1 col1, frs.foldlM (fragmentStep program) (g, o) = some (g1, o1) ∧
        g1.FB.colorB = some col1 ∧
        ∀ i, col1[i]? = if pixelTouched g.FB.width keys i then some (some 255) else col[i]? := by
  have hwhite : convertColor 1 = 255 := by decide!
  intro frs
  induction frs with
  | nil =>
      intro keys g o col dpt hk hc _ _
      cases keys with
      | nil => exact ⟨g, o, col, rfl, hc, fun i => by simp [pixelTouched]⟩
      | cons k keys => simp at hk
  | cons f frs ih =>
      intro keys g o col dpt hk hc hd hb
      cases keys with
      | nil => simp at hk
      | cons k keys =>
          simp only [List.map_cons, List.cons.injEq] at hk
          obtain ⟨hf, hk⟩ := hk
          simp only [fragmentPixel, Prod.mk.injEq] at hf
          obtain ⟨hb1, hb2⟩ := hb k (List.mem_cons_self _ _)
          obtain ⟨col1, dpt1, hput, hl1, hl2, hcol1⟩ :=
            putPixel_colour g k.1 k.2 (exampleFS o f program.uni).gl_FragColor
              (f.gl_FragCoord 2) col dpt hc hd hb1 hb2
          have hstep : fragmentStep program (g, o) f
              = some ({ g with FB := { g.FB with colorB := some col1, depthB := some dpt1 } },
                  exampleFS o f program.uni) := by
            simp only [fragmentStep, hfs, hf.1, hf.2, hput, Option.map_some']
          obtain ⟨g2, o2, col2, hfold, hc2, hcol2⟩ :=
            ih keys { g with FB := { g.FB with colorB := some col1, depthB := some dpt1 } }
              (exampleFS o f program.uni) col1 dpt1 hk rfl rfl (fun k1 hk1 => by
                obtain ⟨a1, a2⟩ := hb k1 (List.mem_cons_of_mem _ hk1)
                exact ⟨by rw [hl1]; exact a1, by rw [hl2]; exact a2⟩)
          refine ⟨g2, o2, col2, ?_, hc2, fun i => ?_⟩
          · rw [List.foldlM_cons, hstep]
            exact hfold
          · rw [hcol2 i, hcol1 i]
            dsimp only
            simp only [pixelTouched, List.any_cons, Bool.or_eq_true, decide_eq_true_eq]
            by_cases h1 : (g.FB.width * k.2 + k.1) % 2 ^ 32 * 4 ≤ i ∧
                i < (g.FB.width * k.2 + k.1) % 2 ^ 32 * 4 + 4
            · have h4 : i - (g.FB.width * k.2 + k.1) % 2 ^ 32 * 4 < 4 := by omega
              have hw : ([some (convertColor ((exampleFS o f program.uni).gl_FragColor 0)),
                  some (convertColor ((exampleFS o f program.uni).gl_FragColor 1)),
                  some (convertColor ((exampleFS o f program.uni).gl_FragColor 2)),
                  some (convertColor ((exampleFS o f program.uni).gl_FragColor 3))] :
                    List (Cell Byte))[i - (g.FB.width * k.2 + k.1) % 2 ^ 32 * 4]?
                  = some (some 255) := by
                generalize i - (g.FB.width * k.2 + k.1) % 2 ^ 32 * 4 = j at h4
                have e : ∀ c : Fin 4, convertColor ((exampleFS o f program.uni).gl_FragColor c)
                    = 255 := by
                  intro c
                  fin_cases c <;> simpa [exampleFS] using hwhite
                interval_cases j <;> simp [e]
              simp only [h1, and_self, true_or, if_true, hw]
              split <;> rfl
            · simp only [h1, false_or, if_false]

/-- A sequence of calls can be run in two parts. -/
theorem run_append (emptyID : Nat) (ops1 ops2 : List Op) :
    ∀ g, run emptyID (ops1 ++ ops2) g = (run emptyID ops1 g).bind (run emptyID ops2) := by
  induction ops1 with
  | nil => intro g; rfl
  | cons op ops ih =>
      intro g
      simp only [List.cons_append, run]
      cases op.apply emptyID g with
      | none => rfl
      | some g1 => exact ih g1

/-- With a live bound puller and a live active program, `drawTriangles` of a
multiple of three vertices runs the pipeline. -/
theorem drawTriangles_eq_pipeline (emptyID : Nat) (g : GPU) (n : Nat)
    (puller : vertexPullerSettingStructure) (program : programSettingStructure)
    (hn : ¬ n < 3) (hn3 : n % 3 = 0) (hva : g.VP.active ≠ emptyID) (hpa : g.P.active ≠ emptyID)
    (hv : isVertexPuller emptyID g g.VP.active = some true)
    (hp : isProgram emptyID g g.P.active = some true)
    (hpl : g.VP.Pullers[g.VP.active]? = some (Ptr.block puller))
    (hpr : g.P.Programs[g.P.active]? = some (Ptr.block program)) :
    drawTriangles emptyID g n = drawPipeline g puller program n := by
  unfold drawTriangles
  simp only [hn, hn3, hva, hpa, hv, hp, hpl, hpr, if_false, ne_eq, not_true_eq_false]

set_option maxRecDepth 100000 in
/-- The facts about `triangleDevice` that the draw reads. -/
theorem triangleDevice_facts :
    triangleDevice.FB.colorB = some (List.replicate 536 none) ∧
    triangleDevice.FB.depthB = some (List.replicate 134 none) ∧
    triangleDevice.FB.width = 4 ∧ triangleDevice.FB.height = 4 ∧
    triangleDevice.VP.active = 0 ∧ triangleDevice.P.active = 0 ∧
    isVertexPuller exampleEmptyID triangleDevice 0 = some true ∧
    isProgram exampleEmptyID triangleDevice 0 = some true ∧
    triangleDevice.VP.Pullers[0]? = some (Ptr.block trianglePuller) ∧
    triangleDevice.P.Programs[0]? = some (Ptr.block triangleProgram) ∧
    triangleProgram.fs = some exampleFS :=
  ⟨by decide!, by decide!, by decide!, by decide!, by decide!, by decide!, by decide!, by decide!,
    rfl, rfl, rfl⟩

/-- The colour bytes written by the scenario are those of the pixels with
`x + y ≤ 2`. -/
theorem trianglePixels_touched (x y k : Fin 4) :
    pixelTouched 4 trianglePixels (4 * (4 * y.val + x.val) + k.val)
      = decide (x.val + y.val ≤ 2) := by
  revert x y k
  decide

set_option maxRecDepth 100000 in
/-- C20 (amended): in the 4×4 framebuffer cleared to a colour `(r, g, b, a)`,
the draw of the triangle `(-1,-1,0,1), (1,-1,0,1), (-1,1,0,1)`, read from a
buffer by a vertex shader that copies attribute 0 into `gl_Position` and shaded
white, is defined and makes every pixel `(x, y)` with `x + y ≤ 2` white; every
other pixel, the pixels `x + y = 3` of the diagonal included, keeps the bytes
of the clear colour. -/
theorem triangle_draw_pixels (r gg b a : ℚ) :
    ∃ g1 g2 col,
      run exampleEmptyID (triangleSetup ++ [Op.clear r gg b a]) (GPU.new exampleEmptyID)
        = some g1 ∧
      drawTriangles exampleEmptyID g1 3 = some g2 ∧
      g2.FB.colorB = some col ∧
      ∀ x y k : Fin 4,
        col[4 * (4 * y.val + x.val) + k.val]? =
          some (some (if x.val + y.val ≤ 2 then 255
            else ![convertColor r, convertColor gg, convertColor b, convertColor a] k)) := by
  obtain ⟨hcolB, hdptB, hw, hh, hva, hpa, hv, hp, hpl, hpr, hfs⟩ := triangleDevice_facts
  obtain ⟨c1, d1, hloop, hl1, hl2, hc1, _⟩ :=
    clearLoop_spec [some (convertColor r), some (convertColor gg), some (convertColor b),
      some (convertColor a)] (11 / 10) rfl (List.replicate 536 none) (List.replicate 134 none) 16
      (by rw [List.length_replicate]; norm_num) (by rw [List.length_replicate]; norm_num)
  rw [List.length_replicate] at hl1 hl2
  have hclear : clear triangleDevice r gg b a = some
      { triangleDevice with FB :=
          { triangleDevice.FB with colorB := some c1, depthB := some d1 } } := by
    simp only [clear, hcolB, hdptB, hw, hh, Nat.reduceMul, Nat.reducePow, Nat.reduceMod, hloop,
      Option.map_some']
  have hrun : run exampleEmptyID (triangleSetup ++ [Op.clear r gg b a]) (GPU.new exampleEmptyID)
      = some { triangleDevice with FB :=
          { triangleDevice.FB with colorB := some c1, depthB := some d1 } } := by
    rw [run_append, triangleDevice_reached]
    simp only [Option.some_bind, run, Op.apply, hclear]
  obtain ⟨frs, hfrs, hkeys⟩ := Option.map_eq_some'.1 triangleDevice_fragments
  have hkeys1 : frs.map fragmentPixel = trianglePixels.map (fun k => (some k.1, some k.2)) :=
    hkeys
  obtain ⟨g2, o2, col2, hfold, hc2, hcol2⟩ :=
    fragmentLoop_white triangleProgram hfs frs trianglePixels
      { triangleDevice with FB :=
          { triangleDevice.FB with colorB := some c1, depthB := some d1 } }
      { gl_FragColor := fun _ => 0 } c1 d1 hkeys1 rfl rfl (by
        intro k hk
        show (triangleDevice.FB.width * k.2 + k.1) % 2 ^ 32 * 4 + 4 ≤ c1.length ∧
          (triangleDevice.FB.width * k.2 + k.1) % 2 ^ 32 * 4 + 1 ≤ d1.length
        rw [hw, hl1, hl2]
        revert k
        decide)
  have hwidth : getFramebufferWidth { triangleDevice with FB :=
      { triangleDevice.FB with colorB := some c1, depthB := some d1 } } = 4 := by
    simp [getFramebufferWidth, hw]
  have hheight : getFramebufferHeight { triangleDevice with FB :=
      { triangleDevice.FB with colorB := some c1, depthB := some d1 } } = 4 := by
    simp [getFramebufferHeight, hh]
  have hdraw : drawTriangles exampleEmptyID { triangleDevice with FB :=
      { triangleDevice.FB with colorB := some c1, depthB := some d1 } } 3 = some g2 := by
    rw [drawTriangles_eq_pipeline exampleEmptyID _ 3 trianglePuller triangleProgram (by decide)
      (by decide) (by show triangleDevice.VP.active ≠ exampleEmptyID; rw [hva]; decide)
      (by show triangleDevice.P.active ≠ exampleEmptyID; rw [hpa]; decide)
      (by show isVertexPuller exampleEmptyID _ triangleDevice.VP.active = some true
          rw [hva]; exact hv)
      (by show isProgram exampleEmptyID _ triangleDevice.P.active = some true
          rw [hpa]; exact hp)
      (by show triangleDevice.VP.Pullers[triangleDevice.VP.active]? = _
          rw [hva]; exact hpl)
      (by show triangleDevice.P.Programs[triangleDevice.P.active]? = _
          rw [hpa]; exact hpr),
      drawPipeline_fragments, hwidth, hheight]
    have hfrs1 : (vertexProcessor triangleDevice.Buffer trianglePuller triangleProgram (3 / 3)).bind
        (fun assemblies => assemblyFragments (getTypes trianglePuller) triangleProgram.v2f
          ((4 : Nat) : ℚ) ((4 : Nat) : ℚ) assemblies) = some frs := by
      rw [← hfrs]
      norm_num
    cases hvp : vertexProcessor triangleDevice.Buffer trianglePuller triangleProgram (3 / 3) with
    | none => rw [hvp] at hfrs1; cases hfrs1
    | some assemblies =>
        rw [hvp, Option.some_bind] at hfrs1
        rw [Option.some_bind, hfrs1, Option.some_bind, hfold]
        rfl
  refine ⟨_, g2, col2, hrun, hdraw, hc2, fun x y k => ?_⟩
  rw [hcol2]
  show (if pixelTouched triangleDevice.FB.width trianglePixels (4 * (4 * y.val + x.val) + k.val)
      = true then _ else _) = _
  rw [hw, trianglePixels_touched x y k]
  by_cases hxy : x.val + y.val ≤ 2
  · simp only [hxy, decide_True, if_true]
  · simp only [hxy, decide_False, if_false, Bool.false_eq_true]
    rw [hc1]
    have hlt : 4 * (4 * y.val + x.val) + k.val < 4 * 16 := by omega
    have hmod : (4 * (4 * y.val + x.val) + k.val) % 4 = k.val := by omega
    rw [if_pos hlt, hmod]
    fin_cases k <;> rfl

/-- C20 (counterexample): with the clear colour blue `(0,0,1,1)`, after the
draw of the scenario the pixel `(3,0)` of the diagonal `x + y = 3` (index 3)
still holds blue, and so do `(2,1)`, `(1,2)` and `(0,3)` (indices 6, 9, 12);
the pixel `(2,0)` (index 2) is white. -/
theorem triangle_diagonal_not_white :
    ((run exampleEmptyID (triangleSetup ++ [Op.clear 0 0 1 1]) (GPU.new exampleEmptyID)).bind
      (fun g => drawTriangles exampleEmptyID g 3)).bind
      (fun g => g.FB.colorB.map (fun col =>
        [(col.drop (4 * 3)).take 4, (col.drop (4 * 6)).take 4, (col.drop (4 * 9)).take 4,
         (col.drop (4 * 12)).take 4, (col.drop (4 * 2)).take 4]))
      = some [[some 0, some 0, some 255, some 255], [some 0, some 0, some 255, some 255],
              [some 0, some 0, some 255, some 255], [some 0, some 0, some 255, some 255],
              [some 255, some 255, some 255, some 255]] := by
  decide!

/-- Witness of C20: the clear colour blue `(0,0,1,1)`. -/
theorem triangle_draw_pixels_witness :
    ∃ g1 g2 col,
      run exampleEmptyID (triangleSetup ++ [Op.clear 0 0 1 1]) (GPU.new exampleEmptyID)
        = some g1 ∧
      drawTriangles exampleEmptyID g1 3 = some g2 ∧
      g2.FB.colorB = some col ∧
      ∀ x y k : Fin 4,
        col[4 * (4 * y.val + x.val) + k.val]? =
          some (some (if x.val + y.val ≤ 2 then 255
            else ![convertColor 0, convertColor 0, convertColor 1, convertColor 1] k)) :=
  triangle_draw_pixels 0 0 1 1

/-! ## C21: the order of the fragments -/

/-- C22: after `createFramebuffer(w,h)` or `resizeFramebuffer(w,h)`, from any
device state, `getFramebufferWidth` returns `w` and `getFramebufferHeight`
returns `h`; on a new device and after `deleteFramebuffer` both return 0. -/
theorem framebuffer_size_queries (emptyID : Nat) (g : GPU) (w h : Nat) :
    (getFramebufferWidth (createFramebuffer g w h) = w ∧
      getFramebufferHeight (createFramebuffer g w h) = h) ∧
    (getFramebufferWidth (resizeFramebuffer g w h) = w ∧
      getFramebufferHeight (resizeFramebuffer g w h) = h) ∧
    (getFramebufferWidth (GPU.new emptyID) = 0 ∧ getFramebufferHeight (GPU.new emptyID) = 0) ∧
    (getFramebufferWidth (deleteFramebuffer g) = 0 ∧
      getFramebufferHeight (deleteFramebuffer g) = 0) := by
  refine ⟨?_, ⟨rfl, rfl⟩, ⟨rfl, rfl⟩, ⟨rfl, rfl⟩⟩
  unfold createFramebuffer
  by_cases hp : g.FB.depthB.isSome = true ∨ g.FB.colorB.isSome = true
  · simp only [hp, if_true]
    exact ⟨rfl, rfl⟩
  · simp only [hp, if_false]
    exact ⟨rfl, rfl⟩

/-! ## C23: the vertex number resolved by pullVP -/

/-- One iteration of the loop of `pullVP` stores the resolved index and changes
no attribute slot other than its own. -/
theorem pullHead_frame (B : buffersStructure (List (Cell Byte)))
    (puller : vertexPullerSettingStructure) (k : Nat) (inv inv1 : InVertex)
    (i : Fin maxAttributes) (h : pullHead B puller k inv i = some inv1) :
    pullIndex B puller.indexing k = some inv1.gl_VertexID ∧
    ∀ j, j ≠ i → inv1.attributes j = inv.attributes j := by
  unfold pullHead at h
  split at h
  · cases h
  · rename_i index hix
    dsimp only at h
    split at h
    · cases h
      exact ⟨hix, fun _ _ => rfl⟩
    · split at h
      · cases h
        exact ⟨hix, fun _ _ => rfl⟩
      · split at h
        · simp only [Option.map_eq_some'] at h
          obtain ⟨bytes, _, rfl⟩ := h
          refine ⟨hix, fun j hj => ?_⟩
          simp only [Function.update_noteq hj]
        · cases h

/-- One iteration of the loop of `pullVP` for a head that is disabled or has
the type `EMPTY` keeps all attribute slots. -/
theorem pullHead_off (B : buffersStructure (List (Cell Byte)))
    (puller : vertexPullerSettingStructure) (k : Nat) (inv inv1 : InVertex)
    (i : Fin maxAttributes) (h : pullHead B puller k inv i = some inv1)
    (hoff : (puller.heads i).enabled = false ∨ (puller.heads i).type = AttributeType.EMPTY) :
    inv1.attributes = inv.attributes := by
  unfold pullHead at h
  split at h
  · cases h
  · dsimp only at h
    split at h
    · cases h
      rfl
    · split at h
      · cases h
        rfl
      · rename_i hen hsz
        rcases hoff with hoff | hoff
        · rw [hoff] at hen
          exact absurd rfl hen
        · rw [hoff] at hsz
          exact absurd rfl hsz

/-- One iteration of the loop of `pullVP` for an enabled head with a type of
`n > 0` floats: the slot of the head receives the result of `getDataBS`. -/
theorem pullHead_on (B : buffersStructure (List (Cell Byte)))
    (puller : vertexPullerSettingStructure) (k : Nat) (inv inv1 : InVertex)
    (i : Fin maxAttributes) (h : pullHead B puller k inv i = some inv1)
    (hen : (puller.heads i).enabled = true)
    (hty : (puller.heads i).type ≠ AttributeType.EMPTY) :
    ∃ buffer offset stride idx,
      (puller.heads i).buffer = some buffer ∧ (puller.heads i).offset = some offset ∧
      (puller.heads i).stride = some stride ∧ inv1.gl_VertexID = some idx ∧
      getDataBS B buffer ((offset + stride * idx) % 2 ^ 64) ((puller.heads i).type.toNat * 4)
        (inv.attributes i) = some (inv1.attributes i) := by
  have hsz : ¬ (puller.heads i).type.toNat * 4 = 0 := by
    cases ht : (puller.heads i).type <;> simp [AttributeType.toNat]
    exact hty ht
  unfold pullHead at h
  split at h
  · cases h
  · dsimp only at h
    rw [hen] at h
    simp only [Bool.not_true, Bool.false_eq_true, if_false, hsz] at h
    split at h
    · rename_i buffer offset stride idx hb ho hs _
      simp only [Option.map_eq_some'] at h
      obtain ⟨bytes, hbytes, rfl⟩ := h
      refine ⟨buffer, offset, stride, idx, hb, ho, hs, rfl, ?_⟩
      simp only [Function.update_same]
      exact hbytes
    · cases h

/-- The loop of `pullVP` over a list of heads without repetition: the resolved
index is stored, the slots of the heads not in the list are kept, and the slot
of a head in the list is what the iteration of that head makes of the slot the
loop started with. -/
theorem pullLoop_spec (B : buffersStructure (List (Cell Byte)))
    (puller : vertexPullerSettingStructure) (k : Nat) :
    ∀ (l : List (Fin maxAttributes)), l.Nodup → ∀ (inv inv1 : InVertex),
      l.foldlM (fun inv i => pullHead B puller k inv i) inv = some inv1 →
      (l ≠ [] → pullIndex B puller.indexing k = some inv1.gl_VertexID) ∧
      (∀ i, i ∉ l → inv1.attributes i = inv.attributes i) ∧
      (∀ i, i ∈ l → ∃ inv2 inv3, pullHead B puller k inv2 i = some inv3 ∧
        inv2.attributes i = inv.attributes i ∧ inv3.attributes i = inv1.attributes i ∧
        inv3.gl_VertexID = inv1.gl_VertexID) := by
  intro l
  induction l with
  | nil =>
      intro _ inv inv1 h
      cases h
      exact ⟨fun h => absurd rfl h, fun _ _ => rfl, fun i hi => absurd hi (List.not_mem_nil i)⟩
  | cons a l ih =>
      intro hnd inv inv1 h
      rw [List.foldlM_cons] at h
      cases hs : pullHead B puller k inv a with
      | none => rw [hs] at h; cases h
      | some inv2 =>
          rw [hs] at h
          obtain ⟨hid, hne⟩ := pullHead_frame B puller k inv inv2 a hs
          have hnd1 := (List.nodup_cons.1 hnd)
          obtain ⟨h1, h2, h3⟩ := ih hnd1.2 inv2 inv1 h
          have hidx : pullIndex B puller.indexing k = some inv1.gl_VertexID := by
            cases l with
            | nil => cases h; exact hid
            | cons b l => exact h1 (List.cons_ne_nil _ _)
          have hsame : inv2.gl_VertexID = inv1.gl_VertexID := by
            rw [hid] at hidx
            exact Option.some.inj hidx
          refine ⟨fun _ => hidx, fun i hi => ?_, fun i hi => ?_⟩
          · rw [h2 i (fun hm => hi (List.mem_cons_of_mem _ hm)),
              hne i (fun he => hi (he ▸ List.mem_cons_self _ _))]
          · rcases List.mem_cons.1 hi with rfl | hm
            · exact ⟨inv, inv2, hs, rfl, (h2 i hnd1.1).symm, hsame⟩
            · obtain ⟨inv3, inv4, e1, e2, e3, e4⟩ := h3 i hm
              have hia : i ≠ a := fun he => hnd1.1 (he ▸ hm)
              exact ⟨inv3, inv4, e1, by rw [e2, hne i hia], e3, e4⟩

/-- The bytes read have the length asked for. -/
theorem readCells_length {α : Type} {mem bytes : List α} {off n : Nat}
    (h : readCells mem off n = some bytes) : bytes.length = n := by
  unfold readCells at h
  split at h
  · cases h
    simp
    omega
  · cases h

/-- `getDataBS` on a block that holds the range: the bytes of the range are
copied to the start of the destination. -/
theorem getDataBS_block (B : buffersStructure (List (Cell Byte))) (index offset size : Nat)
    (data blk bytes : List (Cell Byte)) (hlive : index < B.bufferSize)
    (hcell : B.bufferArray[index]? = some (Ptr.block blk))
    (hrd : readCells blk offset size = some bytes) :
    getDataBS B index offset size data = writeCells data 0 bytes := by
  have h0 : ¬ (B.bufferSize = 0 ∨ index ≥ B.bufferSize) := by omega
  simp only [getDataBS, h0, if_false, hcell, hrd, Option.some_bind]

/-- With every head disabled `pullVP` returns and stores the resolved index
only. -/
theorem pullVP_heads_off (B : buffersStructure (List (Cell Byte)))
    (puller : vertexPullerSettingStructure) (k : Nat) (inv : InVertex) (index : Cell Nat)
    (hoff : ∀ i, (puller.heads i).enabled = false)
    (hix : pullIndex B puller.indexing k = some index) :
    pullVP B puller k inv = some { inv with gl_VertexID := index } := by
  have hstep : ∀ (inv : InVertex) (i : Fin maxAttributes),
      pullHead B puller k inv i = some { inv with gl_VertexID := index } := by
    intro inv i
    simp only [pullHead, hix, hoff i, Bool.not_false, if_true]
  have hloop : ∀ (l : List (Fin maxAttributes)),
      l.foldlM (fun inv i => pullHead B puller k inv i) { inv with gl_VertexID := index }
        = some { inv with gl_VertexID := index } := by
    intro l
    induction l with
    | nil => rfl
    | cons a l ih =>
        rw [List.foldlM_cons, hstep]
        exact ih
  unfold pullVP
  have e : List.finRange maxAttributes =
      ⟨0, by decide⟩ :: (List.finRange maxAttributes).tail := by decide
  rw [e, List.foldlM_cons, hstep]
  exact hloop _

/-- C23: when `pullVP` returns for vertex number `k`, then with indexing
disabled `gl_VertexID = k`, and with indexing enabled with a type of `size`
bytes and an index buffer that is a block holding the bytes
`[size·k, size·k + size)`, `gl_VertexID` is the unsigned integer stored in
these bytes (little-endian). -/
theorem pullVP_vertexID (B : buffersStructure (List (Cell Byte)))
    (puller : vertexPullerSettingStructure) (k : Nat) (inv inv1 : InVertex)
    (h : pullVP B puller k inv = some inv1) :
    (puller.indexing.enabled = false → inv1.gl_VertexID = some k) ∧
    (∀ (type : IndexType) (blk bytes : List (Cell Byte)),
      puller.indexing.enabled = true → puller.indexing.type = some type →
      puller.indexing.buffer < B.bufferSize →
      B.bufferArray[puller.indexing.buffer]? = some (Ptr.block blk) →
      readCells blk (type.size * k) type.size = some bytes →
      inv1.gl_VertexID = decodeLE bytes) := by
  have hid := (pullLoop_spec B puller k _ (List.nodup_finRange _) inv inv1 h).1 (by decide)
  constructor
  · intro hd
    simp only [pullIndex, hd, Bool.false_eq_true, if_false, Option.some.injEq] at hid
    exact hid.symm
  · intro type blk bytes hen hty hlive hcell hrd
    have hlen := readCells_length hrd
    have hw : writeCells (List.replicate type.size (none : Cell Byte)) 0 bytes = some bytes :=
      writeCells_all _ _ (by rw [List.length_replicate, hlen])
    cases type <;>
      simp only [pullIndex, hen, if_true, hty, IndexType.size] at hid hrd hw <;>
      rw [getDataBS_block B _ _ _ _ blk bytes hlive hcell hrd, hw] at hid <;>
      simp only [Option.map_some', Option.some.injEq] at hid <;>
      exact hid.symm

set_option maxRecDepth 100000 in
/-- Witness of C23: with the 16-bit index buffer `2, 0, 1` vertex number 0 gets
`gl_VertexID = 2`; with the puller of the triangle scenario, which has no
indexing, vertex number 1 gets `gl_VertexID = 1`. -/
theorem pullVP_vertexID_witness :
    (∃ inv1, pullVP indexedDevice.Buffer indexedPuller 0 InVertex.zero = some inv1 ∧
      inv1.gl_VertexID = some 2) ∧
    (∃ inv1, pullVP triangleDevice.Buffer trianglePuller 1 InVertex.zero = some inv1 ∧
      inv1.gl_VertexID = some 1) := by
  constructor
  · have hs : (pullVP indexedDevice.Buffer indexedPuller 0 InVertex.zero).isSome = true := by
      decide!
    obtain ⟨inv1, h1⟩ := Option.isSome_iff_exists.1 hs
    have hb : indexedDevice.Buffer.bufferArray[indexedPuller.indexing.buffer]?
        = some (Ptr.block [some 2, some 0, some 0, some 0, some 1, some 0]) := by decide!
    exact ⟨inv1, h1, (pullVP_vertexID indexedDevice.Buffer indexedPuller 0 InVertex.zero inv1
      h1).2 IndexType.UINT16 _ [some 2, some 0] (by decide!) (by decide!) (by decide!) hb
      (by decide!)⟩
  · have hs : (pullVP triangleDevice.Buffer trianglePuller 1 InVertex.zero).isSome = true := by
      decide!
    obtain ⟨inv1, h1⟩ := Option.isSome_iff_exists.1 hs
    exact ⟨inv1, h1, (pullVP_vertexID triangleDevice.Buffer trianglePuller 1 InVertex.zero inv1
      h1).1 (by decide!)⟩

/-! ## C24: the attribute bytes read by an enabled head -/

/-- C24: when `pullVP` returns with resolved index `idx`, and head `i` is
enabled with a non-`EMPTY` type of `n` floats, reading from a buffer that is a
block holding the `4·n` bytes at `offset + stride·idx`, then the first `4·n`
bytes of attribute slot `i` are these bytes. -/
theorem pullVP_attribute (B : buffersStructure (List (Cell Byte)))
    (puller : vertexPullerSettingStructure) (k : Nat) (inv inv1 : InVertex)
    (i : Fin maxAttributes) (idx buffer offset stride : Nat) (blk bytes : List (Cell Byte))
    (h : pullVP B puller k inv = some inv1) (hidx : inv1.gl_VertexID = some idx)
    (hen : (puller.heads i).enabled = true)
    (hty : (puller.heads i).type ≠ AttributeType.EMPTY)
    (hb : (puller.heads i).buffer = some buffer) (ho : (puller.heads i).offset = some offset)
    (hs : (puller.heads i).stride = some stride)
    (hlive : buffer < B.bufferSize) (hcell : B.bufferArray[buffer]? = some (Ptr.block blk))
    (hno : offset + stride * idx < 2 ^ 64)
    (hrd : readCells blk (offset + stride * idx) (4 * (puller.heads i).type.toNat)
      = some bytes) :
    (inv1.attributes i).take (4 * (puller.heads i).type.toNat) = bytes := by
  obtain ⟨inv2, inv3, hp, _, e3, e4⟩ :=
    (pullLoop_spec B puller k _ (List.nodup_finRange _) inv inv1 h).2.2 i (List.mem_finRange i)
  obtain ⟨buffer1, offset1, stride1, idx1, hb1, ho1, hs1, hi1, hget⟩ :=
    pullHead_on B puller k inv2 inv3 i hp hen hty
  rw [hb] at hb1
  rw [ho] at ho1
  rw [hs] at hs1
  rw [e4, hidx] at hi1
  cases hb1
  cases ho1
  cases hs1
  cases hi1
  have hlen := readCells_length hrd
  rw [Nat.mod_eq_of_lt hno, Nat.mul_comm (puller.heads i).type.toNat 4,
    getDataBS_block B _ _ _ _ blk bytes hlive hcell hrd, e3] at hget
  unfold writeCells at hget
  split at hget
  · simp only [Option.some.injEq] at hget
    rw [← hget, List.take_zero, List.nil_append, ← hlen, List.take_left' rfl]
  · cases hget

/-- Witness of C24: with the puller of the triangle scenario, vertex number 1
gets in slot 0 the 16 bytes of the position `(1,-1,0,1)`, which start at byte
`0 + 16·1` of the vertex buffer. -/
theorem pullVP_attribute_witness :
    ∃ inv1, pullVP triangleDevice.Buffer trianglePuller 1 InVertex.zero = some inv1 ∧
      (inv1.attributes ⟨0, by decide⟩).take
          (4 * (trianglePuller.heads ⟨0, by decide⟩).type.toNat)
        = [some 0, some 0, some 128, some 63, some 0, some 0, some 128, some 191,
           some 0, some 0, some 0, some 0, some 0, some 0, some 128, some 63] := by
  have hs : (pullVP triangleDevice.Buffer trianglePuller 1 InVertex.zero).isSome = true := by
    decide!
  obtain ⟨inv1, h1⟩ := Option.isSome_iff_exists.1 hs
  have hpi := (pullLoop_spec triangleDevice.Buffer trianglePuller 1 _ (List.nodup_finRange _)
    InVertex.zero inv1 h1).1 (by decide)
  have hpi2 : pullIndex triangleDevice.Buffer trianglePuller.indexing 1 = some (some 1) := by
    decide!
  have hid : inv1.gl_VertexID = some 1 := Option.some.inj (hpi.symm.trans hpi2)
  exact ⟨inv1, h1, pullVP_attribute triangleDevice.Buffer trianglePuller 1 InVertex.zero inv1
    ⟨0, by decide⟩ 1 0 0 16 triangleBytes _ h1 hid (by decide!) (by decide!) (by decide!)
    (by decide!) (by decide!) (by decide!) (by decide!) (by decide!) (by decide!)⟩

/-! ## C25: heads that contribute nothing -/

/-- C25: when `pullVP` returns, the attribute slot of a head that is disabled
or has the type `EMPTY` is what it was before the call. -/
theorem pullVP_head_off (B : buffersStructure (List (Cell Byte)))
    (puller : vertexPullerSettingStructure) (k : Nat) (inv inv1 : InVertex)
    (i : Fin maxAttributes) (h : pullVP B puller k inv = some inv1)
    (hoff : (puller.heads i).enabled = false ∨ (puller.heads i).type = AttributeType.EMPTY) :
    inv1.attributes i = inv.attributes i := by
  obtain ⟨inv2, inv3, hp, e2, e3, _⟩ :=
    (pullLoop_spec B puller k _ (List.nodup_finRange _) inv inv1 h).2.2 i (List.mem_finRange i)
  rw [← e3, pullHead_off B puller k inv2 inv3 i hp hoff, e2]

/-- Witness of C25: head 1 of the puller of the triangle scenario is disabled;
after the pull of vertex number 1 slot 1 still holds its 16 zero bytes. -/
theorem pullVP_head_off_witness :
    ∃ inv1, pullVP triangleDevice.Buffer trianglePuller 1 InVertex.zero = some inv1 ∧
      inv1.attributes ⟨1, by decide⟩ = List.replicate 16 (some 0) := by
  have hs : (pullVP triangleDevice.Buffer trianglePuller 1 InVertex.zero).isSome = true := by
    decide!
  obtain ⟨inv1, h1⟩ := Option.isSome_iff_exists.1 hs
  exact ⟨inv1, h1, pullVP_head_off triangleDevice.Buffer trianglePuller 1 InVertex.zero inv1
    ⟨1, by decide⟩ h1 (Or.inl (by decide!))⟩

/-! ## C26: the vertex stage -/

/-- One step of the sequence is one iteration of the inner vertex loop. -/
theorem vertexStep_stream (B : buffersStructure (List (Cell Byte)))
    (puller : vertexPullerSettingStructure) (program : programSettingStructure)
    (t k : Nat) (i : Fin 3) (st : VertexState) (hk : 3 * t + i.val = k)
    (hs : vertexStream B puller program k = some (st.iv, st.ov)) :
    vertexStep B puller program t st i =
      (vertexStream B puller program (k + 1)).map (fun s =>
        { st with iv := s.1, ov := s.2, a := Function.update st.a i s.2 }) := by
  subst hk
  simp only [vertexStep, vertexStream, hs]
  cases pullVP B puller (3 * t + i.val) st.iv with
  | none => rfl
  | some iv =>
      cases program.vs with
      | none => rfl
      | some vs => rfl

/-- Once undefined, the sequence stays undefined. -/
theorem vertexStream_none_succ (B : buffersStructure (List (Cell Byte)))
    (puller : vertexPullerSettingStructure) (program : programSettingStructure) (k : Nat)
    (h : vertexStream B puller program k = none) :
    vertexStream B puller program (k + 1) = none := by
  simp only [vertexStream, h]

/-- The inner vertex loop for triangle `t`, started after `3t` vertices of the
sequence, assembles the vertices `3t`, `3t + 1`, `3t + 2`. -/
theorem assembleTriangle_stream (B : buffersStructure (List (Cell Byte)))
    (puller : vertexPullerSettingStructure) (program : programSettingStructure)
    (t : Nat) (st : VertexState)
    (hs : vertexStream B puller program (3 * t) = some (st.iv, st.ov)) :
    assembleTriangle B puller program st t =
      (vertexStream B puller program (3 * t + 3)).map (fun s =>
        { iv := s.1, ov := s.2, a := fun i => streamVertex B puller program (3 * t + i.val),
          assemblies := st.assemblies ++ [fun i => streamVertex B puller program (3 * t + i.val)] }) := by
  have e : List.finRange 3 = [0, 1, 2] := by decide
  unfold assembleTriangle
  rw [e, List.foldlM_cons, vertexStep_stream B puller program t (3 * t) 0 st rfl hs]
  cases h1 : vertexStream B puller program (3 * t + 1) with
  | none =>
      have h2 := vertexStream_none_succ B puller program _ h1
      have h3 := vertexStream_none_succ B puller program _ h2
      rw [h3]
      rfl
  | some s1 =>
      simp only [Option.map_some', Option.bind_eq_bind, Option.some_bind]
      rw [List.foldlM_cons, vertexStep_stream B puller program t (3 * t + 1) 1 _ rfl h1]
      cases h2 : vertexStream B puller program (3 * t + 1 + 1) with
      | none =>
          have h3 := vertexStream_none_succ B puller program _ h2
          rw [h3]
          rfl
      | some s2 =>
          simp only [Option.map_some', Option.bind_eq_bind, Option.some_bind]
          rw [List.foldlM_cons, vertexStep_stream B puller program t (3 * t + 1 + 1) 2 _ rfl h2]
          cases h3 : vertexStream B puller program (3 * t + 1 + 1 + 1) with
          | none => rfl
          | some s3 =>
              simp only [Option.map_some', Option.bind_eq_bind, Option.some_bind,
                List.foldlM_nil, Option.pure_def]
              have ha : Function.update (Function.update (Function.update st.a 0 s1.2) 1 s2.2)
                  2 s3.2 = fun i => streamVertex B puller program (3 * t + i.val) := by
                funext i
                fin_cases i
                · show _ = ((vertexStream B puller program (3 * t + 1)).map _).getD _
                  rw [h1]
                  rfl
                · show _ = ((vertexStream B puller program (3 * t + 1 + 1)).map _).getD _
                  rw [h2]
                  rfl
                · show _ = ((vertexStream B puller program (3 * t + 1 + 1 + 1)).map _).getD _
                  rw [h3]
                  rfl
              simp only [ha]

/-- A defined step of the sequence pulls vertex number `k` and shades it. -/
theorem vertexStream_succ_some (B : buffersStructure (List (Cell Byte)))
    (puller : vertexPullerSettingStructure) (program : programSettingStructure) (k : Nat)
    (s : InVertex × OutVertex) (h : vertexStream B puller program (k + 1) = some s) :
    ∃ prev iv vs, vertexStream B puller program k = some prev ∧
      pullVP B puller k prev.1 = some iv ∧ program.vs = some vs ∧
      s = (iv, vs prev.2 iv program.uni) := by
  simp only [vertexStream] at h
  cases hp : vertexStream B puller program k with
  | none => rw [hp] at h; cases h
  | some prev =>
      rw [hp] at h
      dsimp only at h
      cases hv : pullVP B puller k prev.1 with
      | none => rw [hv] at h; cases h
      | some iv =>
          cases hs : program.vs with
          | none => rw [hv, hs] at h; cases h
          | some vs =>
              rw [hv, hs] at h
              cases h
              exact ⟨prev, iv, vs, rfl, hv, rfl, rfl⟩

/-- A defined sequence is defined at every earlier vertex number. -/
theorem vertexStream_isSome_of_le (B : buffersStructure (List (Cell Byte)))
    (puller : vertexPullerSettingStructure) (program : programSettingStructure) (k m : Nat)
    (hkm : k ≤ m) (h : (vertexStream B puller program m).isSome = true) :
    (vertexStream B puller program k).isSome = true := by
  induction m with
  | zero =>
      have : k = 0 := by omega
      subst this
      exact h
  | succ m ih =>
      by_cases hk : k = m + 1
      · subst hk
        exact h
      · apply ih (by omega)
        cases hm : vertexStream B puller program m with
        | none =>
            rw [vertexStream_none_succ B puller program m hm] at h
            cases h
        | some s => rfl

/-- The outer vertex loop over `n` triangles runs the sequence for `3n` vertices
and collects the triangles of consecutive vertices. -/
theorem vertexLoop_stream (B : buffersStructure (List (Cell Byte)))
    (puller : vertexPullerSettingStructure) (program : programSettingStructure) (n : Nat) :
    ((List.range n).foldlM (fun st t => assembleTriangle B puller program st t)
        { iv := InVertex.zero, ov := OutVertex.zero, a := fun _ => OutVertex.zero,
          assemblies := [] }).map (fun st => (st.iv, st.ov, st.assemblies)) =
      (vertexStream B puller program (3 * n)).map (fun s =>
        (s.1, s.2, (List.range n).map (fun t => fun i : Fin 3 =>
          streamVertex B puller program (3 * t + i.val)))) := by
  induction n with
  | zero => rfl
  | succ n ih =>
      rw [List.range_succ, List.foldlM_append]
      cases hf : (List.range n).foldlM (fun st t => assembleTriangle B puller program st t)
          { iv := InVertex.zero, ov := OutVertex.zero, a := fun _ => OutVertex.zero,
            assemblies := [] } with
      | none =>
          rw [hf] at ih
          have h0 : vertexStream B puller program (3 * n) = none := by
            cases hv : vertexStream B puller program (3 * n) with
            | none => rfl
            | some s => rw [hv] at ih; cases ih
          have h3 := vertexStream_none_succ B puller program _
            (vertexStream_none_succ B puller program _
              (vertexStream_none_succ B puller program _ h0))
          have e : 3 * (n + 1) = 3 * n + 1 + 1 + 1 := by omega
          rw [e, h3]
          rfl
      | some st =>
          rw [hf] at ih
          cases hv : vertexStream B puller program (3 * n) with
          | none => rw [hv] at ih; cases ih
          | some s =>
              rw [hv] at ih
              simp only [Option.map_some', Option.some.injEq, Prod.mk.injEq] at ih
              obtain ⟨e1, e2, e3⟩ := ih
              have hs : vertexStream B puller program (3 * n) = some (st.iv, st.ov) := by
                rw [hv, e1, e2]
              simp only [Option.bind_eq_bind, Option.some_bind, List.foldlM_cons,
                List.foldlM_nil]
              rw [assembleTriangle_stream B puller program n st hs]
              have e : 3 * (n + 1) = 3 * n + 3 := by omega
              rw [e]
              cases vertexStream B puller program (3 * n + 3) with
              | none => rfl
              | some s3 =>
                  simp only [Option.map_some', Option.some_bind, Option.pure_def,
                    List.map_append, List.map_cons, List.map_nil, e3]

/-- With a vertex shader attached the sequence of the draw is defined as far as
the vertices can be pulled, and its `iv` is the pulled one. -/
theorem vertexStream_of_pulled (B : buffersStructure (List (Cell Byte)))
    (puller : vertexPullerSettingStructure) (program : programSettingStructure)
    (vs : VertexShader) (hvs : program.vs = some vs) :
    ∀ (k : Nat) (iv : InVertex), pulledStream B puller k = some iv →
      ∃ ov, vertexStream B puller program k = some (iv, ov) := by
  intro k
  induction k with
  | zero =>
      intro iv h
      simp only [pulledStream, Option.some.injEq] at h
      subst h
      exact ⟨OutVertex.zero, rfl⟩
  | succ k ih =>
      intro iv h
      simp only [pulledStream] at h
      cases hp : pulledStream B puller k with
      | none => rw [hp] at h; cases h
      | some iv0 =>
          rw [hp] at h
          obtain ⟨ov0, h0⟩ := ih iv0 hp
          simp only at h
          refine ⟨vs ov0 iv program.uni, ?_⟩
          simp only [vertexStream, h0, h, hvs]

/-- The `iv` of the sequence of a draw is the pulled one. -/
theorem pulled_of_vertexStream (B : buffersStructure (List (Cell Byte)))
    (puller : vertexPullerSettingStructure) (program : programSettingStructure) :
    ∀ (k : Nat) (s : InVertex × OutVertex), vertexStream B puller program k = some s →
      pulledStream B puller k = some s.1 := by
  intro k
  induction k with
  | zero =>
      intro s h
      simp only [vertexStream, Option.some.injEq] at h
      subst h
      rfl
  | succ k ih =>
      intro s h
      simp only [vertexStream] at h
      cases hp : vertexStream B puller program k with
      | none => rw [hp] at h; cases h
      | some s0 =>
          rw [hp] at h
          simp only at h
          cases hv : pullVP B puller k s0.1 with
          | none => rw [hv] at h; cases h
          | some iv =>
              cases hs : program.vs with
              | none => rw [hv, hs] at h; cases h
              | some vs =>
                  rw [hv, hs] at h
                  simp only [Option.some.injEq] at h
                  subst h
                  simp only [pulledStream, ih s0 hp, hv]

/-- C26 (amended): for a draw whose program has the vertex shader `vs` attached
and whose vertices `0 .. 3n − 1` can all be pulled (no read of `pullVP` leaves
its buffer), the vertex stage returns exactly `n` triangles, and vertex `i` of
triangle `t` is the output of `vs`, called with the running `ov`, the
`InVertex` that `pullVP` returns for vertex number `3t + i`, and the uniforms
of the program. -/
theorem vertex_stage_assembles (B : buffersStructure (List (Cell Byte)))
    (puller : vertexPullerSettingStructure) (program : programSettingStructure) (n : Nat)
    (vs : VertexShader) (hvs : program.vs = some vs)
    (hpull : (pulledStream B puller (3 * n)).isSome = true) :
    ∃ assemblies, vertexProcessor B puller program n = some assemblies ∧
      assemblies.length = n ∧
      ∀ t, t < n → ∀ i : Fin 3, ∃ a prev iv,
        assemblies[t]? = some a ∧
        vertexStream B puller program (3 * t + i.val) = some prev ∧
        pulledStream B puller (3 * t + i.val) = some prev.1 ∧
        pullVP B puller (3 * t + i.val) prev.1 = some iv ∧
        a i = vs prev.2 iv program.uni := by
  obtain ⟨ivn, hivn⟩ := Option.isSome_iff_exists.1 hpull
  obtain ⟨ovn, hsn⟩ := vertexStream_of_pulled B puller program vs hvs _ ivn hivn
  have hdef : (vertexStream B puller program (3 * n)).isSome = true := by rw [hsn]; rfl
  have hloop := vertexLoop_stream B puller program n
  rw [hsn] at hloop
  cases hf : (List.range n).foldlM (fun st t => assembleTriangle B puller program st t)
      { iv := InVertex.zero, ov := OutVertex.zero, a := fun _ => OutVertex.zero,
        assemblies := [] } with
  | none => rw [hf] at hloop; cases hloop
  | some st =>
      rw [hf] at hloop
      simp only [Option.map_some', Option.some.injEq, Prod.mk.injEq] at hloop
      obtain ⟨_, _, e3⟩ := hloop
      refine ⟨st.assemblies, by simp only [vertexProcessor, hf, Option.map_some'], by
        rw [e3, List.length_map, List.length_range], fun t ht i => ?_⟩
      have hk : (vertexStream B puller program (3 * t + i.val + 1)).isSome = true :=
        vertexStream_isSome_of_le B puller program _ (3 * n) (by omega) hdef
      obtain ⟨s1, hs1⟩ := Option.isSome_iff_exists.1 hk
      obtain ⟨prev, iv, vs1, hp, hv, hvs1, rfl⟩ :=
        vertexStream_succ_some B puller program _ s1 hs1
      have hvv : vs1 = vs := Option.some.inj (hvs1.symm.trans hvs)
      subst hvv
      have hpl : pulledStream B puller (3 * t + i.val) = some prev.1 :=
        pulled_of_vertexStream B puller program _ prev hp
      refine ⟨fun j => streamVertex B puller program (3 * t + j.val), prev, iv, ?_, hp, hpl, hv, ?_⟩
      · rw [e3, List.getElem?_map, List.getElem?_range ht]
        rfl
      · simp only [streamVertex, hs1, Option.map_some', Option.getD_some]

set_option maxRecDepth 100000 in
/-- Witness of C26: the draw of 3 vertices of the triangle scenario assembles
one triangle, whose positions are those stored in the vertex buffer. -/
theorem vertex_stage_assembles_witness :
    (∃ assemblies, vertexProcessor triangleDevice.Buffer trianglePuller triangleProgram 1
        = some assemblies ∧
      assemblies.length = 1 ∧
      ∀ t, t < 1 → ∀ i : Fin 3, ∃ a prev iv,
        assemblies[t]? = some a ∧
        vertexStream triangleDevice.Buffer trianglePuller triangleProgram (3 * t + i.val)
          = some prev ∧
        pulledStream triangleDevice.Buffer trianglePuller (3 * t + i.val) = some prev.1 ∧
        pullVP triangleDevice.Buffer trianglePuller (3 * t + i.val) prev.1 = some iv ∧
        a i = copyVS prev.2 iv triangleProgram.uni) ∧
    (vertexProcessor triangleDevice.Buffer trianglePuller triangleProgram 1).map
      (fun assemblies => assemblies.map (fun a => (List.finRange 3).map (fun i =>
        (List.finRange 4).map (fun j => (a i).gl_Position j))))
      = some [[[-1, -1, 0, 1], [1, -1, 0, 1], [-1, 1, 0, 1]]] :=
  ⟨vertex_stage_assembles triangleDevice.Buffer trianglePuller triangleProgram 1 copyVS
    rfl (by decide!), by decide!⟩

/-- C26 (counterexample): on `noShaderDevice` the bound puller 0 and the
active program 0 are live and a draw of 3 vertices is well-formed, but no
shader was attached: `drawTriangles` calls the null `vs` of the program, and
no triangle is assembled. -/
theorem draw_without_shader_undefined :
    (run exampleEmptyID noShaderSetup (GPU.new exampleEmptyID)).isSome = true ∧
    noShaderDevice.VP.active = 0 ∧ noShaderDevice.P.active = 0 ∧
    isVertexPuller exampleEmptyID noShaderDevice 0 = some true ∧
    isProgram exampleEmptyID noShaderDevice 0 = some true ∧
    (noShaderDevice.P.Programs[0]?).map
      (fun p => match p with
        | Ptr.block prg => prg.vs.isNone
        | _ => false) = some true ∧
    (drawTriangles exampleEmptyID noShaderDevice 3).isNone = true := by
  refine ⟨by decide!, by decide!, by decide!, by decide!, by decide!, by decide!, by decide!⟩

/-! ## C27: clipping a triangle with two vertices inside -/

/-- C27: when exactly two vertices `A = as (otherVertices i).1` and
`B = as (otherVertices i).2` of a triangle satisfy `z ≥ -w` and the vertex
`F = as i` does not, `clipAssembly` returns exactly the two triangles
`(A, P, Q)` and `(A, B, Q)`, in that order, with `P = countOutVer A F` and
`Q = countOutVer B F`; `A` and `B` are the input vertices themselves. -/
theorem clipAssembly_two_inside (as : Assembly) (types : Fin maxAttributes → AttributeType)
    (i : Fin 3) (hout : (as i).gl_Position 2 < -(as i).gl_Position 3)
    (hin : ∀ j, j ≠ i → (as j).gl_Position 2 ≥ -(as j).gl_Position 3) :
    clipAssembly as types =
      [![as (otherVertices i).1, countOutVer (as (otherVertices i).1) (as i) types,
          countOutVer (as (otherVertices i).2) (as i) types],
       ![as (otherVertices i).1, as (otherVertices i).2,
          countOutVer (as (otherVertices i).2) (as i) types]] := by
  fin_cases i
  · have h1 := hin 1 (by decide)
    have h2 := hin 2 (by decide)
    simp only [Fin.zero_eta] at hout
    have h0 := not_le.2 hout
    simp [clipAssembly, isOK, h0, h1, h2, otherVertices]
  · have h0 := hin 0 (by decide)
    have h2 := hin 2 (by decide)
    simp only [Fin.mk_one] at hout
    have h1 := not_le.2 hout
    simp [clipAssembly, isOK, h0, h1, h2, otherVertices]
  · have h0 := hin 0 (by decide)
    have h1 := hin 1 (by decide)
    simp only [Fin.reduceFinMk] at hout
    have h2 := not_le.2 hout
    simp [clipAssembly, isOK, h0, h1, h2, otherVertices]

/-- Witness of C27: in the triangle `(0,0,0,1), (1,0,0,1), (0,1,-2,1)` the
first two vertices are inside; the new vertices are `(0,0.5,-1,1)` and
`(0.5,0.5,-1,1)`. -/
theorem clipAssembly_two_inside_witness :
    clipAssembly ![vertexAt ![0, 0, 0, 1], vertexAt ![1, 0, 0, 1], vertexAt ![0, 1, -2, 1]]
        (fun _ => AttributeType.EMPTY)
      = [![vertexAt ![0, 0, 0, 1],
          countOutVer (vertexAt ![0, 0, 0, 1]) (vertexAt ![0, 1, -2, 1])
            (fun _ => AttributeType.EMPTY),
          countOutVer (vertexAt ![1, 0, 0, 1]) (vertexAt ![0, 1, -2, 1])
            (fun _ => AttributeType.EMPTY)],
         ![vertexAt ![0, 0, 0, 1], vertexAt ![1, 0, 0, 1],
          countOutVer (vertexAt ![1, 0, 0, 1]) (vertexAt ![0, 1, -2, 1])
            (fun _ => AttributeType.EMPTY)]] ∧
    (countOutVer (vertexAt ![0, 0, 0, 1]) (vertexAt ![0, 1, -2, 1])
        (fun _ => AttributeType.EMPTY)).gl_Position = ![0, 1 / 2, -1, 1] ∧
    (countOutVer (vertexAt ![1, 0, 0, 1]) (vertexAt ![0, 1, -2, 1])
        (fun _ => AttributeType.EMPTY)).gl_Position = ![1 / 2, 1 / 2, -1, 1] :=
  ⟨clipAssembly_two_inside _ _ 2 (by simp [vertexAt]) (by
      intro j hj
      fin_cases j
      · simp [vertexAt]
      · simp [vertexAt]
      · exact absurd rfl hj),
    by decide!, by decide!⟩

/-! ## C28: the attribute types used by clipping -/

/-- The attribute slots of a vertex created by clipping: a slot is interpolated
exactly when the type vector passed to `clipAssembly` gives it a type other
than `EMPTY`; the other slots have no value. -/
theorem countOutVer_attributes (A B : OutVertex) (types : Fin maxAttributes → AttributeType)
    (i : Fin maxAttributes) :
    (countOutVer A B types).attributes i =
      if types i = AttributeType.EMPTY then fun _ => none
      else countLinCombinationAttr (A.attributes i) (B.attributes i)
        ((-A.gl_Position 3 - A.gl_Position 2) /
          (B.gl_Position 3 - A.gl_Position 3 + B.gl_Position 2 - A.gl_Position 2)) (types i) :=
  rfl

set_option maxRecDepth 100000 in
/-- The facts about `varyingDevice` that the draw reads. -/
theorem varyingDevice_facts :
    getFramebufferWidth varyingDevice = 8 ∧ getFramebufferHeight varyingDevice = 8 ∧
    varyingDevice.VP.active = 0 ∧ varyingDevice.P.active = 0 ∧
    isVertexPuller exampleEmptyID varyingDevice 0 = some true ∧
    isProgram exampleEmptyID varyingDevice 0 = some true ∧
    varyingDevice.VP.Pullers[0]? = some (Ptr.block varyingPuller) ∧
    varyingDevice.P.Programs[0]? = some (Ptr.block varyingProgram) :=
  ⟨by decide!, by decide!, by decide!, by decide!, by decide!, by decide!, rfl, rfl⟩

/-- The draw on `varyingDevice` clips with the type vector of the puller. -/
theorem varyingDevice_draw :
    drawTriangles exampleEmptyID varyingDevice 3 =
      (vertexProcessor varyingDevice.Buffer varyingPuller varyingProgram 1).bind
        (fun assemblies =>
          (assemblyFragments (getTypes varyingPuller) varyingProgram.v2f 8 8 assemblies).bind
            (fun in_fragments =>
              (in_fragments.foldlM (fragmentStep varyingProgram)
                (varyingDevice, { gl_FragColor := fun _ => 0 })).map (fun st => st.1))) := by
  obtain ⟨hw, hh, hva, hpa, hv, hp, hpl, hpr⟩ := varyingDevice_facts
  rw [drawTriangles_eq_pipeline exampleEmptyID varyingDevice 3 varyingPuller varyingProgram
    (by decide) (by decide) (by rw [hva]; decide) (by rw [hpa]; decide)
    (by rw [hva]; exact hv) (by rw [hpa]; exact hp) (by rw [hva]; exact hpl)
    (by rw [hpa]; exact hpr),
    drawPipeline_fragments, hw, hh]
  norm_num

set_option maxHeartbeats 1000000 in
set_option maxRecDepth 100000 in
/-- C28 (failing input): on `varyingDevice` the active program declares the
varying slot 0 as `FLOAT` and no head of the bound puller is enabled.
`drawTriangles(3)` clips with the type vector `getTypes(current_puller)`, which
is `EMPTY` in slot 0: the vertex `P` created on the edge from `(-1,-1,0,1)`
(slot 0 = 1) to `(-1,1,-2,1)` (slot 0 = 3) has no value in slot 0, where the
type vector of the program gives the interpolated value 2, and all 26
fragments of the draw have an indeterminate slot 0. -/
theorem clipping_uses_head_types :
    (run exampleEmptyID varyingSetup (GPU.new exampleEmptyID)).isSome = true ∧
    varyingProgram.v2f ⟨0, by decide⟩ = AttributeType.FLOAT ∧
    getTypes varyingPuller ⟨0, by decide⟩ = AttributeType.EMPTY ∧
    drawTriangles exampleEmptyID varyingDevice 3 =
      (vertexProcessor varyingDevice.Buffer varyingPuller varyingProgram 1).bind
        (fun assemblies =>
          (assemblyFragments (getTypes varyingPuller) varyingProgram.v2f 8 8 assemblies).bind
            (fun in_fragments =>
              (in_fragments.foldlM (fragmentStep varyingProgram)
                (varyingDevice, { gl_FragColor := fun _ => 0 })).map (fun st => st.1))) ∧
    (vertexProcessor varyingDevice.Buffer varyingPuller varyingProgram 1).map
      (fun assemblies =>
        (assemblies.flatMap (fun a => clipAssembly a (getTypes varyingPuller))).map
          (fun a => (a 1).attributes ⟨0, by decide⟩ 0)) = some [none, some 2] ∧
    (vertexProcessor varyingDevice.Buffer varyingPuller varyingProgram 1).map
      (fun assemblies =>
        (assemblies.flatMap (fun a => clipAssembly a varyingProgram.v2f)).map
          (fun a => (a 1).attributes ⟨0, by decide⟩ 0)) = some [some 2, some 2] ∧
    ((vertexProcessor varyingDevice.Buffer varyingPuller varyingProgram 1).bind
      (fun assemblies =>
        assemblyFragments (getTypes varyingPuller) varyingProgram.v2f 8 8 assemblies)).map
      (fun in_fragments => in_fragments.map (fun f => f.attributes ⟨0, by decide⟩ 0))
      = some (List.replicate 26 none) := by
  exact ⟨by decide!, by decide!, by decide!, varyingDevice_draw, by decide!, by decide!,
    by decide!⟩

/-! ## C29: perspective division -/

/-- C29: `perspectiveDivision` replaces the position `(x, y, z, w)` of each
vertex of a triangle whose vertices have `w ≠ 0` by `(x/w, y/w, z/w, w)` and
keeps the attributes of the vertex. -/
theorem perspectiveDivision_spec (ass : Assembly) (_hw : ∀ i, (ass i).gl_Position 3 ≠ 0) :
    ∀ i, (perspectiveDivision ass i).gl_Position =
        ![(ass i).gl_Position 0 / (ass i).gl_Position 3,
          (ass i).gl_Position 1 / (ass i).gl_Position 3,
          (ass i).gl_Position 2 / (ass i).gl_Position 3, (ass i).gl_Position 3] ∧
      (perspectiveDivision ass i).attributes = (ass i).attributes := by
  have e3 : ((3 : Fin 4) : Nat) = 3 := rfl
  have e2 : ((2 : Fin 4) : Nat) = 2 := rfl
  intro i
  refine ⟨?_, rfl⟩
  funext j
  fin_cases j <;> simp [perspectiveDivision, perspectiveDivisionVertex, e2, e3]

/-- Witness of C29: the first vertex `(2,4,6,2)` of the triangle
`(2,4,6,2), (1,0,0,1), (0,3,0,3)` becomes `(1,2,3,2)`. -/
theorem perspectiveDivision_spec_witness :
    ((perspectiveDivision
        ![vertexAt ![2, 4, 6, 2], vertexAt ![1, 0, 0, 1], vertexAt ![0, 3, 0, 3]] 0).gl_Position =
        ![(![vertexAt ![2, 4, 6, 2], vertexAt ![1, 0, 0, 1], vertexAt ![0, 3, 0, 3]] 0).gl_Position 0
            / (![vertexAt ![2, 4, 6, 2], vertexAt ![1, 0, 0, 1], vertexAt ![0, 3, 0, 3]] 0).gl_Position 3,
          (![vertexAt ![2, 4, 6, 2], vertexAt ![1, 0, 0, 1], vertexAt ![0, 3, 0, 3]] 0).gl_Position 1
            / (![vertexAt ![2, 4, 6, 2], vertexAt ![1, 0, 0, 1], vertexAt ![0, 3, 0, 3]] 0).gl_Position 3,
          (![vertexAt ![2, 4, 6, 2], vertexAt ![1, 0, 0, 1], vertexAt ![0, 3, 0, 3]] 0).gl_Position 2
            / (![vertexAt ![2, 4, 6, 2], vertexAt ![1, 0, 0, 1], vertexAt ![0, 3, 0, 3]] 0).gl_Position 3,
          (![vertexAt ![2, 4, 6, 2], vertexAt ![1, 0, 0, 1], vertexAt ![0, 3, 0, 3]] 0).gl_Position 3] ∧
      (perspectiveDivision
        ![vertexAt ![2, 4, 6, 2], vertexAt ![1, 0, 0, 1], vertexAt ![0, 3, 0, 3]] 0).attributes =
        (![vertexAt ![2, 4, 6, 2], vertexAt ![1, 0, 0, 1], vertexAt ![0, 3, 0, 3]] 0).attributes) ∧
    (perspectiveDivision
        ![vertexAt ![2, 4, 6, 2], vertexAt ![1, 0, 0, 1], vertexAt ![0, 3, 0, 3]] 0).gl_Position
      = ![1, 2, 3, 2] :=
  ⟨perspectiveDivision_spec _ (by
    intro i
    fin_cases i <;> simp [vertexAt]) 0, by decide!⟩

/-! ## C30: viewport transformation -/

/-- C30: `viewPortTransformation` maps the `x` of each vertex to
`((x + 1)/2)·(width − 1)` and its `y` to `((y + 1)/2)·(height − 1)`, and keeps
`z`, `w` and the attributes; hence `x = −1` goes to 0 and `x = 1` to
`width − 1`, and likewise for `y`. -/
theorem viewPortTransformation_spec (ass : Assembly) (width height : ℚ) :
    (∀ i, (viewPortTransformation ass width height i).gl_Position =
        ![(((ass i).gl_Position 0 + 1) / 2) * (width - 1),
          (((ass i).gl_Position 1 + 1) / 2) * (height - 1),
          (ass i).gl_Position 2, (ass i).gl_Position 3] ∧
      (viewPortTransformation ass width height i).attributes = (ass i).attributes) ∧
    (∀ i, ((ass i).gl_Position 0 = -1 →
        (viewPortTransformation ass width height i).gl_Position 0 = 0) ∧
      ((ass i).gl_Position 0 = 1 →
        (viewPortTransformation ass width height i).gl_Position 0 = width - 1) ∧
      ((ass i).gl_Position 1 = -1 →
        (viewPortTransformation ass width height i).gl_Position 1 = 0) ∧
      ((ass i).gl_Position 1 = 1 →
        (viewPortTransformation ass width height i).gl_Position 1 = height - 1)) := by
  have e3 : ((3 : Fin 4) : Nat) = 3 := rfl
  have e2 : ((2 : Fin 4) : Nat) = 2 := rfl
  have hpos : ∀ i, (viewPortTransformation ass width height i).gl_Position =
      ![(((ass i).gl_Position 0 + 1) / 2) * (width - 1),
        (((ass i).gl_Position 1 + 1) / 2) * (height - 1),
        (ass i).gl_Position 2, (ass i).gl_Position 3] := by
    intro i
    funext j
    fin_cases j <;> simp [viewPortTransformation, viewPortTransformationVertex, e2, e3]
  refine ⟨fun i => ⟨hpos i, rfl⟩, fun i => ⟨?_, ?_, ?_, ?_⟩⟩
  all_goals
    intro h
    rw [hpos i]
    simp [h]

/-- Witness of C30: the NDC triangle `(-1,-1,0,1), (1,-1,0,1), (-1,1,0,1)` in a
4×4 framebuffer goes to `(0,0), (3,0), (0,3)`. -/
theorem viewPortTransformation_spec_witness :
    (viewPortTransformation
        ![vertexAt ![-1, -1, 0, 1], vertexAt ![1, -1, 0, 1], vertexAt ![-1, 1, 0, 1]] 4 4
        1).gl_Position 0 = 4 - 1 ∧
    (viewPortTransformation
        ![vertexAt ![-1, -1, 0, 1], vertexAt ![1, -1, 0, 1], vertexAt ![-1, 1, 0, 1]] 4 4
        0).gl_Position 0 = 0 :=
  ⟨((viewPortTransformation_spec
      ![vertexAt ![-1, -1, 0, 1], vertexAt ![1, -1, 0, 1], vertexAt ![-1, 1, 0, 1]] 4 4).2
      1).2.1 (by simp [vertexAt]),
   ((viewPortTransformation_spec
      ![vertexAt ![-1, -1, 0, 1], vertexAt ![1, -1, 0, 1], vertexAt ![-1, 1, 0, 1]] 4 4).2
      0).1 (by simp [vertexAt])⟩

/-! ## C31: the box of `getConvexCover` -/

/-- C31 (failing input): for `halfPixelTriangle` in a 5×5 framebuffer the box
of the specification starts at `(0,0)`, the box of `getConvexCover` at `(1,1)`:
the lower corner is `floor(min + 0.5)`.  For the full-screen triangle
`(-1,-1,0,1), (3,-1,0,1), (-1,3,0,1)` projected to a 4×4 framebuffer, with the
vertices `(0,0)`, `(6,0)`, `(0,6)`, the box of the specification ends at
`(3,3)`, the box of `getConvexCover` at `(6,6)`: the upper corner is the
maximum without a clamp to `width − 1` and `height − 1`. -/
theorem getConvexCover_not_clamped :
    getConvexCover (halfPixelTriangle 0).gl_Position (halfPixelTriangle 1).gl_Position
      (halfPixelTriangle 2).gl_Position = some (![1, 1], ![2, 2]) ∧
    convexCoverSpec (halfPixelTriangle 0).gl_Position (halfPixelTriangle 1).gl_Position
      (halfPixelTriangle 2).gl_Position 5 5 = (![0, 0], ![2, 2]) ∧
    (∀ i, ((viewPortTransformation (perspectiveDivision fullScreenTriangle) 4 4) i).gl_Position
      = (![![0, 0, 0, 1], ![6, 0, 0, 1], ![0, 6, 0, 1]] : Fin 3 → Vec4) i) ∧
    getConvexCover ![0, 0, 0, 1] ![6, 0, 0, 1] ![0, 6, 0, 1] = some (![0, 0], ![6, 6]) ∧
    convexCoverSpec ![0, 0, 0, 1] ![6, 0, 0, 1] ![0, 6, 0, 1] 4 4 = (![0, 0], ![3, 3]) := by
  decide!

/-! ## C32: both windings -/

/-- The box of `getConvexCover` does not depend on the order of `B` and `C`. -/
theorem getConvexCover_swap (A B C : Vec4) : getConvexCover A C B = getConvexCover A B C := by
  unfold getConvexCover
  simp only [min_right_comm (A _) (C _) (B _), sup_right_comm (A _) (C _) (B _)]

/-- The edge functions of the reversed winding are the negated edge functions
of the triangle, in the opposite order. -/
theorem rawEdges_swap (A B C : Vec4) (x y : ℚ) :
    rawEdges A C B x y 0 = -rawEdges A B C x y 2 ∧
    rawEdges A C B x y 1 = -rawEdges A B C x y 1 ∧
    rawEdges A C B x y 2 = -rawEdges A B C x y 0 := by
  refine ⟨?_, ?_, ?_⟩ <;> simp [rawEdges, getDeltas] <;> ring

/-- The coverage test accepts the same pixels for both windings. -/
theorem covers_reverseWinding (ass : Assembly) (x y : Nat) :
    covers (reverseWinding ass) x y = covers ass x y := by
  rw [Bool.eq_iff_iff]
  unfold covers
  simp only [decide_eq_true_eq]
  rw [(edgeFunction_upToSign _ _ _ _ _ _ (deltasUpToSign_getDeltas _ _ _)).2,
    (edgeFunction_upToSign _ _ _ _ _ _ (deltasUpToSign_getDeltas _ _ _)).2]
  have e0 : (reverseWinding ass 0).gl_Position = (ass 0).gl_Position := rfl
  have e1 : (reverseWinding ass 1).gl_Position = (ass 2).gl_Position := rfl
  have e2 : (reverseWinding ass 2).gl_Position = (ass 1).gl_Position := rfl
  rw [e0, e1, e2]
  obtain ⟨h0, h1, h2⟩ := rawEdges_swap (ass 0).gl_Position (ass 1).gl_Position
    (ass 2).gl_Position (1 / 2 + (x : ℚ)) (1 / 2 + (y : ℚ))
  rw [h0, h1, h2]
  constructor
  · rintro (⟨a, b, c⟩ | ⟨a, b, c⟩)
    · exact Or.inr ⟨by linarith, by linarith, by linarith⟩
    · exact Or.inl ⟨by linarith, by linarith, by linarith⟩
  · rintro (⟨a, b, c⟩ | ⟨a, b, c⟩)
    · exact Or.inr ⟨by linarith, by linarith, by linarith⟩
    · exact Or.inl ⟨by linarith, by linarith, by linarith⟩

/-- On the half grid the deltas are computed without rounding. -/
theorem getDeltas_exact (A B C : Vec4)
    (hA : onGrid 1 1024 (A 0) ∧ onGrid 1 1024 (A 1))
    (hB : onGrid 1 1024 (B 0) ∧ onGrid 1 1024 (B 1))
    (hC : onGrid 1 1024 (C 0) ∧ onGrid 1 1024 (C 1)) :
    F32.getDeltas A B C = getDeltas A B C ∧
    ∀ i k, onGrid 1 2048 (getDeltas A B C i k) := by
  have hg : ∀ i k, onGrid 1 2048 (getDeltas A B C i k) := by
    intro i k
    fin_cases i <;> fin_cases k
    · exact onGrid_sub hA.1 hB.1
    · exact onGrid_sub hA.2 hB.2
    · exact onGrid_sub hB.1 hC.1
    · exact onGrid_sub hB.2 hC.2
    · exact onGrid_sub hC.1 hA.1
    · exact onGrid_sub hC.2 hA.2
  refine ⟨?_, hg⟩
  have e := fun i k => onGrid_exact (hg i k) (by norm_num) (by norm_num)
  funext i k
  fin_cases i <;> fin_cases k
  · exact e 0 0
  · exact e 0 1
  · exact e 1 0
  · exact e 1 1
  · exact e 2 0
  · exact e 2 1

/-- One edge function is computed without rounding when the sample and the
vertex are on the half grid within `512.5` and the delta within `1024`. -/
theorem edge_exact (x y p0 p1 d0 d1 : ℚ) (hx : onGrid 1 1025 x) (hy : onGrid 1 1025 y)
    (hp0 : onGrid 1 1024 p0) (hp1 : onGrid 1 1024 p1) (hd0 : onGrid 1 2048 d0)
    (hd1 : onGrid 1 2048 d1) :
    roundF32 (roundF32 (roundF32 (x - p0) * d1) - roundF32 (roundF32 (y - p1) * d0))
      = (x - p0) * d1 - (y - p1) * d0 := by
  have g1 := onGrid_sub hx hp0
  have g2 := onGrid_sub hy hp1
  have g3 := onGrid_mul g1 hd1
  have g4 := onGrid_mul g2 hd0
  have g5 := onGrid_sub g3 g4
  rw [onGrid_exact g1 (by norm_num) (by norm_num), onGrid_exact g2 (by norm_num) (by norm_num),
    onGrid_exact g3 (by norm_num) (by norm_num), onGrid_exact g4 (by norm_num) (by norm_num),
    onGrid_exact g5 (by norm_num) (by norm_num)]

/-- On the half grid `edgeFunction` is computed without rounding. -/
theorem edgeFunction_exact (A B C : Vec4) (d : Fin 3 → Vec2) (x y : ℚ)
    (hA : onGrid 1 1024 (A 0) ∧ onGrid 1 1024 (A 1))
    (hB : onGrid 1 1024 (B 0) ∧ onGrid 1 1024 (B 1))
    (hC : onGrid 1 1024 (C 0) ∧ onGrid 1 1024 (C 1))
    (hd : ∀ i k, onGrid 1 2048 (d i k)) (hx : onGrid 1 1025 x) (hy : onGrid 1 1025 y) :
    F32.edgeFunction A B C d x y = edgeFunction A B C d x y := by
  have he : ∀ i : Fin 3,
      roundF32 (roundF32 (roundF32 (x - (![A, B, C] : Fin 3 → Vec4) i 0) * d i 1)
        - roundF32 (roundF32 (y - (![A, B, C] : Fin 3 → Vec4) i 1) * d i 0))
      = (x - (![A, B, C] : Fin 3 → Vec4) i 0) * d i 1
        - (y - (![A, B, C] : Fin 3 → Vec4) i 1) * d i 0 := by
    intro i
    fin_cases i
    · exact edge_exact x y _ _ _ _ hx hy hA.1 hA.2 (hd 0 0) (hd 0 1)
    · exact edge_exact x y _ _ _ _ hx hy hB.1 hB.2 (hd 1 0) (hd 1 1)
    · exact edge_exact x y _ _ _ _ hx hy hC.1 hC.2 (hd 2 0) (hd 2 1)
  unfold F32.edgeFunction edgeFunction
  dsimp only
  simp only [he]

/-- The deltas that `edgeFunction` returns in binary32 are the deltas it was
given, up to sign. -/
theorem edgeFunction_deltas (A B C : Vec4) (d : Fin 3 → Vec2) (x y : ℚ)
    (hd : DeltasUpToSign A B C d) : DeltasUpToSign A B C (F32.edgeFunction A B C d x y).2 := by
  obtain ⟨s, hs, hd⟩ := hd
  unfold F32.edgeFunction
  dsimp only
  split
  · refine ⟨-s, ?_, ?_⟩
    · rcases hs with hs | hs <;> rw [hs] <;> simp
    · intro i k
      fin_cases k <;> simp [hd i]
  · exact ⟨s, hs, hd⟩

/-- Deltas that are those of `getDeltas` up to sign are on the grid. -/
theorem deltasUpToSign_onGrid (A B C : Vec4) (d : Fin 3 → Vec2)
    (hg : ∀ i k, onGrid 1 2048 (getDeltas A B C i k)) (hd : DeltasUpToSign A B C d) :
    ∀ i k, onGrid 1 2048 (d i k) := by
  obtain ⟨s, hs, hd⟩ := hd
  intro i k
  rw [hd i k]
  rcases hs with hs | hs <;> rw [hs]
  · rw [one_mul]
    exact hg i k
  · rw [neg_one_mul]
    exact onGrid_neg (hg i k)

/-- One pixel of the binary32 loop stores a fragment exactly when the pixel is
covered, for a triangle on the half grid and a pixel within `512`. -/
theorem rasterizePixel_exact (ass : Assembly) (hass : onHalfGrid ass) (h w : Nat)
    (hh : h ≤ 512) (hw : w ≤ 512) (st : F32.CoverState)
    (hd : DeltasUpToSign (ass 0).gl_Position (ass 1).gl_Position (ass 2).gl_Position st.deltas) :
    DeltasUpToSign (ass 0).gl_Position (ass 1).gl_Position (ass 2).gl_Position
      (F32.rasterizePixel ass h w st).deltas ∧
    (F32.rasterizePixel ass h w st).pixels =
      st.pixels ++ (if covers ass w h then [(w, h)] else []) := by
  have hg := (getDeltas_exact _ _ _ (hass 0) (hass 1) (hass 2)).2
  have hdg := deltasUpToSign_onGrid _ _ _ _ hg hd
  have ew : roundF32 (1 / 2 + roundF32 (w : ℚ)) = 1 / 2 + (w : ℚ) := by
    rw [onGrid_exact (onGrid_natCast w 512 hw) (by norm_num) (by norm_num),
      onGrid_exact (onGrid_centre w 512 hw) (by norm_num) (by norm_num)]
  have eh : roundF32 (1 / 2 + roundF32 (h : ℚ)) = 1 / 2 + (h : ℚ) := by
    rw [onGrid_exact (onGrid_natCast h 512 hh) (by norm_num) (by norm_num),
      onGrid_exact (onGrid_centre h 512 hh) (by norm_num) (by norm_num)]
  have hup := edgeFunction_upToSign (ass 0).gl_Position (ass 1).gl_Position (ass 2).gl_Position
    st.deltas (1 / 2 + (w : ℚ)) (1 / 2 + (h : ℚ)) hd
  have hc := covers_iff ass st.deltas w h hd
  have hex := edgeFunction_exact (ass 0).gl_Position (ass 1).gl_Position (ass 2).gl_Position
    st.deltas (1 / 2 + (w : ℚ)) (1 / 2 + (h : ℚ)) (hass 0) (hass 1) (hass 2) hdg
    (onGrid_centre w 512 hw) (onGrid_centre h 512 hh)
  unfold F32.rasterizePixel
  dsimp only
  rw [ew, eh, hex]
  split
  · rename_i hcov
    refine ⟨hup.1, ?_⟩
    rw [if_pos (hc.2 hcov)]
  · rename_i hcov
    refine ⟨hup.1, ?_⟩
    have : covers ass w h = false := by
      cases hcv : covers ass w h with
      | false => rfl
      | true => exact absurd (hc.1 hcv) hcov
    rw [this]
    simp

/-- The pixels stored in one row of the binary32 loop. -/
theorem rasterize_cols_exact (ass : Assembly) (hass : onHalfGrid ass) (h : Nat) (hh : h ≤ 512)
    (cols : List Nat) :
    (∀ w ∈ cols, w ≤ 512) → ∀ st : F32.CoverState,
      DeltasUpToSign (ass 0).gl_Position (ass 1).gl_Position (ass 2).gl_Position st.deltas →
      DeltasUpToSign (ass 0).gl_Position (ass 1).gl_Position (ass 2).gl_Position
        (cols.foldl (fun st w => F32.rasterizePixel ass h w st) st).deltas ∧
      (cols.foldl (fun st w => F32.rasterizePixel ass h w st) st).pixels =
        st.pixels ++ (cols.filter (fun w => covers ass w h)).map (fun w => (w, h)) := by
  induction cols with
  | nil => intro _ st hd; exact ⟨hd, by simp⟩
  | cons w cols ih =>
      intro hc st hd
      obtain ⟨h1, h2⟩ := rasterizePixel_exact ass hass h w hh (hc w (List.mem_cons_self _ _)) st hd
      obtain ⟨h3, h4⟩ := ih (fun v hv => hc v (List.mem_cons_of_mem _ hv)) _ h1
      refine ⟨h3, ?_⟩
      rw [List.foldl_cons, h4, h2, List.filter_cons]
      cases covers ass w h <;> simp

/-- The pixels stored in all rows of the binary32 loop. -/
theorem rasterize_rows_exact (ass : Assembly) (hass : onHalfGrid ass) (cols rows : List Nat)
    (hc : ∀ w ∈ cols, w ≤ 512) :
    (∀ h ∈ rows, h ≤ 512) → ∀ st : F32.CoverState,
      DeltasUpToSign (ass 0).gl_Position (ass 1).gl_Position (ass 2).gl_Position st.deltas →
      DeltasUpToSign (ass 0).gl_Position (ass 1).gl_Position (ass 2).gl_Position
        (rows.foldl (fun st h => cols.foldl (fun st w => F32.rasterizePixel ass h w st) st)
          st).deltas ∧
      (rows.foldl (fun st h => cols.foldl (fun st w => F32.rasterizePixel ass h w st) st)
          st).pixels =
        st.pixels ++ rows.flatMap (fun h => (cols.filter (fun w => covers ass w h)).map
          (fun w => (w, h))) := by
  induction rows with
  | nil => intro _ st hd; exact ⟨hd, by simp⟩
  | cons h rows ih =>
      intro hr st hd
      obtain ⟨h1, h2⟩ := rasterize_cols_exact ass hass h (hr h (List.mem_cons_self _ _)) cols hc
        st hd
      obtain ⟨h3, h4⟩ := ih (fun v hv => hr v (List.mem_cons_of_mem _ hv)) _ h1
      refine ⟨h3, ?_⟩
      rw [List.foldl_cons, h4, h2, List.flatMap_cons, List.append_assoc]

/-- The conversion of a number of at most `N` to `uint64_t` gives at most `N`. -/
theorem toU64_le (q : ℚ) (n N : ℕ) (hq : q ≤ N) (h : toU64 q = some n) : n ≤ N := by
  unfold toU64 at h
  split at h
  · cases h
  · simp only [Option.some.injEq] at h
    rw [← h, Int.toNat_le]
    have := Int.floor_le_floor hq
    rwa [Int.floor_natCast] at this

/-- A number of the half grid within `1024` halves is at most `512`. -/
theorem onGrid_le {q : ℚ} (h : onGrid 1 1024 q) : q ≤ 512 := by
  obtain ⟨m, hm, rfl⟩ := h
  have h1 : m ≤ 1024 := le_trans (le_abs_self m) hm
  have h2 : (m : ℚ) ≤ 1024 := by exact_mod_cast h1
  norm_num
  linarith

/-- The box of a triangle on the half grid ends within `512`. -/
theorem getConvexCover_le (ass : Assembly) (hass : onHalfGrid ass) (ld rt : Fin 2 → Nat)
    (h : getConvexCover (ass 0).gl_Position (ass 1).gl_Position (ass 2).gl_Position
      = some (ld, rt)) : rt 0 ≤ 512 ∧ rt 1 ≤ 512 := by
  unfold getConvexCover at h
  dsimp only at h
  split at h
  · rename_i r0 r1 l0 l1 e0 e1 _ _
    simp only [Option.some.injEq, Prod.mk.injEq] at h
    obtain ⟨_, h2⟩ := h
    rw [← h2]
    constructor
    · exact toU64_le _ r0 512 (by
        push_cast
        exact max_le (max_le (onGrid_le (hass 0).1) (onGrid_le (hass 1).1))
          (onGrid_le (hass 2).1)) e0
    · exact toU64_le _ r1 512 (by
        push_cast
        exact max_le (max_le (onGrid_le (hass 0).2) (onGrid_le (hass 1).2))
          (onGrid_le (hass 2).2)) e1
  · cases h

/-- On the half grid the binary32 loop stores the fragments of the pixels of
the box that pass the exact coverage test. -/
theorem rasterize_exact (ass : Assembly) (hass : onHalfGrid ass) :
    F32.rasterize ass =
      (getConvexCover (ass 0).gl_Position (ass 1).gl_Position (ass 2).gl_Position).map
        (fun box =>
          (List.range' (box.1 1) (box.2 1 + 1 - box.1 1)).flatMap (fun y =>
            ((List.range' (box.1 0) (box.2 0 + 1 - box.1 0)).filter
              (fun x => covers ass x y)).map (fun x => (x, y)))) := by
  unfold F32.rasterize
  dsimp only
  cases hcc : getConvexCover (ass 0).gl_Position (ass 1).gl_Position (ass 2).gl_Position with
  | none => rfl
  | some box =>
      obtain ⟨ld, rt⟩ := box
      obtain ⟨hr0, hr1⟩ := getConvexCover_le ass hass ld rt hcc
      have hd0 : DeltasUpToSign (ass 0).gl_Position (ass 1).gl_Position (ass 2).gl_Position
          (F32.edgeFunction (ass 0).gl_Position (ass 1).gl_Position (ass 2).gl_Position
            (F32.getDeltas (ass 0).gl_Position (ass 1).gl_Position (ass 2).gl_Position)
            (roundF32 (ld 0)) (roundF32 (ld 1))).2 := by
        rw [(getDeltas_exact _ _ _ (hass 0) (hass 1) (hass 2)).1]
        exact edgeFunction_deltas _ _ _ _ _ _ (deltasUpToSign_getDeltas _ _ _)
      have hrows := (rasterize_rows_exact ass hass
        (List.range' (ld 0) (rt 0 + 1 - ld 0)) (List.range' (ld 1) (rt 1 + 1 - ld 1))
        (by
          intro w hw
          rw [List.mem_range'_1] at hw
          omega)
        (by
          intro h hh
          rw [List.mem_range'_1] at hh
          omega)
        { deltas := _, pixels := [] } hd0).2
      simp only [Option.map_some']
      rw [hrows]
      simp

/-- The reversed winding of a triangle on the half grid is on the half grid. -/
theorem onHalfGrid_reverseWinding (ass : Assembly) (hass : onHalfGrid ass) :
    onHalfGrid (reverseWinding ass) := by
  intro i
  fin_cases i
  · exact hass 0
  · exact hass 2
  · exact hass 1

/-- C32 (amended): for every projected triangle `(A, B, C)` whose vertex
coordinates `x` and `y` are multiples of `1/2` between `-512` and `512`, the
binary32 computation of `rasterize` on `(A, B, C)` and on the reversed winding
`(A, C, B)` is defined for the same triangles and stores fragments for exactly
the same pixels, in the same order: on these triangles no edge function is
rounded. -/
theorem rasterize_reverseWinding (ass : Assembly) (hass : onHalfGrid ass) :
    F32.rasterize (reverseWinding ass) = F32.rasterize ass := by
  rw [rasterize_exact ass hass, rasterize_exact _ (onHalfGrid_reverseWinding ass hass)]
  have e0 : (reverseWinding ass 0).gl_Position = (ass 0).gl_Position := rfl
  have e1 : (reverseWinding ass 1).gl_Position = (ass 2).gl_Position := rfl
  have e2 : (reverseWinding ass 2).gl_Position = (ass 1).gl_Position := rfl
  rw [e0, e1, e2, getConvexCover_swap]
  simp only [covers_reverseWinding]

/-- Witness of C32: the triangle `(0.5,0.5), (2.5,0.5), (0.5,2.5)` is on the
half grid, and both windings store the fragment of pixel `(1,1)`. -/
theorem rasterize_reverseWinding_witness :
    F32.rasterize halfPixelTriangle = some [(1, 1)] ∧
    F32.rasterize (reverseWinding halfPixelTriangle) = F32.rasterize halfPixelTriangle :=
  ⟨by decide!, rasterize_reverseWinding halfPixelTriangle (by
    intro i
    fin_cases i
    · exact ⟨⟨1, by decide, by decide!⟩, ⟨1, by decide, by decide!⟩⟩
    · exact ⟨⟨5, by decide, by decide!⟩, ⟨1, by decide, by decide!⟩⟩
    · exact ⟨⟨1, by decide, by decide!⟩, ⟨5, by decide, by decide!⟩⟩)⟩

/-- C32 (counterexample): the vertices `(2.6f, 1)`, `(0.4f, 0)`, `(0, 6)` of
`roundedTriangle` are binary32 numbers.  In binary32 `rasterize` stores 8
fragments for `(A, B, C)` and 7 for the reversed winding `(A, C, B)`: the
fragment of pixel `(1,0)` is stored for the first winding only, its centre
lies within the rounding error of the edge `AB`. -/
theorem windings_differ_in_binary32 :
    (∀ i, isF32 ((roundedTriangle i).gl_Position 0) ∧ isF32 ((roundedTriangle i).gl_Position 1)) ∧
    F32.rasterize roundedTriangle
      = some [(0, 0), (1, 0), (0, 1), (1, 1), (0, 2), (1, 2), (0, 3), (0, 4)] ∧
    F32.rasterize (reverseWinding roundedTriangle)
      = some [(0, 0), (0, 1), (1, 1), (0, 2), (1, 2), (0, 3), (0, 4)] := by
  refine ⟨?_, by decide!, by decide!⟩
  intro i
  unfold isF32
  fin_cases i <;> exact ⟨⟨by decide!, by decide!⟩, ⟨by decide!, by decide!⟩⟩

/-! ## C33: barycentric coordinates -/

/-- The divisor does not depend on the vertex the triangle is read from. -/
theorem coordinatesDenominator_rotate (A B C : Vec4) :
    coordinatesDenominator B C A = coordinatesDenominator A B C := by
  unfold coordinatesDenominator
  ring

/-- The coordinate of the first vertex at a convex combination of the vertices. -/
theorem countCoordinates_convex (A B C : Vec4) (P : Vec2) (a b c : ℚ)
    (harea : coordinatesDenominator A B C ≠ 0) (ha : 0 ≤ a) (hsum : a + b + c = 1)
    (hx : P 0 = a * A 0 + b * B 0 + c * C 0) (hy : P 1 = a * A 1 + b * B 1 + c * C 1) :
    countCoordinates A B C P = a := by
  have hc : c = 1 - a - b := by linarith
  have hnum : (B 1 - C 1) * (P 0 - C 0) + (C 0 - B 0) * (P 1 - C 1) =
      a * coordinatesDenominator A B C := by
    rw [hx, hy, hc]
    unfold coordinatesDenominator
    ring
  have hres : ((B 1 - C 1) * (P 0 - C 0) + (C 0 - B 0) * (P 1 - C 1)) /
      ((B 1 - C 1) * (A 0 - C 0) + (C 0 - B 0) * (A 1 - C 1)) = a := by
    rw [hnum]
    exact mul_div_cancel_right₀ a harea
  unfold countCoordinates
  dsimp only
  rw [hres, if_neg (not_lt.2 ha)]

/-- C33: for a triangle `(A, B, C)` of non-zero area and a point `P` inside or
on it, that is `P = a·A + b·B + c·C` in `x` and `y` with `a, b, c ≥ 0` and
`a + b + c = 1`, the three values of `getBarycentricCoordinates` are `a, b, c`:
each lies in `[0, 1]`, they sum to exactly 1, and `P = λ_A·A + λ_B·B + λ_C·C`
in `x` and `y`. -/
theorem getBarycentricCoordinates_inside (A B C : Vec4) (P : Vec2) (a b c : ℚ)
    (harea : coordinatesDenominator A B C ≠ 0)
    (ha : 0 ≤ a) (hb : 0 ≤ b) (hc : 0 ≤ c) (hsum : a + b + c = 1)
    (hx : P 0 = a * A 0 + b * B 0 + c * C 0) (hy : P 1 = a * A 1 + b * B 1 + c * C 1) :
    getBarycentricCoordinates A B C P = ![a, b, c] ∧
    (∀ i, 0 ≤ getBarycentricCoordinates A B C P i ∧ getBarycentricCoordinates A B C P i ≤ 1) ∧
    getBarycentricCoordinates A B C P 0 + getBarycentricCoordinates A B C P 1
      + getBarycentricCoordinates A B C P 2 = 1 ∧
    P 0 = getBarycentricCoordinates A B C P 0 * A 0 + getBarycentricCoordinates A B C P 1 * B 0
      + getBarycentricCoordinates A B C P 2 * C 0 ∧
    P 1 = getBarycentricCoordinates A B C P 0 * A 1 + getBarycentricCoordinates A B C P 1 * B 1
      + getBarycentricCoordinates A B C P 2 * C 1 := by
  have h0 := countCoordinates_convex A B C P a b c harea ha hsum hx hy
  have h1 := countCoordinates_convex B C A P b c a
    (by rw [coordinatesDenominator_rotate]; exact harea) hb (by linarith)
    (by rw [hx]; ring) (by rw [hy]; ring)
  have h2 := countCoordinates_convex C A B P c a b
    (by rw [coordinatesDenominator_rotate, coordinatesDenominator_rotate]; exact harea) hc
    (by linarith) (by rw [hx]; ring) (by rw [hy]; ring)
  have hl : getBarycentricCoordinates A B C P = ![a, b, c] := by
    unfold getBarycentricCoordinates
    rw [h0, h1, h2]
  rw [hl]
  refine ⟨rfl, ?_, ?_, ?_, ?_⟩
  · intro i
    fin_cases i
    · exact ⟨ha, by show a ≤ 1; linarith⟩
    · exact ⟨hb, by show b ≤ 1; linarith⟩
    · exact ⟨hc, by show c ≤ 1; linarith⟩
  · exact hsum
  · exact hx
  · exact hy

/-- Witness of C33: the triangle `(0,0), (4,0), (0,4)` and the point `(1,1)`,
whose coordinates are `1/2, 1/4, 1/4`. -/
theorem getBarycentricCoordinates_inside_witness :
    getBarycentricCoordinates ![0, 0, 0, 1] ![4, 0, 0, 1] ![0, 4, 0, 1] ![1, 1]
      = ![1 / 2, 1 / 4, 1 / 4] :=
  (getBarycentricCoordinates_inside ![0, 0, 0, 1] ![4, 0, 0, 1] ![0, 4, 0, 1] ![1, 1]
    (1 / 2) (1 / 4) (1 / 4) (by decide!) (by norm_num) (by norm_num) (by norm_num)
    (by norm_num) (by simp) (by simp)).1

/-! ## C34: the contents of a fragment -/

/-- One pixel of `rasterize` keeps the invariant. -/
theorem rasterizePixel_invariant (ass : Assembly) (types : Fin maxAttributes → AttributeType)
    (h w : Nat) (st : RasterState) (hst : RasterInvariant ass types st) :
    RasterInvariant ass types (rasterizePixel ass types h w st) := by
  obtain ⟨h1, h2⟩ := hst
  unfold rasterizePixel
  dsimp only
  split
  · have hattr : ∀ i, types i = AttributeType.EMPTY →
        interpolateAttribute
          (getBarycentricCoordinates (ass 0).gl_Position (ass 1).gl_Position (ass 2).gl_Position
            ![1 / 2 + (w : ℚ), 1 / 2 + (h : ℚ)])
          ![(ass 0).gl_Position 3, (ass 1).gl_Position 3, (ass 2).gl_Position 3] (types i)
          (st.frag.attributes i) ((ass 0).attributes i) ((ass 1).attributes i)
          ((ass 2).attributes i) = InFragment.uninit.attributes i := by
      intro i hi
      rw [← h1 i hi]
      funext j
      simp [interpolateAttribute, hi, AttributeType.toNat]
    refine ⟨hattr, ?_⟩
    intro f hf
    rw [List.mem_append, List.mem_singleton] at hf
    rcases hf with hf | hf
    · exact h2 f hf
    · refine ⟨w, h, ?_, ?_⟩
      · rw [hf]
        simp only [perspectiveCorrection_eq, interpolationLaw]
        simp [add_comm]
      · rw [hf]
        exact hattr
  · exact ⟨h1, h2⟩

/-- The traversal of one row keeps the invariant. -/
theorem rasterize_cols_invariant (ass : Assembly) (types : Fin maxAttributes → AttributeType)
    (h : Nat) (cols : List Nat) :
    ∀ st : RasterState, RasterInvariant ass types st →
      RasterInvariant ass types (cols.foldl (fun st w => rasterizePixel ass types h w st) st) := by
  induction cols with
  | nil => intro st hst; exact hst
  | cons w cols ih =>
      intro st hst
      rw [List.foldl_cons]
      exact ih _ (rasterizePixel_invariant ass types h w st hst)

/-- The traversal of the rows keeps the invariant. -/
theorem rasterize_rows_invariant (ass : Assembly) (types : Fin maxAttributes → AttributeType)
    (cols rows : List Nat) :
    ∀ st : RasterState, RasterInvariant ass types st →
      RasterInvariant ass types
        (rows.foldl (fun st h => cols.foldl (fun st w => rasterizePixel ass types h w st) st)
          st) := by
  induction rows with
  | nil => intro st hst; exact hst
  | cons h rows ih =>
      intro st hst
      rw [List.foldl_cons]
      exact ih _ (rasterize_cols_invariant ass types h cols st hst)

/-- C34: every fragment that `rasterize` emits belongs to a pixel `(x, y)` and
has `gl_FragCoord = (x + 0.5, y + 0.5, z_interp, w_interp)`, where `z_interp`
and `w_interp` are `(Σ λ_i·v_i/w_i) / (Σ λ_i/w_i)` of the three vertices' `z`
and `w`; and a slot whose varying type is EMPTY is not written: it holds what
the declaration of the fragment variable left in it. -/
theorem rasterize_fragCoord (ass : Assembly) (types : Fin maxAttributes → AttributeType)
    (frags : List InFragment) (hr : rasterize ass types = some frags)
    (f : InFragment) (hf : f ∈ frags) :
    ∃ x y : Nat,
      f.gl_FragCoord =
        ![(x : ℚ) + 1 / 2, (y : ℚ) + 1 / 2,
          interpolationLaw ass x y ((ass 0).gl_Position 2) ((ass 1).gl_Position 2)
            ((ass 2).gl_Position 2),
          interpolationLaw ass x y ((ass 0).gl_Position 3) ((ass 1).gl_Position 3)
            ((ass 2).gl_Position 3)] ∧
      ∀ i, types i = AttributeType.EMPTY → f.attributes i = InFragment.uninit.attributes i := by
  unfold rasterize at hr
  dsimp only at hr
  split at hr
  · cases hr
  · cases hr
    exact (rasterize_rows_invariant ass types _ _ _
      ⟨fun _ _ => rfl, fun f hf => by cases hf⟩).2 f hf

/-- Witness of C34: `rasterize` emits 10 fragments for `perspectiveTriangle`
with the varying types `floatSlot0`, and the statement holds for one of them. -/
theorem rasterize_fragCoord_witness :
    ∃ frags, rasterize perspectiveTriangle floatSlot0 = some frags ∧ frags.length = 10 ∧
      ∃ f ∈ frags, ∃ x y : Nat,
        f.gl_FragCoord =
          ![(x : ℚ) + 1 / 2, (y : ℚ) + 1 / 2,
            interpolationLaw perspectiveTriangle x y ((perspectiveTriangle 0).gl_Position 2)
              ((perspectiveTriangle 1).gl_Position 2) ((perspectiveTriangle 2).gl_Position 2),
            interpolationLaw perspectiveTriangle x y ((perspectiveTriangle 0).gl_Position 3)
              ((perspectiveTriangle 1).gl_Position 3) ((perspectiveTriangle 2).gl_Position 3)] ∧
        ∀ i, floatSlot0 i = AttributeType.EMPTY →
          f.attributes i = InFragment.uninit.attributes i := by
  have hl : (rasterize perspectiveTriangle floatSlot0).map List.length = some 10 := by decide!
  cases hr : rasterize perspectiveTriangle floatSlot0 with
  | none => rw [hr] at hl; cases hl
  | some frags =>
      rw [hr] at hl
      have hl1 : frags.length = 10 := Option.some.inj hl
      obtain ⟨f, hf⟩ := List.exists_mem_of_length_pos (show 0 < frags.length by omega)
      exact ⟨frags, rfl, hl1, f, hf, rasterize_fragCoord _ _ _ hr f hf⟩

/-! ## C35: fragments outside the framebuffer -/

set_option maxHeartbeats 1000000 in
/-- C35 (failing input): two triangles in front of the near plane that extend
beyond a 4×4 viewport.  For `rightOfViewport` the fragments of `rasterize` are
those of the pixels `(4,0)`, `(5,0)`, `(4,1)`, with `x > width − 1 = 3`; the
draw writes the fragment of `(4,0)` at index `0·4 + 4 = 4`, the black pixel
`(0,1)` of the framebuffer, which becomes white.  For `aboveViewport` the
fragments are those of the pixels `(0,34)`, `(1,34)`, `(0,35)`, with
`y > height − 1 = 3`; the index `34·4 + 0 = 136` is not below
`width·height = 16`, it lies outside both planes, and the draw is undefined. -/
theorem rasterize_outside_framebuffer :
    (∀ i, (rightOfViewport i).gl_Position 2 ≥ -(rightOfViewport i).gl_Position 3) ∧
    (∀ i, (aboveViewport i).gl_Position 2 ≥ -(aboveViewport i).gl_Position 3) ∧
    (assemblyFragments (fun _ => AttributeType.EMPTY) (fun _ => AttributeType.EMPTY) 4 4
        [rightOfViewport]).map (List.map fragmentPixel)
      = some [(some 4, some 0), (some 5, some 0), (some 4, some 1)] ∧
    (assemblyFragments (fun _ => AttributeType.EMPTY) (fun _ => AttributeType.EMPTY) 4 4
        [aboveViewport]).map (List.map fragmentPixel)
      = some [(some 0, some 34), (some 1, some 34), (some 0, some 35)] ∧
    (run exampleEmptyID (positionSetup rightOfViewport) (GPU.new exampleEmptyID)).isSome = true ∧
    pixelView (positionDevice rightOfViewport) 4
      = some ([some 0, some 0, some 0, some 255], some (some (11 / 10)), some none) ∧
    (drawTriangles exampleEmptyID (positionDevice rightOfViewport) 3).bind
        (fun g => pixelView g 4)
      = some ([some 255, some 255, some 255, some 255], some (some (11 / 10)), some (some 0)) ∧
    (run exampleEmptyID (positionSetup aboveViewport) (GPU.new exampleEmptyID)).isSome = true ∧
    (drawTriangles exampleEmptyID (positionDevice aboveViewport) 3).isNone = true := by
  refine ⟨by decide!, by decide!, by decide!, by decide!, by decide!, by decide!, by decide!,
    by decide!, by decide!⟩

/-! ## C36: what `setBufferData` leaves unchanged -/

/-- C36: for a live buffer `id` whose block `b` has `s` bytes, an offset `o`
and a length `n` with `o + n ≤ s`, and `n` source bytes: `setBufferData id o n
src` is defined and changes only the bytes `[o, o+n)` of buffer `id`.  The
other bytes of that buffer, every other cell of the buffer table, the size and
capacity of the table, the free list, the liveness of every handle, and all
puller, program and framebuffer state are unchanged. -/
theorem setBufferData_frame (emptyID : Nat) (g : GPU) (id o n s : Nat)
    (b src : List (Cell Byte))
    (hlive : isBuffer emptyID g id = some true)
    (hslot : g.Buffer.bufferArray[id]? = some (Ptr.block b)) (hs : b.length = s)
    (hon : o + n ≤ s) (hsrc : src.length = n) :
    ∃ g1 b1, setBufferData emptyID g id o n src = some g1 ∧
      g1.Buffer.bufferArray[id]? = some (Ptr.block b1) ∧ b1.length = s ∧
      (∀ i, ¬ (o ≤ i ∧ i < o + n) → b1[i]? = b[i]?) ∧
      (∀ j, j ≠ id → g1.Buffer.bufferArray[j]? = g.Buffer.bufferArray[j]?) ∧
      g1.Buffer.bufferArray.length = g.Buffer.bufferArray.length ∧
      g1.Buffer.bufferSize = g.Buffer.bufferSize ∧
      g1.Buffer.bufferCapacity = g.Buffer.bufferCapacity ∧
      g1.BDeleted = g.BDeleted ∧
      (∀ j, isBuffer emptyID g1 j = isBuffer emptyID g j) ∧
      g1.VP = g.VP ∧ g1.DVP = g.DVP ∧ g1.P = g.P ∧ g1.DP = g.DP ∧ g1.FB = g.FB := by
  obtain ⟨b1, hb1⟩ := writeCells_isSome b src o (by omega)
  have hlen : id < g.Buffer.bufferArray.length := by
    by_contra hcon
    rw [List.getElem?_eq_none (by omega)] at hslot
    cases hslot
  have hrd : readCells src 0 n = some src := by rw [← hsrc]; exact readCells_all src
  have hslot1 : (g.Buffer.bufferArray.set id (Ptr.block b1))[id]? = some (Ptr.block b1) := by
    simp [hlen]
  have hother : ∀ j, j ≠ id →
      (g.Buffer.bufferArray.set id (Ptr.block b1))[j]? = g.Buffer.bufferArray[j]? := by
    intro j hj
    rw [List.getElem?_set_ne (Ne.symm hj)]
  refine ⟨{ g with Buffer := { g.Buffer with bufferArray := g.Buffer.bufferArray.set id (Ptr.block b1) } },
    b1, ?_, hslot1, ?_, ?_, hother, ?_, rfl, rfl, rfl, ?_, rfl, rfl, rfl, rfl, rfl⟩
  · simp [setBufferData, hlive, hslot, hrd, hb1]
  · rw [writeCells_length hb1, hs]
  · intro i hi
    rw [writeCells_getElem? hb1 i, hsrc, if_neg hi]
  · simp
  · intro j
    by_cases hj : j = id
    · subst hj
      unfold isBuffer
      dsimp only
      rw [hslot1, hslot]
    · unfold isBuffer
      dsimp only
      rw [hother j hj]

/-- Witness of C36: four bytes written at offset 8 of the 24-byte buffer 0 of
`exampleBufferState`. -/
theorem setBufferData_frame_witness :
    ∃ g1 b1, setBufferData exampleEmptyID exampleBufferState 0 8 4
        [some 1, some 2, some 3, some 4] = some g1 ∧
      g1.Buffer.bufferArray[0]? = some (Ptr.block b1) ∧ b1.length = 24 ∧
      (∀ i, ¬ (8 ≤ i ∧ i < 8 + 4) → b1[i]? = (List.replicate 24 (none : Cell Byte))[i]?) ∧
      (∀ j, j ≠ 0 → g1.Buffer.bufferArray[j]? = exampleBufferState.Buffer.bufferArray[j]?) ∧
      g1.Buffer.bufferArray.length = exampleBufferState.Buffer.bufferArray.length ∧
      g1.Buffer.bufferSize = exampleBufferState.Buffer.bufferSize ∧
      g1.Buffer.bufferCapacity = exampleBufferState.Buffer.bufferCapacity ∧
      g1.BDeleted = exampleBufferState.BDeleted ∧
      (∀ j, isBuffer exampleEmptyID g1 j = isBuffer exampleEmptyID exampleBufferState j) ∧
      g1.VP = exampleBufferState.VP ∧ g1.DVP = exampleBufferState.DVP ∧
      g1.P = exampleBufferState.P ∧ g1.DP = exampleBufferState.DP ∧
      g1.FB = exampleBufferState.FB :=
  setBufferData_frame exampleEmptyID exampleBufferState 0 8 4 24
    (List.replicate 24 none) [some 1, some 2, some 3, some 4]
    (by decide!) (by decide!) (by decide!) (by decide!) (by decide!)

/-! ## C37: the parameter of `countOutVer` -/

/-- A binary32 number is an integer of at most 25 bits times a power of two. -/
theorem float_repr (x : ℚ) (h : roundF32 x = x) :
    ∃ k e : ℤ, x = (k : ℚ) * 2 ^ e ∧ |k| ≤ 2 ^ 24 := by
  refine ⟨roundEven (x / 2 ^ ulpExponent x), ulpExponent x, h.symm, ?_⟩
  by_cases hx : x = 0
  · subst hx
    rw [zero_div]
    have : roundEven 0 = 0 := by simpa using roundEven_intCast 0
    rw [this]
    norm_num
  · have hpos : (0 : ℚ) < |x| := abs_pos.2 hx
    have hu := ulp_pos x
    have hlog : |x| < ((2 : ℕ) : ℚ) ^ (Int.log 2 |x| + 1) :=
      Int.lt_zpow_succ_log_self (by norm_num) |x|
    have he : Int.log 2 |x| + 1 ≤ ulpExponent x + 24 := by
      rw [ulpExponent_eq x hx]
      have := le_max_left (Int.log 2 |x| - 23) (-149)
      omega
    have hb : |x| < 2 ^ (ulpExponent x + 24) := by
      have h2 : ((2 : ℕ) : ℚ) ^ (Int.log 2 |x| + 1) ≤ ((2 : ℕ) : ℚ) ^ (ulpExponent x + 24) :=
        zpow_le_zpow_right₀ (by norm_num) he
      have := lt_of_lt_of_le hlog h2
      simpa using this
    have hq : |x / 2 ^ ulpExponent x| < 2 ^ (24 : ℕ) := by
      rw [abs_div, abs_of_pos hu, div_lt_iff₀ hu]
      have e : (2 : ℚ) ^ (24 : ℕ) * 2 ^ ulpExponent x = 2 ^ (ulpExponent x + 24) := by
        rw [← zpow_natCast, ← zpow_add₀ (by norm_num : (2 : ℚ) ≠ 0)]
        congr 1
        push_cast
        ring
      rw [e]
      exact hb
    rw [abs_lt] at hq
    have r1 : roundEven (x / 2 ^ ulpExponent x) ≤ 2 ^ 24 := by
      have := roundEven_mono hq.2.le
      have e : ((2 : ℚ) ^ (24 : ℕ)) = (((2 : ℤ) ^ 24 : ℤ) : ℚ) := by norm_num
      rwa [e, roundEven_intCast] at this
    have r2 : -(2 ^ 24) ≤ roundEven (x / 2 ^ ulpExponent x) := by
      have := roundEven_mono hq.1.le
      have e : (-((2 : ℚ) ^ (24 : ℕ))) = (((-(2 : ℤ) ^ 24) : ℤ) : ℚ) := by norm_num
      rwa [e, roundEven_intCast] at this
    rw [abs_le]
    exact ⟨r2, r1⟩

/-- Two different binary32 numbers `0 ≤ n < d` are a relative distance of at
least `2^-24` apart: their quotient is at most `2^24 / (2^24 + 1)`. -/
theorem float_gap (n d : ℚ) (hn : roundF32 n = n) (hd : roundF32 d = d) (h0 : 0 ≤ n)
    (hlt : n < d) : n / d ≤ 16777216 / 16777217 := by
  obtain ⟨a, p, ha, hab⟩ := float_repr n hn
  obtain ⟨b, q, hb, hbb⟩ := float_repr d hd
  have hdpos : 0 < d := lt_of_le_of_lt h0 hlt
  have hz : ∀ e : ℤ, (0 : ℚ) < 2 ^ e := fun e => zpow_pos (by norm_num) e
  have ha0 : 0 ≤ a := by
    by_contra hcon
    push_neg at hcon
    have : (a : ℚ) < 0 := by exact_mod_cast hcon
    have := mul_neg_of_neg_of_pos this (hz p)
    linarith
  have hb0 : 0 < b := by
    by_contra hcon
    push_neg at hcon
    have : (b : ℚ) ≤ 0 := by exact_mod_cast hcon
    have := mul_nonpos_of_nonpos_of_nonneg this (hz q).le
    linarith
  have ha24 : (a : ℚ) ≤ 16777216 := by
    have : a ≤ 2 ^ 24 := le_trans (le_abs_self a) hab
    exact_mod_cast this
  have hb24 : (b : ℚ) ≤ 16777216 := by
    have : b ≤ 2 ^ 24 := le_trans (le_abs_self b) hbb
    exact_mod_cast this
  rw [div_le_div_iff₀ hdpos (by norm_num)]
  rcases le_total p q with hpq | hpq
  · -- both are multiples of `2^p`
    have hj : (2 : ℚ) ^ q = (((2 : ℤ) ^ (q - p).toNat : ℤ) : ℚ) * 2 ^ p := by
      push_cast
      rw [← zpow_natCast (2 : ℚ), Int.toNat_of_nonneg (by omega),
        ← zpow_add₀ (by norm_num : (2 : ℚ) ≠ 0)]
      congr 1
      ring
    have hdiff : d - n = ((b * 2 ^ (q - p).toNat - a : ℤ) : ℚ) * 2 ^ p := by
      rw [ha, hb, hj]
      push_cast
      ring
    have hint : (1 : ℤ) ≤ b * 2 ^ (q - p).toNat - a := by
      have hpos : (0 : ℚ) < ((b * 2 ^ (q - p).toNat - a : ℤ) : ℚ) * 2 ^ p := by
        rw [← hdiff]
        linarith
      have h2 : (0 : ℚ) < ((b * 2 ^ (q - p).toNat - a : ℤ) : ℚ) :=
        (mul_pos_iff_of_pos_right (hz p)).1 hpos
      have h3 : (0 : ℤ) < b * 2 ^ (q - p).toNat - a := by exact_mod_cast h2
      omega
    have hstep : (2 : ℚ) ^ p ≤ d - n := by
      rw [hdiff]
      have : (1 : ℚ) ≤ ((b * 2 ^ (q - p).toNat - a : ℤ) : ℚ) := by exact_mod_cast hint
      calc (2 : ℚ) ^ p = 1 * 2 ^ p := (one_mul _).symm
        _ ≤ ((b * 2 ^ (q - p).toNat - a : ℤ) : ℚ) * 2 ^ p :=
            mul_le_mul_of_nonneg_right this (hz p).le
    have hn24 : n ≤ 16777216 * 2 ^ p := by
      rw [ha]
      exact mul_le_mul_of_nonneg_right ha24 (hz p).le
    linarith
  · -- both are multiples of `2^q`
    have hj : (2 : ℚ) ^ p = (((2 : ℤ) ^ (p - q).toNat : ℤ) : ℚ) * 2 ^ q := by
      push_cast
      rw [← zpow_natCast (2 : ℚ), Int.toNat_of_nonneg (by omega),
        ← zpow_add₀ (by norm_num : (2 : ℚ) ≠ 0)]
      congr 1
      ring
    have hdiff : d - n = ((b - a * 2 ^ (p - q).toNat : ℤ) : ℚ) * 2 ^ q := by
      rw [ha, hb, hj]
      push_cast
      ring
    have hint : (1 : ℤ) ≤ b - a * 2 ^ (p - q).toNat := by
      have hpos : (0 : ℚ) < ((b - a * 2 ^ (p - q).toNat : ℤ) : ℚ) * 2 ^ q := by
        rw [← hdiff]
        linarith
      have h2 : (0 : ℚ) < ((b - a * 2 ^ (p - q).toNat : ℤ) : ℚ) :=
        (mul_pos_iff_of_pos_right (hz q)).1 hpos
      have h3 : (0 : ℤ) < b - a * 2 ^ (p - q).toNat := by exact_mod_cast h2
      omega
    have hstep : (2 : ℚ) ^ q ≤ d - n := by
      rw [hdiff]
      have : (1 : ℚ) ≤ ((b - a * 2 ^ (p - q).toNat : ℤ) : ℚ) := by exact_mod_cast hint
      calc (2 : ℚ) ^ q = 1 * 2 ^ q := (one_mul _).symm
        _ ≤ ((b - a * 2 ^ (p - q).toNat : ℤ) : ℚ) * 2 ^ q :=
            mul_le_mul_of_nonneg_right this (hz q).le
    have hd24 : d ≤ 16777216 * 2 ^ q := by
      rw [hb]
      exact mul_le_mul_of_nonneg_right hb24 (hz q).le
    linarith

/-- C37 (amended): for an inside vertex `A` (`A.z ≥ -A.w`) and an outside
vertex `B` (`B.z < -B.w`) for which the three operations of the divisor
`B.w - A.w + B.z - A.z` and the subtraction of the dividend `-A.w - A.z` are
exact in binary32 (their exact results are finite binary32 numbers): the
divisor that `countOutVer` computes is the exact one and strictly negative,
the division is defined, and the parameter `t` satisfies `0 ≤ t < 1`. -/
theorem countOutVer_parameter (A B : Vec4) (hA : A 2 ≥ -A 3) (hB : B 2 < -B 3)
    (h1 : isF32 (B 3 - A 3)) (h2 : isF32 (B 3 - A 3 + B 2))
    (h3 : isF32 (B 3 - A 3 + B 2 - A 2)) (h4 : isF32 (-A 3 - A 2)) :
    F32.countOutVerDivisor A B = B 3 - A 3 + B 2 - A 2 ∧
    F32.countOutVerDivisor A B < 0 ∧
    ∃ t, F32.countOutVerParameter A B = some t ∧ 0 ≤ t ∧ t < 1 := by
  have hD : F32.countOutVerDivisor A B = B 3 - A 3 + B 2 - A 2 := by
    unfold F32.countOutVerDivisor
    rw [h1.1, h2.1, h3.1]
  have hN : F32.countOutVerDividend A = -A 3 - A 2 := by
    unfold F32.countOutVerDividend
    rw [h4.1]
  have hneg : B 3 - A 3 + B 2 - A 2 < 0 := by linarith
  refine ⟨hD, by rw [hD]; exact hneg, ?_⟩
  unfold F32.countOutVerParameter
  rw [if_neg (by rw [hD]; exact hneg.ne), hD, hN]
  refine ⟨_, rfl, roundF32_nonneg (div_nonneg_of_nonpos (by linarith) hneg.le), ?_⟩
  have hgap := float_gap (-(-A 3 - A 2)) (-(B 3 - A 3 + B 2 - A 2))
    (by rw [roundF32_neg, h4.1]) (by rw [roundF32_neg, h3.1]) (by linarith) (by linarith)
  rw [neg_div_neg_eq] at hgap
  have hc : roundF32 (16777216 / 16777217) = 16777215 / 16777216 := by decide!
  have := roundF32_mono hgap
  rw [hc] at this
  have : (16777215 / 16777216 : ℚ) < 1 := by norm_num
  linarith

/-- Witness of C37: `A = (0,1,0.5,1)` is inside, `B = (0,0,-2,1)` is outside;
the divisor is `-2.5` and the parameter is the binary32 number nearest to
`0.6`. -/
theorem countOutVer_parameter_witness :
    F32.countOutVerDivisor ![0, 1, 1 / 2, 1] ![0, 0, -2, 1] = -5 / 2 ∧
    F32.countOutVerParameter ![0, 1, 1 / 2, 1] ![0, 0, -2, 1] = some (5033165 / 8388608) ∧
    ∃ t, F32.countOutVerParameter ![0, 1, 1 / 2, 1] ![0, 0, -2, 1] = some t ∧ 0 ≤ t ∧ t < 1 :=
  ⟨by decide!, by decide!,
    (countOutVer_parameter ![0, 1, 1 / 2, 1] ![0, 0, -2, 1] (by decide!) (by decide!)
      ⟨by decide!, by decide!⟩ ⟨by decide!, by decide!⟩ ⟨by decide!, by decide!⟩
      ⟨by decide!, by decide!⟩).2.2⟩

/-- C37 (counterexample): `A = (z = -1, w = 1)` is inside and
`B = (z = -2^-25, w = 2^-26)` is outside, all four are binary32 numbers.  The
sums `B.w - A.w = -1 + 2^-26` and `-1 - 2^-25` are both rounded to `-1`, so
the divisor that `countOutVer` computes is `-1 - A.z = 0`, and the dividend is
0 as well: the division is `0/0`.  For the inside vertex
`A = (z = -1 + 2^-24, w = 1)` the divisor and the dividend are both `-2^-24`
and `t = 1`. -/
theorem countOutVer_divides_by_zero :
    (isF32 (-1) ∧ isF32 1 ∧ isF32 (-1 / 2 ^ 25) ∧ isF32 (1 / 2 ^ 26) ∧ isF32 (-1 + 1 / 2 ^ 24)) ∧
    ((![0, 0, -1, 1] : Vec4) 2 ≥ -(![0, 0, -1, 1] : Vec4) 3 ∧
      (![0, 0, -1 / 2 ^ 25, 1 / 2 ^ 26] : Vec4) 2 < -(![0, 0, -1 / 2 ^ 25, 1 / 2 ^ 26] : Vec4) 3) ∧
    F32.countOutVerDivisor ![0, 0, -1, 1] ![0, 0, -1 / 2 ^ 25, 1 / 2 ^ 26] = 0 ∧
    F32.countOutVerDividend ![0, 0, -1, 1] = 0 ∧
    F32.countOutVerParameter ![0, 0, -1, 1] ![0, 0, -1 / 2 ^ 25, 1 / 2 ^ 26] = none ∧
    (![0, 0, -1 + 1 / 2 ^ 24, 1] : Vec4) 2 ≥ -(![0, 0, -1 + 1 / 2 ^ 24, 1] : Vec4) 3 ∧
    F32.countOutVerParameter ![0, 0, -1 + 1 / 2 ^ 24, 1] ![0, 0, -1 / 2 ^ 25, 1 / 2 ^ 26]
      = some 1 := by
  unfold isF32
  decide!

/-! ## C38: the divisors of the interpolation -/

/-- The divisions that `countCoordinates` and `perspectiveCorrection` perform. -/
theorem rasterize_divisors (A B C : Vec4) (P : Vec2) (l h : Vec3) (a1 a2 a3 : ℚ) :
    countCoordinates A B C P =
      |((B 1 - C 1) * (P 0 - C 0) + (C 0 - B 0) * (P 1 - C 1)) / coordinatesDenominator A B C| ∧
    perspectiveCorrection l h a1 a2 a3 =
      (0 + a1 * l 0 / h 0 + a2 * l 1 / h 1 + a3 * l 2 / h 2) / correctionDivisor l h := by
  refine ⟨?_, rfl⟩
  unfold countCoordinates coordinatesDenominator
  dsimp only
  split
  · rename_i hneg
    rw [abs_of_neg hneg]
    ring
  · rename_i hneg
    rw [abs_of_nonneg (not_lt.1 hneg)]

/-- The numerators of the three coordinates are the edge functions, and the
divisor is their sum. -/
theorem rawEdges_numerators (A B C : Vec4) (x y : ℚ) :
    (B 1 - C 1) * (x - C 0) + (C 0 - B 0) * (y - C 1) = rawEdges A B C x y 1 ∧
    (C 1 - A 1) * (x - A 0) + (A 0 - C 0) * (y - A 1) = rawEdges A B C x y 2 ∧
    (A 1 - B 1) * (x - B 0) + (B 0 - A 0) * (y - B 1) = rawEdges A B C x y 0 ∧
    coordinatesDenominator A B C =
      rawEdges A B C x y 0 + rawEdges A B C x y 1 + rawEdges A B C x y 2 := by
  refine ⟨?_, ?_, ?_, ?_⟩ <;> simp [rawEdges, getDeltas, coordinatesDenominator] <;> ring

/-- At a pixel that passes the coverage test of a triangle of non-zero area the
three coordinates are not negative and sum to 1. -/
theorem getBarycentricCoordinates_covered (ass : Assembly) (x y : Nat)
    (harea : coordinatesDenominator (ass 0).gl_Position (ass 1).gl_Position
      (ass 2).gl_Position ≠ 0)
    (hcov : covers ass x y = true) :
    (∀ i, 0 ≤ getBarycentricCoordinates (ass 0).gl_Position (ass 1).gl_Position
      (ass 2).gl_Position ![1 / 2 + (x : ℚ), 1 / 2 + (y : ℚ)] i) ∧
    getBarycentricCoordinates (ass 0).gl_Position (ass 1).gl_Position
        (ass 2).gl_Position ![1 / 2 + (x : ℚ), 1 / 2 + (y : ℚ)] 0
      + getBarycentricCoordinates (ass 0).gl_Position (ass 1).gl_Position
        (ass 2).gl_Position ![1 / 2 + (x : ℚ), 1 / 2 + (y : ℚ)] 1
      + getBarycentricCoordinates (ass 0).gl_Position (ass 1).gl_Position
        (ass 2).gl_Position ![1 / 2 + (x : ℚ), 1 / 2 + (y : ℚ)] 2 = 1 := by
  unfold covers at hcov
  simp only [decide_eq_true_eq] at hcov
  generalize (ass 0).gl_Position = A at *
  generalize (ass 1).gl_Position = B at *
  generalize (ass 2).gl_Position = C at *
  obtain ⟨n1, n2, n0, hD⟩ := rawEdges_numerators A B C (1 / 2 + (x : ℚ)) (1 / 2 + (y : ℚ))
  have hedges := (edgeFunction_upToSign A B C (getDeltas A B C) (1 / 2 + (x : ℚ))
    (1 / 2 + (y : ℚ)) (deltasUpToSign_getDeltas A B C)).2
  have hc : (rawEdges A B C (1 / 2 + (x : ℚ)) (1 / 2 + (y : ℚ)) 0 ≥ 0 ∧
      rawEdges A B C (1 / 2 + (x : ℚ)) (1 / 2 + (y : ℚ)) 1 ≥ 0 ∧
      rawEdges A B C (1 / 2 + (x : ℚ)) (1 / 2 + (y : ℚ)) 2 ≥ 0) ∨
      (rawEdges A B C (1 / 2 + (x : ℚ)) (1 / 2 + (y : ℚ)) 0 ≤ 0 ∧
      rawEdges A B C (1 / 2 + (x : ℚ)) (1 / 2 + (y : ℚ)) 1 ≤ 0 ∧
      rawEdges A B C (1 / 2 + (x : ℚ)) (1 / 2 + (y : ℚ)) 2 ≤ 0) := by
    rw [← hedges]
    exact hcov
  generalize rawEdges A B C (1 / 2 + (x : ℚ)) (1 / 2 + (y : ℚ)) 0 = e0 at *
  generalize rawEdges A B C (1 / 2 + (x : ℚ)) (1 / 2 + (y : ℚ)) 1 = e1 at *
  generalize rawEdges A B C (1 / 2 + (x : ℚ)) (1 / 2 + (y : ℚ)) 2 = e2 at *
  have hratio : 0 ≤ e0 / coordinatesDenominator A B C ∧ 0 ≤ e1 / coordinatesDenominator A B C ∧
      0 ≤ e2 / coordinatesDenominator A B C := by
    rcases hc with ⟨a, b, c⟩ | ⟨a, b, c⟩
    · have hpos : 0 ≤ coordinatesDenominator A B C := by rw [hD]; linarith
      exact ⟨div_nonneg a hpos, div_nonneg b hpos, div_nonneg c hpos⟩
    · have hneg : coordinatesDenominator A B C ≤ 0 := by rw [hD]; linarith
      exact ⟨div_nonneg_of_nonpos a hneg, div_nonneg_of_nonpos b hneg,
        div_nonneg_of_nonpos c hneg⟩
  have hA : countCoordinates A B C ![1 / 2 + (x : ℚ), 1 / 2 + (y : ℚ)]
      = e1 / coordinatesDenominator A B C := by
    rw [(rasterize_divisors A B C _ 0 0 0 0 0).1]
    simp only [Matrix.cons_val_zero, Matrix.cons_val_one, Matrix.head_cons]
    rw [n1, abs_of_nonneg hratio.2.1]
  have hB : countCoordinates B C A ![1 / 2 + (x : ℚ), 1 / 2 + (y : ℚ)]
      = e2 / coordinatesDenominator A B C := by
    rw [(rasterize_divisors B C A _ 0 0 0 0 0).1, coordinatesDenominator_rotate]
    simp only [Matrix.cons_val_zero, Matrix.cons_val_one, Matrix.head_cons]
    rw [n2, abs_of_nonneg hratio.2.2]
  have hC : countCoordinates C A B ![1 / 2 + (x : ℚ), 1 / 2 + (y : ℚ)]
      = e0 / coordinatesDenominator A B C := by
    rw [(rasterize_divisors C A B _ 0 0 0 0 0).1, coordinatesDenominator_rotate,
      coordinatesDenominator_rotate]
    simp only [Matrix.cons_val_zero, Matrix.cons_val_one, Matrix.head_cons]
    rw [n0, abs_of_nonneg hratio.1]
  have hl : getBarycentricCoordinates A B C ![1 / 2 + (x : ℚ), 1 / 2 + (y : ℚ)] =
      ![e1 / coordinatesDenominator A B C, e2 / coordinatesDenominator A B C,
        e0 / coordinatesDenominator A B C] := by
    unfold getBarycentricCoordinates
    rw [hA, hB, hC]
  rw [hl]
  constructor
  · intro i
    fin_cases i
    · exact hratio.2.1
    · exact hratio.2.2
    · exact hratio.1
  · show e1 / coordinatesDenominator A B C + e2 / coordinatesDenominator A B C
      + e0 / coordinatesDenominator A B C = 1
    rw [← add_div, ← add_div, div_eq_one_iff_eq harea, hD]
    ring

/-- On the half grid the divisor of `countCoordinates` is computed without
rounding. -/
theorem coordinatesDenominator_exact (A B C : Vec4)
    (hA : onGrid 1 1024 (A 0) ∧ onGrid 1 1024 (A 1))
    (hB : onGrid 1 1024 (B 0) ∧ onGrid 1 1024 (B 1))
    (hC : onGrid 1 1024 (C 0) ∧ onGrid 1 1024 (C 1)) :
    F32.coordinatesDenominator A B C = coordinatesDenominator A B C := by
  have g1 := onGrid_sub hB.2 hC.2
  have g2 := onGrid_sub hA.1 hC.1
  have g3 := onGrid_sub hC.1 hB.1
  have g4 := onGrid_sub hA.2 hC.2
  have g5 := onGrid_mul g1 g2
  have g6 := onGrid_mul g3 g4
  have g7 := onGrid_add g5 g6
  unfold F32.coordinatesDenominator coordinatesDenominator
  rw [onGrid_exact g1 (by norm_num) (by norm_num), onGrid_exact g2 (by norm_num) (by norm_num),
    onGrid_exact g3 (by norm_num) (by norm_num), onGrid_exact g4 (by norm_num) (by norm_num),
    onGrid_exact g5 (by norm_num) (by norm_num), onGrid_exact g6 (by norm_num) (by norm_num),
    onGrid_exact g7 (by norm_num) (by norm_num)]

/-- On the half grid the dividend of `countCoordinates` at a pixel centre is
computed without rounding. -/
theorem coordinatesNumerator_exact (B C : Vec4) (P : Vec2)
    (hB : onGrid 1 1024 (B 0) ∧ onGrid 1 1024 (B 1))
    (hC : onGrid 1 1024 (C 0) ∧ onGrid 1 1024 (C 1))
    (hP : onGrid 1 1025 (P 0) ∧ onGrid 1 1025 (P 1)) :
    F32.coordinatesNumerator B C P
      = (B 1 - C 1) * (P 0 - C 0) + (C 0 - B 0) * (P 1 - C 1) := by
  have g1 := onGrid_sub hB.2 hC.2
  have g2 := onGrid_sub hP.1 hC.1
  have g3 := onGrid_sub hC.1 hB.1
  have g4 := onGrid_sub hP.2 hC.2
  have g5 := onGrid_mul g1 g2
  have g6 := onGrid_mul g3 g4
  have g7 := onGrid_add g5 g6
  unfold F32.coordinatesNumerator
  rw [onGrid_exact g1 (by norm_num) (by norm_num), onGrid_exact g2 (by norm_num) (by norm_num),
    onGrid_exact g3 (by norm_num) (by norm_num), onGrid_exact g4 (by norm_num) (by norm_num),
    onGrid_exact g5 (by norm_num) (by norm_num), onGrid_exact g6 (by norm_num) (by norm_num),
    onGrid_exact g7 (by norm_num) (by norm_num)]

/-- On the half grid, for a triangle of non-zero area, the binary32
`countCoordinates` is the rounded exact coordinate. -/
theorem countCoordinates_rounded (A B C : Vec4) (P : Vec2)
    (hA : onGrid 1 1024 (A 0) ∧ onGrid 1 1024 (A 1))
    (hB : onGrid 1 1024 (B 0) ∧ onGrid 1 1024 (B 1))
    (hC : onGrid 1 1024 (C 0) ∧ onGrid 1 1024 (C 1))
    (hP : onGrid 1 1025 (P 0) ∧ onGrid 1 1025 (P 1))
    (harea : coordinatesDenominator A B C ≠ 0) :
    F32.countCoordinates A B C P = some (roundF32 (countCoordinates A B C P)) := by
  unfold F32.countCoordinates
  rw [coordinatesDenominator_exact A B C hA hB hC, if_neg harea,
    coordinatesNumerator_exact B C P hB hC hP]
  unfold countCoordinates coordinatesDenominator
  dsimp only
  congr 1
  by_cases hres : ((B 1 - C 1) * (P 0 - C 0) + (C 0 - B 0) * (P 1 - C 1)) /
      ((B 1 - C 1) * (A 0 - C 0) + (C 0 - B 0) * (A 1 - C 1)) < 0
  · rw [if_pos hres]
    simp only [mul_neg_one, roundF32_neg]
    have hle : roundF32 (((B 1 - C 1) * (P 0 - C 0) + (C 0 - B 0) * (P 1 - C 1)) /
        ((B 1 - C 1) * (A 0 - C 0) + (C 0 - B 0) * (A 1 - C 1))) ≤ 0 := by
      have := roundF32_mono hres.le
      rwa [roundF32_zero] at this
    split
    · ring
    · rename_i hn
      have : roundF32 (((B 1 - C 1) * (P 0 - C 0) + (C 0 - B 0) * (P 1 - C 1)) /
          ((B 1 - C 1) * (A 0 - C 0) + (C 0 - B 0) * (A 1 - C 1))) = 0 :=
        le_antisymm hle (not_lt.1 hn)
      rw [this, neg_zero]
  · rw [if_neg hres]
    have hge := roundF32_nonneg (not_lt.1 hres)
    rw [if_neg (not_lt.2 hge)]

/-- The float sum of three terms that are not negative is at least any
binary32 number that one of the terms reaches. -/
theorem roundedSum_ge (t0 t1 t2 c : ℚ) (hc : roundF32 c = c) (h0 : 0 ≤ t0) (h1 : 0 ≤ t1)
    (h2 : 0 ≤ t2) (h : c ≤ t0 ∨ c ≤ t1 ∨ c ≤ t2) :
    c ≤ roundF32 (roundF32 (roundF32 (0 + t0) + t1) + t2) := by
  have s0 : 0 ≤ roundF32 (0 + t0) := roundF32_nonneg (by linarith)
  have s1 : 0 ≤ roundF32 (roundF32 (0 + t0) + t1) := roundF32_nonneg (by linarith)
  rw [← hc]
  apply roundF32_mono
  rcases h with h | h | h
  · have a0 : c ≤ roundF32 (0 + t0) := by
      rw [← hc]
      exact roundF32_mono (by linarith)
    have a1 : c ≤ roundF32 (roundF32 (0 + t0) + t1) := by
      rw [← hc]
      exact roundF32_mono (by linarith)
    linarith
  · have a1 : c ≤ roundF32 (roundF32 (0 + t0) + t1) := by
      rw [← hc]
      exact roundF32_mono (by linarith)
    linarith
  · linarith

/-- A pixel whose fragment the binary32 loop stores for a triangle on the half
grid lies within `512` and passes the exact coverage test. -/
theorem rasterize_mem (ass : Assembly) (hass : onHalfGrid ass) (x y : Nat)
    (pixels : List (Nat × Nat)) (h : F32.rasterize ass = some pixels) (hm : (x, y) ∈ pixels) :
    x ≤ 512 ∧ y ≤ 512 ∧ covers ass x y = true := by
  rw [rasterize_exact ass hass] at h
  cases hcc : getConvexCover (ass 0).gl_Position (ass 1).gl_Position (ass 2).gl_Position with
  | none => rw [hcc] at h; cases h
  | some box =>
      obtain ⟨ld, rt⟩ := box
      obtain ⟨hr0, hr1⟩ := getConvexCover_le ass hass ld rt hcc
      rw [hcc] at h
      simp only [Option.map_some', Option.some.injEq] at h
      rw [← h] at hm
      simp only [List.mem_flatMap, List.mem_map, List.mem_filter, List.mem_range'_1,
        Prod.mk.injEq] at hm
      obtain ⟨y1, hy1, x1, ⟨hx1, hcv⟩, rfl, rfl⟩ := hm
      exact ⟨by omega, by omega, hcv⟩

/-- The quotient of a rounded coordinate of at least `1/3` and a `w` of at
most `2^64` is rounded to at least `2^-66`. -/
theorem roundedTerm_ge (l w : ℚ) (hl : 1 / 3 ≤ l) (hw0 : 0 < w) (hw : w ≤ 2 ^ 64) :
    (1 / 2 ^ 66 : ℚ) ≤ roundF32 (roundF32 l / w) := by
  have c1 : roundF32 (1 / 3) = 11184811 / 33554432 := by decide!
  have c2 : roundF32 (1 / 2 ^ 66) = 1 / 2 ^ 66 := by decide!
  have h1 : (11184811 / 33554432 : ℚ) ≤ roundF32 l := by
    rw [← c1]
    exact roundF32_mono hl
  have h2 : (1 / 2 ^ 66 : ℚ) ≤ roundF32 l / w := by
    rw [le_div_iff₀ hw0]
    have : (1 / 2 ^ 66 : ℚ) * w ≤ 1 / 2 ^ 66 * 2 ^ 64 :=
      mul_le_mul_of_nonneg_left hw (by positivity)
    have e : (1 / 2 ^ 66 : ℚ) * 2 ^ 64 = 1 / 4 := by norm_num
    rw [e] at this
    have : (1 / 4 : ℚ) ≤ 11184811 / 33554432 := by norm_num
    linarith
  have := roundF32_mono h2
  rwa [c2] at this

/-- C38 (amended): for every projected triangle of non-zero area whose vertex
coordinates `x` and `y` are multiples of `1/2` between `-512` and `512` and
whose three `w` lie between `2^-64` and `2^64`, and every pixel `(x, y)` for
which the binary32 computation of `rasterize` stores a fragment: the three
divisors of `countCoordinates` are non-zero, the three coordinates are
defined, and the divisor `Σ λ_i / w_i` of `perspectiveCorrection` is defined
and positive, so no division by zero occurs when the fragment is produced. -/
theorem covered_divisors_nonzero (ass : Assembly) (x y : Nat) (hass : onHalfGrid ass)
    (harea : coordinatesDenominator (ass 0).gl_Position (ass 1).gl_Position
      (ass 2).gl_Position ≠ 0)
    (hw : ∀ i, 1 / 2 ^ 64 ≤ (ass i).gl_Position 3 ∧ (ass i).gl_Position 3 ≤ 2 ^ 64)
    (hcov : ∃ pixels, F32.rasterize ass = some pixels ∧ (x, y) ∈ pixels) :
    F32.coordinatesDenominator (ass 0).gl_Position (ass 1).gl_Position (ass 2).gl_Position ≠ 0 ∧
    F32.coordinatesDenominator (ass 1).gl_Position (ass 2).gl_Position (ass 0).gl_Position ≠ 0 ∧
    F32.coordinatesDenominator (ass 2).gl_Position (ass 0).gl_Position (ass 1).gl_Position ≠ 0 ∧
    ∃ l d,
      F32.getBarycentricCoordinates (ass 0).gl_Position (ass 1).gl_Position (ass 2).gl_Position
        ![roundF32 (1 / 2 + roundF32 (x : ℚ)), roundF32 (1 / 2 + roundF32 (y : ℚ))] = some l ∧
      F32.correctionDivisor l
        ![(ass 0).gl_Position 3, (ass 1).gl_Position 3, (ass 2).gl_Position 3] = some d ∧
      0 < d := by
  obtain ⟨pixels, hpx, hmem⟩ := hcov
  obtain ⟨hx, hy, hcv⟩ := rasterize_mem ass hass x y pixels hpx hmem
  have ex : roundF32 (1 / 2 + roundF32 (x : ℚ)) = 1 / 2 + (x : ℚ) := by
    rw [onGrid_exact (onGrid_natCast x 512 hx) (by norm_num) (by norm_num),
      onGrid_exact (onGrid_centre x 512 hx) (by norm_num) (by norm_num)]
  have ey : roundF32 (1 / 2 + roundF32 (y : ℚ)) = 1 / 2 + (y : ℚ) := by
    rw [onGrid_exact (onGrid_natCast y 512 hy) (by norm_num) (by norm_num),
      onGrid_exact (onGrid_centre y 512 hy) (by norm_num) (by norm_num)]
  have hP : onGrid 1 1025 ((![1 / 2 + (x : ℚ), 1 / 2 + (y : ℚ)] : Vec2) 0) ∧
      onGrid 1 1025 ((![1 / 2 + (x : ℚ), 1 / 2 + (y : ℚ)] : Vec2) 1) :=
    ⟨onGrid_centre x 512 hx, onGrid_centre y 512 hy⟩
  have harea1 : coordinatesDenominator (ass 1).gl_Position (ass 2).gl_Position
      (ass 0).gl_Position ≠ 0 := by
    rw [coordinatesDenominator_rotate]
    exact harea
  have harea2 : coordinatesDenominator (ass 2).gl_Position (ass 0).gl_Position
      (ass 1).gl_Position ≠ 0 := by
    rw [coordinatesDenominator_rotate, coordinatesDenominator_rotate]
    exact harea
  obtain ⟨hnn, hsum⟩ := getBarycentricCoordinates_covered ass x y harea hcv
  have hl0 := countCoordinates_rounded (ass 0).gl_Position (ass 1).gl_Position
    (ass 2).gl_Position _ (hass 0) (hass 1) (hass 2) hP harea
  have hl1 := countCoordinates_rounded (ass 1).gl_Position (ass 2).gl_Position
    (ass 0).gl_Position _ (hass 1) (hass 2) (hass 0) hP harea1
  have hl2 := countCoordinates_rounded (ass 2).gl_Position (ass 0).gl_Position
    (ass 1).gl_Position _ (hass 2) (hass 0) (hass 1) hP harea2
  have hw0 : ∀ i, 0 < (ass i).gl_Position 3 := fun i =>
    lt_of_lt_of_le (by positivity) (hw i).1
  refine ⟨by rw [coordinatesDenominator_exact _ _ _ (hass 0) (hass 1) (hass 2)]; exact harea,
    by rw [coordinatesDenominator_exact _ _ _ (hass 1) (hass 2) (hass 0)]; exact harea1,
    by rw [coordinatesDenominator_exact _ _ _ (hass 2) (hass 0) (hass 1)]; exact harea2, ?_⟩
  have hL : F32.getBarycentricCoordinates (ass 0).gl_Position (ass 1).gl_Position
      (ass 2).gl_Position
      ![roundF32 (1 / 2 + roundF32 (x : ℚ)), roundF32 (1 / 2 + roundF32 (y : ℚ))]
      = some ![roundF32 (countCoordinates (ass 0).gl_Position (ass 1).gl_Position
          (ass 2).gl_Position ![1 / 2 + (x : ℚ), 1 / 2 + (y : ℚ)]),
        roundF32 (countCoordinates (ass 1).gl_Position (ass 2).gl_Position
          (ass 0).gl_Position ![1 / 2 + (x : ℚ), 1 / 2 + (y : ℚ)]),
        roundF32 (countCoordinates (ass 2).gl_Position (ass 0).gl_Position
          (ass 1).gl_Position ![1 / 2 + (x : ℚ), 1 / 2 + (y : ℚ)])] := by
    rw [ex, ey]
    unfold F32.getBarycentricCoordinates
    rw [hl0, hl1, hl2]
  have hnz : ¬ ((![(ass 0).gl_Position 3, (ass 1).gl_Position 3, (ass 2).gl_Position 3] : Vec3) 0
      = 0 ∨ (![(ass 0).gl_Position 3, (ass 1).gl_Position 3, (ass 2).gl_Position 3] : Vec3) 1 = 0
      ∨ (![(ass 0).gl_Position 3, (ass 1).gl_Position 3, (ass 2).gl_Position 3] : Vec3) 2 = 0) := by
    simp only [Matrix.cons_val_zero, Matrix.cons_val_one, Matrix.head_cons, Matrix.cons_val_two,
      Matrix.tail_cons]
    push_neg
    exact ⟨(hw0 0).ne', (hw0 1).ne', (hw0 2).ne'⟩
  refine ⟨_, _, hL, by unfold F32.correctionDivisor; rw [if_neg hnz], ?_⟩
  · simp only [Matrix.cons_val_zero, Matrix.cons_val_one, Matrix.head_cons, Matrix.cons_val_two,
      Matrix.tail_cons]
    have e0 : countCoordinates (ass 0).gl_Position (ass 1).gl_Position (ass 2).gl_Position
        ![1 / 2 + (x : ℚ), 1 / 2 + (y : ℚ)] = getBarycentricCoordinates (ass 0).gl_Position
        (ass 1).gl_Position (ass 2).gl_Position ![1 / 2 + (x : ℚ), 1 / 2 + (y : ℚ)] 0 := rfl
    have e1 : countCoordinates (ass 1).gl_Position (ass 2).gl_Position (ass 0).gl_Position
        ![1 / 2 + (x : ℚ), 1 / 2 + (y : ℚ)] = getBarycentricCoordinates (ass 0).gl_Position
        (ass 1).gl_Position (ass 2).gl_Position ![1 / 2 + (x : ℚ), 1 / 2 + (y : ℚ)] 1 := rfl
    have e2 : countCoordinates (ass 2).gl_Position (ass 0).gl_Position (ass 1).gl_Position
        ![1 / 2 + (x : ℚ), 1 / 2 + (y : ℚ)] = getBarycentricCoordinates (ass 0).gl_Position
        (ass 1).gl_Position (ass 2).gl_Position ![1 / 2 + (x : ℚ), 1 / 2 + (y : ℚ)] 2 := rfl
    rw [e0, e1, e2]
    generalize getBarycentricCoordinates (ass 0).gl_Position (ass 1).gl_Position
      (ass 2).gl_Position ![1 / 2 + (x : ℚ), 1 / 2 + (y : ℚ)] = l at hnn hsum
    have hthird : 1 / 3 ≤ l 0 ∨ 1 / 3 ≤ l 1 ∨ 1 / 3 ≤ l 2 := by
      by_contra hcon
      push_neg at hcon
      linarith [hcon.1, hcon.2.1, hcon.2.2]
    have t0 : 0 ≤ roundF32 (roundF32 (l 0) / (ass 0).gl_Position 3) :=
      roundF32_nonneg (div_nonneg (roundF32_nonneg (hnn 0)) (hw0 0).le)
    have t1 : 0 ≤ roundF32 (roundF32 (l 1) / (ass 1).gl_Position 3) :=
      roundF32_nonneg (div_nonneg (roundF32_nonneg (hnn 1)) (hw0 1).le)
    have t2 : 0 ≤ roundF32 (roundF32 (l 2) / (ass 2).gl_Position 3) :=
      roundF32_nonneg (div_nonneg (roundF32_nonneg (hnn 2)) (hw0 2).le)
    have c2 : roundF32 (1 / 2 ^ 66) = 1 / 2 ^ 66 := by decide!
    have hge := roundedSum_ge _ _ _ (1 / 2 ^ 66) c2 t0 t1 t2 (by
      rcases hthird with h | h | h
      · exact Or.inl (roundedTerm_ge _ _ h (hw0 0) (hw 0).2)
      · exact Or.inr (Or.inl (roundedTerm_ge _ _ h (hw0 1) (hw 1).2))
      · exact Or.inr (Or.inr (roundedTerm_ge _ _ h (hw0 2) (hw 2).2)))
    have : (0 : ℚ) < 1 / 2 ^ 66 := by positivity
    linarith

set_option maxRecDepth 100000 in
/-- Witness of C38 (amended): pixel `(1,1)` of `perspectiveTriangle`, whose
vertices `(0,0)`, `(4,0)`, `(0,4)` have `w = 1, 2, 1`. -/
theorem covered_divisors_nonzero_witness :
    F32.rasterize perspectiveTriangle
      = some [(0, 0), (1, 0), (2, 0), (3, 0), (0, 1), (1, 1), (2, 1), (0, 2), (1, 2), (0, 3)] ∧
    ∃ l d,
      F32.getBarycentricCoordinates (perspectiveTriangle 0).gl_Position
        (perspectiveTriangle 1).gl_Position (perspectiveTriangle 2).gl_Position
        ![roundF32 (1 / 2 + roundF32 ((1 : Nat) : ℚ)), roundF32 (1 / 2 + roundF32 ((1 : Nat) : ℚ))]
        = some l ∧
      F32.correctionDivisor l
        ![(perspectiveTriangle 0).gl_Position 3, (perspectiveTriangle 1).gl_Position 3,
          (perspectiveTriangle 2).gl_Position 3] = some d ∧
      0 < d :=
  ⟨by decide!,
    (covered_divisors_nonzero perspectiveTriangle 1 1
      (by
        intro i
        fin_cases i
        · exact ⟨⟨0, by decide, by decide!⟩, ⟨0, by decide, by decide!⟩⟩
        · exact ⟨⟨8, by decide, by decide!⟩, ⟨0, by decide, by decide!⟩⟩
        · exact ⟨⟨0, by decide, by decide!⟩, ⟨8, by decide, by decide!⟩⟩)
      (by decide!)
      (by
        intro i
        fin_cases i <;> exact ⟨by decide!, by decide!⟩)
      ⟨_, (by decide! : F32.rasterize perspectiveTriangle
        = some [(0, 0), (1, 0), (2, 0), (3, 0), (0, 1), (1, 1), (2, 1), (0, 2), (1, 2), (0, 3)]),
        by decide⟩).2.2.2⟩

set_option maxHeartbeats 2000000 in
/-- C38 (counterexample): three triangles in binary32.  The vertices of
`collinearTriangle` lie on one line: `rasterize` stores a fragment for each of
the pixels `(0,0)` to `(4,4)` on that line, and the three divisors of
`countCoordinates` are 0.  `sliverTriangle` has binary32 vertices and the
non-zero area `1/33554432` (the exact divisor is `1/16777216`): `rasterize`
stores a fragment for pixel `(1,1)`, whose centre is the third vertex, and the
divisor of the first coordinate is rounded to 0.  `negativeWTriangle` has
non-zero area and passes the near-plane test with `w = 1, 1, -1`: at pixel
`(0,0)` the coordinates are `0, 1/2, 1/2` and the divisor `Σ λ_i / w_i` of
`perspectiveCorrection` is `1/2 - 1/2 = 0`. -/
theorem collinear_triangle_divides_by_zero :
    (F32.rasterize collinearTriangle = some [(0, 0), (1, 1), (2, 2), (3, 3), (4, 4)] ∧
     F32.coordinatesDenominator (collinearTriangle 0).gl_Position
       (collinearTriangle 1).gl_Position (collinearTriangle 2).gl_Position = 0 ∧
     F32.coordinatesDenominator (collinearTriangle 1).gl_Position
       (collinearTriangle 2).gl_Position (collinearTriangle 0).gl_Position = 0 ∧
     F32.coordinatesDenominator (collinearTriangle 2).gl_Position
       (collinearTriangle 0).gl_Position (collinearTriangle 1).gl_Position = 0) ∧
    ((∀ i, isF32 ((sliverTriangle i).gl_Position 0) ∧ isF32 ((sliverTriangle i).gl_Position 1)) ∧
     coordinatesDenominator (sliverTriangle 0).gl_Position (sliverTriangle 1).gl_Position
       (sliverTriangle 2).gl_Position = 1 / 16777216 ∧
     F32.rasterize sliverTriangle = some [(1, 1)] ∧
     F32.coordinatesDenominator (sliverTriangle 0).gl_Position (sliverTriangle 1).gl_Position
       (sliverTriangle 2).gl_Position = 0) ∧
    ((∀ i, (negativeWTriangle i).gl_Position 2 ≥ -(negativeWTriangle i).gl_Position 3) ∧
     coordinatesDenominator (negativeWTriangle 0).gl_Position
       (negativeWTriangle 1).gl_Position (negativeWTriangle 2).gl_Position = 1 ∧
     F32.rasterize negativeWTriangle = some [(0, 0)] ∧
     F32.getBarycentricCoordinates (negativeWTriangle 0).gl_Position
       (negativeWTriangle 1).gl_Position (negativeWTriangle 2).gl_Position
       ![roundF32 (1 / 2 + roundF32 ((0 : Nat) : ℚ)), roundF32 (1 / 2 + roundF32 ((0 : Nat) : ℚ))]
       = some ![0, 1 / 2, 1 / 2] ∧
     F32.correctionDivisor ![0, 1 / 2, 1 / 2]
       ![(negativeWTriangle 0).gl_Position 3, (negativeWTriangle 1).gl_Position 3,
         (negativeWTriangle 2).gl_Position 3] = some 0) := by
  refine ⟨⟨by decide!, by decide!, by decide!, by decide!⟩,
    ⟨?_, by decide!, by decide!, by decide!⟩,
    ⟨by decide!, by decide!, by decide!, by decide!, by decide!⟩⟩
  intro i
  unfold isF32
  fin_cases i <;> exact ⟨⟨by decide!, by decide!⟩, ⟨by decide!, by decide!⟩⟩

end IZG
